import Mathlib

/-! send-your-picks: the week-advancement state machine

A shallow embedding of `internal/service/advanceweek.go`, `internal/service/service.go`,
`internal/external/games_client.go` and the week and pick handlers of
`internal/api/handlers`.

Conventions of the embedding

* The PostgreSQL database is a record of tables, each table a list of rows.  A statement
  `UPDATE t SET ... WHERE c` is `List.map` over the table, `DELETE` is `List.filter`,
  `INSERT` appends a row, `SELECT ... WHERE c` is `List.filter`, `db.Get` takes the first row.
* A function that opens a transaction returns the database that is visible after it returns:
  the transaction state when `tx.Commit()` was reached, the original database when the
  deferred `tx.Rollback()` fires.
* `time.Time` values are integers (nanoseconds), `NOW()` and `time.Now()` are read from the
  environment, generated ULIDs come from an id supply in the environment.
* Go `int` and SQL `integer` are `Int`; `float64` spreads and scores are rationals: the values
  the program handles (scores, half-point spreads and their sums) are exactly representable.
* A nil-pointer dereference is the error `Err.nilDeref` (the Go runtime panics; the deferred
  rollback still runs).
-/

namespace SendYourPicks

/-! ## Status constants and sentinel errors (advanceweek.go 18-36, 232-236, 395-397, ...) -/

def StatusDraft : String := "draft"
def StatusGamesImported : String := "games_imported"
def StatusSpreadsSet : String := "spreads_set"
def StatusActive : String := "active"
def StatusPlayed : String := "played"
def StatusPicksResultsCalculated : String := "picks_results_calculated"
def StatusScored : String := "scored"
def StatusFinal : String := "final"

/-- Errors returned by the service layer.  The `Err...` constructors are the package-level
sentinel values of the same name; `teamMapping abbr` is the error of
`GetTeamIDByAbbreviation` that wraps `ErrTeamMappingFailed`. -/
inductive Err where
  | ErrManualActionRequired
  | ErrWeekAlreadyFinal
  | ErrWaitingForGames
  | ErrInvalidWeekStatus
  | ErrSeasonComplete
  | ErrWeekNotFound
  | ErrInvalidWeekState
  | ErrTeamMappingFailed
  | teamMapping (abbr : String)
  | ErrWeekNotActive
  | ErrWeekNotPlayed
  | ErrWeekNotPicksCalculated
  | ErrWeekNotScored
  | sqlNoRows
  | nilDeref
  | previousWeekNotFinal
  | zeroGames
  | other (msg : String)
  deriving DecidableEq, Repr

/-! ## Data model (internal/models, internal/external) -/

structure Season where
  ID : String
  Year : Int
  NumberOfWeeks : Int
  IsPostseason : Bool
  deriving DecidableEq, Repr

structure Week where
  ID : String
  SeasonID : String
  Number : Int
  Status : String
  ActivatedAt : Option Int
  ClosedAt : Option Int
  UpdatedAt : Int
  CreatedBy : String
  deriving DecidableEq, Repr

structure WeekWithYear where
  ID : String
  SeasonID : String
  Number : Int
  Status : String
  Year : Int
  IsPostseason : Bool
  deriving DecidableEq, Repr

structure Game where
  ID : String
  ExternalGameID : Int
  SeasonID : String
  WeekID : String
  HomeTeamID : String
  AwayTeamID : String
  HomeScore : Option Int
  AwayScore : Option Int
  HomeSpread : Option ℚ
  KickoffTime : Int
  NeutralSite : Bool
  Status : String
  UpdatedAt : Int
  CreatedBy : String
  HomeTeamAbbr : String
  AwayTeamAbbr : String
  deriving DecidableEq, Repr

structure Pick where
  ID : String
  UserID : String
  GameID : String
  WeekID : String
  SelectedTeamID : Option String
  IsCorrect : Option Bool
  CalculatedAt : Option Int
  UserLockedAt : Option Int
  deriving DecidableEq, Repr

structure WeekResult where
  ID : String
  UserID : String
  WeekID : String
  Points : Int
  Rank : Option Int
  ComputedAt : Int
  CreatedAt : Int
  UpdatedAt : Int
  deriving DecidableEq, Repr

structure SeasonStanding where
  ID : String
  UserID : String
  SeasonID : String
  WeekID : String
  Points : Int
  Rank : Option Int
  ComputedAt : Int
  CreatedAt : Int
  UpdatedAt : Int
  deriving DecidableEq, Repr

structure Team where
  ID : String
  Abbreviation : String
  IsActive : Bool
  deriving DecidableEq, Repr

structure SeasonParticipant where
  SeasonID : String
  UserID : String
  deriving DecidableEq, Repr

structure Profile where
  ID : String
  deriving DecidableEq, Repr

structure Settings where
  PickCutoffMinutes : Int
  AllowPickEdits : Bool
  PointsPerCorrectPick : Int
  AllowPicksAfterKickoff : Bool
  deriving DecidableEq, Repr

structure ExternalTeam where
  Abbreviation : String
  deriving DecidableEq, Repr

structure ExternalGame where
  ID : Int
  Date : Int
  HomeTeam : ExternalTeam
  AwayTeam : ExternalTeam
  Status : String
  HomeTeamScore : Option Int
  AwayTeamScore : Option Int
  deriving DecidableEq, Repr

structure SpreadInfo where
  HomeTeamAbbr : String
  AwayTeamAbbr : String
  HomeSpread : ℚ
  CommenceTime : Int
  deriving DecidableEq, Repr

/-- The persisted state: one list of rows per table. -/
structure DB where
  seasons : List Season
  weeks : List Week
  games : List Game
  picks : List Pick
  week_results : List WeekResult
  season_standings : List SeasonStanding
  teams : List Team
  season_participants : List SeasonParticipant
  profiles : List Profile
  settings : List Settings
  deriving DecidableEq, Repr

/-- What a call reads from outside the database: the schedule source (the HTTP answer for a
season, an API week and a postseason flag), the odds source, the two clocks and the ULID
supply (`newID k` is the k-th identifier generated during the call). -/
structure Env where
  apiBaseURL : String
  apiKey : String
  schedule : Int → Int → Bool → Except String (List ExternalGame)
  odds : String → Except String (List SpreadInfo)
  sqlNow : Int
  goNow : Int
  newID : Nat → String

/-! ## service.go -/

/-- `GetWeekPicks`: `SELECT ... FROM public.picks WHERE week_id = $1`. -/
def GetWeekPicks (db : DB) (weekID : String) : List Pick :=
  db.picks.filter (fun p => p.WeekID == weekID)

/-- `GetWeekGames`: `SELECT ... FROM public.games WHERE week_id = $1`. -/
def GetWeekGames (db : DB) (weekID : String) : List Game :=
  db.games.filter (fun g => g.WeekID == weekID)

/-- `GetWeekStatus`: `SELECT status FROM public.weeks WHERE id = $1` through `db.Get`. -/
def GetWeekStatus (db : DB) (weekID : String) : Except Err String :=
  match db.weeks.find? (fun w => w.ID == weekID) with
  | some w => .ok w.Status
  | none => .error Err.sqlNoRows

/-- The rows of `weeks w JOIN seasons s ON s.id = w.season_id WHERE w.id = $1`. -/
def weekWithYearRows (db : DB) (weekID : String) : List WeekWithYear :=
  (db.weeks.filter (fun w => w.ID == weekID)).flatMap (fun w =>
    (db.seasons.filter (fun s => s.ID == w.SeasonID)).map (fun s =>
      { ID := w.ID, SeasonID := w.SeasonID, Number := w.Number, Status := w.Status,
        Year := s.Year, IsPostseason := s.IsPostseason }))

/-- `GetWeekWithYear`: the first joined row, `ErrWeekNotFound` on `sql.ErrNoRows`. -/
def GetWeekWithYear (db : DB) (weekID : String) : Except Err WeekWithYear :=
  match (weekWithYearRows db weekID).head? with
  | some w => .ok w
  | none => .error Err.ErrWeekNotFound

/-- `GetTeamIDByAbbreviation`:
`SELECT id FROM public.teams WHERE abbreviation = $1 AND is_active = true`. -/
def GetTeamIDByAbbreviation (db : DB) (abbreviation : String) : Except Err String :=
  match db.teams.find? (fun t => t.Abbreviation == abbreviation && t.IsActive) with
  | some t => .ok t.ID
  | none => .error (Err.teamMapping abbreviation)

/-- `UpdateWeekStatus`:
`UPDATE public.weeks SET status = $1, updated_at = NOW() WHERE id = $2`. -/
def UpdateWeekStatus (env : Env) (tx : DB) (weekID : String) (status : String) : DB :=
  { tx with weeks := tx.weeks.map (fun w =>
      if w.ID == weekID then { w with Status := status, UpdatedAt := env.sqlNow } else w) }

/-- `settings.Get`: `SELECT ... FROM settings LIMIT 1` through `db.Get`. -/
def settingsGet (db : DB) : Except Err Settings :=
  match db.settings.head? with
  | some s => .ok s
  | none => .error Err.sqlNoRows

/-! ## games_client.go -/

/-- `NewBallDontLieClient`: fails when either environment variable is empty. -/
def NewBallDontLieClient (env : Env) : Except Err Unit :=
  if env.apiBaseURL == "" then .error (Err.other "EXTERNAL_API_BASE_URL not set")
  else if env.apiKey == "" then .error (Err.other "EXTERNAL_API_KEY not set")
  else .ok ()

/-- The week number put in the request (games_client.go 81-86). -/
def apiWeek (week : Int) (postseason : Bool) : Int :=
  if postseason && decide (week ≥ 4) then week + 1 else week

/-- `FetchGames`: asks the schedule source for `(season, apiWeek, postseason)`.  A failure of
the request or of the decoding is an error value of the HTTP or JSON library, never one of
the sentinels of the service package. -/
def FetchGames (env : Env) (season : Int) (week : Int) (postseason : Bool) :
    Except Err (List ExternalGame) :=
  match env.schedule season (apiWeek week postseason) postseason with
  | .ok games => .ok games
  | .error msg => .error (Err.other msg)

/-! ## advanceweek.go: pick results -/

/-- The target of the pointer `WinningTeamByGame` returns: `&game.HomeTeamID` or
`&game.AwayTeamID`. -/
inductive TeamRef where
  | HomeTeamID
  | AwayTeamID
  deriving DecidableEq, Repr

/-- Dereferencing: the team ID the pointer leads to. -/
def TeamRef.deref (game : Game) : TeamRef → String
  | .HomeTeamID => game.HomeTeamID
  | .AwayTeamID => game.AwayTeamID

/-- `WinningTeamByGame`: the winning team ID from score plus spread, `none` (nil) for a tie.
The outer `Except` is the nil-pointer panic of dereferencing a null score or spread. -/
def WinningTeamByGame (game : Game) : Except Err (Option TeamRef) :=
  match game.HomeScore, game.HomeSpread, game.AwayScore with
  | some homeScore, some homeSpread, some away =>
    let adjustedHomeScore : ℚ := (homeScore : ℚ) + homeSpread
    let awayScore : ℚ := (away : ℚ)
    if adjustedHomeScore > awayScore then .ok (some TeamRef.HomeTeamID)
    else if adjustedHomeScore < awayScore then .ok (some TeamRef.AwayTeamID)
    else .ok none
  | _, _, _ => .error Err.nilDeref

/-- The per-pick verdict of `CalculatePickResults` (advanceweek.go 603-609): set only when
the pick has a selected team and the game has a winner, and then the comparison
`*pick.SelectedTeamID == *winningTeamID`. -/
def pickIsCorrect (game : Game) (pick : Pick) (winningTeamID : Option TeamRef) : Option Bool :=
  match pick.SelectedTeamID, winningTeamID with
  | some selected, some winning => some (selected == winning.deref game)
  | _, _ => none

/-- `UPDATE public.picks SET is_correct = $1, calculated_at = $2 WHERE id = $3`. -/
def updatePickResult (tx : DB) (isCorrect : Option Bool) (now : Int) (pickID : String) : DB :=
  { tx with picks := tx.picks.map (fun p =>
      if p.ID == pickID then { p with IsCorrect := isCorrect, CalculatedAt := some now } else p) }

structure CalculatePickResultsResult where
  GamesProcessed : Int
  PicksUpdated : Int
  deriving DecidableEq, Repr

/-- The inner loop over `picksByGameID[game.ID]`. -/
def pickLoop (env : Env) (game : Game) (winningTeamID : Option TeamRef) :
    List Pick → DB × Int → DB × Int
  | [], st => st
  | pick :: rest, (tx, picksUpdated) =>
    pickLoop env game winningTeamID rest
      (updatePickResult tx (pickIsCorrect game pick winningTeamID) env.goNow pick.ID,
       picksUpdated + 1)

/-- The outer loop over the games of the week (advanceweek.go 598-627); `picks` is the
snapshot read before the transaction, grouped by game ID on the fly. -/
def gameLoop (env : Env) (picks : List Pick) :
    List Game → DB × CalculatePickResultsResult → Except Err (DB × CalculatePickResultsResult)
  | [], st => .ok st
  | game :: rest, (tx, res) =>
    match WinningTeamByGame game with
    | .error e => .error e
    | .ok winningTeamID =>
      let st := pickLoop env game winningTeamID (picks.filter (fun p => p.GameID == game.ID))
        (tx, res.PicksUpdated)
      gameLoop env picks rest
        (st.1, { GamesProcessed := res.GamesProcessed + 1, PicksUpdated := st.2 })

/-- Commit or roll back: what the database holds once a transactional function returned. -/
def finish {α : Type} (db : DB) (r : Except Err (DB × α)) : DB × Except Err α :=
  match r with
  | .ok (tx, a) => (tx, .ok a)
  | .error e => (db, .error e)

/-- `CalculatePickResults`: the transaction body. -/
def CalculatePickResultsTx (env : Env) (db : DB) (weekID : String) :
    Except Err (DB × CalculatePickResultsResult) :=
  match GetWeekStatus db weekID with
  | .error e => .error e
  | .ok weekStatus =>
    if weekStatus != "played" then .error Err.ErrWeekNotPlayed
    else
      let games := GetWeekGames db weekID
      let picks := GetWeekPicks db weekID
      match gameLoop env picks games (db, { GamesProcessed := 0, PicksUpdated := 0 }) with
      | .error e => .error e
      | .ok (tx, res) => .ok (UpdateWeekStatus env tx weekID "picks_results_calculated", res)

/-- `CalculatePickResults`. -/
def CalculatePickResults (env : Env) (db : DB) (weekID : String) :
    DB × Except Err CalculatePickResultsResult :=
  finish db (CalculatePickResultsTx env db weekID)

/-! ## advanceweek.go: import games -/

structure ImportGamesResult where
  GamesCreated : Int
  deriving DecidableEq, Repr

structure validatedGame where
  ExternalID : Int
  KickoffTime : Int
  HomeTeamID : String
  AwayTeamID : String
  HomeTeamAbbr : String
  AwayTeamAbbr : String
  deriving DecidableEq, Repr

/-- The validation loop (advanceweek.go 286-307): stops at the first abbreviation that
does not map. -/
def validateGames (db : DB) : List ExternalGame → Except Err (List validatedGame)
  | [] => .ok []
  | g :: rest =>
    match GetTeamIDByAbbreviation db g.HomeTeam.Abbreviation with
    | .error e => .error e
    | .ok homeTeamID =>
      match GetTeamIDByAbbreviation db g.AwayTeam.Abbreviation with
      | .error e => .error e
      | .ok awayTeamID =>
        match validateGames db rest with
        | .error e => .error e
        | .ok validated =>
          .ok ({ ExternalID := g.ID, KickoffTime := g.Date, HomeTeamID := homeTeamID,
                 AwayTeamID := awayTeamID, HomeTeamAbbr := g.HomeTeam.Abbreviation,
                 AwayTeamAbbr := g.AwayTeam.Abbreviation } :: validated)

/-- The row inserted for the k-th validated game (advanceweek.go 334-363). -/
def newGameRow (env : Env) (week : WeekWithYear) (weekID actingUserID : String) (k : Nat)
    (g : validatedGame) : Game :=
  { ID := env.newID k, ExternalGameID := g.ExternalID, SeasonID := week.SeasonID,
    WeekID := weekID, HomeTeamID := g.HomeTeamID, AwayTeamID := g.AwayTeamID,
    HomeScore := none, AwayScore := none, HomeSpread := none, KickoffTime := g.KickoffTime,
    NeutralSite := false, Status := "scheduled", UpdatedAt := env.sqlNow,
    CreatedBy := actingUserID, HomeTeamAbbr := g.HomeTeamAbbr, AwayTeamAbbr := g.AwayTeamAbbr }

/-- The insert loop, `k` counting the identifiers generated so far. -/
def insertGames (env : Env) (week : WeekWithYear) (weekID actingUserID : String) :
    Nat → List validatedGame → DB × Int → DB × Int
  | _, [], st => st
  | k, g :: rest, (tx, created) =>
    insertGames env week weekID actingUserID (k + 1) rest
      ({ tx with games := tx.games ++ [newGameRow env week weekID actingUserID k g] },
       created + 1)

/-- `ImportGamesForWeek`: the function body with the transaction state threaded through. -/
def ImportGamesForWeekTx (env : Env) (db : DB) (weekID actingUserID : String) :
    Except Err (DB × ImportGamesResult) :=
  match GetWeekWithYear db weekID with
  | .error e => .error e
  | .ok week =>
    if week.Status != "draft" then .error Err.ErrInvalidWeekState
    else
      match NewBallDontLieClient env with
      | .error e => .error e
      | .ok _ =>
        match FetchGames env week.Year week.Number week.IsPostseason with
        | .error e => .error e
        | .ok externalGames =>
          if externalGames.length == 0 then .error Err.zeroGames
          else
            match validateGames db externalGames with
            | .error e => .error e
            | .ok validated =>
              let tx : DB := { db with games := db.games.filter (fun g => !(g.WeekID == weekID)) }
              let st := insertGames env week weekID actingUserID 0 validated (tx, 0)
              .ok (UpdateWeekStatus env st.1 weekID "games_imported", { GamesCreated := st.2 })

/-- `ImportGamesForWeek`. -/
def ImportGamesForWeek (env : Env) (db : DB) (weekID actingUserID : String) :
    DB × Except Err ImportGamesResult :=
  finish db (ImportGamesForWeekTx env db weekID actingUserID)

/-! ## advanceweek.go: import scores -/

structure ImportScoresResult where
  GamesUpdated : Int
  AllGamesPlayed : Bool
  GamesInDB : Int
  GamesFromAPI : Int
  UnmatchedGameIDs : List Int
  deriving DecidableEq, Repr

/-- The `WHERE external_game_id = $3 AND week_id = $4` of the score update. -/
def scoreTarget (externalGame : ExternalGame) (weekID : String) (g : Game) : Bool :=
  g.ExternalGameID == externalGame.ID && g.WeekID == weekID

/-- `UPDATE public.games SET home_score = $1, away_score = $2, status = 'final',
updated_at = NOW() WHERE external_game_id = $3 AND week_id = $4`. -/
def updateGameScore (env : Env) (tx : DB) (externalGame : ExternalGame) (weekID : String) : DB :=
  { tx with games := tx.games.map (fun g =>
      if scoreTarget externalGame weekID g then
        { g with HomeScore := externalGame.HomeTeamScore, AwayScore := externalGame.AwayTeamScore,
                 Status := "final", UpdatedAt := env.sqlNow }
      else g) }

structure scoreLoopState where
  tx : DB
  updated : Int
  unmatchedGameIDs : List Int
  deriving DecidableEq, Repr

/-- The loop over the fetched games (advanceweek.go 443-470). -/
def scoreLoop (env : Env) (weekID : String) : List ExternalGame → scoreLoopState → scoreLoopState
  | [], st => st
  | externalGame :: rest, st =>
    if externalGame.Status != "Final" && externalGame.Status != "Final/OT" then
      scoreLoop env weekID rest st
    else
      let rows : Int := (st.tx.games.filter (scoreTarget externalGame weekID)).length
      let tx := updateGameScore env st.tx externalGame weekID
      if rows == 0 then
        scoreLoop env weekID rest
          { tx := tx, updated := st.updated,
            unmatchedGameIDs := st.unmatchedGameIDs ++ [externalGame.ID] }
      else
        scoreLoop env weekID rest
          { tx := tx, updated := st.updated + rows, unmatchedGameIDs := st.unmatchedGameIDs }

/-- `ImportScoresForWeek`: the function body with the transaction state threaded through. -/
def ImportScoresForWeekTx (env : Env) (db : DB) (weekID : String) :
    Except Err (DB × ImportScoresResult) :=
  match GetWeekWithYear db weekID with
  | .error e => .error e
  | .ok week =>
    if week.Status != "active" then .error Err.ErrWeekNotActive
    else
      match NewBallDontLieClient env with
      | .error e => .error e
      | .ok _ =>
        match FetchGames env week.Year week.Number week.IsPostseason with
        | .error e => .error e
        | .ok externalGames =>
          let gamesInDB : Int := (db.games.filter (fun g => g.WeekID == weekID)).length
          let st := scoreLoop env weekID externalGames
            { tx := db, updated := 0, unmatchedGameIDs := [] }
          let gamesNotFinal : Int :=
            (st.tx.games.filter (fun g => g.WeekID == weekID && g.Status != "final")).length
          let allGamesPlayed : Bool := gamesNotFinal == 0
          let tx := if allGamesPlayed then UpdateWeekStatus env st.tx weekID "played" else st.tx
          .ok (tx, { GamesUpdated := st.updated, AllGamesPlayed := allGamesPlayed,
                     GamesInDB := gamesInDB, GamesFromAPI := externalGames.length,
                     UnmatchedGameIDs := st.unmatchedGameIDs })

/-- `ImportScoresForWeek`. -/
def ImportScoresForWeek (env : Env) (db : DB) (weekID : String) :
    DB × Except Err ImportScoresResult :=
  finish db (ImportScoresForWeekTx env db weekID)

/-! ## advanceweek.go: week points, season snapshot and ranks -/

/-- The order of `ORDER BY points DESC` on rows `(id, points)`. -/
def pointsDesc (a b : String × Int) : Prop := b.2 ≤ a.2

instance : DecidableRel pointsDesc := fun a b => inferInstanceAs (Decidable (b.2 ≤ a.2))

instance : IsTotal (String × Int) pointsDesc := ⟨fun a b => le_total b.2 a.2⟩

instance : IsTrans (String × Int) pointsDesc := ⟨fun _ _ _ hab hbc => le_trans hbc hab⟩

/-- The rows in the order of `ORDER BY points DESC` (rows with equal points stay in the
order in which they were read). -/
def orderByPointsDesc (rows : List (String × Int)) : List (String × Int) :=
  rows.insertionSort pointsDesc

/-- The rank of the current row of the window function `RANK()`: the rank of the row before
it when the two are peers (same points), its own row number otherwise. `prev` holds the
points and the rank of the row before. -/
def peerRank (rowNumber : Nat) (prev : Option (Int × Nat)) (points : Int) : Nat :=
  match prev with
  | some (prevPoints, prevRank) => if prevPoints = points then prevRank else rowNumber
  | none => rowNumber

/-- The window function `RANK()` over rows that are already ordered, `rowNumber` being the
number of the first of them. -/
def rankWalk : Nat → Option (Int × Nat) → List (String × Int) → List (String × Int)
  | _, _, [] => []
  | rowNumber, prev, (id, points) :: rest =>
    (id, (peerRank rowNumber prev points : Int)) ::
      rankWalk (rowNumber + 1) (some (points, peerRank rowNumber prev points)) rest

/-- `SELECT id, RANK() OVER (ORDER BY points DESC) as rank FROM ...` over rows given as
`(id, points)`: the result pairs each id with its rank. -/
def rankSubquery (rows : List (String × Int)) : List (String × Int) :=
  rankWalk 1 none (orderByPointsDesc rows)

/-- The rank the `UPDATE ... FROM subquery WHERE id = subquery.id` assigns to the row `id`,
if the subquery has a row for it. -/
def subqueryRank (subquery : List (String × Int)) (id : String) : Option Int :=
  (subquery.find? (fun r => r.1 == id)).map (fun r => r.2)

structure UserPoints where
  UserID : String
  Points : Int
  deriving DecidableEq, Repr

/-- `LEFT JOIN public.picks pk ON pk.user_id = p.id AND pk.week_id = $2` for one profile:
the matching picks, or one row with a null pick when there is none. -/
def leftJoinPicks (db : DB) (weekID : String) (p : Profile) : List (Profile × Option Pick) :=
  match db.picks.filter (fun pk => pk.UserID == p.ID && pk.WeekID == weekID) with
  | [] => [(p, none)]
  | pk :: rest => (pk :: rest).map (fun x => (p, some x))

/-- The joined rows of the points query:
`season_participants sp JOIN profiles p ON p.id = sp.user_id LEFT JOIN picks pk ...
WHERE sp.season_id = $3`. -/
def weekPointsJoin (db : DB) (weekID seasonID : String) : List (Profile × Option Pick) :=
  (db.season_participants.filter (fun sp => sp.SeasonID == seasonID)).flatMap (fun sp =>
    (db.profiles.filter (fun p => p.ID == sp.UserID)).flatMap (leftJoinPicks db weekID))

/-- The joined row belongs to the group of `userID` and passes
`FILTER (WHERE pk.is_correct = true)`; a null pick does not pass. -/
def countsFor (userID : String) (r : Profile × Option Pick) : Bool :=
  r.1.ID == userID &&
    (match r.2 with
     | some pk => pk.IsCorrect == some true
     | none => false)

/-- `COUNT(*) FILTER (WHERE pk.is_correct = true)` within the group of `userID`. -/
def countCorrect (rows : List (Profile × Option Pick)) (userID : String) : Int :=
  ((rows.filter (countsFor userID)).length : Int)

/-- The points query of `CalculateWeekPoints` (advanceweek.go 694-703): one row per group of
`GROUP BY p.id`. -/
def weekPointsQuery (db : DB) (pointsPerCorrectPick : Int) (weekID seasonID : String) :
    List UserPoints :=
  let rows := weekPointsJoin db weekID seasonID
  ((rows.map (fun r => r.1.ID)).dedup).map (fun userID =>
    { UserID := userID, Points := countCorrect rows userID * pointsPerCorrectPick })

/-- `INSERT ... ON CONFLICT (...) DO UPDATE SET ...` on a table: when a row conflicts with
the new one on the unique key, the conflicting rows are updated, otherwise the new row is
inserted. -/
def upsert {α : Type} (rows : List α) (conflict : α → Bool) (doUpdate : α → α) (row : α) :
    List α :=
  if rows.any conflict then rows.map (fun r => if conflict r then doUpdate r else r)
  else rows ++ [row]

/-- `INSERT INTO public.week_results ... ON CONFLICT (user_id, week_id) DO UPDATE SET
points, computed_at, updated_at`. -/
def upsertWeekResult (tx : DB) (resultID userID weekID : String) (points now : Int) : DB :=
  let row : WeekResult :=
    { ID := resultID, UserID := userID, WeekID := weekID, Points := points, Rank := none,
      ComputedAt := now, CreatedAt := now, UpdatedAt := now }
  { tx with
    week_results :=
      upsert tx.week_results (fun r => r.UserID == userID && r.WeekID == weekID)
        (fun r => { r with Points := points, ComputedAt := now, UpdatedAt := now }) row }

/-- The upsert loop of `CalculateWeekPoints`, `k` counting the identifiers generated. -/
def weekResultLoop (env : Env) (weekID : String) : Nat → List UserPoints → DB × Int → DB × Int
  | _, [], st => st
  | k, up :: rest, (tx, usersProcessed) =>
    weekResultLoop env weekID (k + 1) rest
      (upsertWeekResult tx (env.newID k) up.UserID weekID up.Points env.goNow,
       usersProcessed + 1)

/-- The rank update of `CalculateWeekPoints` (advanceweek.go 735-746). -/
def updateWeekRanks (tx : DB) (weekID : String) : DB :=
  let subquery := rankSubquery
    ((tx.week_results.filter (fun r => r.WeekID == weekID)).map (fun r => (r.ID, r.Points)))
  { tx with week_results := tx.week_results.map (fun r =>
      match subqueryRank subquery r.ID with
      | some rank => { r with Rank := some rank }
      | none => r) }

structure CalculateWeekPointsResult where
  UsersProcessed : Int
  deriving DecidableEq, Repr

/-- `CalculateWeekPoints`: the function body with the transaction state threaded through. -/
def CalculateWeekPointsTx (env : Env) (db : DB) (weekID : String) :
    Except Err (DB × CalculateWeekPointsResult) :=
  match GetWeekWithYear db weekID with
  | .error e => .error e
  | .ok week =>
    if week.Status != "picks_results_calculated" then .error Err.ErrWeekNotPicksCalculated
    else
      match settingsGet db with
      | .error e => .error e
      | .ok s =>
        let userPoints := weekPointsQuery db s.PointsPerCorrectPick weekID week.SeasonID
        let st := weekResultLoop env weekID 0 userPoints (db, 0)
        let tx := updateWeekRanks st.1 weekID
        .ok (UpdateWeekStatus env tx weekID "scored", { UsersProcessed := st.2 })

/-- `CalculateWeekPoints`. -/
def CalculateWeekPoints (env : Env) (db : DB) (weekID : String) :
    DB × Except Err CalculateWeekPointsResult :=
  finish db (CalculateWeekPointsTx env db weekID)

/-- The week `ORDER BY number DESC LIMIT 1` keeps: the first one with the greatest number. -/
def maxByNumber : List Week → Option Week
  | [] => none
  | w :: rest =>
    match maxByNumber rest with
    | some m => if w.Number < m.Number then some m else some w
    | none => some w

/-- The scalar subquery of the previous-standings query (advanceweek.go 813-824): the id of
the week of the season with the greatest number below the number of week `weekID`. -/
def previousWeekID (tx : DB) (seasonID weekID : String) : Option String :=
  match tx.weeks.find? (fun w => w.ID == weekID) with
  | none => none
  | some cur =>
    (maxByNumber (tx.weeks.filter (fun w => w.SeasonID == seasonID && decide (w.Number < cur.Number)))).map
      (fun w => w.ID)

/-- The standings of the previous week (advanceweek.go 808-828), as `(user_id, points)`. -/
def previousStandings (tx : DB) (seasonID weekID : String) : List (String × Int) :=
  match previousWeekID tx seasonID weekID with
  | none => []
  | some prev =>
    (tx.season_standings.filter (fun s => s.SeasonID == seasonID && s.WeekID == prev)).map
      (fun s => (s.UserID, s.Points))

/-- The Go map `previousPointsByUserID` (advanceweek.go 831-834) as a lookup function: a
missing key reads as 0, a later standing of the same user overwrites an earlier one. -/
def previousPointsByUserID (standings : List (String × Int)) : String → Int :=
  standings.foldl (fun m standing => fun userID => if userID == standing.1 then standing.2 else m userID)
    (fun _ => 0)

/-- `INSERT INTO public.season_standings ... ON CONFLICT (user_id, season_id, week_id)
DO UPDATE SET points, computed_at, updated_at`. -/
def upsertSeasonStanding (tx : DB) (standingID userID seasonID weekID : String)
    (points now : Int) : DB :=
  let row : SeasonStanding :=
    { ID := standingID, UserID := userID, SeasonID := seasonID, WeekID := weekID,
      Points := points, Rank := none, ComputedAt := now, CreatedAt := now, UpdatedAt := now }
  { tx with
    season_standings :=
      upsert tx.season_standings
        (fun s => s.UserID == userID && s.SeasonID == seasonID && s.WeekID == weekID)
        (fun s => { s with Points := points, ComputedAt := now, UpdatedAt := now }) row }

/-- The upsert loop of `CalculateSeasonSnapshot` (advanceweek.go 841-864). -/
def standingLoop (env : Env) (seasonID weekID : String) (previous : String → Int) :
    Nat → List (String × Int) → DB × Int → DB × Int
  | _, [], st => st
  | k, weekResult :: rest, (tx, usersProcessed) =>
    let previousPoints := previous weekResult.1
    let cumulativePoints := previousPoints + weekResult.2
    standingLoop env seasonID weekID previous (k + 1) rest
      (upsertSeasonStanding tx (env.newID k) weekResult.1 seasonID weekID cumulativePoints
         env.goNow,
       usersProcessed + 1)

/-- The rank update of `CalculateSeasonSnapshot` (advanceweek.go 867-878). -/
def updateSeasonRanks (tx : DB) (seasonID weekID : String) : DB :=
  let subquery := rankSubquery
    ((tx.season_standings.filter (fun s => s.SeasonID == seasonID && s.WeekID == weekID)).map
      (fun s => (s.ID, s.Points)))
  { tx with season_standings := tx.season_standings.map (fun s =>
      match subqueryRank subquery s.ID with
      | some rank => { s with Rank := some rank }
      | none => s) }

/-- `UPDATE public.weeks SET status = 'final', closed_at = NOW(), updated_at = NOW()
WHERE id = $1`. -/
def closeWeek (env : Env) (tx : DB) (weekID : String) : DB :=
  { tx with weeks := tx.weeks.map (fun w =>
      if w.ID == weekID then
        { w with Status := "final", ClosedAt := some env.sqlNow, UpdatedAt := env.sqlNow }
      else w) }

structure CalculateSeasonSnapshotResult where
  UsersProcessed : Int
  deriving DecidableEq, Repr

/-- `CalculateSeasonSnapshot`: the function body with the transaction state threaded
through. -/
def CalculateSeasonSnapshotTx (env : Env) (db : DB) (weekID : String) :
    Except Err (DB × CalculateSeasonSnapshotResult) :=
  match GetWeekWithYear db weekID with
  | .error e => .error e
  | .ok week =>
    if week.Status != "scored" then .error Err.ErrWeekNotScored
    else
      let weekResults :=
        (db.week_results.filter (fun r => r.WeekID == weekID)).map (fun r => (r.UserID, r.Points))
      let previous := previousPointsByUserID (previousStandings db week.SeasonID weekID)
      let st := standingLoop env week.SeasonID weekID previous 0 weekResults (db, 0)
      let tx := updateSeasonRanks st.1 week.SeasonID weekID
      .ok (closeWeek env tx weekID, { UsersProcessed := st.2 })

/-- `CalculateSeasonSnapshot`. -/
def CalculateSeasonSnapshot (env : Env) (db : DB) (weekID : String) :
    DB × Except Err CalculateSeasonSnapshotResult :=
  finish db (CalculateSeasonSnapshotTx env db weekID)

/-! ## advanceweek.go: the state machine -/

/-- One pass through the `switch` of `AdvanceWeekState`: either the function returns
(`stop`, with the error value, `none` for nil) or it goes on to reload the week. -/
inductive Step where
  | stop (db : DB) (err : Option Err)
  | reload (db : DB)

/-- The `switch week.Status` of `AdvanceWeekState` (advanceweek.go 42-140). -/
def advanceStep (env : Env) (actingUserID : String) (db : DB) (week : Week) : Step :=
  if week.Status == StatusDraft then
    match ImportGamesForWeek env db week.ID actingUserID with
    | (db1, .error e) => .stop db1 (some e)
    | (db1, .ok _) => .reload db1
  else if week.Status == StatusGamesImported then .stop db (some Err.ErrManualActionRequired)
  else if week.Status == StatusSpreadsSet then .stop db (some Err.ErrManualActionRequired)
  else if week.Status == StatusActive then
    match ImportScoresForWeek env db week.ID with
    | (db1, .error e) => .stop db1 (some e)
    | (db1, .ok res) =>
      if !res.AllGamesPlayed then .stop db1 (some Err.ErrWaitingForGames) else .reload db1
  else if week.Status == StatusPlayed then
    match CalculatePickResults env db week.ID with
    | (db1, .error e) => .stop db1 (some e)
    | (db1, .ok _) => .reload db1
  else if week.Status == StatusPicksResultsCalculated then
    match CalculateWeekPoints env db week.ID with
    | (db1, .error e) => .stop db1 (some e)
    | (db1, .ok _) => .reload db1
  else if week.Status == StatusScored then
    match CalculateSeasonSnapshot env db week.ID with
    | (db1, .error e) => .stop db1 (some e)
    | (db1, .ok _) => .reload db1
  else if week.Status == StatusFinal then .stop db none
  else .stop db (some Err.ErrInvalidWeekStatus)

/-- `db.Get(week, SELECT * FROM weeks WHERE id = $1)`. -/
def reloadWeek (db : DB) (week : Week) : Except Err Week :=
  match db.weeks.find? (fun w => w.ID == week.ID) with
  | some w => .ok w
  | none => .error Err.sqlNoRows

/-- What `AdvanceWeekState` leaves behind: the database, the week the caller passed in (the
function writes through the pointer) and the returned error. -/
structure Outcome where
  db : DB
  week : Week
  err : Option Err

/-- The `for` loop of `AdvanceWeekState`, bounded by `fuel` iterations; `none` when the
bound is reached before the loop returns. -/
def AdvanceWeekStateLoop (env : Env) (actingUserID : String) : Nat → DB → Week → Option Outcome
  | 0, _, _ => none
  | fuel + 1, db, week =>
    match advanceStep env actingUserID db week with
    | .stop db1 err => some { db := db1, week := week, err := err }
    | .reload db1 =>
      match reloadWeek db1 week with
      | .error e => some { db := db1, week := week, err := some e }
      | .ok w => AdvanceWeekStateLoop env actingUserID fuel db1 w

/-- `AdvanceWeekState`: the loop with room for every status to be visited once. -/
def AdvanceWeekState (env : Env) (db : DB) (week : Week) (actingUserID : String) :
    Option Outcome :=
  AdvanceWeekStateLoop env actingUserID 9 db week

/-- `CreateNextWeekForSeason` (advanceweek.go 150-225): the database after the call and the
created week or the error. -/
def CreateNextWeekForSeason (env : Env) (db : DB) (seasonID userID : String) :
    DB × Except Err Week :=
  let lastWeek := maxByNumber (db.weeks.filter (fun w => w.SeasonID == seasonID))
  let next : Except Err Int :=
    match lastWeek with
    | some w => if w.Status != "final" then .error Err.previousWeekNotFinal else .ok (w.Number + 1)
    | none => .ok 1
  match next with
  | .error e => (db, .error e)
  | .ok nextWeekNumber =>
    match db.seasons.find? (fun s => s.ID == seasonID) with
    | none => (db, .error Err.sqlNoRows)
    | some season =>
      if nextWeekNumber > season.NumberOfWeeks then (db, .error Err.ErrSeasonComplete)
      else
        let weekID := env.newID 0
        let row : Week :=
          { ID := weekID, SeasonID := seasonID, Number := nextWeekNumber, Status := "draft",
            ActivatedAt := none, ClosedAt := none, UpdatedAt := env.sqlNow, CreatedBy := userID }
        ({ db with weeks := db.weeks ++ [row] }, .ok row)

/-! ## handlers/week.go and handlers/spreads.go -/

structure GameSpreadUpdate where
  GameID : String
  HomeSpread : Option ℚ
  deriving DecidableEq, Repr

/-- Go's `int(x)` on a float: truncation toward zero. -/
def truncToInt (q : ℚ) : Int := Int.tdiv q.num q.den

/-- The spread check of `UpdateSpreads` (week.go 242-254): the remainder of the spread after
removing whole half points has to be within 0.001 of zero. -/
def spreadValid (spread : ℚ) : Bool :=
  let remainder : ℚ := spread - ((truncToInt (spread / (1/2)) : ℚ) * (1/2))
  !(decide (remainder < -(1/1000)) || decide (remainder > 1/1000))

/-- `UPDATE games SET home_spread = $1, updated_at = NOW() WHERE id = $2 AND week_id = $3`. -/
def updateGameSpread (env : Env) (tx : DB) (homeSpread : Option ℚ) (gameID weekID : String) : DB :=
  { tx with games := tx.games.map (fun g =>
      if g.ID == gameID && g.WeekID == weekID then
        { g with HomeSpread := homeSpread, UpdatedAt := env.sqlNow }
      else g) }

/-- The update loop of `UpdateSpreads` (week.go 268-286): `none` when an update matched no
row (the handler answers 404 and the transaction is rolled back). -/
def spreadLoop (env : Env) (weekID : String) : List GameSpreadUpdate → DB → Option DB
  | [], tx => some tx
  | gameUpdate :: rest, tx =>
    if (tx.games.filter (fun g => g.ID == gameUpdate.GameID && g.WeekID == weekID)).length == 0 then
      none
    else
      spreadLoop env weekID rest (updateGameSpread env tx gameUpdate.HomeSpread gameUpdate.GameID weekID)

/-- `UpdateSpreads` (week.go 187-345): the database after the request and the HTTP status. -/
def UpdateSpreads (env : Env) (db : DB) (weekID : String) (games : List GameSpreadUpdate) :
    DB × Nat :=
  if weekID == "" then (db, 400)
  else
    match db.weeks.find? (fun w => w.ID == weekID) with
    | none => (db, 404)
    | some week =>
      if week.Status != "games_imported" && week.Status != "spreads_set" then (db, 400)
      else if games.any (fun gameUpdate =>
          match gameUpdate.HomeSpread with
          | some spread => !spreadValid spread
          | none => false) then (db, 400)
      else
        match spreadLoop env weekID games db with
        | none => (db, 404)
        | some tx =>
          let tx1 := UpdateWeekStatus env tx weekID "spreads_set"
          match GetWeekWithYear tx1 weekID with
          | .error _ => (tx1, 500)
          | .ok _ => (tx1, 200)

/-- `ActivateWeek` (week.go 348-475): the database after the request and the HTTP status. -/
def ActivateWeek (env : Env) (db : DB) (weekID : String) : DB × Nat :=
  if weekID == "" then (db, 400)
  else
    match db.weeks.find? (fun w => w.ID == weekID) with
    | none => (db, 404)
    | some week =>
      if week.Status != "spreads_set" then (db, 400)
      else
        let gamesWithoutSpreads : Int :=
          (db.games.filter (fun g => g.WeekID == weekID && g.HomeSpread.isNone)).length
        if gamesWithoutSpreads > 0 then (db, 400)
        else
          ({ db with weeks := db.weeks.map (fun w =>
              if w.ID == weekID then
                { w with Status := "active", ActivatedAt := some env.sqlNow, UpdatedAt := env.sqlNow }
              else w) }, 200)

/-- `timesAreClose` (spreads.go 19-22): the two times differ by at most the tolerance. -/
def timesAreClose (t1 t2 tolerance : Int) : Bool :=
  decide (|t1 - t2| ≤ tolerance)

/-- Six hours in nanoseconds (spreads.go 135). -/
def kickoffTolerance : Int := 6 * 3600 * 1000000000

/-- A row of the games query of `AutoImportSpreads` (spreads.go 62-77). -/
structure spreadGameRow where
  ID : String
  KickoffTime : Int
  HomeTeamAbbr : String
  AwayTeamAbbr : String
  deriving DecidableEq, Repr

/-- `games g JOIN teams ht ON g.home_team_id = ht.id JOIN teams at ON g.away_team_id = at.id
WHERE g.week_id = $1`. -/
def spreadGameRows (db : DB) (weekID : String) : List spreadGameRow :=
  (db.games.filter (fun g => g.WeekID == weekID)).flatMap (fun g =>
    (db.teams.filter (fun ht => g.HomeTeamID == ht.ID)).flatMap (fun ht =>
      (db.teams.filter (fun t => g.AwayTeamID == t.ID)).map (fun t =>
        { ID := g.ID, KickoffTime := g.KickoffTime, HomeTeamAbbr := ht.Abbreviation,
          AwayTeamAbbr := t.Abbreviation })))

/-- The first spread whose teams match and whose kickoff is close (spreads.go 152-185). -/
def matchSpread (spreads : List SpreadInfo) (game : spreadGameRow) : Option SpreadInfo :=
  spreads.find? (fun spread =>
    (spread.HomeTeamAbbr == game.HomeTeamAbbr && spread.AwayTeamAbbr == game.AwayTeamAbbr) &&
      timesAreClose spread.CommenceTime game.KickoffTime kickoffTolerance)

/-- The matched updates of `AutoImportSpreads` (spreads.go 148-204). -/
def spreadUpdates (spreads : List SpreadInfo) (games : List spreadGameRow) : List (String × ℚ) :=
  games.filterMap (fun game => (matchSpread spreads game).map (fun spread => (game.ID, spread.HomeSpread)))

/-- `AutoImportSpreads` (spreads.go 26-302): the database after the request and the HTTP
status. -/
def AutoImportSpreads (env : Env) (db : DB) (weekID bookmaker : String) : DB × Nat :=
  if weekID == "" then (db, 400)
  else
    match GetWeekStatus db weekID with
    | .error _ => (db, 500)
    | .ok weekStatus =>
      if weekStatus != "games_imported" && weekStatus != "spreads_set" then (db, 400)
      else
        let games := spreadGameRows db weekID
        if games.length == 0 then (db, 400)
        else
          match env.odds bookmaker with
          | .error _ => (db, 500)
          | .ok spreads =>
            let updates := spreadUpdates spreads games
            if updates.length == 0 then (db, 404)
            else
              let tx := updates.foldl
                (fun tx update => updateGameSpread env tx (some update.2) update.1 weekID) db
              (UpdateWeekStatus env tx weekID "spreads_set", 200)

/-! ## Views used by the statements and proofs, and example data -/

/-- The competition rank of a score among the scores of a scope, in the spec's words:
one plus the number of rows of the scope with strictly more points. -/
def competitionRank (scope : List Int) (points : Int) : Int :=
  1 + ((scope.filter (fun q => decide (points < q))).length : Int)

/-- Number of rows `(id, points)` with strictly more points than `p`. -/
def countAbove (rows : List (String × Int)) (p : Int) : Nat :=
  (rows.filter (fun r => decide (p < r.2))).length

/-- The table-level view of the two upsert loops: the k-th item `(user, points)` is upserted
with the row `new k user points`, conflicting with the rows `owns user`. -/
def upsertLoop {α : Type} (owns : String → α → Bool) (setPoints : Int → α → α)
    (new : Nat → String → Int → α) : Nat → List (String × Int) → List α → List α
  | _, [], rows => rows
  | k, item :: rest, rows =>
    upsertLoop owns setPoints new (k + 1) rest
      (upsert rows (owns item.1) (setPoints item.2) (new k item.1 item.2))

/-- The conflict target of the week-result upsert: the rows of `userID` in week `weekID`. -/
def wrOwns (weekID : String) (userID : String) (r : WeekResult) : Bool :=
  r.UserID == userID && r.WeekID == weekID

/-- The `DO UPDATE SET` of the week-result upsert. -/
def wrSet (env : Env) (points : Int) (r : WeekResult) : WeekResult :=
  { r with Points := points, ComputedAt := env.goNow, UpdatedAt := env.goNow }

/-- The row the week-result upsert inserts for the k-th user. -/
def wrNew (env : Env) (weekID : String) (k : Nat) (userID : String) (points : Int) : WeekResult :=
  { ID := env.newID k, UserID := userID, WeekID := weekID, Points := points, Rank := none,
    ComputedAt := env.goNow, CreatedAt := env.goNow, UpdatedAt := env.goNow }

/-- The conflict target of the standing upsert. -/
def ssOwns (seasonID weekID : String) (userID : String) (s : SeasonStanding) : Bool :=
  s.UserID == userID && s.SeasonID == seasonID && s.WeekID == weekID

/-- The `DO UPDATE SET` of the standing upsert. -/
def ssSet (env : Env) (points : Int) (s : SeasonStanding) : SeasonStanding :=
  { s with Points := points, ComputedAt := env.goNow, UpdatedAt := env.goNow }

/-- The row the standing upsert inserts for the k-th user. -/
def ssNew (env : Env) (seasonID weekID : String) (k : Nat) (userID : String) (points : Int) :
    SeasonStanding :=
  { ID := env.newID k, UserID := userID, SeasonID := seasonID, WeekID := weekID,
    Points := points, Rank := none, ComputedAt := env.goNow, CreatedAt := env.goNow,
    UpdatedAt := env.goNow }

/-- The table-level view of a rank update: every row the subquery has a rank for gets it. -/
def rankUpdate {α : Type} (rows : List α) (idOf : α → String) (ptsOf : α → Int)
    (inScope : α → Bool) (setRank : Int → α → α) : List α :=
  rows.map (fun r =>
    match subqueryRank (rankSubquery ((rows.filter inScope).map (fun r => (idOf r, ptsOf r))))
        (idOf r) with
    | some rank => setRank rank r
    | none => r)

/-- An id supply for the examples: the k-th id is the letter n repeated k+1 times. -/
def exampleNewID (k : Nat) : String := String.mk (List.replicate (k + 1) 'n')

/-- An environment for the examples; the schedule source answers with `games`. -/
def exampleEnv (games : List ExternalGame) : Env :=
  { apiBaseURL := "http://schedule", apiKey := "key",
    schedule := fun _ _ _ => .ok games,
    odds := fun _ => .ok [],
    sqlNow := 100, goNow := 101, newID := exampleNewID }

def examplePick (id user game : String) (selected : Option String) (correct : Option Bool) :
    Pick :=
  { ID := id, UserID := user, GameID := game, WeekID := "w1", SelectedTeamID := selected,
    IsCorrect := correct, CalculatedAt := none, UserLockedAt := none }

def exampleWeek (id : String) (number : Int) (status : String) : Week :=
  { ID := id, SeasonID := "s1", Number := number, Status := status, ActivatedAt := none,
    ClosedAt := none, UpdatedAt := 0, CreatedBy := "admin" }

def exampleSeason : Season :=
  { ID := "s1", Year := 2025, NumberOfWeeks := 18, IsPostseason := false }

def exampleSettings : Settings :=
  { PickCutoffMinutes := 60, AllowPickEdits := true, PointsPerCorrectPick := 1,
    AllowPicksAfterKickoff := false }

def exampleResult (id user week : String) (points : Int) (rank : Option Int) : WeekResult :=
  { ID := id, UserID := user, WeekID := week, Points := points, Rank := rank,
    ComputedAt := 10, CreatedAt := 10, UpdatedAt := 10 }

def exampleStanding (id user week : String) (points : Int) (rank : Option Int) :
    SeasonStanding :=
  { ID := id, UserID := user, SeasonID := "s1", WeekID := week, Points := points, Rank := rank,
    ComputedAt := 10, CreatedAt := 10, UpdatedAt := 10 }

/-- A database with nothing but the season and the settings. -/
def emptyDB : DB :=
  { seasons := [exampleSeason], weeks := [], games := [], picks := [], week_results := [],
    season_standings := [], teams := [], season_participants := [], profiles := [],
    settings := [exampleSettings] }

/-- Week w1 waits for its points: u1 has four correct picks out of five, u2 is a participant
without picks, u3 has a correct pick but is no participant. -/
def scoringDB : DB :=
  { emptyDB with
    weeks := [exampleWeek "w1" 1 "picks_results_calculated"]
    picks := [examplePick "p1" "u1" "g1" (some "KC") (some true),
              examplePick "p2" "u1" "g2" (some "KC") (some true),
              examplePick "p3" "u1" "g3" (some "KC") (some true),
              examplePick "p4" "u1" "g4" (some "KC") (some true),
              examplePick "p5" "u1" "g5" (some "KC") (some false),
              examplePick "p6" "u3" "g1" (some "KC") (some true)]
    season_participants := [{ SeasonID := "s1", UserID := "u1" }, { SeasonID := "s1", UserID := "u2" }]
    profiles := [{ ID := "u1" }, { ID := "u2" }, { ID := "u3" }] }

/-- Week w2 waits for its snapshot: u1 scored 3 in week 1 and 2 in week 2, u2 scored 1 in
week 1 and has no result in week 2. -/
def snapshotDB : DB :=
  { emptyDB with
    weeks := [exampleWeek "w1" 1 "final", exampleWeek "w2" 2 "scored"]
    week_results := [exampleResult "r1" "u1" "w1" 3 (some 1), exampleResult "r2" "u2" "w1" 1 (some 2),
                     exampleResult "r3" "u1" "w2" 2 (some 1)]
    season_standings := [exampleStanding "t1" "u1" "w1" 3 (some 1),
                         exampleStanding "t2" "u2" "w1" 1 (some 2)] }

/-- The immediate successor of a status in the order draft, games_imported, spreads_set,
active, played, picks_results_calculated, scored, final. -/
def nextStatus (status : String) : Option String :=
  if status == StatusDraft then some StatusGamesImported
  else if status == StatusGamesImported then some StatusSpreadsSet
  else if status == StatusSpreadsSet then some StatusActive
  else if status == StatusActive then some StatusPlayed
  else if status == StatusPlayed then some StatusPicksResultsCalculated
  else if status == StatusPicksResultsCalculated then some StatusScored
  else if status == StatusScored then some StatusFinal
  else none

/-- A week row before and after an operation: the same week, with the status it had or the
immediate successor of that status. -/
def weekStep (before after : Week) : Prop :=
  after.ID = before.ID ∧
    (after.Status = before.Status ∨ nextStatus before.Status = some after.Status)

/-- A week row before and after a run of the state machine: the same week, with a status
reached from the old one through immediate successors only. -/
def weekPath (before after : Week) : Prop :=
  after.ID = before.ID ∧
    Relation.ReflTransGen (fun a b => nextStatus a = some b) before.Status after.Status

/-- The operations that write a week's status, with their arguments. -/
inductive Operation where
  | ImportGamesForWeek (weekID actingUserID : String)
  | UpdateSpreads (weekID : String) (games : List GameSpreadUpdate)
  | AutoImportSpreads (weekID bookmaker : String)
  | ActivateWeek (weekID : String)
  | ImportScoresForWeek (weekID : String)
  | CalculatePickResults (weekID : String)
  | CalculateWeekPoints (weekID : String)
  | CalculateSeasonSnapshot (weekID : String)
  | AdvanceWeekState (week : Week) (actingUserID : String)

/-- The database an operation leaves behind. -/
def Operation.run (env : Env) (db : DB) : Operation → DB
  | .ImportGamesForWeek weekID actingUserID => (SendYourPicks.ImportGamesForWeek env db weekID actingUserID).1
  | .UpdateSpreads weekID games => (SendYourPicks.UpdateSpreads env db weekID games).1
  | .AutoImportSpreads weekID bookmaker => (SendYourPicks.AutoImportSpreads env db weekID bookmaker).1
  | .ActivateWeek weekID => (SendYourPicks.ActivateWeek env db weekID).1
  | .ImportScoresForWeek weekID => (SendYourPicks.ImportScoresForWeek env db weekID).1
  | .CalculatePickResults weekID => (SendYourPicks.CalculatePickResults env db weekID).1
  | .CalculateWeekPoints weekID => (SendYourPicks.CalculateWeekPoints env db weekID).1
  | .CalculateSeasonSnapshot weekID => (SendYourPicks.CalculateSeasonSnapshot env db weekID).1
  | .AdvanceWeekState week actingUserID =>
    match SendYourPicks.AdvanceWeekState env db week actingUserID with
    | some out => out.db
    | none => db

/-- The state machine itself, as opposed to a single stage or handler. -/
def Operation.isAdvance : Operation → Bool
  | .AdvanceWeekState _ _ => true
  | _ => false

/-- What an operation did to the weeks table, seen from outside: nothing, or it found the
week `weekID` in status `pre` and rewrote the rows of that id, giving them status `post` and
keeping their season and number. -/
def WeeksAdvance (weekID pre post : String) (ws ws1 : List Week) : Prop :=
  ws1 = ws ∨
    ((∃ w ∈ ws, w.ID = weekID ∧ w.Status = pre) ∧
      ∃ f : Week → Week,
        (∀ w, (f w).ID = w.ID ∧ (f w).Status = post ∧ (f w).SeasonID = w.SeasonID ∧
          (f w).Number = w.Number) ∧
        ws1 = ws.map (fun w => if w.ID == weekID then f w else w))

/-- Week w1 has been played; it has no games and no picks. -/
def playedDB : DB :=
  { emptyDB with weeks := [exampleWeek "w1" 1 "played"] }

/-- The fetched game counts as finished (advanceweek.go 445). -/
def isFinished (externalGame : ExternalGame) : Bool :=
  !(externalGame.Status != "Final" && externalGame.Status != "Final/OT")

/-- The row-level view of the score loop: what the updates for the fetched games, in order,
make of one game row. -/
def scoreRow (env : Env) (weekID : String) (externalGames : List ExternalGame) (g : Game) : Game :=
  externalGames.foldl (fun g externalGame =>
    if isFinished externalGame && scoreTarget externalGame weekID g then
      { g with HomeScore := externalGame.HomeTeamScore, AwayScore := externalGame.AwayTeamScore,
               Status := "final", UpdatedAt := env.sqlNow }
    else g) g

/-- The pick updates `CalculatePickResults` issues for one game, as `(pick id, is_correct)`. -/
def gamePickUpdates (picks : List Pick) (game : Game) : List (String × Option Bool) :=
  match WinningTeamByGame game with
  | .ok winningTeamID =>
    (picks.filter (fun p => p.GameID == game.ID)).map
      (fun p => (p.ID, pickIsCorrect game p winningTeamID))
  | .error _ => []

/-- The row-level view of the pick updates: what the updates, in order, make of one pick. -/
def applyPickUpdates (env : Env) (updates : List (String × Option Bool)) (p : Pick) : Pick :=
  updates.foldl (fun p u =>
    if p.ID == u.1 then { p with IsCorrect := u.2, CalculatedAt := some env.goNow } else p) p

def exampleGameRow (id : String) (externalID : Int) (home away : String) : Game :=
  { ID := id, ExternalGameID := externalID, SeasonID := "s1", WeekID := "w1", HomeTeamID := home,
    AwayTeamID := away, HomeScore := none, AwayScore := none, HomeSpread := some (-(7/2)),
    KickoffTime := 1000, NeutralSite := false, Status := "scheduled", UpdatedAt := 0,
    CreatedBy := "admin", HomeTeamAbbr := home, AwayTeamAbbr := away }

def exampleExternal (id : Int) (status : String) (home away : Option Int) : ExternalGame :=
  { ID := id, Date := 1000, HomeTeam := { Abbreviation := "H" }, AwayTeam := { Abbreviation := "A" },
    Status := status, HomeTeamScore := home, AwayTeamScore := away }

/-- Week w1 is active with three scheduled games. -/
def activeDB : DB :=
  { emptyDB with
    weeks := [exampleWeek "w1" 1 "active"]
    games := [exampleGameRow "g1" 1 "KC" "SF", exampleGameRow "g2" 2 "BUF" "MIA",
              exampleGameRow "g3" 3 "DAL" "NYG"] }

/-- The schedule source while the third game is still being played. -/
def twoOfThree : List ExternalGame :=
  [exampleExternal 1 "Final" (some 20) (some 17), exampleExternal 2 "Final/OT" (some 24) (some 20),
   exampleExternal 3 "3rd Quarter" (some 7) (some 3)]

/-- The schedule source once the third game is over. -/
def threeOfThree : List ExternalGame :=
  [exampleExternal 1 "Final" (some 20) (some 17), exampleExternal 2 "Final/OT" (some 24) (some 20),
   exampleExternal 3 "Final" (some 10) (some 13)]

def exampleFinalGame (id : String) (externalID : Int) (home away : String)
    (homeScore awayScore : Int) (spread : ℚ) : Game :=
  { exampleGameRow id externalID home away with
    HomeScore := some homeScore, AwayScore := some awayScore, HomeSpread := some spread,
    Status := "final" }

/-- Week w1 has been played: KC lost to SF against the spread (20 + -3.5 against 17), BUF
against MIA is a push (24 + -4 against 20).  u1 picked SF and BUF, u2 picked KC and nobody. -/
def resultsDB : DB :=
  { emptyDB with
    weeks := [exampleWeek "w1" 1 "played"]
    games := [exampleFinalGame "g1" 1 "KC" "SF" 20 17 (-(7/2)),
              exampleFinalGame "g2" 2 "BUF" "MIA" 24 20 (-4)]
    picks := [examplePick "p1" "u1" "g1" (some "SF") none,
              examplePick "p2" "u1" "g2" (some "BUF") none,
              examplePick "p3" "u2" "g1" (some "KC") none,
              examplePick "p4" "u2" "g2" none none] }

/-- The number of picks of `userID` in week `weekID` with `is_correct = true`, in the words
of the spec. -/
def correctPicks (db : DB) (userID weekID : String) : Int :=
  ((db.picks.filter (fun pk =>
    pk.UserID == userID && pk.WeekID == weekID && pk.IsCorrect == some true)).length : Int)

/-- The points of the standing of `userID` for week `weekID` of season `seasonID`, 0 if the
user has no standing there, in the words of the spec. -/
def standingPoints (db : DB) (userID seasonID weekID : String) : Int :=
  match db.season_standings.find?
      (fun s => s.UserID == userID && s.SeasonID == seasonID && s.WeekID == weekID) with
  | some s => s.Points
  | none => 0

/-- `previous` is the week immediately preceding `cur` in its season, in the words of the
spec: the week of the season with the greatest number less than the number of `cur`. -/
def immediatelyPrecedes (db : DB) (cur previous : Week) : Prop :=
  previous ∈ db.weeks ∧ previous.SeasonID = cur.SeasonID ∧ previous.Number < cur.Number ∧
    ∀ x ∈ db.weeks, x.SeasonID = cur.SeasonID → x.Number < cur.Number → x ≠ previous →
      x.Number < previous.Number

/-- The sum of the week-result points of `userID` over the weeks of season `seasonID` with
number at most `number`, in the words of the spec. -/
def cumulativePoints (db : DB) (userID seasonID : String) (number : Int) : Int :=
  ((db.week_results.filter (fun r => r.UserID == userID &&
      db.weeks.any (fun w => w.ID == r.WeekID && w.SeasonID == seasonID &&
        decide (w.Number ≤ number)))).map (fun r => r.Points)).sum

/-- An environment whose generated ids are the character `c` repeated. -/
def gapEnv (c : Char) : Env :=
  { exampleEnv [] with newID := fun k => String.mk (List.replicate (k + 1) c) }

/-- Week 1 of a season has been scored: u1 has 3 points, u2 has 1. -/
def gapWeek1 : DB :=
  { emptyDB with
    weeks := [exampleWeek "w1" 1 "scored"]
    week_results := [exampleResult "r1" "u1" "w1" 3 (some 1), exampleResult "r2" "u2" "w1" 1 (some 2)] }

/-- Week 1 is final and week 2 has been scored while u1 was not a participant of the season:
only u2 has a result for week 2. -/
def gapWeek2 : DB :=
  { (CalculateSeasonSnapshot (gapEnv 'a') gapWeek1 "w1").1 with
    weeks := (CalculateSeasonSnapshot (gapEnv 'a') gapWeek1 "w1").1.weeks ++
      [exampleWeek "w2" 2 "scored"]
    week_results := (CalculateSeasonSnapshot (gapEnv 'a') gapWeek1 "w1").1.week_results ++
      [exampleResult "r3" "u2" "w2" 2 (some 1)] }

/-- Week 2 is final and week 3 has been scored after u1 was added to the season again: u1
has 2 points for week 3, u2 has 1. -/
def gapWeek3 : DB :=
  { (CalculateSeasonSnapshot (gapEnv 'b') gapWeek2 "w2").1 with
    weeks := (CalculateSeasonSnapshot (gapEnv 'b') gapWeek2 "w2").1.weeks ++
      [exampleWeek "w3" 3 "scored"]
    week_results := (CalculateSeasonSnapshot (gapEnv 'b') gapWeek2 "w2").1.week_results ++
      [exampleResult "r4" "u1" "w3" 2 (some 1), exampleResult "r5" "u2" "w3" 1 (some 2)] }

/-- The season once week 3 is final too. -/
def gapSeason : DB := (CalculateSeasonSnapshot (gapEnv 'c') gapWeek3 "w3").1

/-- An upper bound on the number of passes through the loop of `AdvanceWeekState` that are
still to come for a week in the given status. -/
def remainingPasses (status : String) : Nat :=
  if status == StatusDraft then 2
  else if status == StatusActive then 5
  else if status == StatusPlayed then 4
  else if status == StatusPicksResultsCalculated then 3
  else if status == StatusScored then 2
  else 1

/-- `errors.Is(err, target)` on the errors of the model: the error itself, or the sentinel
`ErrTeamMappingFailed` that the error of `GetTeamIDByAbbreviation` wraps with `%w`. -/
def errorsIs (err target : Err) : Bool :=
  err == target ||
    (match err with
     | .teamMapping _ => target == Err.ErrTeamMappingFailed
     | _ => false)

/-- The abbreviation has an active internal team: the query of `GetTeamIDByAbbreviation`
has a row. -/
def hasActiveTeam (db : DB) (abbreviation : String) : Bool :=
  db.teams.any (fun t => t.Abbreviation == abbreviation && t.IsActive)

/-- The abbreviations of a fetched schedule, home before away, in the order of the games. -/
def scheduleAbbreviations (externalGames : List ExternalGame) : List String :=
  externalGames.flatMap (fun g => [g.HomeTeam.Abbreviation, g.AwayTeam.Abbreviation])

/-- A fetched game and the game row imported for it (advanceweek.go 299-363). -/
def importedFrom (db : DB) (weekID actingUserID : String) (external : ExternalGame) (g : Game) :
    Prop :=
  g.ExternalGameID = external.ID ∧ g.WeekID = weekID ∧ g.KickoffTime = external.Date ∧
    GetTeamIDByAbbreviation db external.HomeTeam.Abbreviation = .ok g.HomeTeamID ∧
    GetTeamIDByAbbreviation db external.AwayTeam.Abbreviation = .ok g.AwayTeamID ∧
    g.HomeTeamAbbr = external.HomeTeam.Abbreviation ∧
    g.AwayTeamAbbr = external.AwayTeam.Abbreviation ∧
    g.HomeSpread = none ∧ g.Status = "scheduled" ∧ g.HomeScore = none ∧ g.AwayScore = none ∧
    g.NeutralSite = false ∧ g.CreatedBy = actingUserID

/-- The stage functions `AdvanceWeekState` calls. -/
inductive Stage where
  | ImportGamesForWeek
  | ImportScoresForWeek
  | CalculatePickResults
  | CalculateWeekPoints
  | CalculateSeasonSnapshot
  deriving DecidableEq, Repr

/-- The error value of a result, `none` for nil. -/
def errOf {α : Type} : Except Err α → Option Err
  | .ok _ => none
  | .error e => some e

/-- A call of a stage function: the database after the call and the returned error. -/
def Stage.call (env : Env) (actingUserID : String) (db : DB) (weekID : String) :
    Stage → DB × Option Err
  | .ImportGamesForWeek =>
    ((SendYourPicks.ImportGamesForWeek env db weekID actingUserID).1,
     errOf (SendYourPicks.ImportGamesForWeek env db weekID actingUserID).2)
  | .ImportScoresForWeek =>
    ((SendYourPicks.ImportScoresForWeek env db weekID).1,
     errOf (SendYourPicks.ImportScoresForWeek env db weekID).2)
  | .CalculatePickResults =>
    ((SendYourPicks.CalculatePickResults env db weekID).1,
     errOf (SendYourPicks.CalculatePickResults env db weekID).2)
  | .CalculateWeekPoints =>
    ((SendYourPicks.CalculateWeekPoints env db weekID).1,
     errOf (SendYourPicks.CalculateWeekPoints env db weekID).2)
  | .CalculateSeasonSnapshot =>
    ((SendYourPicks.CalculateSeasonSnapshot env db weekID).1,
     errOf (SendYourPicks.CalculateSeasonSnapshot env db weekID).2)

/-- The stage function the `switch` of `AdvanceWeekState` calls for a status
(advanceweek.go 45-129), `none` for the cases that return at once. -/
def stageFor (status : String) : Option Stage :=
  if status == StatusDraft then some Stage.ImportGamesForWeek
  else if status == StatusGamesImported then none
  else if status == StatusSpreadsSet then none
  else if status == StatusActive then some Stage.ImportScoresForWeek
  else if status == StatusPlayed then some Stage.CalculatePickResults
  else if status == StatusPicksResultsCalculated then some Stage.CalculateWeekPoints
  else if status == StatusScored then some Stage.CalculateSeasonSnapshot
  else none

/-- One stage call of `AdvanceWeekState` as an observer sees it: the function, the week id
passed and the error it returned. -/
structure StageCall where
  stage : Stage
  weekID : String
  err : Option Err
  deriving DecidableEq, Repr

/-- The stage calls `AdvanceWeekState` makes, in order: the loop of `AdvanceWeekStateLoop`
with every call of a stage function recorded. -/
def AdvanceWeekStateCalls (env : Env) (actingUserID : String) :
    Nat → DB → Week → List StageCall
  | 0, _, _ => []
  | fuel + 1, db, week =>
    match stageFor week.Status with
    | none => []
    | some stage =>
      { stage := stage, weekID := week.ID,
        err := (stage.call env actingUserID db week.ID).2 } ::
        (match advanceStep env actingUserID db week with
         | .stop _ _ => []
         | .reload db1 =>
           match reloadWeek db1 week with
           | .error _ => []
           | .ok w => AdvanceWeekStateCalls env actingUserID fuel db1 w)

/-- Invoking `AdvanceWeekState` once more with the database and the week the last invocation
left behind. -/
def advanceAgain (env : Env) (actingUserID : String) (st : DB × Week) : DB × Week :=
  match AdvanceWeekState env st.1 st.2 actingUserID with
  | some out => (out.db, out.week)
  | none => st

/-- The eight statuses of the state machine. -/
def knownStatuses : List String :=
  [StatusDraft, StatusGamesImported, StatusSpreadsSet, StatusActive, StatusPlayed,
   StatusPicksResultsCalculated, StatusScored, StatusFinal]

def exampleTeam (abbreviation : String) : Team :=
  { ID := abbreviation, Abbreviation := abbreviation, IsActive := true }

def exampleSchedule (id : Int) (home away : String) : ExternalGame :=
  { ID := id, Date := 1000, HomeTeam := { Abbreviation := home },
    AwayTeam := { Abbreviation := away }, Status := "Scheduled", HomeTeamScore := none,
    AwayTeamScore := none }

/-- Week w1 is a draft; it still holds a game of an earlier import, week w0 has a game of its
own.  Four teams are active, NYG is not. -/
def draftDB : DB :=
  { emptyDB with
    weeks := [exampleWeek "w0" 0 "final", exampleWeek "w1" 1 "draft"]
    games := [{ exampleGameRow "g0" 7 "KC" "SF" with WeekID := "w0" },
              exampleGameRow "g9" 9 "KC" "BUF"]
    teams := [exampleTeam "KC", exampleTeam "SF", exampleTeam "BUF", exampleTeam "MIA",
              { ID := "NYG", Abbreviation := "NYG", IsActive := false }] }

/-- Week w1 has its games imported and waits for the commissioner. -/
def importedDB : DB :=
  { emptyDB with weeks := [exampleWeek "w1" 1 "games_imported"] }

/-- The active week of `activeDB` in a database without a settings row. -/
def noSettingsDB : DB :=
  { activeDB with settings := [] }

/-- The error values the `return nil, err` statements of the five stage functions can produce:
the errors of the lookups, of the external client, of the validation and of the
preconditions, and the nil dereference in `WinningTeamByGame`. -/
def isStageError : Err → Bool
  | .ErrWeekNotFound => true
  | .ErrInvalidWeekState => true
  | .teamMapping _ => true
  | .zeroGames => true
  | .other _ => true
  | .ErrWeekNotActive => true
  | .ErrWeekNotPlayed => true
  | .ErrWeekNotPicksCalculated => true
  | .ErrWeekNotScored => true
  | .sqlNoRows => true
  | .nilDeref => true
  | _ => false

/-- Week w1 has its games imported: one game, still without a spread. -/
def spreadsDB : DB :=
  { importedDB with
    games := [{ exampleGameRow "g1" 1 "KC" "SF" with HomeSpread := none }]
    teams := [exampleTeam "KC", exampleTeam "SF"] }

/-- The stage functions `AdvanceWeekState` can call in one invocation on a week passed in
with the given status, in the order of the calls. -/
def stagesFrom (status : String) : List Stage :=
  if status == StatusDraft then [Stage.ImportGamesForWeek]
  else if status == StatusActive then
    [Stage.ImportScoresForWeek, Stage.CalculatePickResults, Stage.CalculateWeekPoints,
     Stage.CalculateSeasonSnapshot]
  else if status == StatusPlayed then
    [Stage.CalculatePickResults, Stage.CalculateWeekPoints, Stage.CalculateSeasonSnapshot]
  else if status == StatusPicksResultsCalculated then
    [Stage.CalculateWeekPoints, Stage.CalculateSeasonSnapshot]
  else if status == StatusScored then [Stage.CalculateSeasonSnapshot]
  else []

/-! ## picks.go: submitting picks -/

/-- `IsUserSeasonParticipant` (service.go 180-197): the user is a participant of the season
that contains the week. -/
def IsUserSeasonParticipant (db : DB) (weekID userID : String) : Bool :=
  db.season_participants.any (fun sp =>
    db.weeks.any (fun w => w.SeasonID == sp.SeasonID && w.ID == weekID && sp.UserID == userID))

/-- One entry of the request of `SubmitPicks` (picks.go 52-55). -/
structure PickSubmission where
  GameID : String
  SelectedTeamID : Option String
  deriving DecidableEq, Repr

/-- `time.Minute`, in nanoseconds. -/
def Minute : Int := 60 * 1000000000

/-- The check for double picks (picks.go 74-86): some game id of the request has been seen
before. -/
def duplicateGame : List String → List PickSubmission → Bool
  | _, [] => false
  | seen, pick :: rest => seen.contains pick.GameID || duplicateGame (pick.GameID :: seen) rest

/-- The lookup in `gameMap` (picks.go 118-121): the last loaded game with the id. -/
def gameMapLookup (databaseGames : List Game) (gameID : String) : Option Game :=
  (databaseGames.filter (fun game => game.ID == gameID)).getLast?

/-- The validation of one pick of the request (picks.go 126-160): the status of the answer
that turns it down, `none` when it passes. -/
def validatePick (env : Env) (settings : Settings) (databaseGames : List Game)
    (pick : PickSubmission) : Option Nat :=
  match gameMapLookup databaseGames pick.GameID with
  | none => some 400
  | some game =>
    if settings.PickCutoffMinutes != -1 &&
        decide (game.KickoffTime + -settings.PickCutoffMinutes * Minute < env.goNow) then some 400
    else
      match pick.SelectedTeamID with
      | some team => if team != game.HomeTeamID && team != game.AwayTeamID then some 400 else none
      | none => none

/-- The validation loop of `SubmitPicks` (picks.go 125-161): the answer for the first pick
that fails. -/
def validatePicks (env : Env) (settings : Settings) (databaseGames : List Game) :
    List PickSubmission → Option Nat
  | [] => none
  | pick :: rest =>
    match validatePick env settings databaseGames pick with
    | some status => some status
    | none => validatePicks env settings databaseGames rest

/-- The condition of the `DO UPDATE ... WHERE` of the upsert (picks.go 190-201) on an
existing pick. -/
def pickEditable (env : Env) (tx : DB) (allowAfterKickoff : Bool) (p : Pick) : Bool :=
  p.UserLockedAt.isNone &&
    (allowAfterKickoff ||
      (match tx.games.find? (fun g => g.ID == p.GameID) with
       | some g => decide (env.sqlNow < g.KickoffTime)
       | none => false))

/-- The upsert of one pick (picks.go 180-203): the transaction after the statement and the
number of rows affected.  Nothing is proposed when the game is missing or has kicked off;
a proposed row that conflicts on (user_id, game_id) updates the selected team of the
existing pick if that pick is editable; otherwise the row is inserted. -/
def upsertPick (env : Env) (tx : DB) (pickID userID weekID : String) (pick : PickSubmission)
    (allowAfterKickoff : Bool) : DB × Nat :=
  match tx.games.find? (fun g => g.ID == pick.GameID) with
  | none => (tx, 0)
  | some g =>
    if !(allowAfterKickoff || decide (env.sqlNow < g.KickoffTime)) then (tx, 0)
    else if tx.picks.any (fun p => p.UserID == userID && p.GameID == pick.GameID) then
      ({ tx with picks := tx.picks.map (fun p =>
          if (p.UserID == userID && p.GameID == pick.GameID) &&
              pickEditable env tx allowAfterKickoff p then
            { p with SelectedTeamID := pick.SelectedTeamID }
          else p) },
       (tx.picks.filter (fun p => (p.UserID == userID && p.GameID == pick.GameID) &&
          pickEditable env tx allowAfterKickoff p)).length)
    else
      ({ tx with picks := tx.picks ++
          [{ ID := pickID, UserID := userID, GameID := pick.GameID, WeekID := weekID,
             SelectedTeamID := pick.SelectedTeamID, IsCorrect := none, CalculatedAt := none,
             UserLockedAt := none }] }, 1)

/-- The insert loop of `SubmitPicks` (picks.go 164-231): the transaction after the last
pick, or the status of the answer when a statement affects no row. -/
def submitLoop (env : Env) (userID weekID : String) (allowAfterKickoff : Bool) :
    Nat → List PickSubmission → DB → Except Nat DB
  | _, [], tx => .ok tx
  | k, pick :: rest, tx =>
    if (upsertPick env tx (env.newID k) userID weekID pick allowAfterKickoff).2 == 0 then
      .error 409
    else
      submitLoop env userID weekID allowAfterKickoff (k + 1) rest
        (upsertPick env tx (env.newID k) userID weekID pick allowAfterKickoff).1

/-- `SubmitPicks` (picks.go 19-242) on a request that has been bound: the database after the
request and the HTTP status. -/
def SubmitPicks (env : Env) (db : DB) (userID weekID : String) (req : List PickSubmission) :
    DB × Nat :=
  if weekID == "" then (db, 400)
  else if !IsUserSeasonParticipant db weekID userID then (db, 403)
  else
    match settingsGet db with
    | .error _ => (db, 500)
    | .ok settings =>
      if req.length == 0 then (db, 400)
      else if duplicateGame [] req then (db, 400)
      else
        match validatePicks env settings (db.games.filter (fun g => g.WeekID == weekID)) req with
        | some status => (db, status)
        | none =>
          match submitLoop env userID weekID settings.AllowPicksAfterKickoff 0 req db with
          | .error status => (db, status)
          | .ok tx => (tx, 200)

/-- A game of week w1 that kicks off two hours after the clocks of the examples start. -/
def lateGame (id : String) (externalID : Int) (home away : String) : Game :=
  { exampleGameRow id externalID home away with KickoffTime := 7200000000000 }

/-- Week w1 is active; u1 has locked the pick on g1 and has an open pick on g2. -/
def lockedDB : DB :=
  { emptyDB with
    weeks := [exampleWeek "w1" 1 "active"]
    games := [lateGame "g1" 1 "KC" "SF", lateGame "g2" 2 "BUF" "MIA"]
    picks := [{ examplePick "p1" "u1" "g1" (some "KC") none with UserLockedAt := some 50 },
              examplePick "p2" "u1" "g2" (some "BUF") none]
    season_participants := [{ SeasonID := "s1", UserID := "u1" }] }

/-- The clocks half an hour before the kickoff of the late games: the pick window of an hour
has closed, the games have not started. -/
def lateEnv : Env :=
  { exampleEnv [] with sqlNow := 5400000000000, goNow := 5400000000001 }

/-! ## The workflow -/

/-- One application of an operation of the workflow to a database: `CreateNextWeekForSeason`
for some season, generating a week id that is not taken (ids are the primary key of the weeks
table), or a stage function, a handler or `AdvanceWeekState`.  Every application has its own
clocks, id supply and answers of the external sources. -/
inductive WorkflowStep (db : DB) : DB → Prop where
  | create (env : Env) (seasonID userID : String)
      (hnew : env.newID 0 ∉ db.weeks.map (fun w => w.ID)) :
      WorkflowStep db (CreateNextWeekForSeason env db seasonID userID).1
  | run (env : Env) (op : Operation) : WorkflowStep db (op.run env db)

/-- The states reachable from `init` by sequential applications of workflow operations. -/
inductive Reachable (init : DB) : DB → Prop where
  | start : Reachable init init
  | step {db db1 : DB} : Reachable init db → WorkflowStep db db1 → Reachable init db1

/-- The statuses from active on. -/
def activatedStatuses : List String :=
  [StatusActive, StatusPlayed, StatusPicksResultsCalculated, StatusScored, StatusFinal]

/-- Among the weeks of the season, a week that is not final is alone in that and has the
greatest number. -/
def OneOpenWeek (seasonID : String) (ws : List Week) : Prop :=
  ∀ w ∈ ws, w.SeasonID = seasonID → w.Status ≠ "final" →
    ∀ x ∈ ws, x.SeasonID = seasonID → x.ID ≠ w.ID → x.Status = "final" ∧ x.Number < w.Number

/-- Every game of a week whose status is active or later has a home spread. -/
def SpreadsSet (db : DB) : Prop :=
  ∀ w ∈ db.weeks, w.Status ∈ activatedStatuses →
    ∀ g ∈ db.games, g.WeekID = w.ID → g.HomeSpread ≠ none

/-- A season that has no weeks yet; the teams KC and SF are known. -/
def startDB : DB := { emptyDB with teams := [exampleTeam "KC", exampleTeam "SF"] }

/-- The first week of the season has been created. -/
def createdDB : DB := (CreateNextWeekForSeason (exampleEnv []) startDB "s1" "admin").1

/-- The week that `CreateNextWeekForSeason` returns for the season without weeks. -/
def firstWeek : Week :=
  { ID := "n", SeasonID := "s1", Number := 1, Status := "draft", ActivatedAt := none,
    ClosedAt := none, UpdatedAt := 100, CreatedBy := "admin" }

/-- `AdvanceWeekState` has imported the one game of the first week, KC against SF. -/
def gamesDB : DB :=
  Operation.run (exampleEnv [exampleSchedule 1 "KC" "SF"]) createdDB
    (.AdvanceWeekState firstWeek "admin")

/-- The game has its spread. -/
def pricedDB : DB :=
  Operation.run (exampleEnv []) gamesDB
    (.UpdateSpreads "n" [{ GameID := "n", HomeSpread := some (-(7/2)) }])

/-- The first week is active. -/
def openDB : DB := Operation.run (exampleEnv []) pricedDB (.ActivateWeek "n")

/-- The schedule source reports the game as final and sends no scores. -/
def noScores : List ExternalGame := [exampleExternal 1 "Final" none none]

/-- The state `AdvanceWeekState` leaves behind when the schedule source reports the game of
the active week as final without scores. -/
def nullScoresDB : DB :=
  Operation.run (exampleEnv noScores) openDB
    (.AdvanceWeekState { firstWeek with Status := "active" } "admin")

/-! ## The stage functions statement by statement: handles, driver failures, commit -/

/-- The connection while a stage function runs: the database as committed, the state the
transaction `tx` sees, and the number of calls made so far that the infrastructure can
fail. -/
structure Conn where
  committed : DB
  tx : DB
  calls : Nat
  deriving DecidableEq, Repr

/-- `db.Beginx()`.  `faults n` is the message of the error with which the n-th call of the
invocation to the driver or the id generator returns (`db.Beginx`, `tx.Exec`, `tx.Get`,
`tx.Select`, `id.New`, `tx.Commit`, counted from 0), `none` when that call goes through.  The
transaction starts from the committed state. -/
def Beginx (faults : Nat → Option String) (c : Conn) : Conn × Except Err Unit :=
  match faults c.calls with
  | some msg => ({ c with calls := c.calls + 1 }, .error (Err.other msg))
  | none => ({ committed := c.committed, tx := c.committed, calls := c.calls + 1 }, .ok ())

/-- `tx.Exec(stmt)`: a statement that writes, issued on the transaction. -/
def Exec (faults : Nat → Option String) (stmt : DB → DB) (c : Conn) : Conn × Except Err Unit :=
  match faults c.calls with
  | some msg => ({ c with calls := c.calls + 1 }, .error (Err.other msg))
  | none => ({ c with tx := stmt c.tx, calls := c.calls + 1 }, .ok ())

/-- `tx.Get(&dest, query)` and `tx.Select(&dest, query)`: a query issued on the
transaction. -/
def Select {α : Type} (faults : Nat → Option String) (query : DB → α) (c : Conn) :
    Conn × Except Err α :=
  match faults c.calls with
  | some msg => ({ c with calls := c.calls + 1 }, .error (Err.other msg))
  | none => ({ c with calls := c.calls + 1 }, .ok (query c.tx))

/-- `id.New()` for the k-th identifier of the invocation. -/
def idNew (faults : Nat → Option String) (env : Env) (k : Nat) (c : Conn) :
    Conn × Except Err String :=
  match faults c.calls with
  | some msg => ({ c with calls := c.calls + 1 }, .error (Err.other msg))
  | none => ({ c with calls := c.calls + 1 }, .ok (env.newID k))

/-- `tx.Commit()`: what the transaction wrote becomes the committed state, unless the commit
fails. -/
def Commit (faults : Nat → Option String) (c : Conn) : Conn × Except Err Unit :=
  match faults c.calls with
  | some msg => ({ c with calls := c.calls + 1 }, .error (Err.other msg))
  | none => ({ committed := c.tx, tx := c.tx, calls := c.calls + 1 }, .ok ())

/-- The frame shared by the stage functions: `tx, err := db.Beginx()`, `defer tx.Rollback()`,
the statements of the body, `tx.Commit()`.  Whatever way the function returns, the database
holds the committed state: the deferred rollback drops what the transaction wrote and did not
commit. -/
def inTransaction {α : Type} (faults : Nat → Option String) (db : DB)
    (body : Conn → Conn × Except Err α) : DB × Except Err α :=
  match Beginx faults { committed := db, tx := db, calls := 0 } with
  | (c, .error e) => (c.committed, .error e)
  | (c, .ok _) =>
    match body c with
    | (c1, .error e) => (c1.committed, .error e)
    | (c1, .ok a) =>
      match Commit faults c1 with
      | (c2, .error e) => (c2.committed, .error e)
      | (c2, .ok _) => (c2.committed, .ok a)

/-- The insert loop of `ImportGamesForWeek` (advanceweek.go 327-366) statement by statement:
`id.New()` and the `INSERT` for every validated game. -/
def insertGamesStmts (faults : Nat → Option String) (env : Env) (week : WeekWithYear)
    (weekID actingUserID : String) : Nat → List validatedGame → Conn → Int →
    Conn × Except Err Int
  | _, [], c, created => (c, .ok created)
  | k, g :: rest, c, created =>
    match idNew faults env k c with
    | (c1, .error e) => (c1, .error e)
    | (c1, .ok gameID) =>
      match Exec faults
          (fun tx => { tx with
            games := tx.games ++
              [{ newGameRow env week weekID actingUserID k g with ID := gameID }] }) c1 with
      | (c2, .error e) => (c2, .error e)
      | (c2, .ok _) =>
        insertGamesStmts faults env week weekID actingUserID (k + 1) rest c2 (created + 1)

/-- The statements of `ImportGamesForWeek` between `db.Beginx()` and `tx.Commit()`
(advanceweek.go 317-373). -/
def ImportGamesForWeekBody (faults : Nat → Option String) (env : Env) (week : WeekWithYear)
    (weekID actingUserID : String) (validated : List validatedGame) (c : Conn) :
    Conn × Except Err ImportGamesResult :=
  match Exec faults
      (fun tx => { tx with games := tx.games.filter (fun g => !(g.WeekID == weekID)) }) c with
  | (c1, .error e) => (c1, .error e)
  | (c1, .ok _) =>
    match insertGamesStmts faults env week weekID actingUserID 0 validated c1 0 with
    | (c2, .error e) => (c2, .error e)
    | (c2, .ok created) =>
      match Exec faults (fun tx => UpdateWeekStatus env tx weekID "games_imported") c2 with
      | (c3, .error e) => (c3, .error e)
      | (c3, .ok _) => (c3, .ok { GamesCreated := created })

/-- `ImportGamesForWeek` with every call to the driver and the id generator that can fail
after the validation (advanceweek.go 309-377). -/
def ImportGamesForWeekStmts (faults : Nat → Option String) (env : Env) (db : DB)
    (weekID actingUserID : String) : DB × Except Err ImportGamesResult :=
  match GetWeekWithYear db weekID with
  | .error e => (db, .error e)
  | .ok week =>
    if week.Status != "draft" then (db, .error Err.ErrInvalidWeekState)
    else
      match NewBallDontLieClient env with
      | .error e => (db, .error e)
      | .ok _ =>
        match FetchGames env week.Year week.Number week.IsPostseason with
        | .error e => (db, .error e)
        | .ok externalGames =>
          if externalGames.length == 0 then (db, .error Err.zeroGames)
          else
            match validateGames db externalGames with
            | .error e => (db, .error e)
            | .ok validated =>
              inTransaction faults db
                (ImportGamesForWeekBody faults env week weekID actingUserID validated)

/-- The loop over the fetched games of `ImportScoresForWeek` (advanceweek.go 443-470)
statement by statement. -/
def scoreLoopStmts (faults : Nat → Option String) (env : Env) (weekID : String) :
    List ExternalGame → Conn → Int → List Int → Conn × Except Err (Int × List Int)
  | [], c, updated, unmatchedGameIDs => (c, .ok (updated, unmatchedGameIDs))
  | externalGame :: rest, c, updated, unmatchedGameIDs =>
    if externalGame.Status != "Final" && externalGame.Status != "Final/OT" then
      scoreLoopStmts faults env weekID rest c updated unmatchedGameIDs
    else
      let rows : Int := (c.tx.games.filter (scoreTarget externalGame weekID)).length
      match Exec faults (fun tx => updateGameScore env tx externalGame weekID) c with
      | (c1, .error e) => (c1, .error e)
      | (c1, .ok _) =>
        if rows == 0 then
          scoreLoopStmts faults env weekID rest c1 updated
            (unmatchedGameIDs ++ [externalGame.ID])
        else
          scoreLoopStmts faults env weekID rest c1 (updated + rows) unmatchedGameIDs

/-- The statements of `ImportScoresForWeek` between `db.Beginx()` and `tx.Commit()`
(advanceweek.go 434-490). -/
def ImportScoresForWeekBody (faults : Nat → Option String) (env : Env) (weekID : String)
    (externalGames : List ExternalGame) (c : Conn) : Conn × Except Err ImportScoresResult :=
  match Select faults
      (fun tx => (((tx.games.filter (fun g => g.WeekID == weekID)).length : Nat) : Int)) c with
  | (c1, .error e) => (c1, .error e)
  | (c1, .ok gamesInDB) =>
    match scoreLoopStmts faults env weekID externalGames c1 0 [] with
    | (c2, .error e) => (c2, .error e)
    | (c2, .ok (updated, unmatchedGameIDs)) =>
      match Select faults
          (fun tx => (((tx.games.filter
            (fun g => g.WeekID == weekID && g.Status != "final")).length : Nat) : Int)) c2 with
      | (c3, .error e) => (c3, .error e)
      | (c3, .ok gamesNotFinal) =>
        let allGamesPlayed : Bool := gamesNotFinal == 0
        let res : ImportScoresResult :=
          { GamesUpdated := updated, AllGamesPlayed := allGamesPlayed, GamesInDB := gamesInDB,
            GamesFromAPI := externalGames.length, UnmatchedGameIDs := unmatchedGameIDs }
        if allGamesPlayed then
          match Exec faults (fun tx => UpdateWeekStatus env tx weekID "played") c3 with
          | (c4, .error e) => (c4, .error e)
          | (c4, .ok _) => (c4, .ok res)
        else (c3, .ok res)

/-- `ImportScoresForWeek` with every call to the driver that can fail after the games were
fetched (advanceweek.go 426-494). -/
def ImportScoresForWeekStmts (faults : Nat → Option String) (env : Env) (db : DB)
    (weekID : String) : DB × Except Err ImportScoresResult :=
  match GetWeekWithYear db weekID with
  | .error e => (db, .error e)
  | .ok week =>
    if week.Status != "active" then (db, .error Err.ErrWeekNotActive)
    else
      match NewBallDontLieClient env with
      | .error e => (db, .error e)
      | .ok _ =>
        match FetchGames env week.Year week.Number week.IsPostseason with
        | .error e => (db, .error e)
        | .ok externalGames =>
          inTransaction faults db (ImportScoresForWeekBody faults env weekID externalGames)

/-- The inner loop of `CalculatePickResults` statement by statement: one `UPDATE` per pick
of the game. -/
def pickLoopStmts (faults : Nat → Option String) (env : Env) (game : Game)
    (winningTeamID : Option TeamRef) : List Pick → Conn → Int → Conn × Except Err Int
  | [], c, picksUpdated => (c, .ok picksUpdated)
  | pick :: rest, c, picksUpdated =>
    match Exec faults
        (fun tx => updatePickResult tx (pickIsCorrect game pick winningTeamID) env.goNow
          pick.ID) c with
    | (c1, .error e) => (c1, .error e)
    | (c1, .ok _) => pickLoopStmts faults env game winningTeamID rest c1 (picksUpdated + 1)

/-- The outer loop of `CalculatePickResults` (advanceweek.go 598-627) statement by
statement; the nil dereference in `WinningTeamByGame` ends it without a statement. -/
def gameLoopStmts (faults : Nat → Option String) (env : Env) (picks : List Pick) :
    List Game → Conn → CalculatePickResultsResult →
    Conn × Except Err CalculatePickResultsResult
  | [], c, res => (c, .ok res)
  | game :: rest, c, res =>
    match WinningTeamByGame game with
    | .error e => (c, .error e)
    | .ok winningTeamID =>
      match pickLoopStmts faults env game winningTeamID
          (picks.filter (fun p => p.GameID == game.ID)) c res.PicksUpdated with
      | (c1, .error e) => (c1, .error e)
      | (c1, .ok picksUpdated) =>
        gameLoopStmts faults env picks rest c1
          { GamesProcessed := res.GamesProcessed + 1, PicksUpdated := picksUpdated }

/-- The statements of `CalculatePickResults` between `db.Beginx()` and `tx.Commit()`
(advanceweek.go 591-632). -/
def CalculatePickResultsBody (faults : Nat → Option String) (env : Env) (weekID : String)
    (games : List Game) (picks : List Pick) (c : Conn) :
    Conn × Except Err CalculatePickResultsResult :=
  match gameLoopStmts faults env picks games c { GamesProcessed := 0, PicksUpdated := 0 } with
  | (c1, .error e) => (c1, .error e)
  | (c1, .ok res) =>
    match Exec faults
        (fun tx => UpdateWeekStatus env tx weekID "picks_results_calculated") c1 with
    | (c2, .error e) => (c2, .error e)
    | (c2, .ok _) => (c2, .ok res)

/-- `CalculatePickResults` with every call to the driver that can fail after games and picks
were read (advanceweek.go 555-644). -/
def CalculatePickResultsStmts (faults : Nat → Option String) (env : Env) (db : DB)
    (weekID : String) : DB × Except Err CalculatePickResultsResult :=
  match GetWeekStatus db weekID with
  | .error e => (db, .error e)
  | .ok weekStatus =>
    if weekStatus != "played" then (db, .error Err.ErrWeekNotPlayed)
    else
      inTransaction faults db
        (CalculatePickResultsBody faults env weekID (GetWeekGames db weekID)
          (GetWeekPicks db weekID))

/-- The upsert loop of `CalculateWeekPoints` (advanceweek.go 709-731) statement by
statement. -/
def weekResultLoopStmts (faults : Nat → Option String) (env : Env) (weekID : String) :
    Nat → List UserPoints → Conn → Int → Conn × Except Err Int
  | _, [], c, usersProcessed => (c, .ok usersProcessed)
  | k, up :: rest, c, usersProcessed =>
    match idNew faults env k c with
    | (c1, .error e) => (c1, .error e)
    | (c1, .ok resultID) =>
      match Exec faults
          (fun tx => upsertWeekResult tx resultID up.UserID weekID up.Points env.goNow) c1 with
      | (c2, .error e) => (c2, .error e)
      | (c2, .ok _) =>
        weekResultLoopStmts faults env weekID (k + 1) rest c2 (usersProcessed + 1)

/-- The statements of `CalculateWeekPoints` between `db.Beginx()` and `tx.Commit()`
(advanceweek.go 693-753). -/
def CalculateWeekPointsBody (faults : Nat → Option String) (env : Env) (weekID : String)
    (week : WeekWithYear) (s : Settings) (c : Conn) :
    Conn × Except Err CalculateWeekPointsResult :=
  match Select faults
      (fun tx => weekPointsQuery tx s.PointsPerCorrectPick weekID week.SeasonID) c with
  | (c1, .error e) => (c1, .error e)
  | (c1, .ok userPoints) =>
    match weekResultLoopStmts faults env weekID 0 userPoints c1 0 with
    | (c2, .error e) => (c2, .error e)
    | (c2, .ok usersProcessed) =>
      match Exec faults (fun tx => updateWeekRanks tx weekID) c2 with
      | (c3, .error e) => (c3, .error e)
      | (c3, .ok _) =>
        match Exec faults (fun tx => UpdateWeekStatus env tx weekID "scored") c3 with
        | (c4, .error e) => (c4, .error e)
        | (c4, .ok _) => (c4, .ok { UsersProcessed := usersProcessed })

/-- `CalculateWeekPoints` with every call to the driver and the id generator that can fail
after the settings were read (advanceweek.go 658-763). -/
def CalculateWeekPointsStmts (faults : Nat → Option String) (env : Env) (db : DB)
    (weekID : String) : DB × Except Err CalculateWeekPointsResult :=
  match GetWeekWithYear db weekID with
  | .error e => (db, .error e)
  | .ok week =>
    if week.Status != "picks_results_calculated" then
      (db, .error Err.ErrWeekNotPicksCalculated)
    else
      match settingsGet db with
      | .error e => (db, .error e)
      | .ok s => inTransaction faults db (CalculateWeekPointsBody faults env weekID week s)

/-- The upsert loop of `CalculateSeasonSnapshot` (advanceweek.go 841-864) statement by
statement. -/
def standingLoopStmts (faults : Nat → Option String) (env : Env) (seasonID weekID : String)
    (previous : String → Int) : Nat → List (String × Int) → Conn → Int →
    Conn × Except Err Int
  | _, [], c, usersProcessed => (c, .ok usersProcessed)
  | k, weekResult :: rest, c, usersProcessed =>
    match idNew faults env k c with
    | (c1, .error e) => (c1, .error e)
    | (c1, .ok standingID) =>
      let previousPoints := previous weekResult.1
      let cumulativePoints := previousPoints + weekResult.2
      match Exec faults
          (fun tx => upsertSeasonStanding tx standingID weekResult.1 seasonID weekID
            cumulativePoints env.goNow) c1 with
      | (c2, .error e) => (c2, .error e)
      | (c2, .ok _) =>
        standingLoopStmts faults env seasonID weekID previous (k + 1) rest c2
          (usersProcessed + 1)

/-- The statements of `CalculateSeasonSnapshot` between `db.Beginx()` and `tx.Commit()`
(advanceweek.go 796-885). -/
def CalculateSeasonSnapshotBody (faults : Nat → Option String) (env : Env) (weekID : String)
    (week : WeekWithYear) (c : Conn) : Conn × Except Err CalculateSeasonSnapshotResult :=
  match Select faults
      (fun tx => (tx.week_results.filter (fun r => r.WeekID == weekID)).map
        (fun r => (r.UserID, r.Points))) c with
  | (c1, .error e) => (c1, .error e)
  | (c1, .ok weekResults) =>
    match Select faults (fun tx => previousStandings tx week.SeasonID weekID) c1 with
    | (c2, .error e) => (c2, .error e)
    | (c2, .ok previous) =>
      match standingLoopStmts faults env week.SeasonID weekID
          (previousPointsByUserID previous) 0 weekResults c2 0 with
      | (c3, .error e) => (c3, .error e)
      | (c3, .ok usersProcessed) =>
        match Exec faults (fun tx => updateSeasonRanks tx week.SeasonID weekID) c3 with
        | (c4, .error e) => (c4, .error e)
        | (c4, .ok _) =>
          match Exec faults (fun tx => closeWeek env tx weekID) c4 with
          | (c5, .error e) => (c5, .error e)
          | (c5, .ok _) => (c5, .ok { UsersProcessed := usersProcessed })

/-- `CalculateSeasonSnapshot` with every call to the driver and the id generator that can
fail after the week was read (advanceweek.go 776-895). -/
def CalculateSeasonSnapshotStmts (faults : Nat → Option String) (env : Env) (db : DB)
    (weekID : String) : DB × Except Err CalculateSeasonSnapshotResult :=
  match GetWeekWithYear db weekID with
  | .error e => (db, .error e)
  | .ok week =>
    if week.Status != "scored" then (db, .error Err.ErrWeekNotScored)
    else inTransaction faults db (CalculateSeasonSnapshotBody faults env weekID week)

/-- No call fails. -/
def noFaults : Nat → Option String := fun _ => none

/-- The call number `n` of the invocation fails: the connection is reset. -/
def faultAt (n : Nat) : Nat → Option String :=
  fun k => if k == n then some "connection reset" else none

/-- The schedule source answers with two games for the first week. -/
def twoGames : List ExternalGame := [exampleSchedule 1 "KC" "SF", exampleSchedule 2 "SF" "KC"]

/-- A game with the scores and spread of the first example of C2. -/
def exampleGame : Game :=
  { ID := "g1", ExternalGameID := 1, SeasonID := "s1", WeekID := "w1", HomeTeamID := "KC",
    AwayTeamID := "SF", HomeScore := some 20, AwayScore := some 17, HomeSpread := some (-(7/2)),
    KickoffTime := 0, NeutralSite := false, Status := "final", UpdatedAt := 0,
    CreatedBy := "admin", HomeTeamAbbr := "KC", AwayTeamAbbr := "SF" }

/-! # Theorems -/

/-! ## Ranks: the window function and the rank subquery -/

theorem countAbove_append (l1 l2 : List (String × Int)) (p : Int) :
    countAbove (l1 ++ l2) p = countAbove l1 p + countAbove l2 p := by
  simp [countAbove]

theorem countAbove_perm {l1 l2 : List (String × Int)} (h : l1.Perm l2) (p : Int) :
    countAbove l1 p = countAbove l2 p :=
  (h.filter _).length_eq

theorem countAbove_eq_zero {l : List (String × Int)} {p : Int} (h : ∀ r ∈ l, r.2 ≤ p) :
    countAbove l p = 0 := by
  simp only [countAbove, List.length_eq_zero, List.filter_eq_nil_iff, decide_eq_true_eq, not_lt]
  exact h

theorem countAbove_eq_length {l : List (String × Int)} {p : Int} (h : ∀ r ∈ l, p < r.2) :
    countAbove l p = l.length := by
  simp only [countAbove]
  rw [List.filter_eq_self.mpr]
  intro r hr
  simpa using h r hr

/-- The invariant of the walk: `pre` is the part already ranked, `rest` the part to come. -/
theorem rankWalk_spec (rest : List (String × Int)) :
    ∀ (pre : List (String × Int)) (prev : Option (Int × Nat)),
      (pre ++ rest).Pairwise pointsDesc →
      (pre = [] → prev = none) →
      (∀ init last, pre = init ++ [last] →
          prev = some (last.2, 1 + countAbove (pre ++ rest) last.2)) →
      rankWalk (pre.length + 1) prev rest =
        rest.map (fun r => (r.1, ((1 + countAbove (pre ++ rest) r.2 : Nat) : Int))) := by
  induction rest with
  | nil => intro pre prev _ _ _; simp [rankWalk]
  | cons x rest ih =>
    intro pre prev hs hnil hlast
    obtain ⟨id, pts⟩ := x
    have hrest : ∀ r ∈ (id, pts) :: rest, r.2 ≤ pts := by
      intro r hr
      rcases List.mem_cons.mp hr with h | h
      · rw [h]
      · have := (List.pairwise_append.mp hs).2.1
        exact (List.pairwise_cons.mp this).1 r h
    have hpre : ∀ r ∈ pre, pts ≤ r.2 := by
      intro r hr
      exact (List.pairwise_append.mp hs).2.2 r hr (id, pts) (List.mem_cons_self _ _)
    have hrank : peerRank (pre.length + 1) prev pts =
        1 + countAbove (pre ++ (id, pts) :: rest) pts := by
      rcases List.eq_nil_or_concat pre with hp | ⟨init, last, hp⟩
      · rw [hnil hp, hp]
        simp only [peerRank, List.length_nil, List.nil_append, zero_add]
        rw [countAbove_eq_zero hrest]
      · rw [List.concat_eq_append] at hp
        rw [hlast init last hp]
        simp only [peerRank]
        split_ifs with heq
        · rw [heq]
        · have hlt : pts < last.2 :=
            lt_of_le_of_ne (hpre last (by rw [hp]; simp)) (fun h => heq h.symm)
          have hprelt : ∀ r ∈ pre, pts < r.2 := by
            intro r hr
            rw [hp] at hr
            rcases List.mem_append.mp hr with h | h
            · have h1 : (init ++ [last]).Pairwise pointsDesc := by
                rw [← hp]; exact (List.pairwise_append.mp hs).1
              have := (List.pairwise_append.mp h1).2.2 r h last (by simp)
              exact lt_of_lt_of_le hlt this
            · simp at h; rw [h]; exact hlt
          rw [countAbove_append, countAbove_eq_length hprelt, countAbove_eq_zero hrest]
          omega
    have hstep := ih (pre ++ [(id, pts)]) (some (pts, 1 + countAbove (pre ++ (id, pts) :: rest) pts))
      (by simpa using hs) (by simp)
      (by
        intro init last h
        have := List.append_inj_right' h (by simp)
        simp at this
        rw [← this]
        simp)
    simp only [rankWalk, hrank, List.map_cons]
    simp only [List.length_append, List.length_singleton, List.append_assoc, List.singleton_append] at hstep
    rw [hstep]

theorem rankSubquery_eq (rows : List (String × Int)) :
    rankSubquery rows =
      (orderByPointsDesc rows).map (fun r => (r.1, ((1 + countAbove rows r.2 : Nat) : Int))) := by
  have h := rankWalk_spec (orderByPointsDesc rows) [] none
    (by simpa using List.sorted_insertionSort pointsDesc rows) (fun _ => rfl)
    (by intro init last h; simp at h)
  simp only [List.length_nil, zero_add, List.nil_append] at h
  rw [rankSubquery, h]
  apply List.map_congr_left
  intro r _
  rw [orderByPointsDesc, countAbove_perm (List.perm_insertionSort pointsDesc rows)]

theorem find?_key_of_nodup {l : List (String × Int)} (h : (l.map Prod.fst).Nodup)
    {x : String × Int} (hx : x ∈ l) : l.find? (fun r => r.1 == x.1) = some x := by
  induction l with
  | nil => simp at hx
  | cons y l ih =>
    simp only [List.map_cons, List.nodup_cons] at h
    rcases List.mem_cons.mp hx with rfl | hx1
    · simp
    · have hne : ¬ y.1 = x.1 := fun e => h.1 (e ▸ List.mem_map_of_mem Prod.fst hx1)
      have hb : (y.1 == x.1) = false := by simpa using hne
      rw [List.find?_cons, hb]
      exact ih h.2 hx1

theorem find?_key_none {l : List (String × Int)} {id : String}
    (h : id ∉ l.map Prod.fst) : l.find? (fun r => r.1 == id) = none := by
  simp only [List.find?_eq_none, beq_iff_eq]
  intro x hx e
  exact h (e ▸ List.mem_map_of_mem Prod.fst hx)

/-- What the rank subquery answers for an id: the competition rank of the row carrying it. -/
theorem subqueryRank_mem {rows : List (String × Int)} (h : (rows.map Prod.fst).Nodup)
    {x : String × Int} (hx : x ∈ rows) :
    subqueryRank (rankSubquery rows) x.1 = some ((1 + countAbove rows x.2 : Nat) : Int) := by
  have hperm := List.perm_insertionSort pointsDesc rows
  have hnd : ((orderByPointsDesc rows).map Prod.fst).Nodup :=
    (hperm.map Prod.fst).nodup_iff.mpr h
  have hmem : x ∈ orderByPointsDesc rows := hperm.mem_iff.mpr hx
  rw [subqueryRank, rankSubquery_eq, List.find?_map]
  have : (List.find? ((fun r : String × Int => r.1 == x.1) ∘
      fun r => (r.1, ((1 + countAbove rows r.2 : Nat) : Int))) (orderByPointsDesc rows)) = some x :=
    find?_key_of_nodup hnd hmem
  rw [this]
  rfl

theorem subqueryRank_not_mem {rows : List (String × Int)} {id : String}
    (h : id ∉ rows.map Prod.fst) : subqueryRank (rankSubquery rows) id = none := by
  have hperm := List.perm_insertionSort pointsDesc rows
  rw [subqueryRank, rankSubquery_eq, List.find?_map]
  have : (List.find? ((fun r : String × Int => r.1 == id) ∘
      fun r => (r.1, ((1 + countAbove rows r.2 : Nat) : Int))) (orderByPointsDesc rows)) = none := by
    apply find?_key_none
    intro hm
    exact h ((hperm.map Prod.fst).mem_iff.mp hm)
  rw [this]
  rfl

theorem countAbove_map {α : Type} (l : List α) (id : α → String) (pts : α → Int) (p : Int) :
    ((1 + countAbove (l.map (fun r => (id r, pts r))) p : Nat) : Int) =
      competitionRank (l.map pts) p := by
  simp only [competitionRank, countAbove, List.filter_map, List.length_map]
  push_cast
  rfl

/-- The rank the subquery gives to a row of a table with unique ids: its competition rank
within the scope when the row is in scope, none otherwise. -/
theorem subqueryRank_table {α : Type} (rows : List α) (id : α → String) (pts : α → Int)
    (inScope : α → Bool) (h : (rows.map id).Nodup) {r : α} (hr : r ∈ rows) :
    subqueryRank (rankSubquery ((rows.filter inScope).map (fun r => (id r, pts r)))) (id r) =
      if inScope r then some (competitionRank ((rows.filter inScope).map pts) (pts r))
      else none := by
  have hkeys : (((rows.filter inScope).map (fun r => (id r, pts r))).map Prod.fst) =
      (rows.filter inScope).map id := by
    simp [List.map_map, Function.comp_def]
  split_ifs with hs
  · have hx : (id r, pts r) ∈ (rows.filter inScope).map (fun r => (id r, pts r)) :=
      List.mem_map_of_mem _ (List.mem_filter.mpr ⟨hr, hs⟩)
    have hnd : (((rows.filter inScope).map (fun r => (id r, pts r))).map Prod.fst).Nodup := by
      rw [hkeys]
      exact (h.sublist (List.Sublist.map id (List.filter_sublist rows)))
    have := subqueryRank_mem hnd hx
    simp only at this
    rw [this, countAbove_map]
  · apply subqueryRank_not_mem
    rw [hkeys]
    intro hm
    obtain ⟨r2, hr2, he⟩ := List.mem_map.mp hm
    have hr2' := List.mem_filter.mp hr2
    have : r2 = r := List.inj_on_of_nodup_map h hr2'.1 hr he
    rw [this] at hr2'
    exact hs hr2'.2

/-! ## C2: the winner against the spread -/

/-- C2: for a game with non-null home score, away score and home spread, `WinningTeamByGame`
returns the home team ID iff `home_score + home_spread > away_score`, the away team ID iff
`home_score + home_spread < away_score`, and nil iff the two are equal; a game with
`(20, 17, -3.5)` goes to the away team and one with `(24, 20, -4.0)` is a tie. -/
theorem WinningTeamByGame_spec (game : Game) (homeScore awayScore : Int) (homeSpread : ℚ)
    (hHome : game.HomeScore = some homeScore) (hAway : game.AwayScore = some awayScore)
    (hSpread : game.HomeSpread = some homeSpread) :
    (WinningTeamByGame game = .ok (some TeamRef.HomeTeamID) ↔
        (homeScore : ℚ) + homeSpread > (awayScore : ℚ)) ∧
    (WinningTeamByGame game = .ok (some TeamRef.AwayTeamID) ↔
        (homeScore : ℚ) + homeSpread < (awayScore : ℚ)) ∧
    (WinningTeamByGame game = .ok none ↔ (homeScore : ℚ) + homeSpread = (awayScore : ℚ)) ∧
    (homeScore = 20 → awayScore = 17 → homeSpread = -(7/2) →
        WinningTeamByGame game = .ok (some TeamRef.AwayTeamID) ∧
        TeamRef.AwayTeamID.deref game = game.AwayTeamID) ∧
    (homeScore = 24 → awayScore = 20 → homeSpread = -4 → WinningTeamByGame game = .ok none) := by
  have key : WinningTeamByGame game =
      if (homeScore : ℚ) + homeSpread > (awayScore : ℚ) then .ok (some TeamRef.HomeTeamID)
      else if (homeScore : ℚ) + homeSpread < (awayScore : ℚ) then .ok (some TeamRef.AwayTeamID)
      else .ok none := by
    simp only [WinningTeamByGame, hHome, hAway, hSpread]
  rcases lt_trichotomy ((homeScore : ℚ) + homeSpread) (awayScore : ℚ) with h | h | h
  · have h1 : ¬ ((homeScore : ℚ) + homeSpread > (awayScore : ℚ)) := not_lt.mpr h.le
    rw [key, if_neg h1, if_pos h]
    refine ⟨by simp [h1], by simp [h], by simp [h.ne], ?_, ?_⟩
    · intro _ _ _; exact ⟨rfl, rfl⟩
    · intro a b c; subst a b c; norm_num at h
  · have h1 : ¬ ((homeScore : ℚ) + homeSpread > (awayScore : ℚ)) := by rw [h]; exact lt_irrefl _
    have h2 : ¬ ((homeScore : ℚ) + homeSpread < (awayScore : ℚ)) := by rw [h]; exact lt_irrefl _
    rw [key, if_neg h1, if_neg h2]
    refine ⟨by simp [h1], by simp [h2], by simp [h], ?_, ?_⟩
    · intro a b c; subst a b c; norm_num at h
    · intro _ _ _; rfl
  · have h2 : ¬ ((homeScore : ℚ) + homeSpread < (awayScore : ℚ)) := not_lt.mpr h.le
    rw [key, if_pos h]
    refine ⟨by simp [h], by simp [h2], by simp [h.ne'], ?_, ?_⟩
    · intro a b c; subst a b c; norm_num at h
    · intro a b c; subst a b c; norm_num at h

/-- Witness for C2 at the example game. -/
theorem WinningTeamByGame_spec_witness :
    WinningTeamByGame exampleGame = .ok (some TeamRef.AwayTeamID) ∧
    TeamRef.AwayTeamID.deref exampleGame = "SF" :=
  (WinningTeamByGame_spec exampleGame 20 17 (-(7/2)) rfl rfl rfl).2.2.2.1 rfl rfl rfl

section Upsert
variable {α : Type}

theorem filter_map_of_frame (rows : List α) (q : α → Bool) (g : α → α)
    (h : ∀ r ∈ rows, (q (g r) = q r) ∧ (q r = true → g r = r)) :
    (rows.map g).filter q = rows.filter q := by
  induction rows with
  | nil => rfl
  | cons r rows ih =>
    have hr := h r (List.mem_cons_self _ _)
    have ih1 := ih (fun x hx => h x (List.mem_cons_of_mem _ hx))
    simp only [List.map_cons, List.filter_cons, hr.1]
    by_cases hq : q r = true
    · simp only [hq, if_true, hr.2 hq, ih1]
    · simp only [hq, ih1]
      rfl

/-- An upsert leaves alone the rows selected by `q` when the conflicting rows are outside
`q`, stay outside after the update, and the new row is outside too. -/
theorem upsert_filter_frame (rows : List α) (conflict q : α → Bool) (doUpdate : α → α) (row : α)
    (hq : ∀ r, conflict r = true → q r = false ∧ q (doUpdate r) = false)
    (hrow : q row = false) :
    (upsert rows conflict doUpdate row).filter q = rows.filter q := by
  unfold upsert
  split_ifs with hany
  · apply filter_map_of_frame
    intro r _
    by_cases hc : conflict r = true
    · simp only [hc, if_true]
      refine ⟨by rw [(hq r hc).1, (hq r hc).2], ?_⟩
      intro h
      rw [(hq r hc).1] at h
      exact absurd h (by simp)
    · simp only [hc]
      exact ⟨rfl, fun _ => rfl⟩
  · rw [List.filter_append]
    simp [hrow]

/-- After an upsert there is a conflicting row and every conflicting row is an updated row or
the new row. -/
theorem upsert_effect (rows : List α) (conflict : α → Bool) (doUpdate : α → α) (row : α)
    (hupd : ∀ r, conflict (doUpdate r) = conflict r) (hrow : conflict row = true) :
    (∃ r ∈ upsert rows conflict doUpdate row, conflict r = true) ∧
    (∀ r ∈ upsert rows conflict doUpdate row, conflict r = true →
        (∃ r0 ∈ rows, conflict r0 = true ∧ r = doUpdate r0) ∨ r = row) := by
  unfold upsert
  split_ifs with hany
  · obtain ⟨r0, hr0, hc0⟩ := List.any_eq_true.mp hany
    constructor
    · refine ⟨doUpdate r0, List.mem_map.mpr ⟨r0, hr0, by simp [hc0]⟩, ?_⟩
      rw [hupd, hc0]
    · intro r hr hc
      obtain ⟨r1, hr1, he⟩ := List.mem_map.mp hr
      by_cases hc1 : conflict r1 = true
      · simp only [hc1, if_true] at he
        exact Or.inl ⟨r1, hr1, hc1, he.symm⟩
      · rw [if_neg hc1] at he
        rw [he] at hc1
        exact absurd hc hc1
  · constructor
    · exact ⟨row, by simp, hrow⟩
    · intro r hr hc
      rcases List.mem_append.mp hr with h | h
      · exact absurd (List.any_eq_true.mpr ⟨r, h, hc⟩) hany
      · exact Or.inr (by simpa using h)

theorem upsert_ids (rows : List α) (conflict : α → Bool) (doUpdate : α → α) (row : α)
    (idOf : α → String) (hid : ∀ r, idOf (doUpdate r) = idOf r) :
    (upsert rows conflict doUpdate row).map idOf = rows.map idOf ∨
    (upsert rows conflict doUpdate row).map idOf = rows.map idOf ++ [idOf row] := by
  unfold upsert
  split_ifs with hany
  · left
    rw [List.map_map]
    apply List.map_congr_left
    intro r _
    simp only [Function.comp_apply]
    split_ifs
    · exact hid r
    · rfl
  · right
    simp

variable (owns : String → α → Bool) (setPoints : Int → α → α) (new : Nat → String → Int → α)

/-- Rows of a user that is not among the items are left alone by the loop. -/
theorem upsertLoop_frame (hexcl : ∀ u v r, owns u r = true → owns v r = true → u = v)
    (hset : ∀ u p r, owns u (setPoints p r) = owns u r)
    (hnew : ∀ k u p v, owns v (new k u p) = true → v = u)
    (items : List (String × Int)) :
    ∀ (k : Nat) (rows : List α) (u : String), u ∉ items.map Prod.fst →
      (upsertLoop owns setPoints new k items rows).filter (owns u) = rows.filter (owns u) := by
  induction items with
  | nil => intro k rows u _; rfl
  | cons item items ih =>
    intro k rows u hu
    simp only [List.map_cons, List.mem_cons, not_or] at hu
    rw [upsertLoop, ih _ _ u hu.2]
    apply upsert_filter_frame
    · intro r hc
      have h1 : owns u r = false := by
        by_contra h
        exact hu.1 (hexcl u item.1 r (by simpa using h) hc)
      exact ⟨h1, by rw [hset, h1]⟩
    · by_contra h
      exact hu.1 (hnew k item.1 item.2 u (by simpa using h))

/-- After the loop every item has a row, and the rows of an item carry its points. -/
theorem upsertLoop_effect (ptsOf : α → Int)
    (hexcl : ∀ u v r, owns u r = true → owns v r = true → u = v)
    (hset : ∀ u p r, owns u (setPoints p r) = owns u r)
    (hnew : ∀ k u p v, owns v (new k u p) = true → v = u)
    (hnew1 : ∀ k u p, owns u (new k u p) = true)
    (hpts : ∀ p r, ptsOf (setPoints p r) = p) (hptsNew : ∀ k u p, ptsOf (new k u p) = p)
    (items : List (String × Int)) :
    ∀ (k : Nat) (rows : List α), (items.map Prod.fst).Nodup → ∀ item ∈ items,
      (∃ r ∈ upsertLoop owns setPoints new k items rows, owns item.1 r = true) ∧
      (∀ r ∈ upsertLoop owns setPoints new k items rows, owns item.1 r = true →
          ptsOf r = item.2) := by
  induction items with
  | nil => intro k rows _ item hi; simp at hi
  | cons it items ih =>
    intro k rows hnd item hi
    simp only [List.map_cons, List.nodup_cons] at hnd
    rcases List.mem_cons.mp hi with rfl | hi1
    · have hfr := upsertLoop_frame owns setPoints new hexcl hset hnew items (k + 1)
        (upsert rows (owns item.1) (setPoints item.2) (new k item.1 item.2)) item.1 hnd.1
      have heff := upsert_effect rows (owns item.1) (setPoints item.2) (new k item.1 item.2)
        (fun r => hset _ _ r) (hnew1 _ _ _)
      rw [upsertLoop]
      constructor
      · obtain ⟨r, hr, hc⟩ := heff.1
        have : r ∈ (upsert rows (owns item.1) (setPoints item.2) (new k item.1 item.2)).filter
            (owns item.1) := List.mem_filter.mpr ⟨hr, hc⟩
        rw [← hfr] at this
        exact ⟨r, (List.mem_filter.mp this).1, hc⟩
      · intro r hr hc
        have : r ∈ (upsertLoop owns setPoints new (k + 1) items
            (upsert rows (owns item.1) (setPoints item.2) (new k item.1 item.2))).filter
            (owns item.1) := List.mem_filter.mpr ⟨hr, hc⟩
        rw [hfr] at this
        rcases heff.2 r (List.mem_filter.mp this).1 hc with ⟨r0, _, _, he⟩ | he
        · rw [he, hpts]
        · rw [he, hptsNew]
    · rw [upsertLoop]
      exact ih (k + 1) _ hnd.2 item hi1

/-- The ids after the loop are unique when they were and the generated ids are new. -/
theorem upsertLoop_ids (idOf : α → String) (nid : Nat → String)
    (hid : ∀ p r, idOf (setPoints p r) = idOf r) (hidNew : ∀ k u p, idOf (new k u p) = nid k)
    (hinj : Function.Injective nid) (items : List (String × Int)) :
    ∀ (k : Nat) (rows : List α), (rows.map idOf).Nodup →
      (∀ id ∈ rows.map idOf, ∀ j, k ≤ j → id ≠ nid j) →
      ((upsertLoop owns setPoints new k items rows).map idOf).Nodup := by
  induction items with
  | nil => intro k rows h _; exact h
  | cons it items ih =>
    intro k rows hnd hfresh
    rw [upsertLoop]
    rcases upsert_ids rows (owns it.1) (setPoints it.2) (new k it.1 it.2) idOf (hid _) with h | h
    · apply ih (k + 1) _ (h ▸ hnd)
      rw [h]
      intro id hmem j hj
      exact hfresh id hmem j (by omega)
    · apply ih (k + 1) _
      · rw [h, hidNew]
        apply List.Nodup.append hnd (List.nodup_singleton _)
        intro id h1 h2
        simp only [List.mem_singleton] at h2
        exact hfresh id h1 k le_rfl h2
      · rw [h, hidNew]
        intro id hmem j hj
        rcases List.mem_append.mp hmem with h1 | h1
        · exact hfresh id h1 j (by omega)
        · simp only [List.mem_singleton] at h1
          rw [h1]
          intro e
          have := hinj e
          omega

end Upsert

theorem finish_ok {α : Type} {db db1 : DB} {r : Except Err (DB × α)} {a : α}
    (h : finish db r = (db1, .ok a)) : r = .ok (db1, a) := by
  unfold finish at h
  split at h
  · simp only [Prod.mk.injEq, Except.ok.injEq] at h
    rw [h.1, h.2]
  · simp at h

theorem finish_error {α : Type} {db db1 : DB} {r : Except Err (DB × α)} {e : Err}
    (h : finish db r = (db1, .error e)) : db1 = db ∧ r = .error e := by
  unfold finish at h
  split at h
  · simp at h
  · simp only [Prod.mk.injEq, Except.error.injEq] at h
    exact ⟨h.1.symm, by rw [h.2]⟩

theorem weekResultLoop_eq (env : Env) (weekID : String) (ups : List UserPoints) :
    ∀ (k : Nat) (tx : DB) (n : Int),
      (weekResultLoop env weekID k ups (tx, n)).1 =
        { tx with
          week_results :=
            upsertLoop (wrOwns weekID) (wrSet env) (wrNew env weekID) k
              (ups.map (fun up => (up.UserID, up.Points))) tx.week_results } ∧
      (weekResultLoop env weekID k ups (tx, n)).2 = n + ups.length := by
  induction ups with
  | nil => intro k tx n; simp [weekResultLoop, upsertLoop]
  | cons up ups ih =>
    intro k tx n
    rw [weekResultLoop]
    obtain ⟨h1, h2⟩ := ih (k + 1) (upsertWeekResult tx (env.newID k) up.UserID weekID up.Points env.goNow) (n + 1)
    rw [h1, h2]
    constructor
    · simp only [upsertWeekResult, List.map_cons, upsertLoop]
      rfl
    · simp only [List.length_cons]
      push_cast
      ring

theorem standingLoop_eq (env : Env) (seasonID weekID : String) (previous : String → Int)
    (weekResults : List (String × Int)) :
    ∀ (k : Nat) (tx : DB) (n : Int),
      (standingLoop env seasonID weekID previous k weekResults (tx, n)).1 =
        { tx with
          season_standings :=
            upsertLoop (ssOwns seasonID weekID) (ssSet env) (ssNew env seasonID weekID) k
              (weekResults.map (fun wr => (wr.1, previous wr.1 + wr.2))) tx.season_standings } ∧
      (standingLoop env seasonID weekID previous k weekResults (tx, n)).2 =
        n + weekResults.length := by
  induction weekResults with
  | nil => intro k tx n; simp [standingLoop, upsertLoop]
  | cons wr weekResults ih =>
    intro k tx n
    rw [standingLoop]
    obtain ⟨h1, h2⟩ := ih (k + 1)
      (upsertSeasonStanding tx (env.newID k) wr.1 seasonID weekID (previous wr.1 + wr.2) env.goNow)
      (n + 1)
    rw [h1, h2]
    constructor
    · simp only [upsertSeasonStanding, List.map_cons, upsertLoop]
      rfl
    · simp only [List.length_cons]
      push_cast
      ring

theorem updateWeekRanks_eq (tx : DB) (weekID : String) :
    updateWeekRanks tx weekID =
      { tx with
        week_results :=
          rankUpdate tx.week_results (fun r => r.ID) (fun r => r.Points)
            (fun r => r.WeekID == weekID) (fun rank r => { r with Rank := some rank }) } := rfl

theorem updateSeasonRanks_eq (tx : DB) (seasonID weekID : String) :
    updateSeasonRanks tx seasonID weekID =
      { tx with
        season_standings :=
          rankUpdate tx.season_standings (fun s => s.ID) (fun s => s.Points)
            (fun s => s.SeasonID == seasonID && s.WeekID == weekID)
            (fun rank s => { s with Rank := some rank }) } := rfl

/-- A rank update on a table with unique ids: a row in scope receives its competition rank
within the scope, a row outside the scope is left alone. -/
theorem rankUpdate_spec {α : Type} (rows : List α) (idOf : α → String) (ptsOf : α → Int)
    (inScope : α → Bool) (setRank : Int → α → α) (hnd : (rows.map idOf).Nodup)
    (hscope : ∀ k r, inScope (setRank k r) = inScope r)
    (hpts : ∀ k r, ptsOf (setRank k r) = ptsOf r) :
    rankUpdate rows idOf ptsOf inScope setRank =
      rows.map (fun r =>
        if inScope r then
          setRank (competitionRank
            (((rankUpdate rows idOf ptsOf inScope setRank).filter inScope).map ptsOf) (ptsOf r)) r
        else r) := by
  have hspec : rankUpdate rows idOf ptsOf inScope setRank =
      rows.map (fun r =>
        if inScope r then
          setRank (competitionRank ((rows.filter inScope).map ptsOf) (ptsOf r)) r
        else r) := by
    unfold rankUpdate
    apply List.map_congr_left
    intro r hr
    rw [subqueryRank_table rows idOf ptsOf inScope hnd hr]
    split_ifs <;> rfl
  have hsame : ((rankUpdate rows idOf ptsOf inScope setRank).filter inScope).map ptsOf =
      (rows.filter inScope).map ptsOf := by
    rw [hspec]
    have : ∀ (f : Int → Int) (l : List α),
        ((l.map (fun r => if inScope r then setRank (f (ptsOf r)) r else r)).filter
          inScope).map ptsOf = (l.filter inScope).map ptsOf := by
      intro f l
      induction l with
      | nil => rfl
      | cons r l ih =>
        by_cases hs : inScope r = true
        · simp only [List.map_cons, hs, if_true, List.filter_cons, hscope, hpts]
          rw [ih]
        · have hs1 : inScope r = false := by simpa using hs
          simp only [List.map_cons, hs1, List.filter_cons, Bool.false_eq_true, if_false]
          exact ih
    exact this (fun p => competitionRank ((rows.filter inScope).map ptsOf) p) rows
  rw [hsame]
  exact hspec

theorem CalculateWeekPoints_ok {env : Env} {db db1 : DB} {weekID : String}
    {res : CalculateWeekPointsResult}
    (h : CalculateWeekPoints env db weekID = (db1, .ok res)) :
    ∃ week s, GetWeekWithYear db weekID = .ok week ∧ week.Status = "picks_results_calculated" ∧
      settingsGet db = .ok s ∧
      db1 = UpdateWeekStatus env (updateWeekRanks
        (weekResultLoop env weekID 0
          (weekPointsQuery db s.PointsPerCorrectPick weekID week.SeasonID) (db, 0)).1 weekID)
        weekID "scored" := by
  have h1 := finish_ok h
  unfold CalculateWeekPointsTx at h1
  split at h1
  · simp at h1
  · rename_i week hweek
    split at h1
    · simp at h1
    · rename_i hstatus
      split at h1
      · simp at h1
      · rename_i s hs
        simp only [Except.ok.injEq, Prod.mk.injEq] at h1
        refine ⟨week, s, hweek, by simpa using hstatus, hs, h1.1.symm⟩

theorem CalculateSeasonSnapshot_ok {env : Env} {db db1 : DB} {weekID : String}
    {res : CalculateSeasonSnapshotResult}
    (h : CalculateSeasonSnapshot env db weekID = (db1, .ok res)) :
    ∃ week, GetWeekWithYear db weekID = .ok week ∧ week.Status = "scored" ∧
      db1 = closeWeek env (updateSeasonRanks
        (standingLoop env week.SeasonID weekID
          (previousPointsByUserID (previousStandings db week.SeasonID weekID)) 0
          ((db.week_results.filter (fun r => r.WeekID == weekID)).map
            (fun r => (r.UserID, r.Points))) (db, 0)).1 week.SeasonID weekID) weekID := by
  have h1 := finish_ok h
  unfold CalculateSeasonSnapshotTx at h1
  split at h1
  · simp at h1
  · rename_i week hweek
    split at h1
    · simp at h1
    · rename_i hstatus
      simp only [Except.ok.injEq, Prod.mk.injEq] at h1
      refine ⟨week, hweek, by simpa using hstatus, h1.1.symm⟩

/-- The week results after a successful `CalculateWeekPoints`: the upsert loop followed by
the rank update. -/
theorem CalculateWeekPoints_week_results {env : Env} {db db1 : DB} {weekID : String}
    {res : CalculateWeekPointsResult}
    (h : CalculateWeekPoints env db weekID = (db1, .ok res)) :
    ∃ week s, GetWeekWithYear db weekID = .ok week ∧ settingsGet db = .ok s ∧
      db1.week_results = rankUpdate
        (upsertLoop (wrOwns weekID) (wrSet env) (wrNew env weekID) 0
          ((weekPointsQuery db s.PointsPerCorrectPick weekID week.SeasonID).map
            (fun up => (up.UserID, up.Points))) db.week_results)
        (fun r => r.ID) (fun r => r.Points) (fun r => r.WeekID == weekID)
        (fun rank r => { r with Rank := some rank }) := by
  obtain ⟨week, s, hw, _, hs, hdb⟩ := CalculateWeekPoints_ok h
  refine ⟨week, s, hw, hs, ?_⟩
  rw [hdb, updateWeekRanks_eq, (weekResultLoop_eq env weekID _ 0 db 0).1]
  rfl

/-- The season standings after a successful `CalculateSeasonSnapshot`. -/
theorem CalculateSeasonSnapshot_standings {env : Env} {db db1 : DB} {weekID : String}
    {res : CalculateSeasonSnapshotResult}
    (h : CalculateSeasonSnapshot env db weekID = (db1, .ok res)) :
    ∃ week, GetWeekWithYear db weekID = .ok week ∧
      db1.season_standings = rankUpdate
        (upsertLoop (ssOwns week.SeasonID weekID) (ssSet env) (ssNew env week.SeasonID weekID) 0
          (((db.week_results.filter (fun r => r.WeekID == weekID)).map
            (fun r => (r.UserID, r.Points))).map
            (fun wr => (wr.1, previousPointsByUserID (previousStandings db week.SeasonID weekID)
              wr.1 + wr.2))) db.season_standings)
        (fun s => s.ID) (fun s => s.Points)
        (fun s => s.SeasonID == week.SeasonID && s.WeekID == weekID)
        (fun rank s => { s with Rank := some rank }) := by
  obtain ⟨week, hw, _, hdb⟩ := CalculateSeasonSnapshot_ok h
  refine ⟨week, hw, ?_⟩
  rw [hdb, updateSeasonRanks_eq, (standingLoop_eq env week.SeasonID weekID _ _ 0 db 0).1]
  rfl

theorem wr_ids_nodup (env : Env) (weekID : String) (items : List (String × Int))
    (rows : List WeekResult) (hinj : Function.Injective env.newID)
    (hnd : (rows.map (fun r => r.ID)).Nodup)
    (hfresh : ∀ k, env.newID k ∉ rows.map (fun r => r.ID)) :
    ((upsertLoop (wrOwns weekID) (wrSet env) (wrNew env weekID) 0 items rows).map
      (fun r => r.ID)).Nodup :=
  upsertLoop_ids (wrOwns weekID) (wrSet env) (wrNew env weekID) (fun r => r.ID) env.newID
    (fun _ _ => rfl) (fun _ _ _ => rfl) hinj items 0 rows hnd
    (fun _ hmem j _ e => hfresh j (e ▸ hmem))

theorem ss_ids_nodup (env : Env) (seasonID weekID : String) (items : List (String × Int))
    (rows : List SeasonStanding) (hinj : Function.Injective env.newID)
    (hnd : (rows.map (fun r => r.ID)).Nodup)
    (hfresh : ∀ k, env.newID k ∉ rows.map (fun r => r.ID)) :
    ((upsertLoop (ssOwns seasonID weekID) (ssSet env) (ssNew env seasonID weekID) 0 items rows).map
      (fun r => r.ID)).Nodup :=
  upsertLoop_ids (ssOwns seasonID weekID) (ssSet env) (ssNew env seasonID weekID) (fun r => r.ID)
    env.newID (fun _ _ => rfl) (fun _ _ _ => rfl) hinj items 0 rows hnd
    (fun _ hmem j _ e => hfresh j (e ▸ hmem))

/-- C5: the rank written by `CalculateWeekPoints` (scope: the week results of the week) and
by `CalculateSeasonSnapshot` (scope: the standings of the season and week) is the standard
competition rank: one plus the number of rows of the scope with strictly more points; the
scores 10, 10, 7 receive the ranks 1, 1, 3.  Row ids are the tables' primary keys and the
generated ULIDs are new. -/
theorem rank_is_competition_rank (env : Env) (db db1 : DB) (weekID : String)
    (hinj : Function.Injective env.newID) :
    (∀ res, CalculateWeekPoints env db weekID = (db1, .ok res) →
      (db.week_results.map (fun r => r.ID)).Nodup →
      (∀ k, env.newID k ∉ db.week_results.map (fun r => r.ID)) →
      ∀ r ∈ db1.week_results, r.WeekID = weekID →
        r.Rank = some (competitionRank
          ((db1.week_results.filter (fun x => x.WeekID == weekID)).map (fun x => x.Points))
          r.Points)) ∧
    (∀ res week, CalculateSeasonSnapshot env db weekID = (db1, .ok res) →
      GetWeekWithYear db weekID = .ok week →
      (db.season_standings.map (fun s => s.ID)).Nodup →
      (∀ k, env.newID k ∉ db.season_standings.map (fun s => s.ID)) →
      ∀ s ∈ db1.season_standings, s.SeasonID = week.SeasonID → s.WeekID = weekID →
        s.Rank = some (competitionRank
          ((db1.season_standings.filter
            (fun x => x.SeasonID == week.SeasonID && x.WeekID == weekID)).map (fun x => x.Points))
          s.Points)) ∧
    rankSubquery [("a", 10), ("b", 10), ("c", 7)] = [("a", 1), ("b", 1), ("c", 3)] := by
  refine ⟨?_, ?_, by decide⟩
  · intro res h hnd hfresh r hr hweek
    obtain ⟨week, s, _, _, hwr⟩ := CalculateWeekPoints_week_results h
    have hnd1 := wr_ids_nodup env weekID
      ((weekPointsQuery db s.PointsPerCorrectPick weekID week.SeasonID).map
        (fun up => (up.UserID, up.Points))) db.week_results hinj hnd hfresh
    have hspec := rankUpdate_spec _ (fun r : WeekResult => r.ID) (fun r => r.Points)
      (fun r => r.WeekID == weekID) (fun rank r => { r with Rank := some rank }) hnd1
      (fun _ _ => rfl) (fun _ _ => rfl)
    rw [← hwr] at hspec
    rw [hspec] at hr
    obtain ⟨r0, _, he⟩ := List.mem_map.mp hr
    by_cases hs : (r0.WeekID == weekID) = true
    · simp only [hs, if_true] at he
      rw [← he]
    · simp only [hs, Bool.false_eq_true, if_false] at he
      rw [← he] at hweek
      exact absurd (by simpa using hweek) hs
  · intro res week h hw hnd hfresh s hs hseason hweek
    obtain ⟨week1, hw1, hss⟩ := CalculateSeasonSnapshot_standings h
    rw [hw] at hw1
    cases hw1
    have hnd1 := ss_ids_nodup env week.SeasonID weekID
      (((db.week_results.filter (fun r => r.WeekID == weekID)).map
        (fun r => (r.UserID, r.Points))).map
        (fun wr => (wr.1, previousPointsByUserID (previousStandings db week.SeasonID weekID)
          wr.1 + wr.2))) db.season_standings hinj hnd hfresh
    have hspec := rankUpdate_spec _ (fun s : SeasonStanding => s.ID) (fun s => s.Points)
      (fun s => s.SeasonID == week.SeasonID && s.WeekID == weekID)
      (fun rank s => { s with Rank := some rank }) hnd1 (fun _ _ => rfl) (fun _ _ => rfl)
    rw [← hss] at hspec
    rw [hspec] at hs
    obtain ⟨s0, _, he⟩ := List.mem_map.mp hs
    by_cases hsc : (s0.SeasonID == week.SeasonID && s0.WeekID == weekID) = true
    · simp only [hsc, if_true] at he
      rw [← he]
    · simp only [hsc, Bool.false_eq_true, if_false] at he
      rw [← he] at hweek hseason
      exact absurd (by simp [hweek, hseason]) hsc

theorem exampleNewID_injective : Function.Injective exampleNewID := by
  intro a b h
  have := congrArg String.length h
  simpa [exampleNewID, String.length] using this

theorem exampleNewID_fresh (ids : List String) (h : ∀ id ∈ ids, id.data.head? ≠ some 'n') :
    ∀ k, exampleNewID k ∉ ids := by
  intro k hmem
  exact h _ hmem (by simp [exampleNewID, List.replicate_succ])


/-- Witness for C5: the theorem applied to the scoring of week w1 and to the snapshot of
week w2 of the examples. -/
theorem rank_is_competition_rank_witness :
    (exampleResult "nn" "u2" "w1" 0 (some 2)).Rank = some (competitionRank
      (((CalculateWeekPoints (exampleEnv []) scoringDB "w1").1.week_results.filter
        (fun x => x.WeekID == "w1")).map (fun x => x.Points)) 0) ∧
    (exampleStanding "n" "u1" "w2" 5 (some 1)).Rank = some (competitionRank
      (((CalculateSeasonSnapshot (exampleEnv []) snapshotDB "w2").1.season_standings.filter
        (fun x => x.SeasonID == "s1" && x.WeekID == "w2")).map (fun x => x.Points)) 5) :=
  ⟨(rank_is_competition_rank (exampleEnv []) scoringDB
      (CalculateWeekPoints (exampleEnv []) scoringDB "w1").1 "w1" exampleNewID_injective).1
      { UsersProcessed := 2 } rfl (by decide) (exampleNewID_fresh _ (by decide))
      { exampleResult "nn" "u2" "w1" 0 (some 2) with
        ComputedAt := 101, CreatedAt := 101, UpdatedAt := 101 } (by decide) rfl,
   (rank_is_competition_rank (exampleEnv []) snapshotDB
      (CalculateSeasonSnapshot (exampleEnv []) snapshotDB "w2").1 "w2"
      exampleNewID_injective).2.1
      { UsersProcessed := 1 }
      { ID := "w2", SeasonID := "s1", Number := 2, Status := "scored", Year := 2025,
        IsPostseason := false } rfl rfl (by decide) (exampleNewID_fresh _ (by decide))
      { exampleStanding "n" "u1" "w2" 5 (some 1) with
        ComputedAt := 101, CreatedAt := 101, UpdatedAt := 101 } (by decide) rfl rfl⟩

/-! ## Inversion of the stage functions and what they leave alone -/

theorem GetWeekWithYear_mem {db : DB} {weekID : String} {week : WeekWithYear}
    (h : GetWeekWithYear db weekID = .ok week) :
    ∃ w ∈ db.weeks, w.ID = weekID ∧ w.Status = week.Status ∧ w.SeasonID = week.SeasonID ∧
      w.Number = week.Number ∧ week.ID = weekID ∧
      ∃ s ∈ db.seasons, s.ID = w.SeasonID ∧ s.Year = week.Year ∧
        s.IsPostseason = week.IsPostseason := by
  unfold GetWeekWithYear at h
  split at h
  · rename_i w0 hw0
    simp only [Except.ok.injEq] at h
    subst h
    have hmem := List.mem_of_mem_head? hw0
    simp only [weekWithYearRows, List.mem_flatMap, List.mem_filter, List.mem_map,
      beq_iff_eq] at hmem
    obtain ⟨w, ⟨hw, hid⟩, s, ⟨hs, hsid⟩, he⟩ := hmem
    subst he
    exact ⟨w, hw, hid, rfl, rfl, rfl, hid, s, hs, hsid, rfl, rfl⟩
  · simp at h

theorem find?_week_mem {ws : List Week} {weekID : String} {w : Week}
    (h : ws.find? (fun w => w.ID == weekID) = some w) : w ∈ ws ∧ w.ID = weekID :=
  ⟨List.mem_of_find?_eq_some h, by simpa using List.find?_some h⟩

theorem GetWeekStatus_mem {db : DB} {weekID status : String}
    (h : GetWeekStatus db weekID = .ok status) :
    ∃ w ∈ db.weeks, w.ID = weekID ∧ w.Status = status := by
  unfold GetWeekStatus at h
  split at h
  · rename_i w hw
    simp only [Except.ok.injEq] at h
    exact ⟨w, (find?_week_mem hw).1, (find?_week_mem hw).2, h⟩
  · simp at h

theorem insertGames_frame (env : Env) (week : WeekWithYear) (weekID actingUserID : String)
    (validated : List validatedGame) :
    ∀ (k : Nat) (tx : DB) (n : Int),
      (insertGames env week weekID actingUserID k validated (tx, n)).1 =
        { tx with
          games := tx.games ++
            (validated.enumFrom k).map
              (fun kg => newGameRow env week weekID actingUserID kg.1 kg.2) } ∧
      (insertGames env week weekID actingUserID k validated (tx, n)).2 = n + validated.length := by
  induction validated with
  | nil => intro k tx n; simp [insertGames]
  | cons g rest ih =>
    intro k tx n
    rw [insertGames]
    obtain ⟨h1, h2⟩ := ih (k + 1)
      { tx with games := tx.games ++ [newGameRow env week weekID actingUserID k g] } (n + 1)
    rw [h1, h2]
    constructor
    · simp [List.enumFrom_cons]
    · simp only [List.length_cons]
      push_cast
      ring

theorem ImportGamesForWeek_ok {env : Env} {db db1 : DB} {weekID actingUserID : String}
    {res : ImportGamesResult}
    (h : ImportGamesForWeek env db weekID actingUserID = (db1, .ok res)) :
    ∃ week externalGames validated,
      GetWeekWithYear db weekID = .ok week ∧ week.Status = "draft" ∧
      FetchGames env week.Year week.Number week.IsPostseason = .ok externalGames ∧
      externalGames ≠ [] ∧
      validateGames db externalGames = .ok validated ∧
      db1 = UpdateWeekStatus env
        { db with
          games := db.games.filter (fun g => !(g.WeekID == weekID)) ++
            (validated.enumFrom 0).map
              (fun kg => newGameRow env week weekID actingUserID kg.1 kg.2) }
        weekID "games_imported" ∧
      res.GamesCreated = validated.length := by
  have h1 := finish_ok h
  unfold ImportGamesForWeekTx at h1
  split at h1
  · simp at h1
  · rename_i week hweek
    split at h1
    · simp at h1
    · rename_i hstatus
      split at h1
      · simp at h1
      · split at h1
        · simp at h1
        · rename_i externalGames hfetch
          split at h1
          · simp at h1
          · rename_i hlen
            split at h1
            · simp at h1
            · rename_i validated hval
              simp only [Except.ok.injEq, Prod.mk.injEq] at h1
              obtain ⟨hdb, hres⟩ := h1
              have hfr := insertGames_frame env week weekID actingUserID validated 0
                { db with games := db.games.filter (fun g => !(g.WeekID == weekID)) } 0
              rw [hfr.1] at hdb
              rw [hfr.2] at hres
              refine ⟨week, externalGames, validated, hweek, by simpa using hstatus, hfetch, ?_,
                hval, hdb.symm, ?_⟩
              · intro he
                rw [he] at hlen
                simp at hlen
              · rw [← hres]
                simp

theorem scoreLoop_tx (env : Env) (weekID : String) (externalGames : List ExternalGame) :
    ∀ st : scoreLoopState,
      (scoreLoop env weekID externalGames st).tx =
        { st.tx with games := st.tx.games.map (scoreRow env weekID externalGames) } := by
  induction externalGames with
  | nil =>
    intro st
    have h : scoreRow env weekID [] = id := by funext g; rfl
    rw [scoreLoop, h, List.map_id]
  | cons e rest ih =>
    intro st
    rw [scoreLoop]
    by_cases hfin : (e.Status != "Final" && e.Status != "Final/OT") = true
    · rw [if_pos hfin, ih]
      have h : scoreRow env weekID (e :: rest) = scoreRow env weekID rest := by
        funext g
        simp only [scoreRow, List.foldl_cons, isFinished, hfin]
        rfl
      rw [h]
    · rw [if_neg hfin]
      have hstep : ∀ g, scoreRow env weekID (e :: rest) g = scoreRow env weekID rest
          (if scoreTarget e weekID g then
            { g with HomeScore := e.HomeTeamScore, AwayScore := e.AwayTeamScore,
                     Status := "final", UpdatedAt := env.sqlNow }
          else g) := by
        intro g
        have : isFinished e = true := by
          unfold isFinished
          cases h : (e.Status != "Final" && e.Status != "Final/OT")
          · rfl
          · exact absurd h hfin
        simp only [scoreRow, List.foldl_cons, this, Bool.true_and]
      simp only
      split_ifs
      all_goals
        rw [ih]
        have hmap : List.map (scoreRow env weekID rest) (updateGameScore env st.tx e weekID).games =
            List.map (scoreRow env weekID (e :: rest)) st.tx.games := by
          simp only [updateGameScore, List.map_map]
          apply List.map_congr_left
          intro g _
          rw [hstep]
          rfl
        simp only [hmap]
        rfl

theorem ImportScoresForWeek_ok {env : Env} {db db1 : DB} {weekID : String}
    {res : ImportScoresResult}
    (h : ImportScoresForWeek env db weekID = (db1, .ok res)) :
    ∃ week externalGames,
      GetWeekWithYear db weekID = .ok week ∧ week.Status = "active" ∧
      FetchGames env week.Year week.Number week.IsPostseason = .ok externalGames ∧
      res.AllGamesPlayed =
        decide (∀ g ∈ db.games.map (scoreRow env weekID externalGames),
          g.WeekID = weekID → g.Status = "final") ∧
      db1 = (if res.AllGamesPlayed then
          UpdateWeekStatus env
            { db with games := db.games.map (scoreRow env weekID externalGames) } weekID "played"
        else { db with games := db.games.map (scoreRow env weekID externalGames) }) := by
  have h1 := finish_ok h
  unfold ImportScoresForWeekTx at h1
  split at h1
  · simp at h1
  · rename_i week hweek
    split at h1
    · simp at h1
    · rename_i hstatus
      split at h1
      · simp at h1
      · split at h1
        · simp at h1
        · rename_i externalGames hfetch
          simp only [Except.ok.injEq, Prod.mk.injEq] at h1
          obtain ⟨hdb, hres⟩ := h1
          rw [scoreLoop_tx] at hdb hres
          have hall : res.AllGamesPlayed =
              decide (∀ g ∈ db.games.map (scoreRow env weekID externalGames),
                g.WeekID = weekID → g.Status = "final") := by
            rw [← hres]
            simp only
            rw [Bool.eq_iff_iff]
            simp only [beq_iff_eq, Nat.cast_eq_zero, List.length_eq_zero, List.filter_eq_nil_iff,
              Bool.and_eq_true, bne_iff_ne, ne_eq, not_and, not_not, decide_eq_true_eq]
          refine ⟨week, externalGames, hweek, by simpa using hstatus, hfetch, hall, ?_⟩
          rw [← hdb]
          have : res.AllGamesPlayed = ((((List.filter (fun g => g.WeekID == weekID && g.Status != "final")
              ({ db with games := db.games.map (scoreRow env weekID externalGames) } : DB).games).length : Int)) == 0) := by
            rw [← hres]
          rw [this]

theorem applyPickUpdates_append (env : Env) (us vs : List (String × Option Bool)) (p : Pick) :
    applyPickUpdates env (us ++ vs) p = applyPickUpdates env vs (applyPickUpdates env us p) := by
  simp [applyPickUpdates, List.foldl_append]

theorem pickLoop_tx (env : Env) (game : Game) (winningTeamID : Option TeamRef)
    (picks : List Pick) :
    ∀ (tx : DB) (n : Int),
      (pickLoop env game winningTeamID picks (tx, n)).1 =
        { tx with
          picks := tx.picks.map (applyPickUpdates env
            (picks.map (fun p => (p.ID, pickIsCorrect game p winningTeamID)))) } ∧
      (pickLoop env game winningTeamID picks (tx, n)).2 = n + picks.length := by
  induction picks with
  | nil =>
    intro tx n
    have h : applyPickUpdates env [] = id := by funext p; rfl
    simp [pickLoop, h]
  | cons p rest ih =>
    intro tx n
    rw [pickLoop]
    obtain ⟨h1, h2⟩ := ih (updatePickResult tx (pickIsCorrect game p winningTeamID) env.goNow p.ID)
      (n + 1)
    rw [h1, h2]
    constructor
    · simp only [updatePickResult, List.map_map, List.map_cons]
      congr 1
    · simp only [List.length_cons]
      push_cast
      ring

theorem gameLoop_tx (env : Env) (picks : List Pick) (games : List Game) :
    ∀ (tx tx1 : DB) (res res1 : CalculatePickResultsResult),
      gameLoop env picks games (tx, res) = .ok (tx1, res1) →
      (∀ g ∈ games, ∃ w, WinningTeamByGame g = .ok w) ∧
      tx1 = { tx with
              picks := tx.picks.map (applyPickUpdates env (games.flatMap (gamePickUpdates picks))) } ∧
      res1.GamesProcessed = res.GamesProcessed + games.length ∧
      res1.PicksUpdated = res.PicksUpdated + (games.flatMap (gamePickUpdates picks)).length := by
  induction games with
  | nil =>
    intro tx tx1 res res1 h
    have hid : applyPickUpdates env [] = id := by funext p; rfl
    simp only [gameLoop, Except.ok.injEq, Prod.mk.injEq] at h
    simp [← h.1, ← h.2, hid]
  | cons g rest ih =>
    intro tx tx1 res res1 h
    rw [gameLoop] at h
    split at h
    · simp at h
    · rename_i w hw
      obtain ⟨hall, htx, hg, hp⟩ := ih _ _ _ _ h
      obtain ⟨hp1, hp2⟩ := pickLoop_tx env g w (picks.filter (fun p => p.GameID == g.ID)) tx
        res.PicksUpdated
      have hupd : gamePickUpdates picks g =
          (picks.filter (fun p => p.GameID == g.ID)).map (fun p => (p.ID, pickIsCorrect g p w)) := by
        simp only [gamePickUpdates, hw]
      refine ⟨?_, ?_, ?_, ?_⟩
      · intro g1 hg1
        rcases List.mem_cons.mp hg1 with rfl | h1
        · exact ⟨w, hw⟩
        · exact hall g1 h1
      · rw [htx, hp1]
        simp only [List.flatMap_cons, List.map_map, hupd]
        congr 1
        apply List.map_congr_left
        intro p _
        simp only [Function.comp_apply, applyPickUpdates_append]
      · rw [hg]
        simp only [List.length_cons]
        push_cast
        ring
      · rw [hp]
        simp only [hp2, List.flatMap_cons, List.length_append, hupd, List.length_map]
        push_cast
        ring

theorem CalculatePickResults_ok {env : Env} {db db1 : DB} {weekID : String}
    {res : CalculatePickResultsResult}
    (h : CalculatePickResults env db weekID = (db1, .ok res)) :
    GetWeekStatus db weekID = .ok "played" ∧
    (∀ g ∈ GetWeekGames db weekID, ∃ w, WinningTeamByGame g = .ok w) ∧
    db1 = UpdateWeekStatus env
      { db with
        picks := db.picks.map (applyPickUpdates env
          ((GetWeekGames db weekID).flatMap (gamePickUpdates (GetWeekPicks db weekID)))) }
      weekID "picks_results_calculated" ∧
    res.PicksUpdated =
      ((GetWeekGames db weekID).flatMap (gamePickUpdates (GetWeekPicks db weekID))).length := by
  have h1 := finish_ok h
  unfold CalculatePickResultsTx at h1
  split at h1
  · simp at h1
  · rename_i status hstatus
    split at h1
    · simp at h1
    · rename_i hplayed
      simp only at h1
      split at h1
      · simp at h1
      · rename_i tx res0 hloop
        simp only [Except.ok.injEq, Prod.mk.injEq] at h1
        obtain ⟨hall, htx, _, hp⟩ := gameLoop_tx env _ _ _ _ _ _ hloop
        have hs : status = "played" := by simpa using hplayed
        refine ⟨by rw [hstatus, hs], hall, ?_, ?_⟩
        · rw [← h1.1, htx]
        · rw [← h1.2, hp]
          simp

/-! ## C1: the path of a week's status -/

theorem forall₂_comp {α : Type} {R S T : α → α → Prop}
    (h : ∀ a b c, R a b → S b c → T a c) :
    ∀ {l1 l2 l3 : List α}, List.Forall₂ R l1 l2 → List.Forall₂ S l2 l3 → List.Forall₂ T l1 l3 := by
  intro l1 l2 l3 h12
  induction h12 generalizing l3 with
  | nil => intro h23; cases h23; exact List.Forall₂.nil
  | cons hab _ ih =>
    intro h23
    cases h23 with
    | cons hbc hrest => exact List.Forall₂.cons (h _ _ _ hab hbc) (ih hrest)

theorem forall₂_map_self {α : Type} {R : α → α → Prop} (g : α → α) (l : List α)
    (h : ∀ a ∈ l, R a (g a)) : List.Forall₂ R l (l.map g) := by
  induction l with
  | nil => exact List.Forall₂.nil
  | cons a l ih =>
    exact List.Forall₂.cons (h a (List.mem_cons_self _ _))
      (ih (fun b hb => h b (List.mem_cons_of_mem _ hb)))

theorem weekStep_ids {ws ws1 : List Week} (h : List.Forall₂ weekStep ws ws1) :
    ws1.map (fun w => w.ID) = ws.map (fun w => w.ID) := by
  induction h with
  | nil => rfl
  | cons hab _ ih => simp only [List.map_cons, ih, hab.1]

theorem WeeksAdvance_step {weekID pre post : String} {ws ws1 : List Week}
    (hnd : (ws.map (fun w => w.ID)).Nodup) (h : WeeksAdvance weekID pre post ws ws1)
    (hs : post = pre ∨ nextStatus pre = some post) : List.Forall₂ weekStep ws ws1 := by
  rcases h with h | ⟨⟨w0, hw0, hid0, hst0⟩, f, hf, h⟩
  · rw [h]
    exact List.forall₂_same.mpr (fun w _ => ⟨rfl, Or.inl rfl⟩)
  · rw [h]
    apply forall₂_map_self
    intro w hw
    by_cases hid : w.ID = weekID
    · have hww : w = w0 := List.inj_on_of_nodup_map hnd hw hw0 (by rw [hid, hid0])
      have hb : (w.ID == weekID) = true := by simpa using hid
      rw [if_pos hb]
      refine ⟨(hf w).1, ?_⟩
      rw [(hf w).2.1, hww, hst0]
      rcases hs with hs | hs
      · exact Or.inl hs
      · exact Or.inr hs
    · have hb : ¬ (w.ID == weekID) = true := by simpa using hid
      rw [if_neg hb]
      exact ⟨rfl, Or.inl rfl⟩

theorem WeeksAdvance_status {env : Env} {tx : DB} {weekID pre post : String} {ws : List Week}
    (htx : tx.weeks = ws) (hpre : ∃ w ∈ ws, w.ID = weekID ∧ w.Status = pre) :
    WeeksAdvance weekID pre post ws (UpdateWeekStatus env tx weekID post).weeks :=
  Or.inr ⟨hpre, fun w => { w with Status := post, UpdatedAt := env.sqlNow },
    fun _ => ⟨rfl, rfl, rfl, rfl⟩, by rw [← htx]; rfl⟩

theorem ImportGamesForWeek_weeks (env : Env) (db : DB) (weekID actingUserID : String) :
    WeeksAdvance weekID "draft" "games_imported" db.weeks
      (ImportGamesForWeek env db weekID actingUserID).1.weeks := by
  rcases h : ImportGamesForWeek env db weekID actingUserID with ⟨db1, r⟩
  cases r with
  | error e => exact Or.inl (by rw [(finish_error h).1])
  | ok res =>
    obtain ⟨week, _, _, hw, hst, _, _, _, hdb, _⟩ := ImportGamesForWeek_ok h
    obtain ⟨w, hmem, hid, hs, _⟩ := GetWeekWithYear_mem hw
    simp only
    rw [hdb]
    exact WeeksAdvance_status rfl ⟨w, hmem, hid, by rw [hs, hst]⟩

theorem ImportScoresForWeek_weeks (env : Env) (db : DB) (weekID : String) :
    WeeksAdvance weekID "active" "played" db.weeks (ImportScoresForWeek env db weekID).1.weeks := by
  rcases h : ImportScoresForWeek env db weekID with ⟨db1, r⟩
  cases r with
  | error e => exact Or.inl (by rw [(finish_error h).1])
  | ok res =>
    obtain ⟨week, _, hw, hst, _, _, hdb⟩ := ImportScoresForWeek_ok h
    obtain ⟨w, hmem, hid, hs, _⟩ := GetWeekWithYear_mem hw
    simp only
    rw [hdb]
    split_ifs
    · exact WeeksAdvance_status rfl ⟨w, hmem, hid, by rw [hs, hst]⟩
    · exact Or.inl rfl

theorem CalculatePickResults_weeks (env : Env) (db : DB) (weekID : String) :
    WeeksAdvance weekID "played" "picks_results_calculated" db.weeks
      (CalculatePickResults env db weekID).1.weeks := by
  rcases h : CalculatePickResults env db weekID with ⟨db1, r⟩
  cases r with
  | error e => exact Or.inl (by rw [(finish_error h).1])
  | ok res =>
    obtain ⟨hst, _, hdb, _⟩ := CalculatePickResults_ok h
    obtain ⟨w, hmem, hid, hs⟩ := GetWeekStatus_mem hst
    simp only
    rw [hdb]
    exact WeeksAdvance_status rfl ⟨w, hmem, hid, hs⟩

theorem CalculateWeekPoints_weeks (env : Env) (db : DB) (weekID : String) :
    WeeksAdvance weekID "picks_results_calculated" "scored" db.weeks
      (CalculateWeekPoints env db weekID).1.weeks := by
  rcases h : CalculateWeekPoints env db weekID with ⟨db1, r⟩
  cases r with
  | error e => exact Or.inl (by rw [(finish_error h).1])
  | ok res =>
    obtain ⟨week, s, hw, hst, _, hdb⟩ := CalculateWeekPoints_ok h
    obtain ⟨w, hmem, hid, hs, _⟩ := GetWeekWithYear_mem hw
    simp only
    rw [hdb]
    apply WeeksAdvance_status _ ⟨w, hmem, hid, by rw [hs, hst]⟩
    rw [updateWeekRanks_eq, (weekResultLoop_eq env weekID _ 0 db 0).1]

theorem CalculateSeasonSnapshot_weeks (env : Env) (db : DB) (weekID : String) :
    WeeksAdvance weekID "scored" "final" db.weeks
      (CalculateSeasonSnapshot env db weekID).1.weeks := by
  rcases h : CalculateSeasonSnapshot env db weekID with ⟨db1, r⟩
  cases r with
  | error e => exact Or.inl (by rw [(finish_error h).1])
  | ok res =>
    obtain ⟨week, hw, hst, hdb⟩ := CalculateSeasonSnapshot_ok h
    obtain ⟨w, hmem, hid, hs, _⟩ := GetWeekWithYear_mem hw
    simp only
    rw [hdb]
    refine Or.inr ⟨⟨w, hmem, hid, by rw [hs, hst]⟩,
      fun w => { w with Status := "final", ClosedAt := some env.sqlNow, UpdatedAt := env.sqlNow },
      fun _ => ⟨rfl, rfl, rfl, rfl⟩, ?_⟩
    rw [closeWeek, updateSeasonRanks_eq, (standingLoop_eq env week.SeasonID weekID _ _ 0 db 0).1]

theorem spreadLoop_frame (env : Env) (weekID : String) (games : List GameSpreadUpdate) :
    ∀ (tx tx1 : DB), spreadLoop env weekID games tx = some tx1 →
      tx1 = { tx with games := tx1.games } := by
  induction games with
  | nil => intro tx tx1 h; simp only [spreadLoop, Option.some.injEq] at h; rw [← h]
  | cons g rest ih =>
    intro tx tx1 h
    rw [spreadLoop] at h
    split_ifs at h
    have := ih _ _ h
    rw [this]
    rfl

theorem spreadFold_frame (env : Env) (weekID : String) (updates : List (String × ℚ)) :
    ∀ tx : DB,
      (updates.foldl (fun tx update => updateGameSpread env tx (some update.2) update.1 weekID) tx) =
        { tx with
          games := (updates.foldl
            (fun tx update => updateGameSpread env tx (some update.2) update.1 weekID) tx).games } := by
  induction updates with
  | nil => intro tx; rfl
  | cons u rest ih =>
    intro tx
    rw [List.foldl_cons, ih]
    rfl

theorem UpdateSpreads_weeks (env : Env) (db : DB) (weekID : String)
    (games : List GameSpreadUpdate) :
    ∃ pre, (pre = "games_imported" ∨ pre = "spreads_set") ∧
      WeeksAdvance weekID pre "spreads_set" db.weeks (UpdateSpreads env db weekID games).1.weeks := by
  have hnone : ∃ pre, (pre = "games_imported" ∨ pre = "spreads_set") ∧
      WeeksAdvance weekID pre "spreads_set" db.weeks db.weeks :=
    ⟨"spreads_set", Or.inr rfl, Or.inl rfl⟩
  unfold UpdateSpreads
  split
  · exact hnone
  · split
    · exact hnone
    · rename_i week hweek
      split
      · exact hnone
      · rename_i h2
        split
        · exact hnone
        · split
          · exact hnone
          · rename_i tx htx
            have hfr := spreadLoop_frame env weekID games db tx htx
            have hw : tx.weeks = db.weeks := by rw [hfr]
            have hpre : week.Status = "games_imported" ∨ week.Status = "spreads_set" := by
              by_contra hc
              apply h2
              simp only [not_or] at hc
              simp [hc.1, hc.2]
            have hadv : WeeksAdvance weekID week.Status "spreads_set" db.weeks
                (UpdateWeekStatus env tx weekID "spreads_set").weeks :=
              WeeksAdvance_status hw ⟨week, (find?_week_mem hweek).1, (find?_week_mem hweek).2, rfl⟩
            simp only
            split <;> exact ⟨week.Status, hpre, hadv⟩

theorem AutoImportSpreads_weeks (env : Env) (db : DB) (weekID bookmaker : String) :
    ∃ pre, (pre = "games_imported" ∨ pre = "spreads_set") ∧
      WeeksAdvance weekID pre "spreads_set" db.weeks
        (AutoImportSpreads env db weekID bookmaker).1.weeks := by
  have hnone : ∃ pre, (pre = "games_imported" ∨ pre = "spreads_set") ∧
      WeeksAdvance weekID pre "spreads_set" db.weeks db.weeks :=
    ⟨"spreads_set", Or.inr rfl, Or.inl rfl⟩
  unfold AutoImportSpreads
  split
  · exact hnone
  · split
    · exact hnone
    · rename_i status hstatus
      split
      · exact hnone
      · rename_i h2
        simp only
        split
        · exact hnone
        · split
          · exact hnone
          · rename_i spreads hodds
            split
            · exact hnone
            · have hpre : status = "games_imported" ∨ status = "spreads_set" := by
                by_contra hc
                apply h2
                simp only [not_or] at hc
                simp [hc.1, hc.2]
              obtain ⟨w, hmem, hid, hs⟩ := GetWeekStatus_mem hstatus
              refine ⟨status, hpre, WeeksAdvance_status ?_ ⟨w, hmem, hid, hs⟩⟩
              rw [spreadFold_frame]

theorem ActivateWeek_weeks (env : Env) (db : DB) (weekID : String) :
    WeeksAdvance weekID "spreads_set" "active" db.weeks (ActivateWeek env db weekID).1.weeks := by
  unfold ActivateWeek
  split
  · exact Or.inl rfl
  · split
    · exact Or.inl rfl
    · rename_i week hweek
      split
      · exact Or.inl rfl
      · rename_i h2
        simp only
        split
        · exact Or.inl rfl
        · refine Or.inr ⟨⟨week, (find?_week_mem hweek).1, (find?_week_mem hweek).2,
              by simpa using h2⟩,
            fun w => { w with Status := "active", ActivatedAt := some env.sqlNow,
                              UpdatedAt := env.sqlNow },
            fun _ => ⟨rfl, rfl, rfl, rfl⟩, rfl⟩

/-- Every stage function and handler moves every week by at most one status. -/
theorem stage_weekStep (env : Env) (db : DB) (hnd : (db.weeks.map (fun w => w.ID)).Nodup)
    (op : Operation) (hop : op.isAdvance = false) :
    List.Forall₂ weekStep db.weeks (op.run env db).weeks := by
  cases op with
  | ImportGamesForWeek weekID actingUserID =>
    exact WeeksAdvance_step hnd (ImportGamesForWeek_weeks env db weekID actingUserID)
      (Or.inr (by decide))
  | UpdateSpreads weekID games =>
    obtain ⟨pre, hpre, h⟩ := UpdateSpreads_weeks env db weekID games
    rcases hpre with rfl | rfl
    · exact WeeksAdvance_step hnd h (Or.inr (by decide))
    · exact WeeksAdvance_step hnd h (Or.inl rfl)
  | AutoImportSpreads weekID bookmaker =>
    obtain ⟨pre, hpre, h⟩ := AutoImportSpreads_weeks env db weekID bookmaker
    rcases hpre with rfl | rfl
    · exact WeeksAdvance_step hnd h (Or.inr (by decide))
    · exact WeeksAdvance_step hnd h (Or.inl rfl)
  | ActivateWeek weekID =>
    exact WeeksAdvance_step hnd (ActivateWeek_weeks env db weekID) (Or.inr (by decide))
  | ImportScoresForWeek weekID =>
    exact WeeksAdvance_step hnd (ImportScoresForWeek_weeks env db weekID) (Or.inr (by decide))
  | CalculatePickResults weekID =>
    exact WeeksAdvance_step hnd (CalculatePickResults_weeks env db weekID) (Or.inr (by decide))
  | CalculateWeekPoints weekID =>
    exact WeeksAdvance_step hnd (CalculateWeekPoints_weeks env db weekID) (Or.inr (by decide))
  | CalculateSeasonSnapshot weekID =>
    exact WeeksAdvance_step hnd (CalculateSeasonSnapshot_weeks env db weekID) (Or.inr (by decide))
  | AdvanceWeekState week actingUserID => simp [Operation.isAdvance] at hop

/-- One pass through the switch of the state machine moves every week by at most one
status. -/
theorem advanceStep_weekStep (env : Env) (actingUserID : String) (db : DB) (week : Week)
    (hnd : (db.weeks.map (fun w => w.ID)).Nodup) :
    (∀ db1 err, advanceStep env actingUserID db week = .stop db1 err →
      List.Forall₂ weekStep db.weeks db1.weeks) ∧
    (∀ db1, advanceStep env actingUserID db week = .reload db1 →
      List.Forall₂ weekStep db.weeks db1.weeks) := by
  have hsame : List.Forall₂ weekStep db.weeks db.weeks :=
    List.forall₂_same.mpr (fun w _ => ⟨rfl, Or.inl rfl⟩)
  have hG := stage_weekStep env db hnd (.ImportGamesForWeek week.ID actingUserID) rfl
  have hS := stage_weekStep env db hnd (.ImportScoresForWeek week.ID) rfl
  have hP := stage_weekStep env db hnd (.CalculatePickResults week.ID) rfl
  have hW := stage_weekStep env db hnd (.CalculateWeekPoints week.ID) rfl
  have hF := stage_weekStep env db hnd (.CalculateSeasonSnapshot week.ID) rfl
  simp only [Operation.run] at hG hS hP hW hF
  unfold advanceStep
  constructor
  · intro db1 err h
    split_ifs at h
    · split at h
      · rename_i hr; cases h; rw [hr] at hG; exact hG
      · cases h
    · cases h; exact hsame
    · cases h; exact hsame
    · split at h
      · rename_i hr; cases h; rw [hr] at hS; exact hS
      · rename_i hr
        split_ifs at h
        · cases h; rw [hr] at hS; exact hS
    · split at h
      · rename_i hr; cases h; rw [hr] at hP; exact hP
      · cases h
    · split at h
      · rename_i hr; cases h; rw [hr] at hW; exact hW
      · cases h
    · split at h
      · rename_i hr; cases h; rw [hr] at hF; exact hF
      · cases h
    · cases h; exact hsame
    · cases h; exact hsame
  · intro db1 h
    split_ifs at h
    · split at h
      · cases h
      · rename_i hr; cases h; rw [hr] at hG; exact hG
    · split at h
      · cases h
      · rename_i hr
        split_ifs at h
        · cases h; rw [hr] at hS; exact hS
    · split at h
      · cases h
      · rename_i hr; cases h; rw [hr] at hP; exact hP
    · split at h
      · cases h
      · rename_i hr; cases h; rw [hr] at hW; exact hW
    · split at h
      · cases h
      · rename_i hr; cases h; rw [hr] at hF; exact hF

theorem weekStep_path {a b c : Week} (h1 : weekPath a b) (h2 : weekStep b c) : weekPath a c := by
  refine ⟨by rw [h2.1, h1.1], ?_⟩
  rcases h2.2 with h | h
  · rw [h]; exact h1.2
  · exact Relation.ReflTransGen.tail h1.2 h

theorem AdvanceWeekStateLoop_weekPath (env : Env) (actingUserID : String) :
    ∀ (fuel : Nat) (db : DB) (week : Week) (out : Outcome),
      (db.weeks.map (fun w => w.ID)).Nodup →
      AdvanceWeekStateLoop env actingUserID fuel db week = some out →
      List.Forall₂ weekPath db.weeks out.db.weeks := by
  intro fuel
  induction fuel with
  | zero => intro db week out _ h; simp [AdvanceWeekStateLoop] at h
  | succ fuel ih =>
    intro db week out hnd h
    have hstep := advanceStep_weekStep env actingUserID db week hnd
    have hlift : ∀ db1 : DB, List.Forall₂ weekStep db.weeks db1.weeks →
        List.Forall₂ weekPath db.weeks db1.weeks := by
      intro db1 h1
      have h0 : List.Forall₂ weekPath db.weeks db.weeks :=
        List.forall₂_same.mpr (fun w _ => ⟨rfl, Relation.ReflTransGen.refl⟩)
      exact forall₂_comp (R := weekPath) (S := weekStep) (T := weekPath)
        (fun a b c hab hbc => weekStep_path hab hbc) h0 h1
    rw [AdvanceWeekStateLoop] at h
    split at h
    · rename_i db1 err hs
      simp only [Option.some.injEq] at h
      rw [← h]
      exact hlift db1 (hstep.1 db1 err hs)
    · rename_i db1 hs
      have h1 := hstep.2 db1 hs
      split at h
      · simp only [Option.some.injEq] at h
        rw [← h]
        exact hlift db1 h1
      · rename_i w _
        have hnd1 : (db1.weeks.map (fun w => w.ID)).Nodup := by rw [weekStep_ids h1]; exact hnd
        have h2 := ih db1 w out hnd1 h
        exact forall₂_comp (R := weekStep) (S := weekPath) (T := weekPath)
          (fun a b c hab hbc =>
            ⟨by rw [hbc.1, hab.1], by
              rcases hab.2 with e | e
              · rw [← e]; exact hbc.2
              · exact Relation.ReflTransGen.head e hbc.2⟩) h1 h2

/-! ## The state machine returns -/

theorem find?_week_map (f : Week → Week) (weekID status : String)
    (hf : ∀ w, (f w).ID = w.ID ∧ (f w).Status = status) :
    ∀ (ws : List Week) (w : Week),
      (ws.map (fun w => if w.ID == weekID then f w else w)).find? (fun w => w.ID == weekID) =
        some w → w.Status = status := by
  intro ws
  induction ws with
  | nil => intro w h; simp at h
  | cons y ws ih =>
    intro w h
    by_cases hy : (y.ID == weekID) = true
    · simp only [List.map_cons, hy, if_true, List.find?_cons] at h
      have hfy : ((f y).ID == weekID) = true := by rw [(hf y).1]; exact hy
      rw [hfy] at h
      simp only [Option.some.injEq] at h
      rw [← h]
      exact (hf y).2
    · have hy1 : (y.ID == weekID) = false := by simpa using hy
      simp only [List.map_cons, hy1, Bool.false_eq_true, if_false, List.find?_cons] at h
      exact ih w h

theorem reload_status_update {env : Env} {tx : DB} {week w : Week} {status : String}
    (h : reloadWeek (UpdateWeekStatus env tx week.ID status) week = .ok w) :
    w.Status = status := by
  unfold reloadWeek at h
  split at h
  · rename_i w1 hw1
    simp only [Except.ok.injEq] at h
    rw [← h]
    exact find?_week_map (fun w => { w with Status := status, UpdatedAt := env.sqlNow }) week.ID
      status (fun _ => ⟨rfl, rfl⟩) tx.weeks w1 hw1
  · simp at h

theorem reload_status_close {env : Env} {tx : DB} {week w : Week}
    (h : reloadWeek (closeWeek env tx week.ID) week = .ok w) : w.Status = "final" := by
  unfold reloadWeek at h
  split at h
  · rename_i w1 hw1
    simp only [Except.ok.injEq] at h
    rw [← h]
    exact find?_week_map
      (fun w => { w with Status := "final", ClosedAt := some env.sqlNow, UpdatedAt := env.sqlNow })
      week.ID "final" (fun _ => ⟨rfl, rfl⟩) tx.weeks w1 hw1
  · simp at h

/-- A pass that goes on to reload the week finds it in the status the stage has written, so
fewer passes remain. -/
theorem advanceStep_reload (env : Env) (actingUserID : String) (db db1 : DB) (week w : Week)
    (h : advanceStep env actingUserID db week = .reload db1)
    (hw : reloadWeek db1 week = .ok w) :
    remainingPasses w.Status < remainingPasses week.Status := by
  unfold advanceStep at h
  by_cases h1 : (week.Status == StatusDraft) = true
  · rw [if_pos h1] at h
    have hs : week.Status = "draft" := by simpa [StatusDraft] using h1
    rcases hr : ImportGamesForWeek env db week.ID actingUserID with ⟨db2, r⟩
    rw [hr] at h
    cases r with
    | error e => cases h
    | ok res =>
      cases h
      obtain ⟨_, _, _, _, _, _, _, _, hdb, _⟩ := ImportGamesForWeek_ok hr
      rw [hdb] at hw
      rw [reload_status_update hw, hs]
      decide
  rw [if_neg h1] at h
  by_cases h2 : (week.Status == StatusGamesImported) = true
  · rw [if_pos h2] at h; cases h
  rw [if_neg h2] at h
  by_cases h3 : (week.Status == StatusSpreadsSet) = true
  · rw [if_pos h3] at h; cases h
  rw [if_neg h3] at h
  by_cases h4 : (week.Status == StatusActive) = true
  · rw [if_pos h4] at h
    have hs : week.Status = "active" := by simpa [StatusActive] using h4
    rcases hr : ImportScoresForWeek env db week.ID with ⟨db2, r⟩
    rw [hr] at h
    cases r with
    | error e => cases h
    | ok res =>
      simp only at h
      split_ifs at h with hall
      cases h
      obtain ⟨_, _, _, _, _, _, hdb⟩ := ImportScoresForWeek_ok hr
      have hp : res.AllGamesPlayed = true := by simpa using hall
      rw [hdb, if_pos hp] at hw
      rw [reload_status_update hw, hs]
      decide
  rw [if_neg h4] at h
  by_cases h5 : (week.Status == StatusPlayed) = true
  · rw [if_pos h5] at h
    have hs : week.Status = "played" := by simpa [StatusPlayed] using h5
    rcases hr : CalculatePickResults env db week.ID with ⟨db2, r⟩
    rw [hr] at h
    cases r with
    | error e => cases h
    | ok res =>
      cases h
      obtain ⟨_, _, hdb, _⟩ := CalculatePickResults_ok hr
      rw [hdb] at hw
      rw [reload_status_update hw, hs]
      decide
  rw [if_neg h5] at h
  by_cases h6 : (week.Status == StatusPicksResultsCalculated) = true
  · rw [if_pos h6] at h
    have hs : week.Status = "picks_results_calculated" := by
      simpa [StatusPicksResultsCalculated] using h6
    rcases hr : CalculateWeekPoints env db week.ID with ⟨db2, r⟩
    rw [hr] at h
    cases r with
    | error e => cases h
    | ok res =>
      cases h
      obtain ⟨_, _, _, _, _, hdb⟩ := CalculateWeekPoints_ok hr
      rw [hdb] at hw
      rw [reload_status_update hw, hs]
      decide
  rw [if_neg h6] at h
  by_cases h7 : (week.Status == StatusScored) = true
  · rw [if_pos h7] at h
    have hs : week.Status = "scored" := by simpa [StatusScored] using h7
    rcases hr : CalculateSeasonSnapshot env db week.ID with ⟨db2, r⟩
    rw [hr] at h
    cases r with
    | error e => cases h
    | ok res =>
      cases h
      obtain ⟨_, _, _, hdb⟩ := CalculateSeasonSnapshot_ok hr
      rw [hdb] at hw
      rw [reload_status_close hw, hs]
      decide
  rw [if_neg h7] at h
  split_ifs at h

theorem remainingPasses_pos (status : String) : 0 < remainingPasses status := by
  unfold remainingPasses
  split_ifs <;> decide

theorem remainingPasses_le (status : String) : remainingPasses status ≤ 5 := by
  unfold remainingPasses
  split_ifs <;> decide

/-- The loop returns once the bound allows for the passes that remain. -/
theorem AdvanceWeekStateLoop_returns (env : Env) (actingUserID : String) :
    ∀ (fuel : Nat) (db : DB) (week : Week), remainingPasses week.Status ≤ fuel →
      ∃ out, AdvanceWeekStateLoop env actingUserID fuel db week = some out := by
  intro fuel
  induction fuel with
  | zero =>
    intro db week h
    have := remainingPasses_pos week.Status
    omega
  | succ fuel ih =>
    intro db week h
    rw [AdvanceWeekStateLoop]
    split
    · exact ⟨_, rfl⟩
    · rename_i db1 hstep
      split
      · exact ⟨_, rfl⟩
      · rename_i w hw
        have := advanceStep_reload env actingUserID db db1 week w hstep hw
        exact ih db1 w (by omega)

/-- `AdvanceWeekState` returns on every week and every database. -/
theorem AdvanceWeekState_returns (env : Env) (db : DB) (week : Week) (actingUserID : String) :
    ∃ out, AdvanceWeekState env db week actingUserID = some out :=
  AdvanceWeekStateLoop_returns env actingUserID 9 db week
    (le_trans (remainingPasses_le week.Status) (by decide))

/-- C1 (amended): with week ids being the primary key of the weeks table, every stage
function and handler that writes a week's status (ImportGamesForWeek, UpdateSpreads,
AutoImportSpreads, ActivateWeek, ImportScoresForWeek, CalculatePickResults,
CalculateWeekPoints, CalculateSeasonSnapshot) leaves every week with the status it had or
with the immediate successor of that status; AdvanceWeekState, which runs several stages in
one invocation, always returns and leaves every week with a status reached from the old one
through immediate successors only, so it never skips a status on the way and never moves a
week back. -/
theorem week_status_path (env : Env) (db : DB) (hnd : (db.weeks.map (fun w => w.ID)).Nodup)
    (op : Operation) :
    (op.isAdvance = false → List.Forall₂ weekStep db.weeks (op.run env db).weeks) ∧
    List.Forall₂ weekPath db.weeks (op.run env db).weeks ∧
    (∀ week actingUserID, op = .AdvanceWeekState week actingUserID →
      ∃ out, AdvanceWeekState env db week actingUserID = some out ∧ op.run env db = out.db) := by
  have hlift : ∀ db1 : DB, List.Forall₂ weekStep db.weeks db1.weeks →
      List.Forall₂ weekPath db.weeks db1.weeks := by
    intro db1 h1
    have h0 : List.Forall₂ weekPath db.weeks db.weeks :=
      List.forall₂_same.mpr (fun w _ => ⟨rfl, Relation.ReflTransGen.refl⟩)
    exact forall₂_comp (R := weekPath) (S := weekStep) (T := weekPath)
      (fun a b c hab hbc => weekStep_path hab hbc) h0 h1
  refine ⟨stage_weekStep env db hnd op, ?_, ?_⟩
  swap
  · intro week actingUserID hop
    obtain ⟨out, hout⟩ := AdvanceWeekState_returns env db week actingUserID
    refine ⟨out, hout, ?_⟩
    rw [hop]
    simp only [Operation.run, hout]
  by_cases hop : op.isAdvance = false
  · exact hlift _ (stage_weekStep env db hnd op hop)
  · cases op with
    | AdvanceWeekState week actingUserID =>
      simp only [Operation.run]
      split
      · rename_i out hout
        exact AdvanceWeekStateLoop_weekPath env actingUserID 9 db week out hnd hout
      · exact List.forall₂_same.mpr (fun w _ => ⟨rfl, Relation.ReflTransGen.refl⟩)
    | _ => exact absurd rfl hop

/-- Witness for C1 (amended): one stage and one run of the state machine on the played
week of the examples. -/
theorem week_status_path_witness :
    List.Forall₂ weekStep playedDB.weeks
      ((Operation.CalculatePickResults "w1").run (exampleEnv []) playedDB).weeks ∧
    List.Forall₂ weekPath playedDB.weeks
      ((Operation.AdvanceWeekState (exampleWeek "w1" 1 "played") "admin").run (exampleEnv [])
        playedDB).weeks :=
  ⟨(week_status_path (exampleEnv []) playedDB (by decide) (.CalculatePickResults "w1")).1 rfl,
   (week_status_path (exampleEnv []) playedDB (by decide)
      (.AdvanceWeekState (exampleWeek "w1" 1 "played") "admin")).2.1⟩

/-- C1 as stated fails for AdvanceWeekState: on the played week of the examples one
invocation takes the week from played to final, which is neither played nor its immediate
successor. -/
theorem week_status_step_counterexample :
    (playedDB.weeks.map (fun w => w.ID)).Nodup ∧
    ¬ List.Forall₂ weekStep playedDB.weeks
      ((Operation.AdvanceWeekState (exampleWeek "w1" 1 "played") "admin").run (exampleEnv [])
        playedDB).weeks := by
  refine ⟨by decide, ?_⟩
  have hrun : ((Operation.AdvanceWeekState (exampleWeek "w1" 1 "played") "admin").run
      (exampleEnv []) playedDB).weeks =
      [{ exampleWeek "w1" 1 "final" with ClosedAt := some 100, UpdatedAt := 100 }] := by
    decide
  rw [hrun]
  intro h
  cases h with
  | cons hab _ =>
    rcases hab.2 with h | h
    · exact absurd h (by decide)
    · exact absurd h (by decide)

/-! ## C10 and C9: importing scores -/

theorem scoreRow_snoc (env : Env) (weekID : String) (l : List ExternalGame) (e : ExternalGame)
    (g : Game) :
    scoreRow env weekID (l ++ [e]) g =
      if isFinished e && scoreTarget e weekID (scoreRow env weekID l g) then
        { scoreRow env weekID l g with
          HomeScore := e.HomeTeamScore, AwayScore := e.AwayTeamScore, Status := "final",
          UpdatedAt := env.sqlNow }
      else scoreRow env weekID l g := by
  simp only [scoreRow, List.foldl_append, List.foldl_cons, List.foldl_nil]

/-- What the score updates make of one game: untouched unless it is a game of the week for
which a finished game with its external id was fetched; then it is that game with the
scores of such a fetched game, status final. -/
theorem scoreRow_spec (env : Env) (weekID : String) (l : List ExternalGame) (g : Game) :
    (¬ (g.WeekID = weekID ∧ ∃ e ∈ l, e.ID = g.ExternalGameID ∧
          (e.Status = "Final" ∨ e.Status = "Final/OT")) → scoreRow env weekID l g = g) ∧
    ((g.WeekID = weekID ∧ ∃ e ∈ l, e.ID = g.ExternalGameID ∧
          (e.Status = "Final" ∨ e.Status = "Final/OT")) →
      ∃ e ∈ l, e.ID = g.ExternalGameID ∧ (e.Status = "Final" ∨ e.Status = "Final/OT") ∧
        scoreRow env weekID l g =
          { g with HomeScore := e.HomeTeamScore, AwayScore := e.AwayTeamScore, Status := "final",
                   UpdatedAt := env.sqlNow }) := by
  induction l using List.reverseRecOn with
  | nil =>
    constructor
    · intro _; rfl
    · rintro ⟨_, e, he, _⟩; simp at he
  | append_singleton l e ih =>
    have hkeys : (scoreRow env weekID l g).ExternalGameID = g.ExternalGameID ∧
        (scoreRow env weekID l g).WeekID = g.WeekID := by
      by_cases hc : g.WeekID = weekID ∧ ∃ e ∈ l, e.ID = g.ExternalGameID ∧
          (e.Status = "Final" ∨ e.Status = "Final/OT")
      · obtain ⟨e1, _, _, _, h1⟩ := ih.2 hc
        rw [h1]
        exact ⟨rfl, rfl⟩
      · rw [ih.1 hc]
        exact ⟨rfl, rfl⟩
    have hfin : isFinished e = true ↔ (e.Status = "Final" ∨ e.Status = "Final/OT") := by
      unfold isFinished
      by_cases h1 : e.Status = "Final" <;> by_cases h2 : e.Status = "Final/OT" <;> simp [h1, h2]
    have htarget : (isFinished e && scoreTarget e weekID (scoreRow env weekID l g)) = true ↔
        (g.WeekID = weekID ∧ e.ID = g.ExternalGameID ∧
          (e.Status = "Final" ∨ e.Status = "Final/OT")) := by
      rw [Bool.and_eq_true, hfin]
      simp only [scoreTarget, Bool.and_eq_true, beq_iff_eq, hkeys.1, hkeys.2]
      constructor
      · rintro ⟨h1, h2, h3⟩; exact ⟨h3, h2.symm, h1⟩
      · rintro ⟨h1, h2, h3⟩; exact ⟨h3, h2.symm, h1⟩
    rw [scoreRow_snoc]
    by_cases ht : g.WeekID = weekID ∧ e.ID = g.ExternalGameID ∧
        (e.Status = "Final" ∨ e.Status = "Final/OT")
    · rw [if_pos (htarget.mpr ht)]
      have hover : ({ scoreRow env weekID l g with
          HomeScore := e.HomeTeamScore, AwayScore := e.AwayTeamScore, Status := "final",
          UpdatedAt := env.sqlNow } : Game) =
          { g with HomeScore := e.HomeTeamScore, AwayScore := e.AwayTeamScore, Status := "final",
                   UpdatedAt := env.sqlNow } := by
        by_cases hc : g.WeekID = weekID ∧ ∃ e ∈ l, e.ID = g.ExternalGameID ∧
            (e.Status = "Final" ∨ e.Status = "Final/OT")
        · obtain ⟨e1, _, _, _, h1⟩ := ih.2 hc
          rw [h1]
        · rw [ih.1 hc]
      constructor
      · intro hno
        exact absurd ⟨ht.1, e, by simp, ht.2.1, ht.2.2⟩ hno
      · intro _
        exact ⟨e, by simp, ht.2.1, ht.2.2, hover⟩
    · rw [if_neg (fun h => ht (htarget.mp h))]
      constructor
      · intro hno
        apply ih.1
        rintro ⟨hw, e1, he1, h1⟩
        exact hno ⟨hw, e1, List.mem_append_left _ he1, h1⟩
      · rintro ⟨hw, e1, he1, hid1, hst1⟩
        rcases List.mem_append.mp he1 with h1 | h1
        · obtain ⟨e2, he2, h2⟩ := ih.2 ⟨hw, e1, h1, hid1, hst1⟩
          exact ⟨e2, List.mem_append_left _ he2, h2⟩
        · simp only [List.mem_singleton] at h1
          subst h1
          exact absurd ⟨hw, hid1, hst1⟩ ht

/-- C10: a successful `ImportScoresForWeek` rewrites a game (scores set to those of a fetched
game, status final) iff the game belongs to the week and some fetched game with its
external identifier has status exactly "Final" or "Final/OT"; every other game, of the week
or of any other week, is left unchanged. -/
theorem ImportScoresForWeek_games (env : Env) (db db1 : DB) (weekID : String)
    (res : ImportScoresResult) (h : ImportScoresForWeek env db weekID = (db1, .ok res)) :
    ∃ week externalGames,
      GetWeekWithYear db weekID = .ok week ∧
      FetchGames env week.Year week.Number week.IsPostseason = .ok externalGames ∧
      List.Forall₂ (fun g g1 =>
        ((g.WeekID = weekID ∧ ∃ e ∈ externalGames, e.ID = g.ExternalGameID ∧
            (e.Status = "Final" ∨ e.Status = "Final/OT")) →
          ∃ e ∈ externalGames, e.ID = g.ExternalGameID ∧
            (e.Status = "Final" ∨ e.Status = "Final/OT") ∧
            g1 = { g with HomeScore := e.HomeTeamScore, AwayScore := e.AwayTeamScore,
                          Status := "final", UpdatedAt := env.sqlNow }) ∧
        (¬ (g.WeekID = weekID ∧ ∃ e ∈ externalGames, e.ID = g.ExternalGameID ∧
            (e.Status = "Final" ∨ e.Status = "Final/OT")) → g1 = g)) db.games db1.games := by
  obtain ⟨week, externalGames, hw, _, hfetch, _, hdb⟩ := ImportScoresForWeek_ok h
  refine ⟨week, externalGames, hw, hfetch, ?_⟩
  have hgames : db1.games = db.games.map (scoreRow env weekID externalGames) := by
    rw [hdb]
    split_ifs <;> rfl
  rw [hgames]
  apply forall₂_map_self
  intro g _
  exact ⟨(scoreRow_spec env weekID externalGames g).2, (scoreRow_spec env weekID externalGames g).1⟩

/-- Witness for C10: the import on the active week of the examples, two of whose three games
are finished. -/
theorem ImportScoresForWeek_games_witness :
    ∃ week externalGames,
      GetWeekWithYear activeDB "w1" = .ok week ∧
      FetchGames (exampleEnv twoOfThree) week.Year week.Number week.IsPostseason =
        .ok externalGames ∧
      List.Forall₂ (fun g g1 =>
        ((g.WeekID = "w1" ∧ ∃ e ∈ externalGames, e.ID = g.ExternalGameID ∧
            (e.Status = "Final" ∨ e.Status = "Final/OT")) →
          ∃ e ∈ externalGames, e.ID = g.ExternalGameID ∧
            (e.Status = "Final" ∨ e.Status = "Final/OT") ∧
            g1 = { g with HomeScore := e.HomeTeamScore, AwayScore := e.AwayTeamScore,
                          Status := "final", UpdatedAt := (exampleEnv twoOfThree).sqlNow }) ∧
        (¬ (g.WeekID = "w1" ∧ ∃ e ∈ externalGames, e.ID = g.ExternalGameID ∧
            (e.Status = "Final" ∨ e.Status = "Final/OT")) → g1 = g)) activeDB.games
        (ImportScoresForWeek (exampleEnv twoOfThree) activeDB "w1").1.games :=
  ImportScoresForWeek_games (exampleEnv twoOfThree) activeDB
    (ImportScoresForWeek (exampleEnv twoOfThree) activeDB "w1").1 "w1"
    { GamesUpdated := 2, AllGamesPlayed := false, GamesInDB := 3, GamesFromAPI := 3,
      UnmatchedGameIDs := [] } rfl

theorem find?_week_of_nodup {ws : List Week} (hnd : (ws.map (fun w => w.ID)).Nodup) {w : Week}
    (hw : w ∈ ws) : ws.find? (fun x => x.ID == w.ID) = some w := by
  induction ws with
  | nil => simp at hw
  | cons y ws ih =>
    simp only [List.map_cons, List.nodup_cons] at hnd
    rcases List.mem_cons.mp hw with rfl | hw1
    · simp
    · have hne : ¬ y.ID = w.ID := fun e => hnd.1 (e ▸ List.mem_map_of_mem (fun w => w.ID) hw1)
      have hb : (y.ID == w.ID) = false := by simpa using hne
      rw [List.find?_cons, hb]
      exact ih hnd.2 hw1

theorem GetWeekStatus_of_mem {db : DB} (hnd : (db.weeks.map (fun w => w.ID)).Nodup) {w : Week}
    (hw : w ∈ db.weeks) : GetWeekStatus db w.ID = .ok w.Status := by
  rw [GetWeekStatus, find?_week_of_nodup hnd hw]

theorem GetWeekStatus_update (env : Env) (tx : DB) (weekID status : String)
    (h : ∃ w ∈ tx.weeks, w.ID = weekID) :
    GetWeekStatus (UpdateWeekStatus env tx weekID status) weekID = .ok status := by
  obtain ⟨w, hw, hid⟩ := h
  have : ∀ ws : List Week, w ∈ ws →
      ∃ x, (ws.map (fun w => if w.ID == weekID then
          { w with Status := status, UpdatedAt := env.sqlNow } else w)).find?
            (fun w => w.ID == weekID) = some x ∧ x.Status = status := by
    intro ws
    induction ws with
    | nil => intro h; simp at h
    | cons y ws ih =>
      intro hmem
      by_cases hy : y.ID = weekID
      · have hb : (y.ID == weekID) = true := by simpa using hy
        refine ⟨{ y with Status := status, UpdatedAt := env.sqlNow }, ?_, rfl⟩
        simp only [List.map_cons, hb, if_true, List.find?_cons]
      · have hb : (y.ID == weekID) = false := by simpa using hy
        rcases List.mem_cons.mp hmem with h1 | h1
        · exact absurd (h1 ▸ hid) hy
        · obtain ⟨x, hx, hs⟩ := ih h1
          refine ⟨x, ?_, hs⟩
          simp only [List.map_cons, hb, Bool.false_eq_true, if_false, List.find?_cons]
          exact hx
  obtain ⟨x, hx, hs⟩ := this tx.weeks hw
  simp only [GetWeekStatus, UpdateWeekStatus, hx, hs]

/-- C9: a successful `ImportScoresForWeek` on a week (which then was active) sets the
status to played iff, after the score updates, no game of the week has a status other than
final; otherwise the status stays active, the result reports that not all games were played
and `AdvanceWeekState` on the active week returns `ErrWaitingForGames`.  With two of three
games finished the week stays active; once the third is finished too a further call makes it
played. -/
theorem ImportScoresForWeek_status (env : Env) (db db1 : DB) (weekID : String)
    (res : ImportScoresResult) (hnd : (db.weeks.map (fun w => w.ID)).Nodup)
    (h : ImportScoresForWeek env db weekID = (db1, .ok res)) :
    GetWeekStatus db weekID = .ok "active" ∧
    (GetWeekStatus db1 weekID = .ok "played" ↔
      ∀ g ∈ db1.games, g.WeekID = weekID → g.Status = "final") ∧
    (res.AllGamesPlayed = true ↔ ∀ g ∈ db1.games, g.WeekID = weekID → g.Status = "final") ∧
    ((¬ ∀ g ∈ db1.games, g.WeekID = weekID → g.Status = "final") →
      GetWeekStatus db1 weekID = .ok "active" ∧ res.AllGamesPlayed = false ∧
      ∀ (week : Week) (actingUserID : String), week.ID = weekID → week.Status = "active" →
        AdvanceWeekState env db week actingUserID =
          some { db := db1, week := week, err := some Err.ErrWaitingForGames }) ∧
    (GetWeekStatus (ImportScoresForWeek (exampleEnv twoOfThree) activeDB "w1").1 "w1" =
        .ok "active" ∧
      (AdvanceWeekState (exampleEnv twoOfThree) activeDB (exampleWeek "w1" 1 "active")
        "admin").map (fun out => out.err) = some (some Err.ErrWaitingForGames) ∧
      GetWeekStatus (ImportScoresForWeek (exampleEnv threeOfThree)
        (ImportScoresForWeek (exampleEnv twoOfThree) activeDB "w1").1 "w1").1 "w1" =
        .ok "played") := by
  obtain ⟨week, externalGames, hw, hst, hfetch, hall, hdb⟩ := ImportScoresForWeek_ok h
  obtain ⟨w, hmem, hid, hs, _⟩ := GetWeekWithYear_mem hw
  have hactive : GetWeekStatus db weekID = .ok "active" := by
    rw [← hid, GetWeekStatus_of_mem hnd hmem, hs, hst]
  have hgames : db1.games = db.games.map (scoreRow env weekID externalGames) := by
    rw [hdb]
    split_ifs <;> rfl
  have hallp : res.AllGamesPlayed = true ↔
      ∀ g ∈ db1.games, g.WeekID = weekID → g.Status = "final" := by
    rw [hall, hgames]
    simp only [decide_eq_true_eq]
  have hplayed : res.AllGamesPlayed = true → GetWeekStatus db1 weekID = .ok "played" := by
    intro hp
    rw [hdb, if_pos hp]
    exact GetWeekStatus_update env _ weekID "played" ⟨w, hmem, hid⟩
  have hstay : ¬ res.AllGamesPlayed = true → GetWeekStatus db1 weekID = .ok "active" := by
    intro hp
    have hweeks : db1.weeks = db.weeks := by rw [hdb, if_neg hp]
    have : GetWeekStatus db1 weekID = GetWeekStatus db weekID := by
      simp only [GetWeekStatus, hweeks]
    rw [this, hactive]
  refine ⟨hactive, ?_, hallp, ?_, ⟨rfl, rfl, rfl⟩⟩
  · constructor
    · intro hp
      by_contra hc
      have := hstay (fun h1 => hc (hallp.mp h1))
      rw [this] at hp
      injection hp with hp
      exact absurd hp (by decide)
    · intro hg
      exact hplayed (hallp.mpr hg)
  · intro hc
    have hno : ¬ res.AllGamesPlayed = true := fun h1 => hc (hallp.mp h1)
    refine ⟨hstay hno, by simpa using hno, ?_⟩
    intro wk actingUserID hwid hwst
    have hstep : advanceStep env actingUserID db wk = .stop db1 (some Err.ErrWaitingForGames) := by
      unfold advanceStep
      rw [hwst, hwid, h]
      have hf : res.AllGamesPlayed = false := by simpa using hno
      simp [StatusDraft, StatusGamesImported, StatusSpreadsSet, StatusActive, hf]
    simp only [AdvanceWeekState, AdvanceWeekStateLoop, hstep]

/-- Witness for C9: the import on the active week of the examples while one game is still
being played. -/
theorem ImportScoresForWeek_status_witness :
    GetWeekStatus activeDB "w1" = .ok "active" ∧
    (GetWeekStatus (ImportScoresForWeek (exampleEnv twoOfThree) activeDB "w1").1 "w1" =
        .ok "played" ↔
      ∀ g ∈ (ImportScoresForWeek (exampleEnv twoOfThree) activeDB "w1").1.games,
        g.WeekID = "w1" → g.Status = "final") :=
  ⟨(ImportScoresForWeek_status (exampleEnv twoOfThree) activeDB
      (ImportScoresForWeek (exampleEnv twoOfThree) activeDB "w1").1 "w1"
      { GamesUpdated := 2, AllGamesPlayed := false, GamesInDB := 3, GamesFromAPI := 3,
        UnmatchedGameIDs := [] } (by decide) rfl).1,
   (ImportScoresForWeek_status (exampleEnv twoOfThree) activeDB
      (ImportScoresForWeek (exampleEnv twoOfThree) activeDB "w1").1 "w1"
      { GamesUpdated := 2, AllGamesPlayed := false, GamesInDB := 3, GamesFromAPI := 3,
        UnmatchedGameIDs := [] } (by decide) rfl).2.1⟩

/-! ## C3: pick results -/

theorem applyPickUpdates_snoc (env : Env) (us : List (String × Option Bool))
    (u : String × Option Bool) (p : Pick) :
    applyPickUpdates env (us ++ [u]) p =
      if (applyPickUpdates env us p).ID == u.1 then
        { applyPickUpdates env us p with IsCorrect := u.2, CalculatedAt := some env.goNow }
      else applyPickUpdates env us p := by
  simp only [applyPickUpdates, List.foldl_append, List.foldl_cons, List.foldl_nil]

/-- The pick updates leave every column but `is_correct` and `calculated_at` alone. -/
theorem applyPickUpdates_keys (env : Env) (us : List (String × Option Bool)) (p : Pick) :
    (applyPickUpdates env us p).ID = p.ID ∧ (applyPickUpdates env us p).UserID = p.UserID ∧
    (applyPickUpdates env us p).GameID = p.GameID ∧ (applyPickUpdates env us p).WeekID = p.WeekID ∧
    (applyPickUpdates env us p).SelectedTeamID = p.SelectedTeamID ∧
    (applyPickUpdates env us p).UserLockedAt = p.UserLockedAt := by
  induction us using List.reverseRecOn with
  | nil => exact ⟨rfl, rfl, rfl, rfl, rfl, rfl⟩
  | append_singleton us u ih =>
    rw [applyPickUpdates_snoc]
    split_ifs
    · exact ih
    · exact ih

/-- A pick none of the updates is addressed to stays as it is. -/
theorem applyPickUpdates_untouched (env : Env) (us : List (String × Option Bool)) (p : Pick)
    (h : ∀ u ∈ us, u.1 ≠ p.ID) : applyPickUpdates env us p = p := by
  induction us using List.reverseRecOn with
  | nil => rfl
  | append_singleton us u ih =>
    rw [applyPickUpdates_snoc, ih (fun x hx => h x (List.mem_append_left _ hx))]
    have : ¬ (p.ID == u.1) = true := by
      have := h u (by simp)
      simpa using fun e => this e.symm
    rw [if_neg this]

/-- A pick that is addressed, always with the same verdict, ends with that verdict and with
the calculation timestamp. -/
theorem applyPickUpdates_value (env : Env) (us : List (String × Option Bool)) (p : Pick)
    (v : Option Bool) (hex : ∃ u ∈ us, u.1 = p.ID) (hall : ∀ u ∈ us, u.1 = p.ID → u.2 = v) :
    (applyPickUpdates env us p).IsCorrect = v ∧
    (applyPickUpdates env us p).CalculatedAt = some env.goNow := by
  induction us using List.reverseRecOn with
  | nil => obtain ⟨u, hu, _⟩ := hex; simp at hu
  | append_singleton us u ih =>
    rw [applyPickUpdates_snoc, (applyPickUpdates_keys env us p).1]
    by_cases hu : p.ID = u.1
    · have hb : (p.ID == u.1) = true := by simpa using hu
      rw [if_pos hb]
      exact ⟨hall u (by simp) hu.symm, rfl⟩
    · have hb : ¬ (p.ID == u.1) = true := by simpa using hu
      rw [if_neg hb]
      apply ih
      · obtain ⟨x, hx, hxid⟩ := hex
        rcases List.mem_append.mp hx with h1 | h1
        · exact ⟨x, h1, hxid⟩
        · simp only [List.mem_singleton] at h1
          rw [h1] at hxid
          exact absurd hxid.symm hu
      · intro x hx
        exact hall x (List.mem_append_left _ hx)

/-- C3: after a successful `CalculatePickResults`, for every game of the week and every pick
on that game (filed under the game's week), `is_correct` is null if the pick has no selected
team or the game is a tie against the spread, and otherwise it is true exactly when the
selected team is the team `WinningTeamByGame` returns for the game.  Pick ids and game ids
are the primary keys of their tables. -/
theorem CalculatePickResults_is_correct (env : Env) (db db1 : DB) (weekID : String)
    (res : CalculatePickResultsResult)
    (hpk : (db.picks.map (fun p => p.ID)).Nodup)
    (hgm : ((GetWeekGames db weekID).map (fun g => g.ID)).Nodup)
    (h : CalculatePickResults env db weekID = (db1, .ok res)) :
    ∀ g ∈ GetWeekGames db1 weekID, ∀ p ∈ db1.picks, p.GameID = g.ID → p.WeekID = g.WeekID →
      ∃ winner, WinningTeamByGame g = .ok winner ∧
        ((p.SelectedTeamID = none ∨ winner = none) → p.IsCorrect = none) ∧
        (∀ selected team, p.SelectedTeamID = some selected → winner = some team →
          p.IsCorrect = some (decide (selected = team.deref g))) := by
  obtain ⟨_, hwin, hdb, _⟩ := CalculatePickResults_ok h
  have hgames : GetWeekGames db1 weekID = GetWeekGames db weekID := by rw [hdb]; rfl
  have hpicks : db1.picks = db.picks.map (applyPickUpdates env
      ((GetWeekGames db weekID).flatMap (gamePickUpdates (GetWeekPicks db weekID)))) := by
    rw [hdb]; rfl
  intro g hg p hp hpg hpw
  rw [hgames] at hg
  obtain ⟨winner, hwinner⟩ := hwin g hg
  rw [hpicks] at hp
  obtain ⟨p0, hp0, he⟩ := List.mem_map.mp hp
  have hkeys := applyPickUpdates_keys env
    ((GetWeekGames db weekID).flatMap (gamePickUpdates (GetWeekPicks db weekID))) p0
  rw [he] at hkeys
  have hgw : g.WeekID = weekID := by
    simpa using (List.mem_filter.mp hg).2
  have hp0w : p0 ∈ GetWeekPicks db weekID :=
    List.mem_filter.mpr ⟨hp0, by simp [← hkeys.2.2.2.1, hpw, hgw]⟩
  have hp0g : p0.GameID = g.ID := by rw [← hkeys.2.2.1, hpg]
  have hval := applyPickUpdates_value env
    ((GetWeekGames db weekID).flatMap (gamePickUpdates (GetWeekPicks db weekID))) p0
    (pickIsCorrect g p0 winner)
    (by
      refine ⟨(p0.ID, pickIsCorrect g p0 winner), ?_, rfl⟩
      apply List.mem_flatMap.mpr
      refine ⟨g, hg, ?_⟩
      simp only [gamePickUpdates, hwinner]
      exact List.mem_map.mpr ⟨p0, List.mem_filter.mpr ⟨hp0w, by simpa using hp0g⟩, rfl⟩)
    (by
      intro u hu huid
      obtain ⟨g1, hg1, hu1⟩ := List.mem_flatMap.mp hu
      obtain ⟨w1, hw1⟩ := hwin g1 hg1
      simp only [gamePickUpdates, hw1] at hu1
      obtain ⟨q, hq, hqe⟩ := List.mem_map.mp hu1
      have hq1 := List.mem_filter.mp hq
      have hqmem : q ∈ db.picks := (List.mem_filter.mp hq1.1).1
      have hqp : q = p0 := List.inj_on_of_nodup_map hpk hqmem hp0 (by rw [← hqe] at huid; exact huid)
      have hgg : g1 = g := by
        apply List.inj_on_of_nodup_map hgm hg1 hg
        have : q.GameID = g1.ID := by simpa using hq1.2
        rw [← this, hqp, hp0g]
      rw [← hqe, hqp, hgg]
      rw [hgg] at hw1
      rw [hwinner] at hw1
      injection hw1 with hw1
      rw [hw1])
  rw [he] at hval
  refine ⟨winner, hwinner, ?_, ?_⟩
  · intro hnone
    rw [hval.1]
    rcases hnone with hn | hn
    · rw [hkeys.2.2.2.2.1] at hn
      simp only [pickIsCorrect, hn]
    · simp only [pickIsCorrect, hn]
      split <;> simp_all
  · intro selected team hsel hteam
    rw [hval.1]
    rw [hkeys.2.2.2.2.1] at hsel
    simp only [pickIsCorrect, hsel, hteam, Option.some.injEq]
    by_cases hc : selected = team.deref g <;> simp [hc]


set_option maxRecDepth 100000 in
/-- Witness for C3: the pick of u2 on the game KC lost against the spread, in the played week
of the examples. -/
theorem CalculatePickResults_is_correct_witness :
    ∃ winner, WinningTeamByGame (exampleFinalGame "g1" 1 "KC" "SF" 20 17 (-(7/2))) = .ok winner ∧
      ((some "KC" = none ∨ winner = none) → some false = none) ∧
      (∀ selected team, some "KC" = some selected → winner = some team →
        some false =
          some (decide (selected = team.deref (exampleFinalGame "g1" 1 "KC" "SF" 20 17 (-(7/2)))))) :=
  CalculatePickResults_is_correct (exampleEnv []) resultsDB
    (CalculatePickResults (exampleEnv []) resultsDB "w1").1 "w1"
    { GamesProcessed := 2, PicksUpdated := 4 } (by decide) (by decide)
    (by with_unfolding_all rfl)
    (exampleFinalGame "g1" 1 "KC" "SF" 20 17 (-(7/2))) (by with_unfolding_all decide)
    { examplePick "p3" "u2" "g1" (some "KC") (some false) with CalculatedAt := some 101 }
    (by with_unfolding_all decide) rfl rfl

/-! ## C4: week points -/

theorem length_filter_flatMap {α β : Type} (l : List α) (f : α → List β) (q : β → Bool) :
    ((l.flatMap f).filter q).length = (l.map (fun a => ((f a).filter q).length)).sum := by
  induction l with
  | nil => rfl
  | cons a l ih => simp [List.flatMap_cons, List.filter_append, ih]

theorem sum_map_single {α : Type} (l : List α) (g : α → Nat) (a : α) (hnd : l.Nodup)
    (ha : a ∈ l) (h0 : ∀ b ∈ l, b ≠ a → g b = 0) : (l.map g).sum = g a := by
  induction l with
  | nil => simp at ha
  | cons x l ih =>
    simp only [List.nodup_cons] at hnd
    simp only [List.map_cons, List.sum_cons]
    rcases List.mem_cons.mp ha with rfl | h1
    · have : (l.map g).sum = 0 := by
        apply List.sum_eq_zero
        intro n hn
        obtain ⟨b, hb, rfl⟩ := List.mem_map.mp hn
        exact h0 b (List.mem_cons_of_mem _ hb) (fun e => hnd.1 (e ▸ hb))
      omega
    · have hx : g x = 0 := h0 x (List.mem_cons_self _ _) (fun e => hnd.1 (e ▸ h1))
      rw [hx, ih hnd.2 h1 (fun b hb => h0 b (List.mem_cons_of_mem _ hb))]
      omega

/-- The rows of the join that count for `userID`, for one profile. -/
theorem leftJoinPicks_count (db : DB) (weekID userID : String) (p : Profile) :
    ((leftJoinPicks db weekID p).filter (countsFor userID)).length =
    if p.ID = userID then
      (db.picks.filter (fun pk =>
        pk.UserID == userID && pk.WeekID == weekID && pk.IsCorrect == some true)).length
    else 0 := by
  unfold leftJoinPicks
  split
  · rename_i hnil
    split_ifs with hp
    · subst hp
      simp only [List.filter_cons, List.filter_nil, countsFor]
      have : (db.picks.filter (fun pk =>
          pk.UserID == p.ID && pk.WeekID == weekID && pk.IsCorrect == some true)) = [] := by
        rw [List.filter_eq_nil_iff] at hnil ⊢
        intro pk hpk hc
        apply hnil pk hpk
        simp only [Bool.and_eq_true] at hc ⊢
        exact hc.1
      rw [this]
      simp
    · simp [hp, countsFor]
  · rename_i pk rest hcons
    rw [← hcons]
    split_ifs with hp
    · subst hp
      rw [List.filter_map, List.length_map, List.filter_filter]
      congr 1
      apply List.filter_congr
      intro x _
      simp only [Function.comp_apply, countsFor, beq_self_eq_true, Bool.true_and]
      generalize (x.UserID == p.ID) = a
      generalize (x.WeekID == weekID) = b
      generalize (x.IsCorrect == some true) = c
      cases a <;> cases b <;> cases c <;> rfl
    · rw [List.filter_map, List.length_map]
      have hb : (p.ID == userID) = false := by simpa using hp
      simp [Function.comp_def, countsFor, hb]

/-- With participants and profiles keyed as in the schema, the count of the points query for
a participant is the number of the participant's correct picks in the week. -/
theorem countCorrect_participant (db : DB) (weekID seasonID userID : String)
    (hpart : db.season_participants.Nodup) (hprof : (db.profiles.map (fun p => p.ID)).Nodup)
    (hmem : ({ SeasonID := seasonID, UserID := userID } : SeasonParticipant) ∈
      db.season_participants)
    (hfk : ∃ p ∈ db.profiles, p.ID = userID) :
    countCorrect (weekPointsJoin db weekID seasonID) userID = correctPicks db userID weekID := by
  obtain ⟨p0, hp0, hp0id⟩ := hfk
  unfold countCorrect correctPicks weekPointsJoin
  congr 1
  rw [length_filter_flatMap]
  have hinner : ∀ sp : SeasonParticipant,
      (((db.profiles.filter (fun p => p.ID == sp.UserID)).flatMap (leftJoinPicks db weekID)).filter
        (countsFor userID)).length =
      if sp.UserID = userID then
        (db.picks.filter (fun pk =>
          pk.UserID == userID && pk.WeekID == weekID && pk.IsCorrect == some true)).length
      else 0 := by
    intro sp
    rw [length_filter_flatMap]
    by_cases hsp : sp.UserID = userID
    · rw [if_pos hsp, hsp]
      have hp0f : p0 ∈ db.profiles.filter (fun p => p.ID == userID) :=
        List.mem_filter.mpr ⟨hp0, by simpa using hp0id⟩
      rw [sum_map_single _ _ p0 ((List.Nodup.of_map _ hprof).filter _) hp0f]
      · rw [leftJoinPicks_count, if_pos hp0id]
      · intro b hb hne
        exfalso
        apply hne
        apply List.inj_on_of_nodup_map hprof (List.mem_filter.mp hb).1 hp0
        have : b.ID = userID := by simpa using (List.mem_filter.mp hb).2
        rw [this, hp0id]
    · rw [if_neg hsp]
      apply List.sum_eq_zero
      intro n hn
      obtain ⟨b, hb, rfl⟩ := List.mem_map.mp hn
      rw [leftJoinPicks_count]
      have : b.ID = sp.UserID := by simpa using (List.mem_filter.mp hb).2
      rw [if_neg (by rw [this]; exact hsp)]
  rw [List.map_congr_left (fun sp _ => hinner sp)]
  have hsp0 : ({ SeasonID := seasonID, UserID := userID } : SeasonParticipant) ∈
      db.season_participants.filter (fun sp => sp.SeasonID == seasonID) :=
    List.mem_filter.mpr ⟨hmem, by simp⟩
  rw [sum_map_single _ _ _ (hpart.filter _) hsp0]
  · simp
  · intro b hb hne
    have hbs : b.SeasonID = seasonID := by simpa using (List.mem_filter.mp hb).2
    have : b.UserID ≠ userID := by
      intro e
      apply hne
      cases b
      simp only at hbs e
      rw [hbs, e]
    rw [if_neg this]

/-- The users the points query returns a row for are participants of the season. -/
theorem weekPointsQuery_users {db : DB} {ppc : Int} {weekID seasonID userID : String}
    (h : userID ∈ (weekPointsQuery db ppc weekID seasonID).map (fun up => up.UserID)) :
    ({ SeasonID := seasonID, UserID := userID } : SeasonParticipant) ∈ db.season_participants := by
  simp only [weekPointsQuery, List.map_map, List.mem_map, List.mem_dedup, Function.comp_apply] at h
  obtain ⟨u, ⟨r, hr, hru⟩, hu⟩ := h
  simp only [weekPointsJoin, List.mem_flatMap, List.mem_filter, beq_iff_eq] at hr
  obtain ⟨sp, ⟨hsp, hseason⟩, p, ⟨_, hpid⟩, hrow⟩ := hr
  have hr1 : r.1 = p := by
    unfold leftJoinPicks at hrow
    split at hrow
    · simp only [List.mem_singleton] at hrow
      rw [hrow]
    · obtain ⟨x, _, hx⟩ := List.mem_map.mp hrow
      rw [← hx]
  have : sp = { SeasonID := seasonID, UserID := userID } := by
    cases sp
    simp only at hseason hpid
    simp only [SeasonParticipant.mk.injEq]
    exact ⟨hseason, by rw [← hpid, ← hr1, hru, hu]⟩
  rw [← this]
  exact hsp

/-- A participant with a profile gets a row from the points query. -/
theorem weekPointsQuery_mem (db : DB) (ppc : Int) (weekID seasonID userID : String)
    (hmem : ({ SeasonID := seasonID, UserID := userID } : SeasonParticipant) ∈
      db.season_participants)
    (hfk : ∃ p ∈ db.profiles, p.ID = userID) :
    (userID, countCorrect (weekPointsJoin db weekID seasonID) userID * ppc) ∈
      (weekPointsQuery db ppc weekID seasonID).map (fun up => (up.UserID, up.Points)) := by
  obtain ⟨p0, hp0, hp0id⟩ := hfk
  simp only [weekPointsQuery, List.map_map, List.mem_map, List.mem_dedup, Function.comp_apply]
  refine ⟨userID, ?_, rfl⟩
  have hne : ∃ r, r ∈ leftJoinPicks db weekID p0 ∧ r.1 = p0 := by
    unfold leftJoinPicks
    split
    · exact ⟨(p0, none), by simp, rfl⟩
    · rename_i pk rest _
      exact ⟨(p0, some pk), by simp, rfl⟩
  obtain ⟨r, hr, hr1⟩ := hne
  refine ⟨r, ?_, by rw [hr1, hp0id]⟩
  simp only [weekPointsJoin, List.mem_flatMap, List.mem_filter, beq_iff_eq]
  exact ⟨_, ⟨hmem, rfl⟩, p0, ⟨hp0, hp0id⟩, hr⟩

theorem weekPointsQuery_nodup (db : DB) (ppc : Int) (weekID seasonID : String) :
    (((weekPointsQuery db ppc weekID seasonID).map (fun up => (up.UserID, up.Points))).map
      Prod.fst).Nodup := by
  simp only [weekPointsQuery, List.map_map]
  have : (Prod.fst ∘ (fun up : UserPoints => (up.UserID, up.Points)) ∘ fun userID =>
      ({ UserID := userID,
         Points := countCorrect (weekPointsJoin db weekID seasonID) userID * ppc } : UserPoints)) =
      id := by
    funext u; rfl
  rw [this, List.map_id]
  exact List.nodup_dedup _

/-- A rank update touches nothing but the rank of a row. -/
theorem rankUpdate_rows {α : Type} (rows : List α) (idOf : α → String) (ptsOf : α → Int)
    (inScope : α → Bool) (setRank : Int → α → α) :
    (∀ r1 ∈ rankUpdate rows idOf ptsOf inScope setRank,
      ∃ r ∈ rows, r1 = r ∨ ∃ k, r1 = setRank k r) ∧
    (∀ r ∈ rows, ∃ r1 ∈ rankUpdate rows idOf ptsOf inScope setRank,
      r1 = r ∨ ∃ k, r1 = setRank k r) := by
  constructor
  · intro r1 hr1
    obtain ⟨r, hr, he⟩ := List.mem_map.mp hr1
    refine ⟨r, hr, ?_⟩
    split at he
    · rename_i k _
      exact Or.inr ⟨k, he.symm⟩
    · exact Or.inl he.symm
  · intro r hr
    refine ⟨_, List.mem_map_of_mem _ hr, ?_⟩
    split
    · rename_i k _
      exact Or.inr ⟨k, rfl⟩
    · exact Or.inl rfl

/-- C4: after a successful `CalculateWeekPoints` every participant of the week's season has
a week result for the week, with points equal to the number of the participant's picks in
the week with `is_correct = true` times `points_per_correct_pick`; a participant without
picks in the week has 0 points; no week result is created for a user who is not a
participant.  With one point per correct pick a participant with four correct picks out of
five gets 4 points.  Participants are keyed on (season, user), profiles on their id, and
every participant has a profile. -/
theorem CalculateWeekPoints_points (env : Env) (db db1 : DB) (weekID : String)
    (res : CalculateWeekPointsResult) (week : WeekWithYear) (s : Settings)
    (hpart : db.season_participants.Nodup) (hprof : (db.profiles.map (fun p => p.ID)).Nodup)
    (hfk : ∀ sp ∈ db.season_participants, ∃ p ∈ db.profiles, p.ID = sp.UserID)
    (hw : GetWeekWithYear db weekID = .ok week) (hs : settingsGet db = .ok s)
    (h : CalculateWeekPoints env db weekID = (db1, .ok res)) :
    (∀ userID,
      ({ SeasonID := week.SeasonID, UserID := userID } : SeasonParticipant) ∈
        db.season_participants →
      (∃ r ∈ db1.week_results, r.UserID = userID ∧ r.WeekID = weekID) ∧
      (∀ r ∈ db1.week_results, r.UserID = userID → r.WeekID = weekID →
        r.Points = correctPicks db userID weekID * s.PointsPerCorrectPick) ∧
      ((∀ pk ∈ db.picks, pk.UserID = userID → pk.WeekID ≠ weekID) →
        ∀ r ∈ db1.week_results, r.UserID = userID → r.WeekID = weekID → r.Points = 0)) ∧
    (∀ userID,
      ({ SeasonID := week.SeasonID, UserID := userID } : SeasonParticipant) ∉
        db.season_participants →
      (∃ r ∈ db1.week_results, r.UserID = userID ∧ r.WeekID = weekID) →
      ∃ r ∈ db.week_results, r.UserID = userID ∧ r.WeekID = weekID) ∧
    (CalculateWeekPoints (exampleEnv []) scoringDB "w1").1.week_results.map
      (fun r => (r.UserID, r.Points)) = [("u1", 4), ("u2", 0)] := by
  obtain ⟨week1, s1, hw1, hs1, hwr⟩ := CalculateWeekPoints_week_results h
  rw [hw] at hw1
  rw [hs] at hs1
  cases hw1
  cases hs1
  have hexcl : ∀ (u v : String) (r : WeekResult),
      wrOwns weekID u r = true → wrOwns weekID v r = true → u = v := by
    intro u v r h1 h2
    simp only [wrOwns, Bool.and_eq_true, beq_iff_eq] at h1 h2
    rw [← h1.1, ← h2.1]
  have hnew : ∀ (k : Nat) (u : String) (p : Int) (v : String),
      wrOwns weekID v (wrNew env weekID k u p) = true → v = u := by
    intro k u p v h1
    simp only [wrOwns, wrNew, Bool.and_eq_true, beq_iff_eq] at h1
    exact h1.1.symm
  have howns : ∀ (u : String) (r : WeekResult),
      wrOwns weekID u r = true ↔ (r.UserID = u ∧ r.WeekID = weekID) := by
    intro u r
    simp only [wrOwns, Bool.and_eq_true, beq_iff_eq]
  have hfields : ∀ r1 ∈ db1.week_results, ∃ r ∈ upsertLoop (wrOwns weekID) (wrSet env)
      (wrNew env weekID) 0
      ((weekPointsQuery db s.PointsPerCorrectPick weekID week.SeasonID).map
        (fun up => (up.UserID, up.Points))) db.week_results,
      r1.UserID = r.UserID ∧ r1.WeekID = r.WeekID ∧ r1.Points = r.Points := by
    intro r1 hr1
    rw [hwr] at hr1
    obtain ⟨r, hr, he⟩ := (rankUpdate_rows _ _ _ _ _).1 r1 hr1
    refine ⟨r, hr, ?_⟩
    rcases he with he | ⟨k, he⟩ <;> rw [he] <;> exact ⟨rfl, rfl, rfl⟩
  refine ⟨?_, ?_, by rfl⟩
  · intro userID hmem
    have hprofile := hfk _ hmem
    have hitem := weekPointsQuery_mem db s.PointsPerCorrectPick weekID week.SeasonID userID hmem
      hprofile
    have heff := upsertLoop_effect (wrOwns weekID) (wrSet env) (wrNew env weekID)
      (fun r => r.Points) hexcl (fun _ _ _ => rfl) hnew
      (fun k u p => by simp [wrOwns, wrNew]) (fun _ _ => rfl) (fun _ _ _ => rfl)
      _ 0 db.week_results
      (weekPointsQuery_nodup db s.PointsPerCorrectPick weekID week.SeasonID) _ hitem
    have hpoints : ∀ r ∈ db1.week_results, r.UserID = userID → r.WeekID = weekID →
        r.Points = correctPicks db userID weekID * s.PointsPerCorrectPick := by
      intro r1 hr1 hu hwk
      obtain ⟨r, hr, h1, h2, h3⟩ := hfields r1 hr1
      have h4 : r.Points = countCorrect (weekPointsJoin db weekID week.SeasonID) userID *
          s.PointsPerCorrectPick :=
        heff.2 r hr ((howns userID r).mpr ⟨by rw [← h1, hu], by rw [← h2, hwk]⟩)
      rw [h3, h4,
        countCorrect_participant db weekID week.SeasonID userID hpart hprof hmem hprofile]
    refine ⟨?_, hpoints, ?_⟩
    · obtain ⟨r, hr, hown⟩ := heff.1
      rw [hwr]
      obtain ⟨r1, hr1, he⟩ := (rankUpdate_rows _ (fun r : WeekResult => r.ID) (fun r => r.Points)
        (fun r => r.WeekID == weekID) (fun rank r => { r with Rank := some rank })).2 r hr
      have hf := (howns userID r).mp hown
      refine ⟨r1, hr1, ?_⟩
      rcases he with he | ⟨k, he⟩ <;> rw [he] <;> exact hf
    · intro hnone r hr hu hwk
      rw [hpoints r hr hu hwk]
      have : correctPicks db userID weekID = 0 := by
        unfold correctPicks
        rw [Nat.cast_eq_zero, List.length_eq_zero, List.filter_eq_nil_iff]
        intro pk hpk hc
        simp only [Bool.and_eq_true, beq_iff_eq] at hc
        exact hnone pk hpk hc.1.1 hc.1.2
      rw [this, zero_mul]
  · intro userID hnot ⟨r1, hr1, hu, hwk⟩
    obtain ⟨r, hr, h1, h2, _⟩ := hfields r1 hr1
    have hfr := upsertLoop_frame (wrOwns weekID) (wrSet env) (wrNew env weekID) hexcl
      (fun _ _ _ => rfl) hnew
      ((weekPointsQuery db s.PointsPerCorrectPick weekID week.SeasonID).map
        (fun up => (up.UserID, up.Points))) 0 db.week_results userID
      (by
        intro hin
        apply hnot
        apply @weekPointsQuery_users db s.PointsPerCorrectPick weekID week.SeasonID userID
        simpa [List.map_map, Function.comp_def] using hin)
    have hrf : r ∈ (upsertLoop (wrOwns weekID) (wrSet env) (wrNew env weekID) 0
        ((weekPointsQuery db s.PointsPerCorrectPick weekID week.SeasonID).map
          (fun up => (up.UserID, up.Points))) db.week_results).filter (wrOwns weekID userID) :=
      List.mem_filter.mpr ⟨hr, (howns userID r).mpr ⟨by rw [← h1, hu], by rw [← h2, hwk]⟩⟩
    rw [hfr] at hrf
    obtain ⟨hr0, hown0⟩ := List.mem_filter.mp hrf
    exact ⟨r, hr0, (howns userID r).mp hown0⟩

/-- Witness for C4: the scoring of week w1 of the examples; u1 is a participant with four
correct picks out of five. -/
theorem CalculateWeekPoints_points_witness :
    (∃ r ∈ (CalculateWeekPoints (exampleEnv []) scoringDB "w1").1.week_results,
      r.UserID = "u1" ∧ r.WeekID = "w1") ∧
    (∀ r ∈ (CalculateWeekPoints (exampleEnv []) scoringDB "w1").1.week_results,
      r.UserID = "u1" → r.WeekID = "w1" → r.Points = correctPicks scoringDB "u1" "w1" * 1) :=
  ⟨((CalculateWeekPoints_points (exampleEnv []) scoringDB
      (CalculateWeekPoints (exampleEnv []) scoringDB "w1").1 "w1" { UsersProcessed := 2 }
      { ID := "w1", SeasonID := "s1", Number := 1, Status := "picks_results_calculated",
        Year := 2025, IsPostseason := false } exampleSettings (by decide) (by decide)
      (by decide) rfl rfl rfl).1 "u1" (by decide)).1,
   ((CalculateWeekPoints_points (exampleEnv []) scoringDB
      (CalculateWeekPoints (exampleEnv []) scoringDB "w1").1 "w1" { UsersProcessed := 2 }
      { ID := "w1", SeasonID := "s1", Number := 1, Status := "picks_results_calculated",
        Year := 2025, IsPostseason := false } exampleSettings (by decide) (by decide)
      (by decide) rfl rfl rfl).1 "u1" (by decide)).2.1⟩

/-! ## C6 and C8: the season snapshot -/

theorem upsert_keeps {α : Type} (rows : List α) (conflict q : α → Bool) (doUpdate : α → α)
    (row : α) (hq : ∀ r, q (doUpdate r) = q r) (h : ∃ r ∈ rows, q r = true) :
    ∃ r ∈ upsert rows conflict doUpdate row, q r = true := by
  obtain ⟨r, hr, hqr⟩ := h
  unfold upsert
  split_ifs
  · refine ⟨_, List.mem_map_of_mem _ hr, ?_⟩
    split_ifs
    · rw [hq, hqr]
    · exact hqr
  · exact ⟨r, List.mem_append_left _ hr, hqr⟩

theorem upsertLoop_keeps {α : Type} (owns : String → α → Bool) (setPoints : Int → α → α)
    (new : Nat → String → Int → α) (hset : ∀ u p r, owns u (setPoints p r) = owns u r)
    (u : String) (items : List (String × Int)) :
    ∀ (k : Nat) (rows : List α), (∃ r ∈ rows, owns u r = true) →
      ∃ r ∈ upsertLoop owns setPoints new k items rows, owns u r = true := by
  induction items with
  | nil => intro k rows h; exact h
  | cons it items ih =>
    intro k rows h
    rw [upsertLoop]
    exact ih _ _ (upsert_keeps rows _ _ _ _ (fun r => hset u it.2 r) h)

/-- Every item of the loop has a row afterwards. -/
theorem upsertLoop_exists {α : Type} (owns : String → α → Bool) (setPoints : Int → α → α)
    (new : Nat → String → Int → α) (hset : ∀ u p r, owns u (setPoints p r) = owns u r)
    (hnew1 : ∀ k u p, owns u (new k u p) = true) (items : List (String × Int)) :
    ∀ (k : Nat) (rows : List α), ∀ item ∈ items,
      ∃ r ∈ upsertLoop owns setPoints new k items rows, owns item.1 r = true := by
  induction items with
  | nil => intro k rows item hi; simp at hi
  | cons it items ih =>
    intro k rows item hi
    rw [upsertLoop]
    rcases List.mem_cons.mp hi with rfl | h1
    · apply upsertLoop_keeps owns setPoints new hset
      exact (upsert_effect rows (owns item.1) (setPoints item.2) (new k item.1 item.2)
        (fun r => hset _ _ r) (hnew1 _ _ _)).1
    · exact ih _ _ item h1

theorem previousPointsByUserID_snoc (l : List (String × Int)) (e : String × Int) (u : String) :
    previousPointsByUserID (l ++ [e]) u =
      if u == e.1 then e.2 else previousPointsByUserID l u := by
  simp only [previousPointsByUserID, List.foldl_append, List.foldl_cons, List.foldl_nil]

theorem previousPointsByUserID_none (l : List (String × Int)) (u : String)
    (h : ∀ e ∈ l, e.1 ≠ u) : previousPointsByUserID l u = 0 := by
  induction l using List.reverseRecOn with
  | nil => rfl
  | append_singleton l e ih =>
    rw [previousPointsByUserID_snoc]
    have : ¬ (u == e.1) = true := by
      have := h e (by simp)
      simpa using fun x => this x.symm
    rw [if_neg this]
    exact ih (fun x hx => h x (List.mem_append_left _ hx))

theorem previousPointsByUserID_value (l : List (String × Int)) (u : String) (v : Int)
    (hex : ∃ e ∈ l, e.1 = u) (hall : ∀ e ∈ l, e.1 = u → e.2 = v) :
    previousPointsByUserID l u = v := by
  induction l using List.reverseRecOn with
  | nil => obtain ⟨e, he, _⟩ := hex; simp at he
  | append_singleton l e ih =>
    rw [previousPointsByUserID_snoc]
    by_cases hu : u = e.1
    · have hb : (u == e.1) = true := by simpa using hu
      rw [if_pos hb]
      exact hall e (by simp) hu.symm
    · have hb : ¬ (u == e.1) = true := by simpa using hu
      rw [if_neg hb]
      apply ih
      · obtain ⟨x, hx, hxu⟩ := hex
        rcases List.mem_append.mp hx with h1 | h1
        · exact ⟨x, h1, hxu⟩
        · simp only [List.mem_singleton] at h1
          rw [h1] at hxu
          exact absurd hxu.symm hu
      · intro x hx
        exact hall x (List.mem_append_left _ hx)

theorem maxByNumber_mem : ∀ {l : List Week} {m : Week}, maxByNumber l = some m → m ∈ l := by
  intro l
  induction l with
  | nil => intro m h; simp [maxByNumber] at h
  | cons w rest ih =>
    intro m h
    rw [maxByNumber] at h
    split at h
    · rename_i m1 hm1
      split_ifs at h
      · simp only [Option.some.injEq] at h
        rw [← h]
        exact List.mem_cons_of_mem _ (ih hm1)
      · simp only [Option.some.injEq] at h
        rw [← h]
        exact List.mem_cons_self _ _
    · simp only [Option.some.injEq] at h
      rw [← h]
      exact List.mem_cons_self _ _

theorem maxByNumber_none {l : List Week} (h : maxByNumber l = none) : l = [] := by
  cases l with
  | nil => rfl
  | cons w rest =>
    rw [maxByNumber] at h
    split at h
    · split_ifs at h
    · simp at h

/-- A week whose number is strictly above that of every other week of the list is the one
`ORDER BY number DESC LIMIT 1` returns. -/
theorem maxByNumber_greatest : ∀ (l : List Week) (pw : Week), pw ∈ l →
    (∀ x ∈ l, x ≠ pw → x.Number < pw.Number) → maxByNumber l = some pw := by
  intro l
  induction l with
  | nil => intro pw h; simp at h
  | cons w rest ih =>
    intro pw hmem hmax
    rw [maxByNumber]
    by_cases hw : w = pw
    · subst hw
      split
      · rename_i m hm
        have hm1 := maxByNumber_mem hm
        by_cases he : m = w
        · rw [he, if_neg (lt_irrefl _)]
        · have := hmax m (List.mem_cons_of_mem _ hm1) he
          rw [if_neg (not_lt.mpr this.le)]
      · rfl
    · have hin : pw ∈ rest := by
        rcases List.mem_cons.mp hmem with h1 | h1
        · exact absurd h1.symm hw
        · exact h1
      rw [ih pw hin (fun x hx hne => hmax x (List.mem_cons_of_mem _ hx) hne)]
      simp only
      rw [if_pos (hmax w (List.mem_cons_self _ _) hw)]

theorem ssOwns_iff (seasonID weekID userID : String) (s : SeasonStanding) :
    ssOwns seasonID weekID userID s = true ↔
      (s.UserID = userID ∧ s.SeasonID = seasonID ∧ s.WeekID = weekID) := by
  simp only [ssOwns, Bool.and_eq_true, beq_iff_eq, and_assoc]

theorem ssOwns_excl (seasonID weekID : String) (u v : String) (s : SeasonStanding)
    (h1 : ssOwns seasonID weekID u s = true) (h2 : ssOwns seasonID weekID v s = true) : u = v := by
  rw [ssOwns_iff] at h1 h2
  rw [← h1.1, ← h2.1]

theorem ssOwns_new (env : Env) (seasonID weekID : String) (k : Nat) (u : String) (p : Int)
    (v : String) (h : ssOwns seasonID weekID v (ssNew env seasonID weekID k u p) = true) :
    v = u := by
  rw [ssOwns_iff] at h
  exact h.1.symm

/-- The standings after the snapshot carry the user, season, week and points of the rows the
upsert loop left. -/
theorem snapshot_fields {env : Env} {db db1 : DB} {weekID : String}
    {res : CalculateSeasonSnapshotResult} {week : WeekWithYear}
    (h : CalculateSeasonSnapshot env db weekID = (db1, .ok res))
    (hw : GetWeekWithYear db weekID = .ok week) :
    ∃ T : List SeasonStanding,
      T = upsertLoop (ssOwns week.SeasonID weekID) (ssSet env) (ssNew env week.SeasonID weekID) 0
        (((db.week_results.filter (fun r => r.WeekID == weekID)).map
          (fun r => (r.UserID, r.Points))).map
          (fun wr => (wr.1, previousPointsByUserID (previousStandings db week.SeasonID weekID)
            wr.1 + wr.2))) db.season_standings ∧
      (∀ s1 ∈ db1.season_standings, ∃ s ∈ T, s1.UserID = s.UserID ∧ s1.SeasonID = s.SeasonID ∧
        s1.WeekID = s.WeekID ∧ s1.Points = s.Points) ∧
      (∀ s ∈ T, ∃ s1 ∈ db1.season_standings, s1.UserID = s.UserID ∧ s1.SeasonID = s.SeasonID ∧
        s1.WeekID = s.WeekID ∧ s1.Points = s.Points) := by
  obtain ⟨week1, hw1, hss⟩ := CalculateSeasonSnapshot_standings h
  rw [hw] at hw1
  cases hw1
  refine ⟨_, rfl, ?_, ?_⟩
  · intro s1 hs1
    rw [hss] at hs1
    obtain ⟨s, hs, he⟩ := (rankUpdate_rows _ _ _ _ _).1 s1 hs1
    refine ⟨s, hs, ?_⟩
    rcases he with he | ⟨k, he⟩ <;> rw [he] <;> exact ⟨rfl, rfl, rfl, rfl⟩
  · intro s hs
    obtain ⟨s1, hs1, he⟩ := (rankUpdate_rows _ (fun s : SeasonStanding => s.ID)
      (fun s => s.Points) (fun s => s.SeasonID == week.SeasonID && s.WeekID == weekID)
      (fun rank s => { s with Rank := some rank })).2 s hs
    rw [← hss] at hs1
    refine ⟨s1, hs1, ?_⟩
    rcases he with he | ⟨k, he⟩ <;> rw [he] <;> exact ⟨rfl, rfl, rfl, rfl⟩

/-- The previous points the snapshot reads for a user when the immediately preceding week
is `pw`: the points of the user's standing there, 0 without one. -/
theorem previous_points_of_preceding (db : DB) (cur pw : Week) (userID : String)
    (hweeks : (db.weeks.map (fun w => w.ID)).Nodup)
    (hss : (db.season_standings.map (fun s => (s.UserID, s.SeasonID, s.WeekID))).Nodup)
    (hcur : cur ∈ db.weeks) (hpw : immediatelyPrecedes db cur pw) :
    previousPointsByUserID (previousStandings db cur.SeasonID cur.ID) userID =
      standingPoints db userID cur.SeasonID pw.ID := by
  obtain ⟨hpwmem, hpws, hpwn, hmax⟩ := hpw
  have hprev : previousWeekID db cur.SeasonID cur.ID = some pw.ID := by
    unfold previousWeekID
    rw [find?_week_of_nodup hweeks hcur]
    simp only
    rw [maxByNumber_greatest _ pw]
    · rfl
    · exact List.mem_filter.mpr ⟨hpwmem, by simp [hpws, hpwn]⟩
    · intro x hx hne
      have hx1 := List.mem_filter.mp hx
      simp only [Bool.and_eq_true, beq_iff_eq, decide_eq_true_eq] at hx1
      exact hmax x hx1.1 hx1.2.1 hx1.2.2 hne
  unfold previousStandings standingPoints
  rw [hprev]
  simp only
  split
  · rename_i s0 hs0
    have hs0mem := List.mem_of_find?_eq_some hs0
    have hs0key := List.find?_some hs0
    simp only [Bool.and_eq_true, beq_iff_eq] at hs0key
    apply previousPointsByUserID_value
    · exact ⟨(s0.UserID, s0.Points), List.mem_map.mpr ⟨s0, List.mem_filter.mpr
        ⟨hs0mem, by simp [hs0key.1.2, hs0key.2]⟩, rfl⟩, hs0key.1.1⟩
    · intro e he heu
      obtain ⟨s, hs, hse⟩ := List.mem_map.mp he
      have hs1 := List.mem_filter.mp hs
      simp only [Bool.and_eq_true, beq_iff_eq] at hs1
      have : s = s0 := by
        apply List.inj_on_of_nodup_map hss hs1.1 hs0mem
        rw [← hse] at heu
        simp only at heu
        simp only [Prod.mk.injEq]
        exact ⟨by rw [heu, hs0key.1.1], by rw [hs1.2.1, hs0key.1.2], by rw [hs1.2.2, hs0key.2]⟩
      rw [← hse, this]
  · rename_i hnone
    apply previousPointsByUserID_none
    intro e he heu
    obtain ⟨s, hs, hse⟩ := List.mem_map.mp he
    have hs1 := List.mem_filter.mp hs
    simp only [Bool.and_eq_true, beq_iff_eq] at hs1
    rw [List.find?_eq_none] at hnone
    apply hnone s hs1.1
    rw [← hse] at heu
    simp only at heu
    simp [heu, hs1.2.1, hs1.2.2]

/-- The previous points the snapshot reads when the season has no week with a smaller
number: zero for every user. -/
theorem previous_points_of_first (db : DB) (cur : Week) (userID : String)
    (hweeks : (db.weeks.map (fun w => w.ID)).Nodup) (hcur : cur ∈ db.weeks)
    (hfirst : ∀ x ∈ db.weeks, x.SeasonID = cur.SeasonID → ¬ x.Number < cur.Number) :
    previousPointsByUserID (previousStandings db cur.SeasonID cur.ID) userID = 0 := by
  have hprev : previousWeekID db cur.SeasonID cur.ID = none := by
    unfold previousWeekID
    rw [find?_week_of_nodup hweeks hcur]
    simp only
    have : db.weeks.filter (fun w => w.SeasonID == cur.SeasonID && decide (w.Number < cur.Number)) =
        [] := by
      rw [List.filter_eq_nil_iff]
      intro x hx hc
      simp only [Bool.and_eq_true, beq_iff_eq, decide_eq_true_eq] at hc
      exact hfirst x hx hc.1 hc.2
    rw [this]
    rfl
  unfold previousStandings
  rw [hprev]
  rfl

/-- C6: after a successful `CalculateSeasonSnapshot` for week `cur`, every user with a week
result for the week has a standing for (user, season, week), and its points are the points
of the user's standing for the immediately preceding week of the season (the week with the
greatest number below the number of `cur`; 0 when the user has no standing there, and 0 when
the season has no week with a smaller number) plus the points of the week result; a week 1
result of 3 and a week 2 result of 2 give a week 2 standing of 5.  Week ids are primary
keys, week results are keyed on (user, week) and standings on (user, season, week). -/
theorem CalculateSeasonSnapshot_points (env : Env) (db db1 : DB) (cur : Week)
    (res : CalculateSeasonSnapshotResult)
    (hweeks : (db.weeks.map (fun w => w.ID)).Nodup)
    (hwr : (db.week_results.map (fun r => (r.UserID, r.WeekID))).Nodup)
    (hss : (db.season_standings.map (fun s => (s.UserID, s.SeasonID, s.WeekID))).Nodup)
    (hcur : cur ∈ db.weeks)
    (h : CalculateSeasonSnapshot env db cur.ID = (db1, .ok res)) :
    (∀ r ∈ db.week_results, r.WeekID = cur.ID →
      (∃ s ∈ db1.season_standings,
        s.UserID = r.UserID ∧ s.SeasonID = cur.SeasonID ∧ s.WeekID = cur.ID) ∧
      (∀ s ∈ db1.season_standings,
        s.UserID = r.UserID → s.SeasonID = cur.SeasonID → s.WeekID = cur.ID →
        (∀ previous, immediatelyPrecedes db cur previous →
          s.Points = standingPoints db r.UserID cur.SeasonID previous.ID + r.Points) ∧
        ((∀ x ∈ db.weeks, x.SeasonID = cur.SeasonID → ¬ x.Number < cur.Number) →
          s.Points = r.Points))) ∧
    (CalculateSeasonSnapshot (exampleEnv []) snapshotDB "w2").1.season_standings.map
      (fun s => (s.UserID, s.WeekID, s.Points)) =
        [("u1", "w1", 3), ("u2", "w1", 1), ("u1", "w2", 5)] := by
  refine ⟨?_, by rfl⟩
  obtain ⟨week, hw, _, _⟩ := CalculateSeasonSnapshot_ok h
  obtain ⟨w, hwmem, hwid, _, hwseason, _⟩ := GetWeekWithYear_mem hw
  have hwcur : w = cur := List.inj_on_of_nodup_map hweeks hwmem hcur hwid
  have hseason : week.SeasonID = cur.SeasonID := by rw [← hwseason, hwcur]
  obtain ⟨T, hT, hback, hforth⟩ := snapshot_fields h hw
  rw [hseason] at hT
  intro r hr hrw
  have hitems : (((((db.week_results.filter (fun r => r.WeekID == cur.ID)).map
      (fun r => (r.UserID, r.Points))).map
      (fun wr => (wr.1, previousPointsByUserID (previousStandings db cur.SeasonID cur.ID)
        wr.1 + wr.2)))).map Prod.fst).Nodup := by
    have h1 : ((db.week_results.filter (fun r => r.WeekID == cur.ID)).map
        (fun r => (r.UserID, r.WeekID))).Nodup :=
      hwr.sublist (List.Sublist.map _ (List.filter_sublist _))
    have h2 : (db.week_results.filter (fun r => r.WeekID == cur.ID)).map
        (fun r => (r.UserID, r.WeekID)) =
        ((db.week_results.filter (fun r => r.WeekID == cur.ID)).map (fun r => r.UserID)).map
          (fun u => (u, cur.ID)) := by
      rw [List.map_map]
      apply List.map_congr_left
      intro x hx
      have : x.WeekID = cur.ID := by simpa using (List.mem_filter.mp hx).2
      simp [this]
    rw [h2] at h1
    have h3 := List.Nodup.of_map _ h1
    simpa [List.map_map, Function.comp_def] using h3
  have hitem : (r.UserID, previousPointsByUserID (previousStandings db cur.SeasonID cur.ID)
      r.UserID + r.Points) ∈
      (((db.week_results.filter (fun r => r.WeekID == cur.ID)).map
        (fun r => (r.UserID, r.Points))).map
        (fun wr => (wr.1, previousPointsByUserID (previousStandings db cur.SeasonID cur.ID)
          wr.1 + wr.2))) := by
    rw [List.map_map]
    exact List.mem_map.mpr ⟨r, List.mem_filter.mpr ⟨hr, by simpa using hrw⟩, rfl⟩
  have heff := upsertLoop_effect (ssOwns cur.SeasonID cur.ID) (ssSet env)
    (ssNew env cur.SeasonID cur.ID) (fun s => s.Points) (ssOwns_excl _ _) (fun _ _ _ => rfl)
    (ssOwns_new env _ _) (fun k u p => by simp [ssOwns, ssNew]) (fun _ _ => rfl)
    (fun _ _ _ => rfl) _ 0 db.season_standings hitems _ hitem
  rw [← hT] at heff
  constructor
  · obtain ⟨s, hs, hown⟩ := heff.1
    obtain ⟨s1, hs1, h1, h2, h3, _⟩ := hforth s hs
    have := (ssOwns_iff _ _ _ s).mp hown
    exact ⟨s1, hs1, by rw [h1, this.1], by rw [h2, this.2.1], by rw [h3, this.2.2]⟩
  · intro s1 hs1 hu hse hwk
    obtain ⟨s, hs, h1, h2, h3, h4⟩ := hback s1 hs1
    have hpts : s.Points = previousPointsByUserID (previousStandings db cur.SeasonID cur.ID)
        r.UserID + r.Points :=
      heff.2 s hs ((ssOwns_iff _ _ _ s).mpr ⟨by rw [← h1, hu], by rw [← h2, hse], by rw [← h3, hwk]⟩)
    constructor
    · intro previous hprev
      rw [h4, hpts, previous_points_of_preceding db cur previous r.UserID hweeks hss hcur hprev]
    · intro hfirst
      rw [h4, hpts, previous_points_of_first db cur r.UserID hweeks hcur hfirst, zero_add]

/-- Witness for C6: the snapshot of week w2 of the examples; u1 scored 3 in week 1 and 2 in
week 2, and the standing written for week 2 has 5 points. -/
theorem CalculateSeasonSnapshot_points_witness :
    immediatelyPrecedes snapshotDB (exampleWeek "w2" 2 "scored") (exampleWeek "w1" 1 "final") ∧
    (5 : Int) = standingPoints snapshotDB "u1" "s1" "w1" + 2 := by
  have hprev : immediatelyPrecedes snapshotDB (exampleWeek "w2" 2 "scored")
      (exampleWeek "w1" 1 "final") := by
    refine ⟨by decide, rfl, by decide, ?_⟩
    intro x hx _ hlt hne
    simp only [snapshotDB, emptyDB, List.mem_cons, List.mem_singleton, List.not_mem_nil,
      or_false] at hx
    rcases hx with rfl | rfl
    · exact absurd rfl hne
    · exact absurd hlt (by decide)
  exact ⟨hprev,
    ((((CalculateSeasonSnapshot_points (exampleEnv []) snapshotDB
      (CalculateSeasonSnapshot (exampleEnv []) snapshotDB "w2").1 (exampleWeek "w2" 2 "scored")
      { UsersProcessed := 1 } (by decide) (by decide) (by decide) (by decide) rfl).1
      (exampleResult "r3" "u1" "w2" 2 (some 1)) (by decide) rfl).2
      { exampleStanding "n" "u1" "w2" 5 (some 1) with
        ComputedAt := 101, CreatedAt := 101, UpdatedAt := 101 } (by decide) rfl rfl rfl).1
      (exampleWeek "w1" 1 "final") hprev)⟩

/-- C8: after a successful `CalculateSeasonSnapshot` for week w a user has a standing for
(season, w) iff the user has a week result for w or had such a standing before the call: the
standings written are exactly those of the users with a week result for w, so that, no
standing for w existing before, the users with a standing for w are exactly the users with
a week result for w.  A user with a standing in the previous week but without a result in w
gets no standing for w: in the example u2 has none for w2. -/
theorem CalculateSeasonSnapshot_users (env : Env) (db db1 : DB) (weekID : String)
    (res : CalculateSeasonSnapshotResult) (week : WeekWithYear)
    (hw : GetWeekWithYear db weekID = .ok week)
    (h : CalculateSeasonSnapshot env db weekID = (db1, .ok res)) :
    (∀ userID,
      (∃ s ∈ db1.season_standings,
        s.UserID = userID ∧ s.SeasonID = week.SeasonID ∧ s.WeekID = weekID) ↔
      ((∃ r ∈ db.week_results, r.WeekID = weekID ∧ r.UserID = userID) ∨
        (∃ s ∈ db.season_standings,
          s.UserID = userID ∧ s.SeasonID = week.SeasonID ∧ s.WeekID = weekID))) ∧
    ((∀ s ∈ db.season_standings, ¬ (s.SeasonID = week.SeasonID ∧ s.WeekID = weekID)) →
      ∀ userID,
        (∃ s ∈ db1.season_standings,
          s.UserID = userID ∧ s.SeasonID = week.SeasonID ∧ s.WeekID = weekID) ↔
        (∃ r ∈ db.week_results, r.WeekID = weekID ∧ r.UserID = userID)) ∧
    ((CalculateSeasonSnapshot (exampleEnv []) snapshotDB "w2").1.season_standings.filter
      (fun s => s.WeekID == "w2")).map (fun s => s.UserID) = ["u1"] := by
  obtain ⟨T, hT, hback, hforth⟩ := snapshot_fields h hw
  have hmain : ∀ userID,
      (∃ s ∈ db1.season_standings,
        s.UserID = userID ∧ s.SeasonID = week.SeasonID ∧ s.WeekID = weekID) ↔
      ((∃ r ∈ db.week_results, r.WeekID = weekID ∧ r.UserID = userID) ∨
        (∃ s ∈ db.season_standings,
          s.UserID = userID ∧ s.SeasonID = week.SeasonID ∧ s.WeekID = weekID)) := by
    intro userID
    have hkeys : ∀ (items : List WeekResult) (f : String × Int → String × Int),
        (∀ x, (f x).1 = x.1) →
        ((items.map (fun r => (r.UserID, r.Points))).map f).map Prod.fst =
          items.map (fun r => r.UserID) := by
      intro items f hf
      simp [List.map_map, Function.comp_def, hf]
    constructor
    · rintro ⟨s1, hs1, hu, hse, hwk⟩
      obtain ⟨s, hs, h1, h2, h3, _⟩ := hback s1 hs1
      by_cases hin : ∃ r ∈ db.week_results, r.WeekID = weekID ∧ r.UserID = userID
      · exact Or.inl hin
      · right
        have hfr := upsertLoop_frame (ssOwns week.SeasonID weekID) (ssSet env)
          (ssNew env week.SeasonID weekID) (ssOwns_excl _ _) (fun _ _ _ => rfl)
          (ssOwns_new env _ _)
          (((db.week_results.filter (fun r => r.WeekID == weekID)).map
            (fun r => (r.UserID, r.Points))).map
            (fun wr => (wr.1, previousPointsByUserID (previousStandings db week.SeasonID weekID)
              wr.1 + wr.2))) 0 db.season_standings userID
          (by
            rw [hkeys (db.week_results.filter (fun r => r.WeekID == weekID))
              (fun wr => (wr.1, previousPointsByUserID (previousStandings db week.SeasonID weekID)
                wr.1 + wr.2)) (fun _ => rfl)]
            intro hmem
            obtain ⟨r, hr, hru⟩ := List.mem_map.mp hmem
            have hr1 := List.mem_filter.mp hr
            exact hin ⟨r, hr1.1, by simpa using hr1.2, hru⟩)
        rw [← hT] at hfr
        have hsf : s ∈ T.filter (ssOwns week.SeasonID weekID userID) :=
          List.mem_filter.mpr ⟨hs, (ssOwns_iff _ _ _ s).mpr
            ⟨by rw [← h1, hu], by rw [← h2, hse], by rw [← h3, hwk]⟩⟩
        rw [hfr] at hsf
        obtain ⟨hs0, hown⟩ := List.mem_filter.mp hsf
        exact ⟨s, hs0, (ssOwns_iff _ _ _ s).mp hown⟩
    · intro hor
      have hexT : ∃ s ∈ T, ssOwns week.SeasonID weekID userID s = true := by
        rcases hor with ⟨r, hr, hrw, hru⟩ | ⟨s, hs, hkey⟩
        · rw [hT]
          have := upsertLoop_exists (ssOwns week.SeasonID weekID) (ssSet env)
            (ssNew env week.SeasonID weekID) (fun _ _ _ => rfl)
            (fun k u p => by simp [ssOwns, ssNew])
            (((db.week_results.filter (fun r => r.WeekID == weekID)).map
              (fun r => (r.UserID, r.Points))).map
              (fun wr => (wr.1, previousPointsByUserID
                (previousStandings db week.SeasonID weekID) wr.1 + wr.2))) 0 db.season_standings
            (r.UserID, previousPointsByUserID (previousStandings db week.SeasonID weekID)
              r.UserID + r.Points)
            (by
              rw [List.map_map]
              exact List.mem_map.mpr ⟨r, List.mem_filter.mpr ⟨hr, by simpa using hrw⟩, rfl⟩)
          rw [← hru]
          exact this
        · rw [hT]
          exact upsertLoop_keeps (ssOwns week.SeasonID weekID) (ssSet env)
            (ssNew env week.SeasonID weekID) (fun _ _ _ => rfl) userID _ 0 db.season_standings
            ⟨s, hs, (ssOwns_iff _ _ _ s).mpr hkey⟩
      obtain ⟨s, hs, hown⟩ := hexT
      obtain ⟨s1, hs1, h1, h2, h3, _⟩ := hforth s hs
      have := (ssOwns_iff _ _ _ s).mp hown
      exact ⟨s1, hs1, by rw [h1, this.1], by rw [h2, this.2.1], by rw [h3, this.2.2]⟩
  refine ⟨hmain, ?_, by rfl⟩
  intro hnone userID
  rw [hmain userID]
  constructor
  · rintro (h1 | ⟨s, hs, _, h2, h3⟩)
    · exact h1
    · exact absurd ⟨h2, h3⟩ (hnone s hs)
  · intro h1
    exact Or.inl h1

/-- Witness for C8: the snapshot of week w2 of the examples; u2 has a standing for w1 and no
result for w2. -/
theorem CalculateSeasonSnapshot_users_witness :
    (∃ s ∈ (CalculateSeasonSnapshot (exampleEnv []) snapshotDB "w2").1.season_standings,
        s.UserID = "u2" ∧ s.SeasonID = "s1" ∧ s.WeekID = "w2") ↔
      (∃ r ∈ snapshotDB.week_results, r.WeekID = "w2" ∧ r.UserID = "u2") :=
  (CalculateSeasonSnapshot_users (exampleEnv []) snapshotDB
    (CalculateSeasonSnapshot (exampleEnv []) snapshotDB "w2").1 "w2" { UsersProcessed := 1 }
    { ID := "w2", SeasonID := "s1", Number := 2, Status := "scored", Year := 2025,
      IsPostseason := false } rfl rfl).2.1 (by decide) "u2"

/-! ## C7: cumulative points -/


/-- C7 fails on the code: in a season whose weeks 1 to 3 have each been finalized by
`CalculateSeasonSnapshot`, a user with week results in weeks 1 and 3 but none in week 2 has
a week 3 standing of 2 points, the week 3 result alone, while the sum of the user's week
results through week 3 is 5; the standing of a user with a result in every week is the
sum. -/
theorem cumulative_points_gap :
    gapSeason.weeks.map (fun w => (w.Number, w.Status)) =
      [(1, "final"), (2, "final"), (3, "final")] ∧
    (gapSeason.season_standings.filter
      (fun s => s.UserID == "u1" && s.WeekID == "w3")).map (fun s => s.Points) = [2] ∧
    cumulativePoints gapSeason "u1" "s1" 3 = 5 ∧
    (gapSeason.season_standings.filter
      (fun s => s.UserID == "u2" && s.WeekID == "w3")).map (fun s => s.Points) = [4] ∧
    cumulativePoints gapSeason "u2" "s1" 3 = 4 := by
  refine ⟨by rfl, by rfl, by rfl, by rfl, by rfl⟩

/-! ## Import games: validation and all-or-nothing (C11, C12, C13) -/

theorem GetTeamIDByAbbreviation_inactive {db : DB} {abbreviation : String}
    (h : hasActiveTeam db abbreviation = false) :
    GetTeamIDByAbbreviation db abbreviation = .error (Err.teamMapping abbreviation) := by
  unfold GetTeamIDByAbbreviation
  split
  · rename_i t ht
    have hmem := List.mem_of_find?_eq_some ht
    have hp := List.find?_some ht
    have : hasActiveTeam db abbreviation = true := by
      unfold hasActiveTeam
      exact List.any_eq_true.mpr ⟨t, hmem, hp⟩
    rw [h] at this
    cases this
  · rfl

theorem GetTeamIDByAbbreviation_active {db : DB} {abbreviation : String}
    (h : hasActiveTeam db abbreviation = true) :
    ∃ id, GetTeamIDByAbbreviation db abbreviation = .ok id := by
  unfold GetTeamIDByAbbreviation
  split
  · exact ⟨_, rfl⟩
  · rename_i hnone
    unfold hasActiveTeam at h
    obtain ⟨t, ht, hp⟩ := List.any_eq_true.mp h
    have := List.find?_eq_none.mp hnone t ht
    exact absurd hp this

/-- The validation loop fails on a schedule with an abbreviation that has no active team,
with the mapping error of such an abbreviation. -/
theorem validateGames_unmapped (db : DB) :
    ∀ (externalGames : List ExternalGame),
      (∃ a ∈ scheduleAbbreviations externalGames, hasActiveTeam db a = false) →
      ∃ a ∈ scheduleAbbreviations externalGames, hasActiveTeam db a = false ∧
        validateGames db externalGames = .error (Err.teamMapping a) := by
  intro externalGames
  induction externalGames with
  | nil => intro ⟨a, ha, _⟩; simp [scheduleAbbreviations] at ha
  | cons g rest ih =>
    intro ⟨a, ha, hna⟩
    by_cases hh : hasActiveTeam db g.HomeTeam.Abbreviation = true
    · by_cases hw : hasActiveTeam db g.AwayTeam.Abbreviation = true
      · have hrest : ∃ a ∈ scheduleAbbreviations rest, hasActiveTeam db a = false := by
          simp only [scheduleAbbreviations, List.flatMap_cons, List.mem_append, List.mem_cons,
            List.mem_singleton, List.not_mem_nil, or_false] at ha
          rcases ha with (ha | ha) | ha
          · rw [ha, hh] at hna; cases hna
          · rw [ha, hw] at hna; cases hna
          · exact ⟨a, ha, hna⟩
        obtain ⟨b, hb, hnb, hv⟩ := ih hrest
        obtain ⟨hid, hhome⟩ := GetTeamIDByAbbreviation_active hh
        obtain ⟨aid, haway⟩ := GetTeamIDByAbbreviation_active hw
        refine ⟨b, ?_, hnb, ?_⟩
        · simp only [scheduleAbbreviations, List.flatMap_cons, List.mem_append]
          exact Or.inr hb
        · rw [validateGames, hhome]
          simp only
          rw [haway]
          simp only
          rw [hv]
      · have hw1 : hasActiveTeam db g.AwayTeam.Abbreviation = false := by simpa using hw
        obtain ⟨hid, hhome⟩ := GetTeamIDByAbbreviation_active hh
        refine ⟨g.AwayTeam.Abbreviation, ?_, hw1, ?_⟩
        · simp [scheduleAbbreviations]
        · rw [validateGames, hhome]
          simp only
          rw [GetTeamIDByAbbreviation_inactive hw1]
    · have hh1 : hasActiveTeam db g.HomeTeam.Abbreviation = false := by simpa using hh
      refine ⟨g.HomeTeam.Abbreviation, ?_, hh1, ?_⟩
      · simp [scheduleAbbreviations]
      · rw [validateGames, GetTeamIDByAbbreviation_inactive hh1]

/-- What the validation loop returns: one validated game per fetched game, in order, with
the mapped team ids. -/
theorem validateGames_ok (db : DB) :
    ∀ (externalGames : List ExternalGame) (validated : List validatedGame),
      validateGames db externalGames = .ok validated →
      List.Forall₂ (fun (g : ExternalGame) (v : validatedGame) =>
        v.ExternalID = g.ID ∧ v.KickoffTime = g.Date ∧
        GetTeamIDByAbbreviation db g.HomeTeam.Abbreviation = .ok v.HomeTeamID ∧
        GetTeamIDByAbbreviation db g.AwayTeam.Abbreviation = .ok v.AwayTeamID ∧
        v.HomeTeamAbbr = g.HomeTeam.Abbreviation ∧ v.AwayTeamAbbr = g.AwayTeam.Abbreviation)
        externalGames validated := by
  intro externalGames
  induction externalGames with
  | nil =>
    intro validated h
    simp only [validateGames, Except.ok.injEq] at h
    subst h
    exact List.Forall₂.nil
  | cons g rest ih =>
    intro validated h
    rw [validateGames] at h
    split at h
    · cases h
    · rename_i homeTeamID hhome
      split at h
      · cases h
      · rename_i awayTeamID haway
        split at h
        · cases h
        · rename_i v hv
          simp only [Except.ok.injEq] at h
          subst h
          exact List.Forall₂.cons ⟨rfl, rfl, hhome, haway, rfl, rfl⟩ (ih v hv)

/-- C11: for a draft week and a fetched schedule in which some home or away abbreviation has
no active internal team, ImportGamesForWeek returns the mapping error of such an
abbreviation, an error that wraps ErrTeamMappingFailed; the database is what it was before
the call, so none of the fetched games is persisted (a week without games stays without
games) and the week is still a draft. -/
theorem ImportGamesForWeek_unmapped (env : Env) (db : DB) (weekID actingUserID : String)
    (week : WeekWithYear) (externalGames : List ExternalGame)
    (hweek : GetWeekWithYear db weekID = .ok week) (hdraft : week.Status = "draft")
    (hclient : NewBallDontLieClient env = .ok ())
    (hfetch : FetchGames env week.Year week.Number week.IsPostseason = .ok externalGames)
    (hunmapped : ∃ a ∈ scheduleAbbreviations externalGames, hasActiveTeam db a = false) :
    ∃ a ∈ scheduleAbbreviations externalGames, hasActiveTeam db a = false ∧
      ImportGamesForWeek env db weekID actingUserID = (db, .error (Err.teamMapping a)) ∧
      errorsIs (Err.teamMapping a) Err.ErrTeamMappingFailed = true ∧
      (ImportGamesForWeek env db weekID actingUserID).1.games = db.games ∧
      (GetWeekGames db weekID = [] →
        GetWeekGames (ImportGamesForWeek env db weekID actingUserID).1 weekID = []) ∧
      (GetWeekWithYear (ImportGamesForWeek env db weekID actingUserID).1 weekID).map
        (fun w => w.Status) = .ok "draft" := by
  obtain ⟨a, ha, hna, hv⟩ := validateGames_unmapped db externalGames hunmapped
  have hne : externalGames ≠ [] := by
    intro he
    rw [he] at ha
    simp [scheduleAbbreviations] at ha
  have hlen : (externalGames.length == 0) = false := by
    cases externalGames with
    | nil => exact absurd rfl hne
    | cons g rest => rfl
  have hrun : ImportGamesForWeek env db weekID actingUserID =
      (db, .error (Err.teamMapping a)) := by
    unfold ImportGamesForWeek ImportGamesForWeekTx
    rw [hweek]
    simp only [hdraft, bne_self_eq_false, Bool.false_eq_true, if_false]
    rw [hclient]
    simp only
    rw [hfetch]
    simp only [hlen, Bool.false_eq_true, if_false]
    rw [hv]
    rfl
  refine ⟨a, ha, hna, hrun, rfl, ?_, ?_, ?_⟩
  · rw [hrun]
  · intro h0
    rw [hrun]
    exact h0
  · rw [hrun]
    simp only
    rw [hweek, ← hdraft]
    rfl

theorem ImportGamesForWeek_unmapped_witness :
    ∃ a ∈ scheduleAbbreviations [exampleSchedule 1 "KC" "SF", exampleSchedule 2 "BUF" "NYG"],
      hasActiveTeam draftDB a = false ∧
      ImportGamesForWeek (exampleEnv [exampleSchedule 1 "KC" "SF", exampleSchedule 2 "BUF" "NYG"])
        draftDB "w1" "admin" = (draftDB, .error (Err.teamMapping a)) ∧
      errorsIs (Err.teamMapping a) Err.ErrTeamMappingFailed = true ∧
      (ImportGamesForWeek (exampleEnv [exampleSchedule 1 "KC" "SF", exampleSchedule 2 "BUF" "NYG"])
        draftDB "w1" "admin").1.games = draftDB.games ∧
      (GetWeekGames draftDB "w1" = [] →
        GetWeekGames (ImportGamesForWeek
          (exampleEnv [exampleSchedule 1 "KC" "SF", exampleSchedule 2 "BUF" "NYG"])
          draftDB "w1" "admin").1 "w1" = []) ∧
      (GetWeekWithYear (ImportGamesForWeek
          (exampleEnv [exampleSchedule 1 "KC" "SF", exampleSchedule 2 "BUF" "NYG"])
          draftDB "w1" "admin").1 "w1").map (fun w => w.Status) = .ok "draft" :=
  ImportGamesForWeek_unmapped
    (exampleEnv [exampleSchedule 1 "KC" "SF", exampleSchedule 2 "BUF" "NYG"]) draftDB "w1" "admin"
    { ID := "w1", SeasonID := "s1", Number := 1, Status := "draft", Year := 2025,
      IsPostseason := false }
    [exampleSchedule 1 "KC" "SF", exampleSchedule 2 "BUF" "NYG"]
    rfl rfl rfl rfl ⟨"NYG", by decide, by decide⟩

theorem forall₂_enumFrom_map {α β γ : Type} {R : α → β → Prop} {S : α → γ → Prop}
    (f : Nat → β → γ) (hf : ∀ k a b, R a b → S a (f k b)) :
    ∀ (l : List α) (v : List β) (k : Nat), List.Forall₂ R l v →
      List.Forall₂ S l ((v.enumFrom k).map (fun kb => f kb.1 kb.2)) := by
  intro l v k h
  induction h generalizing k with
  | nil => exact List.Forall₂.nil
  | cons hab _ ih =>
    simp only [List.enumFrom_cons, List.map_cons]
    exact List.Forall₂.cons (hf k _ _ hab) (ih (k + 1))

/-- The validation loop succeeds on a schedule whose abbreviations all have an active
team. -/
theorem validateGames_mapped (db : DB) :
    ∀ (externalGames : List ExternalGame),
      (∀ a ∈ scheduleAbbreviations externalGames, hasActiveTeam db a = true) →
      ∃ validated, validateGames db externalGames = .ok validated := by
  intro externalGames
  induction externalGames with
  | nil => intro _; exact ⟨[], rfl⟩
  | cons g rest ih =>
    intro h
    have hh : hasActiveTeam db g.HomeTeam.Abbreviation = true :=
      h _ (by simp [scheduleAbbreviations])
    have ha : hasActiveTeam db g.AwayTeam.Abbreviation = true :=
      h _ (by simp [scheduleAbbreviations])
    obtain ⟨homeTeamID, hhome⟩ := GetTeamIDByAbbreviation_active hh
    obtain ⟨awayTeamID, haway⟩ := GetTeamIDByAbbreviation_active ha
    obtain ⟨validated, hv⟩ := ih (fun a hmem => h a (by
      simp only [scheduleAbbreviations, List.flatMap_cons, List.mem_append]
      exact Or.inr hmem))
    refine ⟨validatedGame.mk g.ID g.Date homeTeamID awayTeamID g.HomeTeam.Abbreviation
      g.AwayTeam.Abbreviation :: validated, ?_⟩
    rw [validateGames, hhome]
    simp only
    rw [haway]
    simp only
    rw [hv]

/-- C12: for a draft week and a non-empty fetched schedule whose abbreviations all map
(the client being configured), ImportGamesForWeek succeeds, and every successful
ImportGamesForWeek leaves the week with exactly the imported games, one per fetched game and
in the order of the schedule, each with the external id, kickoff time and mapped teams of
its fetched game, a null home spread, null scores and status scheduled; the games the week
had before are deleted, the games of other weeks are untouched; GamesCreated is the number
of fetched games and the status of the week is games_imported. -/
theorem ImportGamesForWeek_games (env : Env) (db : DB) (weekID actingUserID : String)
    (week : WeekWithYear) (externalGames : List ExternalGame)
    (hweek : GetWeekWithYear db weekID = .ok week)
    (hfetch : FetchGames env week.Year week.Number week.IsPostseason = .ok externalGames) :
    (week.Status = "draft" → NewBallDontLieClient env = .ok () → externalGames ≠ [] →
      (∀ a ∈ scheduleAbbreviations externalGames, hasActiveTeam db a = true) →
      ∃ db1 res, ImportGamesForWeek env db weekID actingUserID = (db1, .ok res)) ∧
    ∀ db1 res, ImportGamesForWeek env db weekID actingUserID = (db1, .ok res) →
      week.Status = "draft" ∧ externalGames ≠ [] ∧
      (∀ a ∈ scheduleAbbreviations externalGames, hasActiveTeam db a = true) ∧
      List.Forall₂ (importedFrom db weekID actingUserID) externalGames
        (GetWeekGames db1 weekID) ∧
      (∀ g ∈ GetWeekGames db1 weekID, ∃ k, k < externalGames.length ∧ g.ID = env.newID k) ∧
      db1.games.filter (fun g => !(g.WeekID == weekID)) =
        db.games.filter (fun g => !(g.WeekID == weekID)) ∧
      res.GamesCreated = externalGames.length ∧
      GetWeekStatus db1 weekID = .ok "games_imported" := by
  constructor
  · intro hdraft hclient hne hmapped
    obtain ⟨validated, hval⟩ := validateGames_mapped db externalGames hmapped
    have hlen : (externalGames.length == 0) = false := by
      cases externalGames with
      | nil => exact absurd rfl hne
      | cons g rest => rfl
    rcases hr : ImportGamesForWeek env db weekID actingUserID with ⟨db1, r⟩
    cases r with
    | ok res => exact ⟨db1, res, rfl⟩
    | error e =>
      have h1 := (finish_error hr).2
      unfold ImportGamesForWeekTx at h1
      rw [hweek] at h1
      simp only [hdraft, bne_self_eq_false, Bool.false_eq_true, if_false] at h1
      rw [hclient] at h1
      simp only at h1
      rw [hfetch] at h1
      simp only [hlen, Bool.false_eq_true, if_false] at h1
      rw [hval] at h1
      cases h1
  intro db1 res h
  obtain ⟨week1, externalGames1, validated, hweek1, hdraft, hfetch1, hne, hval, hdb, hres⟩ :=
    ImportGamesForWeek_ok h
  rw [hweek] at hweek1
  cases hweek1
  rw [hfetch] at hfetch1
  cases hfetch1
  have hall := validateGames_ok db externalGames validated hval
  have hlen : validated.length = externalGames.length := hall.length_eq.symm
  have hnew : ∀ g ∈ (validated.enumFrom 0).map
      (fun kg => newGameRow env week weekID actingUserID kg.1 kg.2), g.WeekID = weekID := by
    intro g hg
    obtain ⟨kg, _, rfl⟩ := List.mem_map.mp hg
    rfl
  have hgames : GetWeekGames db1 weekID =
      (validated.enumFrom 0).map (fun kg => newGameRow env week weekID actingUserID kg.1 kg.2) := by
    rw [hdb]
    simp only [GetWeekGames, UpdateWeekStatus, List.filter_append, List.filter_filter]
    have h1 : db.games.filter (fun g => (g.WeekID == weekID) && !(g.WeekID == weekID)) = [] := by
      apply List.filter_eq_nil_iff.mpr
      intro g _
      simp
    rw [h1, List.nil_append]
    apply List.filter_eq_self.mpr
    intro g hg
    simpa using hnew g hg
  have hothers : db1.games.filter (fun g => !(g.WeekID == weekID)) =
      db.games.filter (fun g => !(g.WeekID == weekID)) := by
    rw [hdb]
    simp only [UpdateWeekStatus, List.filter_append, List.filter_filter, Bool.and_self]
    have h1 : ((validated.enumFrom 0).map
        (fun kg => newGameRow env week weekID actingUserID kg.1 kg.2)).filter
          (fun g => !(g.WeekID == weekID)) = [] := by
      apply List.filter_eq_nil_iff.mpr
      intro g hg
      simpa using hnew g hg
    rw [h1, List.append_nil]
  refine ⟨hdraft, hne, ?_, ?_, ?_, hothers, ?_, ?_⟩
  · intro a ha
    by_contra hna
    have hna1 : hasActiveTeam db a = false := by simpa using hna
    obtain ⟨b, _, _, hv⟩ := validateGames_unmapped db externalGames ⟨a, ha, hna1⟩
    rw [hval] at hv
    cases hv
  · rw [hgames]
    exact forall₂_enumFrom_map (fun k v => newGameRow env week weekID actingUserID k v)
      (fun k g v hgv => ⟨hgv.1, rfl, hgv.2.1, hgv.2.2.1, hgv.2.2.2.1, hgv.2.2.2.2.1,
        hgv.2.2.2.2.2, rfl, rfl, rfl, rfl, rfl, rfl⟩) externalGames validated 0 hall
  · intro g hg
    rw [hgames] at hg
    obtain ⟨kg, hkg, rfl⟩ := List.mem_map.mp hg
    have hk := List.fst_lt_add_of_mem_enumFrom hkg
    exact ⟨kg.1, by omega, rfl⟩
  · rw [hres, hlen]
  · rw [hdb]
    obtain ⟨w, hw, hid, _⟩ := GetWeekWithYear_mem hweek
    exact GetWeekStatus_update env _ weekID "games_imported" ⟨w, hw, hid⟩

/-- The import of a schedule of two games into the draft week of `draftDB`, which still held
a game of an earlier import. -/
theorem ImportGamesForWeek_games_witness :
    (∃ db1 res, ImportGamesForWeek
        (exampleEnv [exampleSchedule 1 "KC" "SF", exampleSchedule 2 "BUF" "MIA"])
        draftDB "w1" "admin" = (db1, .ok res)) ∧
    List.Forall₂ (importedFrom draftDB "w1" "admin")
      [exampleSchedule 1 "KC" "SF", exampleSchedule 2 "BUF" "MIA"]
      (GetWeekGames (ImportGamesForWeek
        (exampleEnv [exampleSchedule 1 "KC" "SF", exampleSchedule 2 "BUF" "MIA"])
        draftDB "w1" "admin").1 "w1") ∧
    (GetWeekGames (ImportGamesForWeek
        (exampleEnv [exampleSchedule 1 "KC" "SF", exampleSchedule 2 "BUF" "MIA"])
        draftDB "w1" "admin").1 "w1").map (fun g => (g.ID, g.ExternalGameID)) =
      [("n", 1), ("nn", 2)] ∧
    (ImportGamesForWeek (exampleEnv [exampleSchedule 1 "KC" "SF", exampleSchedule 2 "BUF" "MIA"])
        draftDB "w1" "admin").1.games.filter (fun g => !(g.WeekID == "w1")) =
      draftDB.games.filter (fun g => !(g.WeekID == "w1")) ∧
    GetWeekStatus (ImportGamesForWeek
        (exampleEnv [exampleSchedule 1 "KC" "SF", exampleSchedule 2 "BUF" "MIA"])
        draftDB "w1" "admin").1 "w1" = .ok "games_imported" :=
  have h := ImportGamesForWeek_games
    (exampleEnv [exampleSchedule 1 "KC" "SF", exampleSchedule 2 "BUF" "MIA"]) draftDB "w1" "admin"
    { ID := "w1", SeasonID := "s1", Number := 1, Status := "draft", Year := 2025,
      IsPostseason := false }
    [exampleSchedule 1 "KC" "SF", exampleSchedule 2 "BUF" "MIA"] rfl rfl
  have h2 := h.2 _ { GamesCreated := 2 } rfl
  ⟨h.1 rfl rfl (by decide) (by decide), h2.2.2.2.1, by decide, h2.2.2.2.2.2.1,
    h2.2.2.2.2.2.2.2⟩

/-- C13: for a draft week whose schedule source returns zero games, ImportGamesForWeek
returns an error (the one built with fmt.Errorf at advanceweek.go 271) and the database,
with the status and the games of the week, is what it was before the call. -/
theorem ImportGamesForWeek_zero_games (env : Env) (db : DB) (weekID actingUserID : String)
    (week : WeekWithYear)
    (hweek : GetWeekWithYear db weekID = .ok week) (hdraft : week.Status = "draft")
    (hclient : NewBallDontLieClient env = .ok ())
    (hfetch : FetchGames env week.Year week.Number week.IsPostseason = .ok []) :
    ImportGamesForWeek env db weekID actingUserID = (db, .error Err.zeroGames) ∧
    GetWeekStatus (ImportGamesForWeek env db weekID actingUserID).1 weekID =
      GetWeekStatus db weekID ∧
    (ImportGamesForWeek env db weekID actingUserID).1.weeks = db.weeks ∧
    (ImportGamesForWeek env db weekID actingUserID).1.games = db.games := by
  have hrun : ImportGamesForWeek env db weekID actingUserID = (db, .error Err.zeroGames) := by
    unfold ImportGamesForWeek ImportGamesForWeekTx
    rw [hweek]
    simp only [hdraft, bne_self_eq_false, Bool.false_eq_true, if_false]
    rw [hclient]
    simp only
    rw [hfetch]
    rfl
  refine ⟨hrun, ?_, ?_, ?_⟩ <;> rw [hrun]

theorem ImportGamesForWeek_zero_games_witness :
    ImportGamesForWeek (exampleEnv []) draftDB "w1" "admin" = (draftDB, .error Err.zeroGames) ∧
    GetWeekStatus (ImportGamesForWeek (exampleEnv []) draftDB "w1" "admin").1 "w1" =
      GetWeekStatus draftDB "w1" ∧
    (ImportGamesForWeek (exampleEnv []) draftDB "w1" "admin").1.weeks = draftDB.weeks ∧
    (ImportGamesForWeek (exampleEnv []) draftDB "w1" "admin").1.games = draftDB.games :=
  ImportGamesForWeek_zero_games (exampleEnv []) draftDB "w1" "admin"
    { ID := "w1", SeasonID := "s1", Number := 1, Status := "draft", Year := 2025,
      IsPostseason := false } rfl rfl rfl rfl

/-! ## Preconditions and rollback (C14, C16) -/

/-- With week ids being the primary key and the season of the week present, the joined
lookup finds the week. -/
theorem GetWeekWithYear_of_mem {db : DB} (hnd : (db.weeks.map (fun w => w.ID)).Nodup) {w : Week}
    (hw : w ∈ db.weeks) (hfk : ∃ s ∈ db.seasons, s.ID = w.SeasonID) :
    ∃ week, GetWeekWithYear db w.ID = .ok week ∧ week.Status = w.Status ∧
      week.SeasonID = w.SeasonID ∧ week.Number = w.Number := by
  obtain ⟨s, hs, hsid⟩ := hfk
  have hrow : WeekWithYear.mk w.ID w.SeasonID w.Number w.Status s.Year s.IsPostseason ∈
      weekWithYearRows db w.ID := by
    simp only [weekWithYearRows, List.mem_flatMap, List.mem_filter, List.mem_map, beq_iff_eq]
    exact ⟨w, ⟨hw, rfl⟩, s, ⟨hs, hsid⟩, rfl⟩
  cases hrows : weekWithYearRows db w.ID with
  | nil => rw [hrows] at hrow; cases hrow
  | cons week rest =>
    have hget : GetWeekWithYear db w.ID = .ok week := by
      simp only [GetWeekWithYear, hrows, List.head?_cons]
    obtain ⟨w1, hw1, hid1, hst, hsea, hnum, _⟩ := GetWeekWithYear_mem hget
    have heq : w1 = w := List.inj_on_of_nodup_map hnd hw1 hw hid1
    subst heq
    exact ⟨week, hget, hst.symm, hsea.symm, hnum.symm⟩

/-- C14: on an existing week (week ids are the primary key, the season of the week exists)
each stage function returns its precondition error and leaves the database as it was when
the status of the week is not exactly the status it requires: draft for ImportGamesForWeek
(ErrInvalidWeekState), active for ImportScoresForWeek (ErrWeekNotActive), played for
CalculatePickResults (ErrWeekNotPlayed), picks_results_calculated for CalculateWeekPoints
(ErrWeekNotPicksCalculated), scored for CalculateSeasonSnapshot (ErrWeekNotScored). -/
theorem stage_precondition (env : Env) (db : DB) (actingUserID : String) (w : Week)
    (hnd : (db.weeks.map (fun w => w.ID)).Nodup) (hw : w ∈ db.weeks)
    (hfk : ∃ s ∈ db.seasons, s.ID = w.SeasonID) :
    (w.Status ≠ "draft" →
      ImportGamesForWeek env db w.ID actingUserID = (db, .error Err.ErrInvalidWeekState)) ∧
    (w.Status ≠ "active" →
      ImportScoresForWeek env db w.ID = (db, .error Err.ErrWeekNotActive)) ∧
    (w.Status ≠ "played" →
      CalculatePickResults env db w.ID = (db, .error Err.ErrWeekNotPlayed)) ∧
    (w.Status ≠ "picks_results_calculated" →
      CalculateWeekPoints env db w.ID = (db, .error Err.ErrWeekNotPicksCalculated)) ∧
    (w.Status ≠ "scored" →
      CalculateSeasonSnapshot env db w.ID = (db, .error Err.ErrWeekNotScored)) := by
  obtain ⟨week, hget, hst, _, _⟩ := GetWeekWithYear_of_mem hnd hw hfk
  have hstatus := GetWeekStatus_of_mem hnd hw
  refine ⟨?_, ?_, ?_, ?_, ?_⟩
  · intro hne
    have hb : (week.Status != "draft") = true := by simpa [hst] using hne
    simp only [ImportGamesForWeek, ImportGamesForWeekTx, hget, hb, if_true, finish]
  · intro hne
    have hb : (week.Status != "active") = true := by simpa [hst] using hne
    simp only [ImportScoresForWeek, ImportScoresForWeekTx, hget, hb, if_true, finish]
  · intro hne
    have hb : (w.Status != "played") = true := by simpa using hne
    simp only [CalculatePickResults, CalculatePickResultsTx, hstatus, hb, if_true, finish]
  · intro hne
    have hb : (week.Status != "picks_results_calculated") = true := by simpa [hst] using hne
    simp only [CalculateWeekPoints, CalculateWeekPointsTx, hget, hb, if_true, finish]
  · intro hne
    have hb : (week.Status != "scored") = true := by simpa [hst] using hne
    simp only [CalculateSeasonSnapshot, CalculateSeasonSnapshotTx, hget, hb, if_true, finish]

theorem stage_precondition_witness :
    ImportGamesForWeek (exampleEnv []) importedDB "w1" "admin" =
      (importedDB, .error Err.ErrInvalidWeekState) ∧
    ImportScoresForWeek (exampleEnv []) importedDB "w1" =
      (importedDB, .error Err.ErrWeekNotActive) ∧
    CalculatePickResults (exampleEnv []) importedDB "w1" =
      (importedDB, .error Err.ErrWeekNotPlayed) ∧
    CalculateWeekPoints (exampleEnv []) importedDB "w1" =
      (importedDB, .error Err.ErrWeekNotPicksCalculated) ∧
    CalculateSeasonSnapshot (exampleEnv []) importedDB "w1" =
      (importedDB, .error Err.ErrWeekNotScored) :=
  have h := stage_precondition (exampleEnv []) importedDB "admin"
    (exampleWeek "w1" 1 "games_imported") (by decide) (by decide) (by decide)
  ⟨h.1 (by decide), h.2.1 (by decide), h.2.2.1 (by decide), h.2.2.2.1 (by decide),
    h.2.2.2.2 (by decide)⟩

/-! ## C16: what a failing stage function leaves behind -/

theorem Exec_committed (faults : Nat → Option String) (stmt : DB → DB) (c : Conn) :
    (Exec faults stmt c).1.committed = c.committed := by
  unfold Exec
  split <;> rfl

theorem Select_committed {α : Type} (faults : Nat → Option String) (query : DB → α)
    (c : Conn) : (Select faults query c).1.committed = c.committed := by
  unfold Select
  split <;> rfl

theorem idNew_committed (faults : Nat → Option String) (env : Env) (k : Nat) (c : Conn) :
    (idNew faults env k c).1.committed = c.committed := by
  unfold idNew
  split <;> rfl

/-- What is committed after a call, read off the equation for its result. -/
theorem committed_of_eq {α : Type} {step : Conn × Except Err α} {c c1 : Conn}
    {r : Except Err α} (hstep : step.1.committed = c.committed) (h : step = (c1, r)) :
    c1.committed = c.committed := by
  rw [h] at hstep
  exact hstep

theorem insertGamesStmts_committed (faults : Nat → Option String) (env : Env)
    (week : WeekWithYear) (weekID actingUserID : String) :
    ∀ (validated : List validatedGame) (k : Nat) (c : Conn) (created : Int),
      (insertGamesStmts faults env week weekID actingUserID k validated c created).1.committed =
        c.committed := by
  intro validated
  induction validated with
  | nil => intro k c created; rfl
  | cons g rest ih =>
    intro k c created
    rw [insertGamesStmts]
    split
    · rename_i h1
      exact committed_of_eq (idNew_committed faults env k c) h1
    · rename_i h1
      have hc1 := committed_of_eq (idNew_committed faults env k c) h1
      split
      · rename_i h2
        exact (committed_of_eq (Exec_committed faults _ _) h2).trans hc1
      · rename_i h2
        rw [ih]
        exact (committed_of_eq (Exec_committed faults _ _) h2).trans hc1

theorem ImportGamesForWeekBody_committed (faults : Nat → Option String) (env : Env)
    (week : WeekWithYear) (weekID actingUserID : String) (validated : List validatedGame)
    (c : Conn) :
    (ImportGamesForWeekBody faults env week weekID actingUserID validated c).1.committed =
      c.committed := by
  unfold ImportGamesForWeekBody
  split
  · rename_i h1
    exact committed_of_eq (Exec_committed faults _ _) h1
  · rename_i h1
    have hc1 := committed_of_eq (Exec_committed faults _ _) h1
    split
    · rename_i h2
      exact (committed_of_eq (insertGamesStmts_committed faults env week weekID actingUserID
        validated 0 _ 0) h2).trans hc1
    · rename_i h2
      have hc2 := (committed_of_eq (insertGamesStmts_committed faults env week weekID
        actingUserID validated 0 _ 0) h2).trans hc1
      split
      · rename_i h3
        exact (committed_of_eq (Exec_committed faults _ _) h3).trans hc2
      · rename_i h3
        exact (committed_of_eq (Exec_committed faults _ _) h3).trans hc2

theorem scoreLoopStmts_committed (faults : Nat → Option String) (env : Env) (weekID : String) :
    ∀ (externalGames : List ExternalGame) (c : Conn) (updated : Int) (unmatched : List Int),
      (scoreLoopStmts faults env weekID externalGames c updated unmatched).1.committed =
        c.committed := by
  intro externalGames
  induction externalGames with
  | nil => intro c updated unmatched; rfl
  | cons externalGame rest ih =>
    intro c updated unmatched
    rw [scoreLoopStmts]
    split
    · exact ih _ _ _
    · simp only
      split
      · rename_i h1
        exact committed_of_eq (Exec_committed faults _ _) h1
      · rename_i h1
        have hc1 := committed_of_eq (Exec_committed faults _ _) h1
        split
        · rw [ih]; exact hc1
        · rw [ih]; exact hc1

theorem ImportScoresForWeekBody_committed (faults : Nat → Option String) (env : Env)
    (weekID : String) (externalGames : List ExternalGame) (c : Conn) :
    (ImportScoresForWeekBody faults env weekID externalGames c).1.committed = c.committed := by
  unfold ImportScoresForWeekBody
  split
  · rename_i h1
    exact committed_of_eq (Select_committed faults _ _) h1
  · rename_i h1
    have hc1 := committed_of_eq (Select_committed faults _ _) h1
    split
    · rename_i h2
      exact (committed_of_eq (scoreLoopStmts_committed faults env weekID externalGames _ 0 [])
        h2).trans hc1
    · rename_i h2
      have hc2 := (committed_of_eq (scoreLoopStmts_committed faults env weekID externalGames
        _ 0 []) h2).trans hc1
      split
      · rename_i h3
        exact (committed_of_eq (Select_committed faults _ _) h3).trans hc2
      · rename_i h3
        have hc3 := (committed_of_eq (Select_committed faults _ _) h3).trans hc2
        simp only
        split
        · split
          · rename_i h4
            exact (committed_of_eq (Exec_committed faults _ _) h4).trans hc3
          · rename_i h4
            exact (committed_of_eq (Exec_committed faults _ _) h4).trans hc3
        · exact hc3

theorem pickLoopStmts_committed (faults : Nat → Option String) (env : Env) (game : Game)
    (winningTeamID : Option TeamRef) :
    ∀ (picks : List Pick) (c : Conn) (picksUpdated : Int),
      (pickLoopStmts faults env game winningTeamID picks c picksUpdated).1.committed =
        c.committed := by
  intro picks
  induction picks with
  | nil => intro c picksUpdated; rfl
  | cons pick rest ih =>
    intro c picksUpdated
    rw [pickLoopStmts]
    split
    · rename_i h1
      exact committed_of_eq (Exec_committed faults _ _) h1
    · rename_i h1
      rw [ih]
      exact committed_of_eq (Exec_committed faults _ _) h1

theorem gameLoopStmts_committed (faults : Nat → Option String) (env : Env)
    (picks : List Pick) :
    ∀ (games : List Game) (c : Conn) (res : CalculatePickResultsResult),
      (gameLoopStmts faults env picks games c res).1.committed = c.committed := by
  intro games
  induction games with
  | nil => intro c res; rfl
  | cons game rest ih =>
    intro c res
    rw [gameLoopStmts]
    split
    · rfl
    · split
      · rename_i h1
        exact committed_of_eq (pickLoopStmts_committed faults env game _ _ _ _) h1
      · rename_i h1
        rw [ih]
        exact committed_of_eq (pickLoopStmts_committed faults env game _ _ _ _) h1

theorem CalculatePickResultsBody_committed (faults : Nat → Option String) (env : Env)
    (weekID : String) (games : List Game) (picks : List Pick) (c : Conn) :
    (CalculatePickResultsBody faults env weekID games picks c).1.committed = c.committed := by
  unfold CalculatePickResultsBody
  split
  · rename_i h1
    exact committed_of_eq (gameLoopStmts_committed faults env picks games _ _) h1
  · rename_i h1
    have hc1 := committed_of_eq (gameLoopStmts_committed faults env picks games _ _) h1
    split
    · rename_i h2
      exact (committed_of_eq (Exec_committed faults _ _) h2).trans hc1
    · rename_i h2
      exact (committed_of_eq (Exec_committed faults _ _) h2).trans hc1

theorem weekResultLoopStmts_committed (faults : Nat → Option String) (env : Env)
    (weekID : String) :
    ∀ (userPoints : List UserPoints) (k : Nat) (c : Conn) (usersProcessed : Int),
      (weekResultLoopStmts faults env weekID k userPoints c usersProcessed).1.committed =
        c.committed := by
  intro userPoints
  induction userPoints with
  | nil => intro k c usersProcessed; rfl
  | cons up rest ih =>
    intro k c usersProcessed
    rw [weekResultLoopStmts]
    split
    · rename_i h1
      exact committed_of_eq (idNew_committed faults env k c) h1
    · rename_i h1
      have hc1 := committed_of_eq (idNew_committed faults env k c) h1
      split
      · rename_i h2
        exact (committed_of_eq (Exec_committed faults _ _) h2).trans hc1
      · rename_i h2
        rw [ih]
        exact (committed_of_eq (Exec_committed faults _ _) h2).trans hc1

theorem CalculateWeekPointsBody_committed (faults : Nat → Option String) (env : Env)
    (weekID : String) (week : WeekWithYear) (s : Settings) (c : Conn) :
    (CalculateWeekPointsBody faults env weekID week s c).1.committed = c.committed := by
  unfold CalculateWeekPointsBody
  split
  · rename_i h1
    exact committed_of_eq (Select_committed faults _ _) h1
  · rename_i h1
    have hc1 := committed_of_eq (Select_committed faults _ _) h1
    split
    · rename_i h2
      exact (committed_of_eq (weekResultLoopStmts_committed faults env weekID _ 0 _ 0)
        h2).trans hc1
    · rename_i h2
      have hc2 := (committed_of_eq (weekResultLoopStmts_committed faults env weekID _ 0 _ 0)
        h2).trans hc1
      split
      · rename_i h3
        exact (committed_of_eq (Exec_committed faults _ _) h3).trans hc2
      · rename_i h3
        have hc3 := (committed_of_eq (Exec_committed faults _ _) h3).trans hc2
        split
        · rename_i h4
          exact (committed_of_eq (Exec_committed faults _ _) h4).trans hc3
        · rename_i h4
          exact (committed_of_eq (Exec_committed faults _ _) h4).trans hc3

theorem standingLoopStmts_committed (faults : Nat → Option String) (env : Env)
    (seasonID weekID : String) (previous : String → Int) :
    ∀ (weekResults : List (String × Int)) (k : Nat) (c : Conn) (usersProcessed : Int),
      (standingLoopStmts faults env seasonID weekID previous k weekResults c
        usersProcessed).1.committed = c.committed := by
  intro weekResults
  induction weekResults with
  | nil => intro k c usersProcessed; rfl
  | cons weekResult rest ih =>
    intro k c usersProcessed
    rw [standingLoopStmts]
    split
    · rename_i h1
      exact committed_of_eq (idNew_committed faults env k c) h1
    · rename_i h1
      have hc1 := committed_of_eq (idNew_committed faults env k c) h1
      simp only
      split
      · rename_i h2
        exact (committed_of_eq (Exec_committed faults _ _) h2).trans hc1
      · rename_i h2
        rw [ih]
        exact (committed_of_eq (Exec_committed faults _ _) h2).trans hc1

theorem CalculateSeasonSnapshotBody_committed (faults : Nat → Option String) (env : Env)
    (weekID : String) (week : WeekWithYear) (c : Conn) :
    (CalculateSeasonSnapshotBody faults env weekID week c).1.committed = c.committed := by
  unfold CalculateSeasonSnapshotBody
  split
  · rename_i h1
    exact committed_of_eq (Select_committed faults _ _) h1
  · rename_i h1
    have hc1 := committed_of_eq (Select_committed faults _ _) h1
    split
    · rename_i h2
      exact (committed_of_eq (Select_committed faults _ _) h2).trans hc1
    · rename_i h2
      have hc2 := (committed_of_eq (Select_committed faults _ _) h2).trans hc1
      split
      · rename_i h3
        exact (committed_of_eq (standingLoopStmts_committed faults env _ weekID _ _ 0 _ 0)
          h3).trans hc2
      · rename_i h3
        have hc3 := (committed_of_eq (standingLoopStmts_committed faults env _ weekID _ _ 0 _
          0) h3).trans hc2
        split
        · rename_i h4
          exact (committed_of_eq (Exec_committed faults _ _) h4).trans hc3
        · rename_i h4
          have hc4 := (committed_of_eq (Exec_committed faults _ _) h4).trans hc3
          split
          · rename_i h5
            exact (committed_of_eq (Exec_committed faults _ _) h5).trans hc4
          · rename_i h5
            exact (committed_of_eq (Exec_committed faults _ _) h5).trans hc4

/-- A transaction whose body writes nothing outside the transaction commits nothing when the
function returns an error: `db.Beginx` and the body leave the committed state alone, a
failing `tx.Commit` commits nothing, and after a commit that went through no error is
returned. -/
theorem inTransaction_error {α : Type} (faults : Nat → Option String) (db : DB)
    (body : Conn → Conn × Except Err α)
    (hbody : ∀ c, (body c).1.committed = c.committed) (db1 : DB) (e : Err)
    (h : inTransaction faults db body = (db1, .error e)) : db1 = db := by
  unfold inTransaction at h
  have hbegin : ∀ c r, Beginx faults { committed := db, tx := db, calls := 0 } = (c, r) →
      c.committed = db := by
    intro c r hb
    unfold Beginx at hb
    split at hb <;> (cases hb; rfl)
  split at h
  · rename_i c e1 h1
    cases h
    exact hbegin _ _ h1
  · rename_i c _ h1
    have hc := hbegin _ _ h1
    split at h
    · rename_i c1 e1 h2
      cases h
      exact (committed_of_eq (hbody c) h2).trans hc
    · rename_i c1 a h2
      have hc1 := (committed_of_eq (hbody c) h2).trans hc
      split at h
      · rename_i c2 e2 h3
        cases h
        unfold Commit at h3
        split at h3
        · cases h3; exact hc1
        · cases h3
      · cases h

/-! ### Without failures the statements give what the transaction bodies give -/

theorem insertGamesStmts_noFaults (env : Env) (week : WeekWithYear)
    (weekID actingUserID : String) :
    ∀ (validated : List validatedGame) (k : Nat) (c : Conn) (created : Int),
      ∃ n, insertGamesStmts noFaults env week weekID actingUserID k validated c created =
        ({ committed := c.committed,
           tx := (insertGames env week weekID actingUserID k validated (c.tx, created)).1,
           calls := n },
         .ok (insertGames env week weekID actingUserID k validated (c.tx, created)).2) := by
  intro validated
  induction validated with
  | nil => intro k c created; exact ⟨c.calls, rfl⟩
  | cons g rest ih =>
    intro k c created
    obtain ⟨n, hn⟩ := ih (k + 1)
      { c with
        tx := { c.tx with games := c.tx.games ++ [newGameRow env week weekID actingUserID k g] }
        calls := c.calls + 1 + 1 } (created + 1)
    exact ⟨n, hn⟩

theorem scoreLoopStmts_noFaults (env : Env) (weekID : String) :
    ∀ (externalGames : List ExternalGame) (c : Conn) (updated : Int) (unmatched : List Int),
      ∃ n, scoreLoopStmts noFaults env weekID externalGames c updated unmatched =
        ({ committed := c.committed,
           tx := (scoreLoop env weekID externalGames
             { tx := c.tx, updated := updated, unmatchedGameIDs := unmatched }).tx,
           calls := n },
         .ok ((scoreLoop env weekID externalGames
             { tx := c.tx, updated := updated, unmatchedGameIDs := unmatched }).updated,
           (scoreLoop env weekID externalGames
             { tx := c.tx, updated := updated, unmatchedGameIDs := unmatched
               }).unmatchedGameIDs)) := by
  intro externalGames
  induction externalGames with
  | nil => intro c updated unmatched; exact ⟨c.calls, rfl⟩
  | cons externalGame rest ih =>
    intro c updated unmatched
    rw [scoreLoopStmts, scoreLoop]
    split
    · exact ih c updated unmatched
    · simp only [Exec, noFaults]
      split
      · exact ih _ _ _
      · exact ih _ _ _

theorem pickLoopStmts_noFaults (env : Env) (game : Game) (winningTeamID : Option TeamRef) :
    ∀ (picks : List Pick) (c : Conn) (picksUpdated : Int),
      ∃ n, pickLoopStmts noFaults env game winningTeamID picks c picksUpdated =
        ({ committed := c.committed,
           tx := (pickLoop env game winningTeamID picks (c.tx, picksUpdated)).1,
           calls := n },
         .ok (pickLoop env game winningTeamID picks (c.tx, picksUpdated)).2) := by
  intro picks
  induction picks with
  | nil => intro c picksUpdated; exact ⟨c.calls, rfl⟩
  | cons pick rest ih =>
    intro c picksUpdated
    obtain ⟨n, hn⟩ := ih
      { c with
        tx := updatePickResult c.tx (pickIsCorrect game pick winningTeamID) env.goNow pick.ID
        calls := c.calls + 1 } (picksUpdated + 1)
    exact ⟨n, hn⟩

theorem gameLoopStmts_noFaults (env : Env) (picks : List Pick) :
    ∀ (games : List Game) (c : Conn) (res : CalculatePickResultsResult),
      match gameLoop env picks games (c.tx, res) with
      | .ok (tx1, res1) =>
        ∃ n, gameLoopStmts noFaults env picks games c res =
          ({ committed := c.committed, tx := tx1, calls := n }, .ok res1)
      | .error e =>
        ∃ c1, gameLoopStmts noFaults env picks games c res = (c1, .error e) ∧
          c1.committed = c.committed := by
  intro games
  induction games with
  | nil => intro c res; exact ⟨c.calls, rfl⟩
  | cons game rest ih =>
    intro c res
    rw [gameLoopStmts, gameLoop]
    cases hw : WinningTeamByGame game with
    | error e => exact ⟨c, rfl, rfl⟩
    | ok winningTeamID =>
      simp only
      obtain ⟨n, hn⟩ := pickLoopStmts_noFaults env game winningTeamID
        (picks.filter (fun p => p.GameID == game.ID)) c res.PicksUpdated
      rw [hn]
      simp only
      exact ih
        { committed := c.committed,
          tx := (pickLoop env game winningTeamID (picks.filter (fun p => p.GameID == game.ID))
            (c.tx, res.PicksUpdated)).1,
          calls := n }
        { GamesProcessed := res.GamesProcessed + 1,
          PicksUpdated := (pickLoop env game winningTeamID
            (picks.filter (fun p => p.GameID == game.ID)) (c.tx, res.PicksUpdated)).2 }

theorem weekResultLoopStmts_noFaults (env : Env) (weekID : String) :
    ∀ (userPoints : List UserPoints) (k : Nat) (c : Conn) (usersProcessed : Int),
      ∃ n, weekResultLoopStmts noFaults env weekID k userPoints c usersProcessed =
        ({ committed := c.committed,
           tx := (weekResultLoop env weekID k userPoints (c.tx, usersProcessed)).1,
           calls := n },
         .ok (weekResultLoop env weekID k userPoints (c.tx, usersProcessed)).2) := by
  intro userPoints
  induction userPoints with
  | nil => intro k c usersProcessed; exact ⟨c.calls, rfl⟩
  | cons up rest ih =>
    intro k c usersProcessed
    obtain ⟨n, hn⟩ := ih (k + 1)
      { c with
        tx := upsertWeekResult c.tx (env.newID k) up.UserID weekID up.Points env.goNow
        calls := c.calls + 1 + 1 } (usersProcessed + 1)
    exact ⟨n, hn⟩

theorem standingLoopStmts_noFaults (env : Env) (seasonID weekID : String)
    (previous : String → Int) :
    ∀ (weekResults : List (String × Int)) (k : Nat) (c : Conn) (usersProcessed : Int),
      ∃ n, standingLoopStmts noFaults env seasonID weekID previous k weekResults c
          usersProcessed =
        ({ committed := c.committed,
           tx := (standingLoop env seasonID weekID previous k weekResults
             (c.tx, usersProcessed)).1,
           calls := n },
         .ok (standingLoop env seasonID weekID previous k weekResults
             (c.tx, usersProcessed)).2) := by
  intro weekResults
  induction weekResults with
  | nil => intro k c usersProcessed; exact ⟨c.calls, rfl⟩
  | cons weekResult rest ih =>
    intro k c usersProcessed
    obtain ⟨n, hn⟩ := ih (k + 1)
      { c with
        tx := upsertSeasonStanding c.tx (env.newID k) weekResult.1 seasonID weekID
          (previous weekResult.1 + weekResult.2) env.goNow
        calls := c.calls + 1 + 1 } (usersProcessed + 1)
    exact ⟨n, hn⟩

/-- Without failures a transaction commits what its body wrote, or nothing when the body
ends in an error. -/
theorem inTransaction_noFaults {α : Type} (db : DB) (body : Conn → Conn × Except Err α)
    (r : DB → Except Err (DB × α))
    (hbody : ∀ c : Conn,
      match r c.tx with
      | .ok (tx1, a) =>
        ∃ n, body c = ({ committed := c.committed, tx := tx1, calls := n }, .ok a)
      | .error e => ∃ c1, body c = (c1, .error e) ∧ c1.committed = c.committed) :
    inTransaction noFaults db body = finish db (r db) := by
  unfold inTransaction
  have hb := hbody { committed := db, tx := db, calls := 0 + 1 }
  simp only [Beginx, noFaults]
  cases hr : r db with
  | error e =>
    simp only [hr] at hb
    obtain ⟨c1, h1, hc1⟩ := hb
    rw [h1]
    simp only [finish, hc1]
  | ok p =>
    obtain ⟨tx1, a⟩ := p
    simp only [hr] at hb
    obtain ⟨n, h1⟩ := hb
    rw [h1]
    simp only [Commit, noFaults, finish]

theorem ImportGamesForWeekStmts_noFaults (env : Env) (db : DB) (weekID actingUserID : String) :
    ImportGamesForWeekStmts noFaults env db weekID actingUserID =
      ImportGamesForWeek env db weekID actingUserID := by
  unfold ImportGamesForWeekStmts ImportGamesForWeek ImportGamesForWeekTx
  cases GetWeekWithYear db weekID with
  | error e => rfl
  | ok week =>
    simp only
    split
    · rfl
    · cases NewBallDontLieClient env with
      | error e => rfl
      | ok _ =>
        simp only
        cases FetchGames env week.Year week.Number week.IsPostseason with
        | error e => rfl
        | ok externalGames =>
          simp only
          split
          · rfl
          · cases validateGames db externalGames with
            | error e => rfl
            | ok validated =>
              simp only
              apply inTransaction_noFaults db _
                (fun tx => .ok (UpdateWeekStatus env
                  (insertGames env week weekID actingUserID 0 validated
                    ({ tx with games := tx.games.filter (fun g => !(g.WeekID == weekID)) },
                     0)).1 weekID "games_imported",
                  ImportGamesResult.mk (insertGames env week weekID actingUserID 0 validated
                    ({ tx with games := tx.games.filter (fun g => !(g.WeekID == weekID)) },
                     0)).2))
              intro c
              simp only [ImportGamesForWeekBody, Exec, noFaults]
              obtain ⟨n, hn⟩ := insertGamesStmts_noFaults env week weekID actingUserID validated
                0 { c with
                    tx := { c.tx with
                      games := c.tx.games.filter (fun g => !(g.WeekID == weekID)) }
                    calls := c.calls + 1 } 0
              rw [hn]
              exact ⟨n + 1, rfl⟩

theorem ImportScoresForWeekStmts_noFaults (env : Env) (db : DB) (weekID : String) :
    ImportScoresForWeekStmts noFaults env db weekID = ImportScoresForWeek env db weekID := by
  unfold ImportScoresForWeekStmts ImportScoresForWeek ImportScoresForWeekTx
  cases GetWeekWithYear db weekID with
  | error e => rfl
  | ok week =>
    simp only
    split
    · rfl
    · cases NewBallDontLieClient env with
      | error e => rfl
      | ok _ =>
        simp only
        cases FetchGames env week.Year week.Number week.IsPostseason with
        | error e => rfl
        | ok externalGames =>
          simp only
          apply inTransaction_noFaults db _
            (fun tx =>
              let gamesInDB : Int := (tx.games.filter (fun g => g.WeekID == weekID)).length
              let st := scoreLoop env weekID externalGames
                { tx := tx, updated := 0, unmatchedGameIDs := [] }
              let gamesNotFinal : Int :=
                (st.tx.games.filter (fun g => g.WeekID == weekID && g.Status != "final")).length
              let allGamesPlayed : Bool := gamesNotFinal == 0
              let tx1 := if allGamesPlayed then UpdateWeekStatus env st.tx weekID "played"
                else st.tx
              .ok (tx1, ImportScoresResult.mk st.updated allGamesPlayed gamesInDB
                externalGames.length st.unmatchedGameIDs))
          intro c
          simp only [ImportScoresForWeekBody, Select, noFaults]
          obtain ⟨n, hn⟩ := scoreLoopStmts_noFaults env weekID externalGames
            { c with calls := c.calls + 1 } 0 []
          rw [hn]
          simp only
          split
          · simp only [Exec, noFaults]
            exact ⟨_, rfl⟩
          · exact ⟨_, rfl⟩

theorem CalculatePickResultsStmts_noFaults (env : Env) (db : DB) (weekID : String) :
    CalculatePickResultsStmts noFaults env db weekID = CalculatePickResults env db weekID := by
  unfold CalculatePickResultsStmts CalculatePickResults CalculatePickResultsTx
  cases GetWeekStatus db weekID with
  | error e => rfl
  | ok weekStatus =>
    simp only
    split
    · rfl
    · apply inTransaction_noFaults db _
        (fun tx =>
          match gameLoop env (GetWeekPicks db weekID) (GetWeekGames db weekID)
              (tx, { GamesProcessed := 0, PicksUpdated := 0 }) with
          | .error e => .error e
          | .ok (tx1, res) =>
            .ok (UpdateWeekStatus env tx1 weekID "picks_results_calculated", res))
      intro c
      have hloop := gameLoopStmts_noFaults env (GetWeekPicks db weekID)
        (GetWeekGames db weekID) c { GamesProcessed := 0, PicksUpdated := 0 }
      simp only [CalculatePickResultsBody]
      cases hg : gameLoop env (GetWeekPicks db weekID) (GetWeekGames db weekID)
          (c.tx, { GamesProcessed := 0, PicksUpdated := 0 }) with
      | error e =>
        rw [hg] at hloop
        obtain ⟨c1, h1, hc1⟩ := hloop
        simp only
        rw [h1]
        exact ⟨c1, rfl, hc1⟩
      | ok p =>
        obtain ⟨tx1, res⟩ := p
        rw [hg] at hloop
        obtain ⟨n, h1⟩ := hloop
        simp only
        rw [h1]
        simp only [Exec, noFaults]
        exact ⟨_, rfl⟩

theorem CalculateWeekPointsStmts_noFaults (env : Env) (db : DB) (weekID : String) :
    CalculateWeekPointsStmts noFaults env db weekID = CalculateWeekPoints env db weekID := by
  unfold CalculateWeekPointsStmts CalculateWeekPoints CalculateWeekPointsTx
  cases GetWeekWithYear db weekID with
  | error e => rfl
  | ok week =>
    simp only
    split
    · rfl
    · cases settingsGet db with
      | error e => rfl
      | ok s =>
        simp only
        apply inTransaction_noFaults db _
          (fun tx =>
            .ok (UpdateWeekStatus env (updateWeekRanks
              (weekResultLoop env weekID 0
                (weekPointsQuery tx s.PointsPerCorrectPick weekID week.SeasonID) (tx, 0)).1
              weekID) weekID "scored",
              CalculateWeekPointsResult.mk (weekResultLoop env weekID 0
                (weekPointsQuery tx s.PointsPerCorrectPick weekID week.SeasonID) (tx, 0)).2))
        intro c
        simp only [CalculateWeekPointsBody, Select, noFaults]
        obtain ⟨n, hn⟩ := weekResultLoopStmts_noFaults env weekID
          (weekPointsQuery c.tx s.PointsPerCorrectPick weekID week.SeasonID) 0
          { c with calls := c.calls + 1 } 0
        rw [hn]
        simp only [Exec, noFaults]
        exact ⟨_, rfl⟩

theorem CalculateSeasonSnapshotStmts_noFaults (env : Env) (db : DB) (weekID : String) :
    CalculateSeasonSnapshotStmts noFaults env db weekID =
      CalculateSeasonSnapshot env db weekID := by
  unfold CalculateSeasonSnapshotStmts CalculateSeasonSnapshot CalculateSeasonSnapshotTx
  cases GetWeekWithYear db weekID with
  | error e => rfl
  | ok week =>
    simp only
    split
    · rfl
    · apply inTransaction_noFaults db _
        (fun tx =>
          .ok (closeWeek env (updateSeasonRanks
            (standingLoop env week.SeasonID weekID
              (previousPointsByUserID (previousStandings tx week.SeasonID weekID)) 0
              ((tx.week_results.filter (fun r => r.WeekID == weekID)).map
                (fun r => (r.UserID, r.Points))) (tx, 0)).1 week.SeasonID weekID) weekID,
            CalculateSeasonSnapshotResult.mk (standingLoop env week.SeasonID weekID
              (previousPointsByUserID (previousStandings tx week.SeasonID weekID)) 0
              ((tx.week_results.filter (fun r => r.WeekID == weekID)).map
                (fun r => (r.UserID, r.Points))) (tx, 0)).2))
      intro c
      simp only [CalculateSeasonSnapshotBody, Select, noFaults]
      obtain ⟨n, hn⟩ := standingLoopStmts_noFaults env week.SeasonID weekID
        (previousPointsByUserID (previousStandings c.tx week.SeasonID weekID))
        ((c.tx.week_results.filter (fun r => r.WeekID == weekID)).map
          (fun r => (r.UserID, r.Points))) 0
        { c with calls := c.calls + 1 + 1 } 0
      rw [hn]
      simp only [Exec, noFaults]
      exact ⟨_, rfl⟩

/-! ### The five stage functions -/

theorem ImportGamesForWeekStmts_error (faults : Nat → Option String) (env : Env) (db : DB)
    (weekID actingUserID : String) (db1 : DB) (e : Err)
    (h : ImportGamesForWeekStmts faults env db weekID actingUserID = (db1, .error e)) :
    db1 = db := by
  unfold ImportGamesForWeekStmts at h
  split at h
  · cases h; rfl
  · split at h
    · cases h; rfl
    · split at h
      · cases h; rfl
      · split at h
        · cases h; rfl
        · split at h
          · cases h; rfl
          · split at h
            · cases h; rfl
            · exact inTransaction_error faults db _
                (ImportGamesForWeekBody_committed faults env _ weekID actingUserID _) db1 e h

theorem ImportScoresForWeekStmts_error (faults : Nat → Option String) (env : Env) (db : DB)
    (weekID : String) (db1 : DB) (e : Err)
    (h : ImportScoresForWeekStmts faults env db weekID = (db1, .error e)) : db1 = db := by
  unfold ImportScoresForWeekStmts at h
  split at h
  · cases h; rfl
  · split at h
    · cases h; rfl
    · split at h
      · cases h; rfl
      · split at h
        · cases h; rfl
        · exact inTransaction_error faults db _
            (ImportScoresForWeekBody_committed faults env weekID _) db1 e h

theorem CalculatePickResultsStmts_error (faults : Nat → Option String) (env : Env) (db : DB)
    (weekID : String) (db1 : DB) (e : Err)
    (h : CalculatePickResultsStmts faults env db weekID = (db1, .error e)) : db1 = db := by
  unfold CalculatePickResultsStmts at h
  split at h
  · cases h; rfl
  · split at h
    · cases h; rfl
    · exact inTransaction_error faults db _
        (CalculatePickResultsBody_committed faults env weekID _ _) db1 e h

theorem CalculateWeekPointsStmts_error (faults : Nat → Option String) (env : Env) (db : DB)
    (weekID : String) (db1 : DB) (e : Err)
    (h : CalculateWeekPointsStmts faults env db weekID = (db1, .error e)) : db1 = db := by
  unfold CalculateWeekPointsStmts at h
  split at h
  · cases h; rfl
  · split at h
    · cases h; rfl
    · split at h
      · cases h; rfl
      · exact inTransaction_error faults db _
          (CalculateWeekPointsBody_committed faults env weekID _ _) db1 e h

theorem CalculateSeasonSnapshotStmts_error (faults : Nat → Option String) (env : Env)
    (db : DB) (weekID : String) (db1 : DB) (e : Err)
    (h : CalculateSeasonSnapshotStmts faults env db weekID = (db1, .error e)) : db1 = db := by
  unfold CalculateSeasonSnapshotStmts at h
  split at h
  · cases h; rfl
  · split at h
    · cases h; rfl
    · exact inTransaction_error faults db _
        (CalculateSeasonSnapshotBody_committed faults env weekID _) db1 e h

/-- C16: a stage function that returns an error has committed nothing: the database, with
weeks (and so the status of the week), games, picks, week results and season standings, is
what it was before the call.  This holds for every way the calls to the driver and the id
generator can fail once the transaction is begun (`db.Beginx`, `tx.Exec`, `tx.Get`,
`tx.Select`, `id.New`, `tx.Commit`), for the errors returned before the transaction, and for
the nil dereference in `WinningTeamByGame`: every write is issued on the transaction, the
commit is the last call, and a commit that fails commits nothing.  Without failures the
statement-by-statement functions are the stage functions of the other claims, so those
return an error with the database unchanged too. -/
theorem stage_error_rollback (faults : Nat → Option String) (env : Env) (db : DB)
    (weekID actingUserID : String) :
    (∀ db1 e, ImportGamesForWeekStmts faults env db weekID actingUserID = (db1, .error e) →
      db1 = db) ∧
    (∀ db1 e, ImportScoresForWeekStmts faults env db weekID = (db1, .error e) → db1 = db) ∧
    (∀ db1 e, CalculatePickResultsStmts faults env db weekID = (db1, .error e) → db1 = db) ∧
    (∀ db1 e, CalculateWeekPointsStmts faults env db weekID = (db1, .error e) → db1 = db) ∧
    (∀ db1 e, CalculateSeasonSnapshotStmts faults env db weekID = (db1, .error e) →
      db1 = db) ∧
    (ImportGamesForWeekStmts noFaults env db weekID actingUserID =
        ImportGamesForWeek env db weekID actingUserID ∧
      ImportScoresForWeekStmts noFaults env db weekID = ImportScoresForWeek env db weekID ∧
      CalculatePickResultsStmts noFaults env db weekID = CalculatePickResults env db weekID ∧
      CalculateWeekPointsStmts noFaults env db weekID = CalculateWeekPoints env db weekID ∧
      CalculateSeasonSnapshotStmts noFaults env db weekID =
        CalculateSeasonSnapshot env db weekID) ∧
    (∀ db1 e, ImportGamesForWeek env db weekID actingUserID = (db1, .error e) → db1 = db) ∧
    (∀ db1 e, ImportScoresForWeek env db weekID = (db1, .error e) → db1 = db) ∧
    (∀ db1 e, CalculatePickResults env db weekID = (db1, .error e) → db1 = db) ∧
    (∀ db1 e, CalculateWeekPoints env db weekID = (db1, .error e) → db1 = db) ∧
    (∀ db1 e, CalculateSeasonSnapshot env db weekID = (db1, .error e) → db1 = db) := by
  refine ⟨ImportGamesForWeekStmts_error faults env db weekID actingUserID,
    ImportScoresForWeekStmts_error faults env db weekID,
    CalculatePickResultsStmts_error faults env db weekID,
    CalculateWeekPointsStmts_error faults env db weekID,
    CalculateSeasonSnapshotStmts_error faults env db weekID,
    ⟨ImportGamesForWeekStmts_noFaults env db weekID actingUserID,
      ImportScoresForWeekStmts_noFaults env db weekID,
      CalculatePickResultsStmts_noFaults env db weekID,
      CalculateWeekPointsStmts_noFaults env db weekID,
      CalculateSeasonSnapshotStmts_noFaults env db weekID⟩, ?_, ?_, ?_, ?_, ?_⟩
  · intro db1 e h
    rw [← ImportGamesForWeekStmts_noFaults] at h
    exact ImportGamesForWeekStmts_error noFaults env db weekID actingUserID db1 e h
  · intro db1 e h
    rw [← ImportScoresForWeekStmts_noFaults] at h
    exact ImportScoresForWeekStmts_error noFaults env db weekID db1 e h
  · intro db1 e h
    rw [← CalculatePickResultsStmts_noFaults] at h
    exact CalculatePickResultsStmts_error noFaults env db weekID db1 e h
  · intro db1 e h
    rw [← CalculateWeekPointsStmts_noFaults] at h
    exact CalculateWeekPointsStmts_error noFaults env db weekID db1 e h
  · intro db1 e h
    rw [← CalculateSeasonSnapshotStmts_noFaults] at h
    exact CalculateSeasonSnapshotStmts_error noFaults env db weekID db1 e h

set_option maxRecDepth 100000 in
/-- The active first week of the example run, with the schedule source reporting its game as
final.  When the status update fails (call 4), the score of the game is already written
inside the transaction; when the commit fails (call 5), the status is written too.  Both
invocations return the error and leave the database as it was; the import of two games into
the draft week fails the same way on the second insert (call 5). -/
theorem stage_error_rollback_witness :
    Reachable startDB openDB ∧
    (ImportScoresForWeekBody (faultAt 4) (exampleEnv noScores) "n" noScores
        { committed := openDB, tx := openDB, calls := 1 }).1.tx.games.map
      (fun g => g.Status) = ["final"] ∧
    openDB.games.map (fun g => g.Status) = ["scheduled"] ∧
    (ImportScoresForWeekStmts (faultAt 4) (exampleEnv noScores) openDB "n").2 =
      .error (Err.other "connection reset") ∧
    (ImportScoresForWeekStmts (faultAt 4) (exampleEnv noScores) openDB "n").1 = openDB ∧
    (ImportScoresForWeekStmts (faultAt 5) (exampleEnv noScores) openDB "n").1 = openDB ∧
    (ImportGamesForWeekStmts (faultAt 5) (exampleEnv twoGames) createdDB "n" "admin").1 =
      createdDB ∧
    (ImportGamesForWeekStmts noFaults (exampleEnv twoGames) createdDB "n" "admin").1.games.map
      (fun g => g.ID) = ["n", "nn"] :=
  ⟨Reachable.step
      (Reachable.step
        (Reachable.step
          (Reachable.step Reachable.start
            (WorkflowStep.create (exampleEnv []) "s1" "admin" (by simp [startDB, emptyDB])))
          (WorkflowStep.run (exampleEnv [exampleSchedule 1 "KC" "SF"])
            (.AdvanceWeekState firstWeek "admin")))
        (WorkflowStep.run (exampleEnv [])
          (.UpdateSpreads "n" [{ GameID := "n", HomeSpread := some (-(7/2)) }])))
      (WorkflowStep.run (exampleEnv []) (.ActivateWeek "n")),
   by with_unfolding_all rfl, by with_unfolding_all rfl, by with_unfolding_all rfl,
   (stage_error_rollback (faultAt 4) (exampleEnv noScores) openDB "n" "admin").2.1 _
     (Err.other "connection reset") (by with_unfolding_all rfl),
   (stage_error_rollback (faultAt 5) (exampleEnv noScores) openDB "n" "admin").2.1 _
     (Err.other "connection reset") (by with_unfolding_all rfl),
   (stage_error_rollback (faultAt 5) (exampleEnv twoGames) createdDB "n" "admin").1 _
     (Err.other "connection reset") (by with_unfolding_all rfl),
   by with_unfolding_all rfl⟩

/-! ## Running a stage again (C15) -/

/-- After a status update of week `weekID` every row with that id has the new status. -/
theorem mem_status_map (f : Week → Week) (weekID status : String)
    (hf : ∀ w, (f w).ID = w.ID ∧ (f w).Status = status) (ws : List Week) (w : Week)
    (hw : w ∈ ws.map (fun w => if w.ID == weekID then f w else w)) (hid : w.ID = weekID) :
    w.Status = status := by
  obtain ⟨x, _, hx⟩ := List.mem_map.mp hw
  by_cases hb : (x.ID == weekID) = true
  · rw [if_pos hb] at hx
    rw [← hx]
    exact (hf x).2
  · rw [if_neg hb] at hx
    subst hx
    exact absurd (by simpa using hid) hb

theorem gameLoop_ok_of_winners (env : Env) (picks : List Pick) :
    ∀ (games : List Game) (st : DB × CalculatePickResultsResult),
      (∀ g ∈ games, ∃ w, WinningTeamByGame g = .ok w) →
      ∃ r, gameLoop env picks games st = .ok r := by
  intro games
  induction games with
  | nil => intro st _; exact ⟨st, rfl⟩
  | cons g rest ih =>
    intro st h
    obtain ⟨w, hw⟩ := h g (List.mem_cons_self _ _)
    obtain ⟨tx, res⟩ := st
    rw [gameLoop, hw]
    exact ih _ (fun g1 hg1 => h g1 (List.mem_cons_of_mem _ hg1))

/-- Whether `CalculatePickResults` succeeds does not depend on the clock. -/
theorem CalculatePickResults_env {env1 env2 : Env} {db db2 : DB} {weekID : String}
    {res2 : CalculatePickResultsResult}
    (h : CalculatePickResults env2 db weekID = (db2, .ok res2)) :
    ∃ db1 res1, CalculatePickResults env1 db weekID = (db1, .ok res1) := by
  obtain ⟨hst, hwin, _, _⟩ := CalculatePickResults_ok h
  obtain ⟨r, hr⟩ := gameLoop_ok_of_winners env1 (GetWeekPicks db weekID) (GetWeekGames db weekID)
    (db, { GamesProcessed := 0, PicksUpdated := 0 }) hwin
  obtain ⟨tx, res⟩ := r
  refine ⟨UpdateWeekStatus env1 tx weekID "picks_results_calculated", res, ?_⟩
  simp only [CalculatePickResults, CalculatePickResultsTx, hst, bne_self_eq_false,
    Bool.false_eq_true, if_false, hr, finish]

theorem CalculateWeekPoints_env {env1 env2 : Env} {db db2 : DB} {weekID : String}
    {res2 : CalculateWeekPointsResult}
    (h : CalculateWeekPoints env2 db weekID = (db2, .ok res2)) :
    ∃ db1 res1, CalculateWeekPoints env1 db weekID = (db1, .ok res1) := by
  obtain ⟨week, s, hget, hst, hs, _⟩ := CalculateWeekPoints_ok h
  rcases hr : CalculateWeekPoints env1 db weekID with ⟨db1, r⟩
  cases r with
  | ok res1 => exact ⟨db1, res1, rfl⟩
  | error e =>
    have := (finish_error hr).2
    simp [CalculateWeekPointsTx, hget, hst, hs] at this

theorem CalculateSeasonSnapshot_env {env1 env2 : Env} {db db2 : DB} {weekID : String}
    {res2 : CalculateSeasonSnapshotResult}
    (h : CalculateSeasonSnapshot env2 db weekID = (db2, .ok res2)) :
    ∃ db1 res1, CalculateSeasonSnapshot env1 db weekID = (db1, .ok res1) := by
  obtain ⟨week, hget, hst, _⟩ := CalculateSeasonSnapshot_ok h
  rcases hr : CalculateSeasonSnapshot env1 db weekID with ⟨db1, r⟩
  cases r with
  | ok res1 => exact ⟨db1, res1, rfl⟩
  | error e =>
    have := (finish_error hr).2
    simp [CalculateSeasonSnapshotTx, hget, hst] at this

/-- After a successful `CalculatePickResults` the status of the week is no longer played, so
the next call is turned down. -/
theorem CalculatePickResults_again {env1 env2 : Env} {db db1 : DB} {weekID : String}
    {res : CalculatePickResultsResult}
    (h : CalculatePickResults env1 db weekID = (db1, .ok res)) :
    CalculatePickResults env2 db1 weekID = (db1, .error Err.ErrWeekNotPlayed) := by
  obtain ⟨hst, _, hdb, _⟩ := CalculatePickResults_ok h
  obtain ⟨w, hw, hid, _⟩ := GetWeekStatus_mem hst
  have hs1 : GetWeekStatus db1 weekID = .ok "picks_results_calculated" := by
    rw [hdb]
    exact GetWeekStatus_update env1 _ weekID "picks_results_calculated" ⟨w, hw, hid⟩
  simp only [CalculatePickResults, CalculatePickResultsTx, hs1, finish]
  rfl

theorem CalculateWeekPoints_again {env1 env2 : Env} {db db1 : DB} {weekID : String}
    {res : CalculateWeekPointsResult}
    (h : CalculateWeekPoints env1 db weekID = (db1, .ok res)) :
    ∃ e, CalculateWeekPoints env2 db1 weekID = (db1, .error e) := by
  obtain ⟨_, _, _, _, _, hdb⟩ := CalculateWeekPoints_ok h
  rcases hr : CalculateWeekPoints env2 db1 weekID with ⟨db2, r⟩
  cases r with
  | error e => exact ⟨e, by rw [(finish_error hr).1]⟩
  | ok res2 =>
    exfalso
    obtain ⟨week2, _, hget2, hst2, _, _⟩ := CalculateWeekPoints_ok hr
    obtain ⟨w, hw, hid, hws, _⟩ := GetWeekWithYear_mem hget2
    rw [hdb] at hw
    have := mem_status_map (fun w => { w with Status := "scored", UpdatedAt := env1.sqlNow })
      weekID "scored" (fun _ => ⟨rfl, rfl⟩) _ w hw hid
    rw [hws, hst2] at this
    exact absurd this (by decide)

theorem CalculateSeasonSnapshot_again {env1 env2 : Env} {db db1 : DB} {weekID : String}
    {res : CalculateSeasonSnapshotResult}
    (h : CalculateSeasonSnapshot env1 db weekID = (db1, .ok res)) :
    ∃ e, CalculateSeasonSnapshot env2 db1 weekID = (db1, .error e) := by
  obtain ⟨_, _, _, hdb⟩ := CalculateSeasonSnapshot_ok h
  rcases hr : CalculateSeasonSnapshot env2 db1 weekID with ⟨db2, r⟩
  cases r with
  | error e => exact ⟨e, by rw [(finish_error hr).1]⟩
  | ok res2 =>
    exfalso
    obtain ⟨week2, hget2, hst2, _⟩ := CalculateSeasonSnapshot_ok hr
    obtain ⟨w, hw, hid, hws, _⟩ := GetWeekWithYear_mem hget2
    rw [hdb] at hw
    have := mem_status_map
      (fun w => { w with Status := "final", ClosedAt := some env1.sqlNow,
                         UpdatedAt := env1.sqlNow })
      weekID "final" (fun _ => ⟨rfl, rfl⟩) _ w hw hid
    rw [hws, hst2] at this
    exact absurd this (by decide)

/-! ## The stage calls of `AdvanceWeekState` (C17, C18, C19, C20) -/

/-- The status under which the `switch` of `AdvanceWeekState` calls a stage. -/
theorem stageFor_some {status : String} {stage : Stage} (h : stageFor status = some stage) :
    (stage = Stage.ImportGamesForWeek ∧ status = StatusDraft) ∨
    (stage = Stage.ImportScoresForWeek ∧ status = StatusActive) ∨
    (stage = Stage.CalculatePickResults ∧ status = StatusPlayed) ∨
    (stage = Stage.CalculateWeekPoints ∧ status = StatusPicksResultsCalculated) ∨
    (stage = Stage.CalculateSeasonSnapshot ∧ status = StatusScored) := by
  unfold stageFor at h
  split_ifs at h with h1 h2 h3 h4 h5 h6 h7
  · cases h; exact Or.inl ⟨rfl, by simpa using h1⟩
  · cases h; exact Or.inr (Or.inl ⟨rfl, by simpa using h4⟩)
  · cases h; exact Or.inr (Or.inr (Or.inl ⟨rfl, by simpa using h5⟩))
  · cases h; exact Or.inr (Or.inr (Or.inr (Or.inl ⟨rfl, by simpa using h6⟩)))
  · cases h; exact Or.inr (Or.inr (Or.inr (Or.inr ⟨rfl, by simpa using h7⟩)))

/-- The cases of the `switch` that call no stage. -/
theorem stageFor_none {status : String} (h : stageFor status = none) :
    status = StatusGamesImported ∨ status = StatusSpreadsSet ∨ status = StatusFinal ∨
      status ∉ knownStatuses := by
  unfold stageFor at h
  split_ifs at h with h1 h2 h3 h4 h5 h6 h7
  · exact Or.inl (by simpa using h2)
  · exact Or.inr (Or.inl (by simpa using h3))
  · by_cases h8 : status = StatusFinal
    · exact Or.inr (Or.inr (Or.inl h8))
    · refine Or.inr (Or.inr (Or.inr ?_))
      simp only [beq_iff_eq] at h1 h2 h3 h4 h5 h6 h7
      simp only [knownStatuses, List.mem_cons, List.mem_singleton, List.not_mem_nil, or_false,
        not_or]
      exact ⟨h1, h2, h3, h4, h5, h6, h7, h8⟩

/-- A pass through the `switch` that calls no stage returns at once and leaves the database
alone. -/
theorem advanceStep_no_stage (env : Env) (actingUserID : String) (db : DB) (week : Week)
    (h : stageFor week.Status = none) :
    ((week.Status = StatusGamesImported ∨ week.Status = StatusSpreadsSet) ∧
      advanceStep env actingUserID db week = .stop db (some Err.ErrManualActionRequired)) ∨
    (week.Status = StatusFinal ∧ advanceStep env actingUserID db week = .stop db none) ∨
    (week.Status ∉ knownStatuses ∧
      advanceStep env actingUserID db week = .stop db (some Err.ErrInvalidWeekStatus)) := by
  rcases stageFor_none h with h1 | h1 | h1 | h1
  · left
    refine ⟨Or.inl h1, ?_⟩
    unfold advanceStep
    rw [h1]
    rfl
  · left
    refine ⟨Or.inr h1, ?_⟩
    unfold advanceStep
    rw [h1]
    rfl
  · right; left
    refine ⟨h1, ?_⟩
    unfold advanceStep
    rw [h1]
    rfl
  · right; right
    refine ⟨h1, ?_⟩
    simp only [knownStatuses, List.mem_cons, List.mem_singleton, List.not_mem_nil, or_false,
      not_or] at h1
    obtain ⟨k1, k2, k3, k4, k5, k6, k7, k8⟩ := h1
    unfold advanceStep
    simp only [beq_iff_eq, k1, k2, k3, k4, k5, k6, k7, k8, if_false]

/-- A pass through the `switch` that calls a stage: the error of the stage is returned at
once, with the database as it was; without an error the loop goes on to the reload, except
that an `ImportScoresForWeek` with games still to be played returns `ErrWaitingForGames`. -/
theorem advanceStep_stage (env : Env) (actingUserID : String) (db : DB) (week : Week)
    (stage : Stage) (h : stageFor week.Status = some stage) :
    (∀ e, (stage.call env actingUserID db week.ID).2 = some e →
      (stage.call env actingUserID db week.ID).1 = db ∧
      advanceStep env actingUserID db week = .stop db (some e)) ∧
    ((stage.call env actingUserID db week.ID).2 = none →
      advanceStep env actingUserID db week =
          .reload (stage.call env actingUserID db week.ID).1 ∨
        (stage = Stage.ImportScoresForWeek ∧
          (stage.call env actingUserID db week.ID).1.weeks = db.weeks ∧
          advanceStep env actingUserID db week =
            .stop (stage.call env actingUserID db week.ID).1
              (some Err.ErrWaitingForGames))) := by
  rcases stageFor_some h with ⟨rfl, hs⟩ | ⟨rfl, hs⟩ | ⟨rfl, hs⟩ | ⟨rfl, hs⟩ | ⟨rfl, hs⟩
  · unfold advanceStep
    rw [hs]
    simp only [Stage.call, beq_self_eq_true, if_true]
    rcases hr : ImportGamesForWeek env db week.ID actingUserID with ⟨db1, r⟩
    cases r with
    | error e =>
      refine ⟨fun e1 he1 => ?_, fun hn => ?_⟩
      · simp only [errOf, Option.some.injEq] at he1
        subst he1
        exact ⟨(finish_error hr).1, by rw [(finish_error hr).1]⟩
      · simp [errOf] at hn
    | ok res =>
      refine ⟨fun e1 he1 => ?_, fun _ => Or.inl rfl⟩
      simp [errOf] at he1
  · unfold advanceStep
    rw [hs]
    have d1 : (StatusActive == StatusDraft) = false := by decide
    have d2 : (StatusActive == StatusGamesImported) = false := by decide
    have d3 : (StatusActive == StatusSpreadsSet) = false := by decide
    simp only [Stage.call, d1, d2, d3, beq_self_eq_true, if_true, Bool.false_eq_true, if_false]
    rcases hr : ImportScoresForWeek env db week.ID with ⟨db1, r⟩
    cases r with
    | error e =>
      refine ⟨fun e1 he1 => ?_, fun hn => ?_⟩
      · simp only [errOf, Option.some.injEq] at he1
        subst he1
        exact ⟨(finish_error hr).1, by rw [(finish_error hr).1]⟩
      · simp [errOf] at hn
    | ok res =>
      refine ⟨fun e1 he1 => ?_, fun _ => ?_⟩
      · simp [errOf] at he1
      · by_cases hall : res.AllGamesPlayed = true
        · left
          simp [hall]
        · right
          have hall1 : res.AllGamesPlayed = false := by simpa using hall
          obtain ⟨_, _, _, _, _, _, hdb⟩ := ImportScoresForWeek_ok hr
          rw [hall1] at hdb
          simp only [Bool.false_eq_true, if_false] at hdb
          refine ⟨trivial, ?_, ?_⟩
          · rw [hdb]
          · simp [hall1]
  · unfold advanceStep
    rw [hs]
    have d1 : (StatusPlayed == StatusDraft) = false := by decide
    have d2 : (StatusPlayed == StatusGamesImported) = false := by decide
    have d3 : (StatusPlayed == StatusSpreadsSet) = false := by decide
    have d4 : (StatusPlayed == StatusActive) = false := by decide
    simp only [Stage.call, d1, d2, d3, d4, beq_self_eq_true, if_true, Bool.false_eq_true,
      if_false]
    rcases hr : CalculatePickResults env db week.ID with ⟨db1, r⟩
    cases r with
    | error e =>
      refine ⟨fun e1 he1 => ?_, fun hn => ?_⟩
      · simp only [errOf, Option.some.injEq] at he1
        subst he1
        exact ⟨(finish_error hr).1, by rw [(finish_error hr).1]⟩
      · simp [errOf] at hn
    | ok res =>
      refine ⟨fun e1 he1 => ?_, fun _ => Or.inl rfl⟩
      simp [errOf] at he1
  · unfold advanceStep
    rw [hs]
    have d1 : (StatusPicksResultsCalculated == StatusDraft) = false := by decide
    have d2 : (StatusPicksResultsCalculated == StatusGamesImported) = false := by decide
    have d3 : (StatusPicksResultsCalculated == StatusSpreadsSet) = false := by decide
    have d4 : (StatusPicksResultsCalculated == StatusActive) = false := by decide
    have d5 : (StatusPicksResultsCalculated == StatusPlayed) = false := by decide
    simp only [Stage.call, d1, d2, d3, d4, d5, beq_self_eq_true, if_true, Bool.false_eq_true,
      if_false]
    rcases hr : CalculateWeekPoints env db week.ID with ⟨db1, r⟩
    cases r with
    | error e =>
      refine ⟨fun e1 he1 => ?_, fun hn => ?_⟩
      · simp only [errOf, Option.some.injEq] at he1
        subst he1
        exact ⟨(finish_error hr).1, by rw [(finish_error hr).1]⟩
      · simp [errOf] at hn
    | ok res =>
      refine ⟨fun e1 he1 => ?_, fun _ => Or.inl rfl⟩
      simp [errOf] at he1
  · unfold advanceStep
    rw [hs]
    have d1 : (StatusScored == StatusDraft) = false := by decide
    have d2 : (StatusScored == StatusGamesImported) = false := by decide
    have d3 : (StatusScored == StatusSpreadsSet) = false := by decide
    have d4 : (StatusScored == StatusActive) = false := by decide
    have d5 : (StatusScored == StatusPlayed) = false := by decide
    have d6 : (StatusScored == StatusPicksResultsCalculated) = false := by decide
    simp only [Stage.call, d1, d2, d3, d4, d5, d6, beq_self_eq_true, if_true,
      Bool.false_eq_true, if_false]
    rcases hr : CalculateSeasonSnapshot env db week.ID with ⟨db1, r⟩
    cases r with
    | error e =>
      refine ⟨fun e1 he1 => ?_, fun hn => ?_⟩
      · simp only [errOf, Option.some.injEq] at he1
        subst he1
        exact ⟨(finish_error hr).1, by rw [(finish_error hr).1]⟩
      · simp [errOf] at hn
    | ok res =>
      refine ⟨fun e1 he1 => ?_, fun _ => Or.inl rfl⟩
      simp [errOf] at he1

theorem GetWeekWithYear_error {db : DB} {weekID : String} {e : Err}
    (h : GetWeekWithYear db weekID = .error e) : e = Err.ErrWeekNotFound := by
  unfold GetWeekWithYear at h
  split at h
  · cases h
  · cases h; rfl

theorem GetWeekStatus_error {db : DB} {weekID : String} {e : Err}
    (h : GetWeekStatus db weekID = .error e) : e = Err.sqlNoRows := by
  unfold GetWeekStatus at h
  split at h
  · cases h
  · cases h; rfl

theorem NewBallDontLieClient_error {env : Env} {e : Err}
    (h : NewBallDontLieClient env = .error e) : ∃ msg, e = Err.other msg := by
  unfold NewBallDontLieClient at h
  split_ifs at h
  · cases h; exact ⟨_, rfl⟩
  · cases h; exact ⟨_, rfl⟩

theorem FetchGames_error {env : Env} {season week : Int} {postseason : Bool} {e : Err}
    (h : FetchGames env season week postseason = .error e) : ∃ msg, e = Err.other msg := by
  unfold FetchGames at h
  split at h
  · cases h
  · cases h; exact ⟨_, rfl⟩

theorem GetTeamIDByAbbreviation_error {db : DB} {abbreviation : String} {e : Err}
    (h : GetTeamIDByAbbreviation db abbreviation = .error e) :
    e = Err.teamMapping abbreviation := by
  unfold GetTeamIDByAbbreviation at h
  split at h
  · cases h
  · cases h; rfl

theorem validateGames_error (db : DB) :
    ∀ (externalGames : List ExternalGame) (e : Err),
      validateGames db externalGames = .error e → ∃ a, e = Err.teamMapping a := by
  intro externalGames
  induction externalGames with
  | nil => intro e h; cases h
  | cons g rest ih =>
    intro e h
    rw [validateGames] at h
    split at h
    · rename_i e1 he1
      cases h
      exact ⟨_, GetTeamIDByAbbreviation_error he1⟩
    · split at h
      · rename_i e1 he1
        cases h
        exact ⟨_, GetTeamIDByAbbreviation_error he1⟩
      · split at h
        · rename_i e1 he1
          cases h
          exact ih e he1
        · cases h

theorem gameLoop_error (env : Env) (picks : List Pick) :
    ∀ (games : List Game) (st : DB × CalculatePickResultsResult) (e : Err),
      gameLoop env picks games st = .error e → e = Err.nilDeref := by
  intro games
  induction games with
  | nil => intro st e h; cases h
  | cons g rest ih =>
    intro st e h
    obtain ⟨tx, res⟩ := st
    rw [gameLoop] at h
    split at h
    · rename_i e1 he1
      cases h
      unfold WinningTeamByGame at he1
      split at he1
      · simp only at he1
        split_ifs at he1
      · cases he1; rfl
    · exact ih _ e h

/-- The errors of the stage functions. -/
theorem stage_call_error (env : Env) (actingUserID : String) (db : DB) (weekID : String)
    (stage : Stage) (e : Err) (h : (stage.call env actingUserID db weekID).2 = some e) :
    isStageError e = true := by
  cases stage with
  | ImportGamesForWeek =>
    simp only [Stage.call] at h
    rcases hr : ImportGamesForWeek env db weekID actingUserID with ⟨db1, r⟩
    rw [hr] at h
    cases r with
    | ok res => simp [errOf] at h
    | error e1 =>
      simp only [errOf, Option.some.injEq] at h
      subst h
      have h1 := (finish_error hr).2
      unfold ImportGamesForWeekTx at h1
      split at h1
      · rename_i e2 he2
        cases h1
        rw [GetWeekWithYear_error he2]
        rfl
      · split at h1
        · cases h1; rfl
        · split at h1
          · rename_i e2 he2
            cases h1
            obtain ⟨msg, rfl⟩ := NewBallDontLieClient_error he2
            rfl
          · split at h1
            · rename_i e2 he2
              cases h1
              obtain ⟨msg, rfl⟩ := FetchGames_error he2
              rfl
            · split at h1
              · cases h1; rfl
              · split at h1
                · rename_i e2 he2
                  cases h1
                  obtain ⟨a, rfl⟩ := validateGames_error db _ _ he2
                  rfl
                · cases h1
  | ImportScoresForWeek =>
    simp only [Stage.call] at h
    rcases hr : ImportScoresForWeek env db weekID with ⟨db1, r⟩
    rw [hr] at h
    cases r with
    | ok res => simp [errOf] at h
    | error e1 =>
      simp only [errOf, Option.some.injEq] at h
      subst h
      have h1 := (finish_error hr).2
      unfold ImportScoresForWeekTx at h1
      split at h1
      · rename_i e2 he2
        cases h1
        rw [GetWeekWithYear_error he2]
        rfl
      · split at h1
        · cases h1; rfl
        · split at h1
          · rename_i e2 he2
            cases h1
            obtain ⟨msg, rfl⟩ := NewBallDontLieClient_error he2
            rfl
          · split at h1
            · rename_i e2 he2
              cases h1
              obtain ⟨msg, rfl⟩ := FetchGames_error he2
              rfl
            · cases h1
  | CalculatePickResults =>
    simp only [Stage.call] at h
    rcases hr : CalculatePickResults env db weekID with ⟨db1, r⟩
    rw [hr] at h
    cases r with
    | ok res => simp [errOf] at h
    | error e1 =>
      simp only [errOf, Option.some.injEq] at h
      subst h
      have h1 := (finish_error hr).2
      unfold CalculatePickResultsTx at h1
      split at h1
      · rename_i e2 he2
        cases h1
        rw [GetWeekStatus_error he2]
        rfl
      · split at h1
        · cases h1; rfl
        · simp only at h1
          split at h1
          · rename_i e2 he2
            cases h1
            rw [gameLoop_error env _ _ _ _ he2]
            rfl
          · cases h1
  | CalculateWeekPoints =>
    simp only [Stage.call] at h
    rcases hr : CalculateWeekPoints env db weekID with ⟨db1, r⟩
    rw [hr] at h
    cases r with
    | ok res => simp [errOf] at h
    | error e1 =>
      simp only [errOf, Option.some.injEq] at h
      subst h
      have h1 := (finish_error hr).2
      unfold CalculateWeekPointsTx at h1
      split at h1
      · rename_i e2 he2
        cases h1
        rw [GetWeekWithYear_error he2]
        rfl
      · split at h1
        · cases h1; rfl
        · split at h1
          · rename_i e2 he2
            cases h1
            unfold settingsGet at he2
            split at he2
            · cases he2
            · cases he2; rfl
          · cases h1
  | CalculateSeasonSnapshot =>
    simp only [Stage.call] at h
    rcases hr : CalculateSeasonSnapshot env db weekID with ⟨db1, r⟩
    rw [hr] at h
    cases r with
    | ok res => simp [errOf] at h
    | error e1 =>
      simp only [errOf, Option.some.injEq] at h
      subst h
      have h1 := (finish_error hr).2
      unfold CalculateSeasonSnapshotTx at h1
      split at h1
      · rename_i e2 he2
        cases h1
        rw [GetWeekWithYear_error he2]
        rfl
      · split at h1
        · cases h1; rfl
        · cases h1

theorem reloadWeek_error {db : DB} {week : Week} {e : Err}
    (h : reloadWeek db week = .error e) : e = Err.sqlNoRows := by
  unfold reloadWeek at h
  split at h
  · cases h
  · cases h; rfl

theorem reloadWeek_ok {db : DB} {week w : Week} (h : reloadWeek db week = .ok w) :
    w.ID = week.ID ∧ reloadWeek db w = .ok w ∧ GetWeekStatus db w.ID = .ok w.Status := by
  unfold reloadWeek at h
  split at h
  · rename_i w1 hw1
    cases h
    have hid := (find?_week_mem hw1).2
    refine ⟨hid, ?_, ?_⟩
    · simp only [reloadWeek, hid, hw1]
    · simp only [GetWeekStatus, hid, hw1]
  · cases h

/-- The first stage call: the stage of the status the week is passed in with. -/
theorem AdvanceWeekStateCalls_head (env : Env) (actingUserID : String) (fuel : Nat) (db : DB)
    (week : Week) (stage : Stage) (h : stageFor week.Status = some stage) :
    ((AdvanceWeekStateCalls env actingUserID (fuel + 1) db week).head?).map
        (fun c => (c.stage, c.weekID)) = some (stage, week.ID) := by
  rw [AdvanceWeekStateCalls]
  simp only [h, List.head?_cons, Option.map_some']

/-- A stage call that returns an error ends the loop. -/
theorem AdvanceWeekStateLoop_stage_error (env : Env) (actingUserID : String) :
    ∀ (fuel : Nat) (db : DB) (week : Week) (c : StageCall) (e : Err),
      c ∈ AdvanceWeekStateCalls env actingUserID fuel db week → c.err = some e →
      ∃ out init, AdvanceWeekStateLoop env actingUserID fuel db week = some out ∧
        out.err = some e ∧
        AdvanceWeekStateCalls env actingUserID fuel db week = init ++ [c] ∧
        (∀ c1 ∈ init, c1.err = none) ∧
        stageFor out.week.Status = some c.stage ∧ out.week.ID = c.weekID ∧
        c.stage.call env actingUserID out.db out.week.ID = (out.db, some e) ∧
        (reloadWeek db week = .ok week → reloadWeek out.db out.week = .ok out.week) := by
  intro fuel
  induction fuel with
  | zero => intro db week c e hc _; simp [AdvanceWeekStateCalls] at hc
  | succ fuel ih =>
    intro db week c e hc he
    rw [AdvanceWeekStateCalls] at hc ⊢
    rw [AdvanceWeekStateLoop]
    cases hst : stageFor week.Status with
    | none => simp [hst] at hc
    | some stage =>
      simp only [hst] at hc ⊢
      obtain ⟨herr, hok⟩ := advanceStep_stage env actingUserID db week stage hst
      cases hcall : (stage.call env actingUserID db week.ID).2 with
      | some e0 =>
        obtain ⟨hdb, hstep⟩ := herr e0 hcall
        simp only [hstep, hcall, List.mem_singleton] at hc ⊢
        subst hc
        simp only [Option.some.injEq] at he
        subst he
        refine ⟨{ db := db, week := week, err := some e0 }, [], rfl, rfl, rfl, ?_, hst, rfl, ?_,
          fun h => h⟩
        · intro c1 h
          cases h
        · exact Prod.ext hdb hcall
      | none =>
        rcases hok hcall with hre | ⟨_, _, hstop⟩
        · simp only [hre, hcall] at hc ⊢
          cases hw : reloadWeek (stage.call env actingUserID db week.ID).1 week with
          | error e1 =>
            simp only [hw, List.mem_singleton] at hc
            subst hc
            simp at he
          | ok w =>
            simp only [hw, List.mem_cons] at hc ⊢
            rcases hc with hc | hc
            · subst hc
              simp at he
            · obtain ⟨out, init, hout, herr1, hcalls, hinit, hs1, hid1, hcall1, hsync⟩ :=
                ih _ w c e hc he
              refine ⟨out, { stage := stage, weekID := week.ID, err := none } :: init, hout,
                herr1, ?_, ?_, hs1, hid1, hcall1, fun _ => hsync (reloadWeek_ok hw).2.1⟩
              · rw [hcalls]
                rfl
              · intro c1 hc1
                rcases List.mem_cons.mp hc1 with rfl | hc1
                · rfl
                · exact hinit c1 hc1
        · simp only [hstop, hcall, List.mem_singleton] at hc
          subst hc
          simp at he

/-- What the returned value of the loop tells about the week. -/
theorem AdvanceWeekStateLoop_result (env : Env) (actingUserID : String) :
    ∀ (fuel : Nat) (db : DB) (week : Week) (out : Outcome),
      AdvanceWeekStateLoop env actingUserID fuel db week = some out →
      out.week.ID = week.ID ∧
      (out.err = none → out.week.Status = StatusFinal) ∧
      (out.err = some Err.ErrManualActionRequired →
        out.week.Status = StatusGamesImported ∨ out.week.Status = StatusSpreadsSet) ∧
      (out.err = some Err.ErrWaitingForGames → out.week.Status = StatusActive) ∧
      (∀ e, out.err = some e → e ≠ Err.ErrManualActionRequired → e ≠ Err.ErrWaitingForGames →
        (e = Err.ErrInvalidWeekStatus ∧ out.week.Status ∉ knownStatuses) ∨
        (isStageError e = true ∧
          ∃ c ∈ AdvanceWeekStateCalls env actingUserID fuel db week, c.err = some e) ∨
        (e = Err.sqlNoRows ∧ reloadWeek out.db out.week = .error e)) ∧
      (reloadWeek db week = .ok week →
        out.err = none ∨ out.err = some Err.ErrManualActionRequired ∨
          out.err = some Err.ErrWaitingForGames →
        reloadWeek out.db out.week = .ok out.week) := by
  intro fuel
  induction fuel with
  | zero => intro db week out h; simp [AdvanceWeekStateLoop] at h
  | succ fuel ih =>
    intro db week out h
    rw [AdvanceWeekStateLoop] at h
    rw [AdvanceWeekStateCalls]
    cases hst : stageFor week.Status with
    | none =>
      rcases advanceStep_no_stage env actingUserID db week hst with
        ⟨hs, hstep⟩ | ⟨hs, hstep⟩ | ⟨hs, hstep⟩
      · rw [hstep] at h
        simp only [Option.some.injEq] at h
        subst h
        refine ⟨rfl, (by intro h; cases h), fun _ => hs, (by intro h; cases h), ?_, fun h _ => h⟩
        intro e he h1 _
        simp only [Option.some.injEq] at he
        exact absurd he.symm h1
      · rw [hstep] at h
        simp only [Option.some.injEq] at h
        subst h
        refine ⟨rfl, fun _ => hs, (by intro h; cases h), (by intro h; cases h), ?_, fun h _ => h⟩
        intro e he
        cases he
      · rw [hstep] at h
        simp only [Option.some.injEq] at h
        subst h
        refine ⟨rfl, (by intro h; cases h), (by intro h; cases h), (by intro h; cases h), ?_,
          fun h _ => h⟩
        intro e he _ _
        simp only [Option.some.injEq] at he
        exact Or.inl ⟨he.symm, hs⟩
    | some stage =>
      simp only
      obtain ⟨herr, hok⟩ := advanceStep_stage env actingUserID db week stage hst
      cases hcall : (stage.call env actingUserID db week.ID).2 with
      | some e0 =>
        obtain ⟨hdb, hstep⟩ := herr e0 hcall
        have hse := stage_call_error env actingUserID db week.ID stage e0 hcall
        rw [hstep] at h
        simp only [Option.some.injEq] at h
        subst h
        refine ⟨rfl, (by intro h; cases h), ?_, ?_, ?_, ?_⟩
        · intro h
          simp only [Option.some.injEq] at h
          rw [h] at hse
          cases hse
        · intro h
          simp only [Option.some.injEq] at h
          rw [h] at hse
          cases hse
        · intro e he _ _
          simp only [Option.some.injEq] at he
          subst he
          exact Or.inr (Or.inl ⟨hse, _, List.mem_cons_self _ _, rfl⟩)
        · intro _ h
          rcases h with h | h | h
          · cases h
          · simp only [Option.some.injEq] at h
            rw [h] at hse
            cases hse
          · simp only [Option.some.injEq] at h
            rw [h] at hse
            cases hse
      | none =>
        rcases hok hcall with hre | ⟨hstage, hweeks, hstop⟩
        · simp only [hre] at h ⊢
          cases hw : reloadWeek (stage.call env actingUserID db week.ID).1 week with
          | error e1 =>
            simp only [hw, Option.some.injEq] at h
            subst h
            have he1 := reloadWeek_error hw
            subst he1
            refine ⟨rfl, (by intro h; cases h), (by intro h; cases h), (by intro h; cases h), ?_, ?_⟩
            · intro e he _ _
              simp only [Option.some.injEq] at he
              subst he
              exact Or.inr (Or.inr ⟨rfl, hw⟩)
            · intro _ h
              rcases h with h | h | h <;> cases h
          | ok w =>
            simp only [hw] at h
            obtain ⟨hid, h1, h2, h3, h4, h5⟩ := ih _ w out h
            obtain ⟨hwid, hwsync, _⟩ := reloadWeek_ok hw
            refine ⟨hid.trans hwid, h1, h2, h3, ?_, fun _ hk => h5 hwsync hk⟩
            intro e he hm hwait
            rcases h4 e he hm hwait with h | ⟨hs, c, hc, hce⟩ | h
            · exact Or.inl h
            · exact Or.inr (Or.inl ⟨hs, c, List.mem_cons_of_mem _ hc, hce⟩)
            · exact Or.inr (Or.inr h)
        · rw [hstop] at h
          simp only [Option.some.injEq] at h
          subst h
          have hact : week.Status = StatusActive := by
            rcases stageFor_some hst with ⟨h1, _⟩ | ⟨_, h2⟩ | ⟨h1, _⟩ | ⟨h1, _⟩ | ⟨h1, _⟩
            · rw [hstage] at h1; cases h1
            · exact h2
            · rw [hstage] at h1; cases h1
            · rw [hstage] at h1; cases h1
            · rw [hstage] at h1; cases h1
          refine ⟨rfl, (by intro h; cases h), (by intro h; cases h), fun _ => hact, ?_, ?_⟩
          · intro e he _ hwait
            simp only [Option.some.injEq] at he
            exact absurd he.symm hwait
          · intro hsync _
            simp only [reloadWeek, hweeks] at hsync ⊢
            exact hsync

/-- C17: when a stage function called by AdvanceWeekState returns an error, AdvanceWeekState
returns that same error and the failing call is the last stage call of the invocation: the
calls before it returned no error and no call follows, neither of that stage nor of a later
one.  The database and the week are left as the failing stage found them, so the same call
fails in the same way, and an invocation on the week as it was left behind starts with a
call of that same stage; when the week passed in was the row of the database, the week left
behind is the row of the database too, so loading it afresh makes no difference. -/
theorem AdvanceWeekState_stage_error (env : Env) (db : DB) (week : Week) (actingUserID : String)
    (c : StageCall) (e : Err)
    (hc : c ∈ AdvanceWeekStateCalls env actingUserID 9 db week) (he : c.err = some e) :
    ∃ out init, AdvanceWeekState env db week actingUserID = some out ∧ out.err = some e ∧
      AdvanceWeekStateCalls env actingUserID 9 db week = init ++ [c] ∧
      (∀ c1 ∈ init, c1.err = none) ∧
      c.stage.call env actingUserID out.db out.week.ID = (out.db, some e) ∧
      (reloadWeek db week = .ok week → reloadWeek out.db out.week = .ok out.week) ∧
      ∀ (env2 : Env) (user2 : String),
        ((AdvanceWeekStateCalls env2 user2 9 out.db out.week).head?).map
          (fun c2 => (c2.stage, c2.weekID)) = some (c.stage, c.weekID) := by
  obtain ⟨out, init, hout, herr, hcalls, hinit, hs, hid, hcall, hsync⟩ :=
    AdvanceWeekStateLoop_stage_error env actingUserID 9 db week c e hc he
  refine ⟨out, init, hout, herr, hcalls, hinit, hcall, hsync, fun env2 user2 => ?_⟩
  rw [← hid]
  exact AdvanceWeekStateCalls_head env2 user2 8 out.db out.week c.stage hs

set_option maxRecDepth 100000 in
theorem AdvanceWeekState_stage_error_witness :
    AdvanceWeekStateCalls (exampleEnv threeOfThree) "admin" 9 noSettingsDB
        (exampleWeek "w1" 1 "active") =
      [{ stage := Stage.ImportScoresForWeek, weekID := "w1", err := none },
       { stage := Stage.CalculatePickResults, weekID := "w1", err := none },
       { stage := Stage.CalculateWeekPoints, weekID := "w1", err := some Err.sqlNoRows }] ∧
    ∃ out init,
      AdvanceWeekState (exampleEnv threeOfThree) noSettingsDB (exampleWeek "w1" 1 "active")
        "admin" = some out ∧
      out.err = some Err.sqlNoRows ∧
      AdvanceWeekStateCalls (exampleEnv threeOfThree) "admin" 9 noSettingsDB
          (exampleWeek "w1" 1 "active") =
        init ++ [{ stage := Stage.CalculateWeekPoints, weekID := "w1",
                   err := some Err.sqlNoRows }] ∧
      (∀ c1 ∈ init, c1.err = none) ∧
      Stage.CalculateWeekPoints.call (exampleEnv threeOfThree) "admin" out.db out.week.ID =
        (out.db, some Err.sqlNoRows) ∧
      (reloadWeek noSettingsDB (exampleWeek "w1" 1 "active") = .ok (exampleWeek "w1" 1 "active") →
        reloadWeek out.db out.week = .ok out.week) ∧
      ∀ (env2 : Env) (user2 : String),
        ((AdvanceWeekStateCalls env2 user2 9 out.db out.week).head?).map
          (fun c2 => (c2.stage, c2.weekID)) = some (Stage.CalculateWeekPoints, "w1") :=
  ⟨by with_unfolding_all decide,
   AdvanceWeekState_stage_error (exampleEnv threeOfThree) noSettingsDB
     (exampleWeek "w1" 1 "active") "admin"
     { stage := Stage.CalculateWeekPoints, weekID := "w1", err := some Err.sqlNoRows }
     Err.sqlNoRows (by with_unfolding_all decide) rfl⟩

/-- C18: AdvanceWeekState always returns, and what it returns tells where the week (as
written back through the pointer) stands: nil only with status final, ErrManualActionRequired
only with status games_imported or spreads_set, ErrWaitingForGames only with status active;
every other returned value is ErrInvalidWeekStatus (the status is none of the eight), the
error one of its stage calls returned, or the error of the reload of the week.  When the
week passed in is the row of the database, the status in the three cases is the persisted
one. -/
theorem AdvanceWeekState_result (env : Env) (db : DB) (week : Week) (actingUserID : String) :
    ∃ out, AdvanceWeekState env db week actingUserID = some out ∧
      (out.err = none → out.week.Status = StatusFinal) ∧
      (out.err = some Err.ErrManualActionRequired →
        out.week.Status = StatusGamesImported ∨ out.week.Status = StatusSpreadsSet) ∧
      (out.err = some Err.ErrWaitingForGames → out.week.Status = StatusActive) ∧
      (∀ e, out.err = some e → e ≠ Err.ErrManualActionRequired → e ≠ Err.ErrWaitingForGames →
        (e = Err.ErrInvalidWeekStatus ∧ out.week.Status ∉ knownStatuses) ∨
        (isStageError e = true ∧
          ∃ c ∈ AdvanceWeekStateCalls env actingUserID 9 db week, c.err = some e) ∨
        (e = Err.sqlNoRows ∧ reloadWeek out.db out.week = .error e)) ∧
      (reloadWeek db week = .ok week →
        out.err = none ∨ out.err = some Err.ErrManualActionRequired ∨
          out.err = some Err.ErrWaitingForGames →
        GetWeekStatus out.db out.week.ID = .ok out.week.Status) := by
  obtain ⟨out, hout⟩ := AdvanceWeekState_returns env db week actingUserID
  obtain ⟨_, h1, h2, h3, h4, h5⟩ := AdvanceWeekStateLoop_result env actingUserID 9 db week out hout
  exact ⟨out, hout, h1, h2, h3, h4, fun hs hk => (reloadWeek_ok (h5 hs hk)).2.2⟩

/-- C19: on a week passed in with status games_imported, spreads_set or final,
AdvanceWeekState calls no stage function and leaves the database and the week as they are;
it returns ErrManualActionRequired for games_imported and spreads_set and nil for final, and
so does every further invocation on what the one before left behind. -/
theorem AdvanceWeekState_no_stage (env : Env) (db : DB) (week : Week) (actingUserID : String)
    (h : week.Status = StatusGamesImported ∨ week.Status = StatusSpreadsSet ∨
      week.Status = StatusFinal) :
    AdvanceWeekStateCalls env actingUserID 9 db week = [] ∧
    AdvanceWeekState env db week actingUserID =
      some { db := db, week := week,
             err := if week.Status = StatusFinal then none
                    else some Err.ErrManualActionRequired } ∧
    ∀ n : Nat, (advanceAgain env actingUserID)^[n] (db, week) = (db, week) ∧
      AdvanceWeekState env ((advanceAgain env actingUserID)^[n] (db, week)).1
        ((advanceAgain env actingUserID)^[n] (db, week)).2 actingUserID =
        AdvanceWeekState env db week actingUserID := by
  have hnone : stageFor week.Status = none := by
    rcases h with h | h | h <;> rw [h] <;> rfl
  have hrun : AdvanceWeekState env db week actingUserID =
      some { db := db, week := week,
             err := if week.Status = StatusFinal then none
                    else some Err.ErrManualActionRequired } := by
    unfold AdvanceWeekState
    rw [AdvanceWeekStateLoop]
    rcases advanceStep_no_stage env actingUserID db week hnone with
      ⟨hs, hstep⟩ | ⟨hs, hstep⟩ | ⟨hs, hstep⟩
    · rw [hstep]
      have hnf : week.Status ≠ StatusFinal := by
        rcases hs with hs | hs <;> rw [hs] <;> decide
      simp only [hnf, if_false]
    · rw [hstep]
      simp only [hs, if_true]
    · exfalso
      apply hs
      simp only [knownStatuses, List.mem_cons, List.mem_singleton]
      rcases h with h | h | h <;> simp [h]
  have hfix : advanceAgain env actingUserID (db, week) = (db, week) := by
    simp only [advanceAgain, hrun]
  have hiter : ∀ n : Nat, (advanceAgain env actingUserID)^[n] (db, week) = (db, week) := by
    intro n
    induction n with
    | zero => rfl
    | succ n ih => rw [Function.iterate_succ_apply, hfix, ih]
  refine ⟨?_, hrun, fun n => ⟨hiter n, ?_⟩⟩
  · rw [AdvanceWeekStateCalls]
    simp only [hnone]
  · rw [hiter n]

theorem AdvanceWeekState_no_stage_witness :
    AdvanceWeekStateCalls (exampleEnv []) "admin" 9 importedDB
        (exampleWeek "w1" 1 "games_imported") = [] ∧
    AdvanceWeekState (exampleEnv []) importedDB (exampleWeek "w1" 1 "games_imported") "admin" =
      some { db := importedDB, week := exampleWeek "w1" 1 "games_imported",
             err := if (exampleWeek "w1" 1 "games_imported").Status = StatusFinal then none
                    else some Err.ErrManualActionRequired } ∧
    ∀ n : Nat,
      (advanceAgain (exampleEnv []) "admin")^[n] (importedDB, exampleWeek "w1" 1 "games_imported") =
        (importedDB, exampleWeek "w1" 1 "games_imported") ∧
      AdvanceWeekState (exampleEnv [])
        ((advanceAgain (exampleEnv []) "admin")^[n]
          (importedDB, exampleWeek "w1" 1 "games_imported")).1
        ((advanceAgain (exampleEnv []) "admin")^[n]
          (importedDB, exampleWeek "w1" 1 "games_imported")).2 "admin" =
        AdvanceWeekState (exampleEnv []) importedDB (exampleWeek "w1" 1 "games_imported")
          "admin" :=
  AdvanceWeekState_no_stage (exampleEnv []) importedDB (exampleWeek "w1" 1 "games_imported")
    "admin" (Or.inl rfl)

/-- C20: on a week passed in with a status that is none of the eight statuses,
AdvanceWeekState returns ErrInvalidWeekStatus, calls no stage function and leaves the
database and the week as they are. -/
theorem AdvanceWeekState_invalid_status (env : Env) (db : DB) (week : Week)
    (actingUserID : String) (h : week.Status ∉ knownStatuses) :
    AdvanceWeekState env db week actingUserID =
      some { db := db, week := week, err := some Err.ErrInvalidWeekStatus } ∧
    AdvanceWeekStateCalls env actingUserID 9 db week = [] := by
  have hnone : stageFor week.Status = none := by
    simp only [knownStatuses, List.mem_cons, List.mem_singleton, List.not_mem_nil, or_false,
      not_or] at h
    obtain ⟨k1, k2, k3, k4, k5, k6, k7, k8⟩ := h
    unfold stageFor
    simp only [beq_iff_eq, k1, k2, k3, k4, k5, k6, k7, if_false]
  constructor
  · unfold AdvanceWeekState
    rw [AdvanceWeekStateLoop]
    rcases advanceStep_no_stage env actingUserID db week hnone with
      ⟨hs, hstep⟩ | ⟨hs, hstep⟩ | ⟨hs, hstep⟩
    · exfalso
      apply h
      simp only [knownStatuses, List.mem_cons, List.mem_singleton]
      rcases hs with hs | hs <;> simp [hs]
    · exfalso
      apply h
      simp only [knownStatuses, List.mem_cons, List.mem_singleton]
      simp [hs]
    · rw [hstep]
  · rw [AdvanceWeekStateCalls]
    simp only [hnone]

theorem AdvanceWeekState_invalid_status_witness :
    AdvanceWeekState (exampleEnv []) emptyDB (exampleWeek "w1" 1 "archived") "admin" =
      some { db := emptyDB, week := exampleWeek "w1" 1 "archived",
             err := some Err.ErrInvalidWeekStatus } ∧
    AdvanceWeekStateCalls (exampleEnv []) "admin" 9 emptyDB (exampleWeek "w1" 1 "archived") = [] :=
  AdvanceWeekState_invalid_status (exampleEnv []) emptyDB (exampleWeek "w1" 1 "archived")
    "admin" (by decide)

/-! ## Running a stage again after the status was put back -/

/-- Upserting rows that are already there with the points they already carry changes
nothing that the projection `π` shows. -/
theorem upsertLoop_fixed {α β : Type} (π : α → β) (ptsOf : α → Int)
    (owns : String → α → Bool) (setPoints : Int → α → α) (new : Nat → String → Int → α)
    (howns : ∀ u r r1, π r = π r1 → owns u r = owns u r1)
    (hpts : ∀ r r1, π r = π r1 → ptsOf r = ptsOf r1)
    (hset : ∀ r, π (setPoints (ptsOf r) r) = π r)
    (items : List (String × Int)) :
    ∀ (k : Nat) (rows : List α),
      (∀ item ∈ items, (∃ r ∈ rows, owns item.1 r = true) ∧
        ∀ r ∈ rows, owns item.1 r = true → ptsOf r = item.2) →
      (upsertLoop owns setPoints new k items rows).map π = rows.map π := by
  induction items with
  | nil => intro k rows _; rfl
  | cons item rest ih =>
    intro k rows h
    obtain ⟨⟨r0, hr0, ho0⟩, hp0⟩ := h item (List.mem_cons_self _ _)
    have hany : rows.any (owns item.1) = true := List.any_eq_true.mpr ⟨r0, hr0, ho0⟩
    have hstep : upsert rows (owns item.1) (setPoints item.2) (new k item.1 item.2) =
        rows.map (fun r => if owns item.1 r then setPoints item.2 r else r) := by
      simp only [upsert, hany, if_true]
    have hπ : ∀ r ∈ rows, π (if owns item.1 r then setPoints item.2 r else r) = π r := by
      intro r hr
      by_cases ho : owns item.1 r = true
      · rw [if_pos ho, ← hp0 r hr ho]
        exact hset r
      · rw [if_neg ho]
    have hmap : (rows.map (fun r => if owns item.1 r then setPoints item.2 r else r)).map π =
        rows.map π := by
      rw [List.map_map]
      exact List.map_congr_left (fun r hr => hπ r hr)
    rw [upsertLoop, hstep, ih (k + 1) _ ?_, hmap]
    intro it hit
    obtain ⟨⟨r1, hr1, ho1⟩, hp1⟩ := h it (List.mem_cons_of_mem _ hit)
    constructor
    · refine ⟨_, List.mem_map_of_mem _ hr1, ?_⟩
      rw [howns it.1 _ r1 (hπ r1 hr1)]
      exact ho1
    · intro r2 hr2 ho2
      obtain ⟨r, hr, rfl⟩ := List.mem_map.mp hr2
      rw [hpts _ r (hπ r hr)]
      rw [howns it.1 _ r (hπ r hr)] at ho2
      exact hp1 r hr ho2

/-- A rank update of rows that show, under the projection `π`, what a rank update left
behind, leaves the same behind. -/
theorem rankUpdate_fixed {α β : Type} (π : α → β) (idOf : α → String) (ptsOf : α → Int)
    (inScope : α → Bool) (setRank : Int → α → α)
    (hid : ∀ r r1, π r = π r1 → idOf r = idOf r1)
    (hpts : ∀ r r1, π r = π r1 → ptsOf r = ptsOf r1)
    (hscope : ∀ r r1, π r = π r1 → inScope r = inScope r1)
    (hrank : ∀ k r r1, π r = π r1 → π (setRank k r) = π (setRank k r1))
    (hidem : ∀ k r, π (setRank k (setRank k r)) = π (setRank k r))
    (hkeep : ∀ k r, idOf (setRank k r) = idOf r ∧ ptsOf (setRank k r) = ptsOf r ∧
      inScope (setRank k r) = inScope r)
    (x y : List α) (h : y.map π = (rankUpdate x idOf ptsOf inScope setRank).map π) :
    (rankUpdate y idOf ptsOf inScope setRank).map π =
      (rankUpdate x idOf ptsOf inScope setRank).map π := by
  have hkeys : ∀ l : List α, ∀ g : α → α,
      (∀ r, idOf (g r) = idOf r ∧ ptsOf (g r) = ptsOf r ∧ inScope (g r) = inScope r) →
      ((l.map g).filter inScope).map (fun r => (idOf r, ptsOf r)) =
        (l.filter inScope).map (fun r => (idOf r, ptsOf r)) := by
    intro l g hg
    induction l with
    | nil => rfl
    | cons a l ih =>
      simp only [List.map_cons, List.filter_cons, (hg a).2.2]
      split_ifs
      · simp only [List.map_cons, (hg a).1, (hg a).2.1, ih]
      · exact ih
  have hproj : ∀ l1 l2 : List α, l1.map π = l2.map π →
      (l1.filter inScope).map (fun r => (idOf r, ptsOf r)) =
        (l2.filter inScope).map (fun r => (idOf r, ptsOf r)) := by
    intro l1
    induction l1 with
    | nil =>
      intro l2 h
      cases l2 with
      | nil => rfl
      | cons b l2 => simp at h
    | cons a l1 ih =>
      intro l2 h
      cases l2 with
      | nil => simp at h
      | cons b l2 =>
        simp only [List.map_cons, List.cons.injEq] at h
        simp only [List.filter_cons, hscope a b h.1]
        split_ifs
        · simp only [List.map_cons, hid a b h.1, hpts a b h.1, ih l2 h.2]
        · exact ih l2 h.2
  have hx : ((rankUpdate x idOf ptsOf inScope setRank).filter inScope).map
      (fun r => (idOf r, ptsOf r)) = (x.filter inScope).map (fun r => (idOf r, ptsOf r)) := by
    unfold rankUpdate
    apply hkeys
    intro r
    split
    · exact hkeep _ r
    · exact ⟨rfl, rfl, rfl⟩
  have hsq : (y.filter inScope).map (fun r => (idOf r, ptsOf r)) =
      (x.filter inScope).map (fun r => (idOf r, ptsOf r)) := by
    rw [hproj y _ h, hx]
  have hpoint : ∀ (sq : List (String × Int)) (l1 l2 : List α),
      l1.map π = (l2.map (fun r => match subqueryRank sq (idOf r) with
        | some rank => setRank rank r
        | none => r)).map π →
      (l1.map (fun r => match subqueryRank sq (idOf r) with
        | some rank => setRank rank r
        | none => r)).map π =
      (l2.map (fun r => match subqueryRank sq (idOf r) with
        | some rank => setRank rank r
        | none => r)).map π := by
    intro sq l1
    induction l1 with
    | nil =>
      intro l2 h
      cases l2 with
      | nil => rfl
      | cons b l2 => simp at h
    | cons a l1 ih =>
      intro l2 h
      cases l2 with
      | nil => simp at h
      | cons b l2 =>
        simp only [List.map_cons, List.cons.injEq] at h ⊢
        refine ⟨?_, ih l2 h.2⟩
        have hab := h.1
        cases hb : subqueryRank sq (idOf b) with
        | none =>
          rw [hb] at hab
          simp only at hab
          have hida : idOf a = idOf b := hid a b hab
          rw [hida, hb]
          exact hab
        | some k =>
          rw [hb] at hab
          simp only at hab
          have hida : idOf a = idOf b := by
            rw [hid a _ hab]
            exact (hkeep k b).1
          rw [hida, hb]
          simp only
          rw [hrank k a _ hab]
          exact hidem k b
  unfold rankUpdate at h ⊢
  rw [hsq]
  exact hpoint _ y x h

/-- The joined lookup after a rewrite of the rows of week `weekID` that keeps the keys and
sets the status. -/
theorem GetWeekWithYear_map (db : DB) (weekID status : String) (f : Week → Week)
    (hf : ∀ w, (f w).ID = w.ID ∧ (f w).SeasonID = w.SeasonID ∧ (f w).Number = w.Number ∧
      (f w).Status = status) (ws : List Week)
    (hws : ws = db.weeks.map (fun w => if w.ID == weekID then f w else w)) :
    GetWeekWithYear { db with weeks := ws } weekID =
      (GetWeekWithYear db weekID).map (fun w => { w with Status := status }) := by
  subst hws
  have hrows : ∀ l : List Week,
      ((l.map (fun w => if w.ID == weekID then f w else w)).filter
        (fun w => w.ID == weekID)).flatMap (fun w =>
          (db.seasons.filter (fun s => s.ID == w.SeasonID)).map (fun s =>
            ({ ID := w.ID, SeasonID := w.SeasonID, Number := w.Number, Status := w.Status,
               Year := s.Year, IsPostseason := s.IsPostseason } : WeekWithYear))) =
      ((l.filter (fun w => w.ID == weekID)).flatMap (fun w =>
          (db.seasons.filter (fun s => s.ID == w.SeasonID)).map (fun s =>
            ({ ID := w.ID, SeasonID := w.SeasonID, Number := w.Number, Status := w.Status,
               Year := s.Year, IsPostseason := s.IsPostseason } : WeekWithYear)))).map
        (fun w => { w with Status := status }) := by
    intro l
    induction l with
    | nil => rfl
    | cons a l ih =>
      by_cases ha : (a.ID == weekID) = true
      · have hfa : ((f a).ID == weekID) = true := by rw [(hf a).1]; exact ha
        simp only [List.map_cons, ha, if_true, List.filter_cons, hfa, List.flatMap_cons,
          List.map_append, ih, (hf a).1, (hf a).2.1, (hf a).2.2.1, (hf a).2.2.2, List.map_map]
        rfl
      · simp only [List.map_cons, ha, if_false, List.filter_cons, Bool.false_eq_true]
        exact ih
  have h1 : weekWithYearRows
      { db with weeks := db.weeks.map (fun w => if w.ID == weekID then f w else w) } weekID =
      (weekWithYearRows db weekID).map (fun w => { w with Status := status }) := hrows db.weeks
  unfold GetWeekWithYear
  rw [h1]
  cases weekWithYearRows db weekID with
  | nil => rfl
  | cons a l => rfl

/-- What a successful `CalculatePickResults` touches: the picks and the weeks. -/
theorem CalculatePickResults_frame {env : Env} {db db1 : DB} {weekID : String}
    {res : CalculatePickResultsResult}
    (h : CalculatePickResults env db weekID = (db1, .ok res)) :
    db1 = { db with
      picks := db.picks.map (applyPickUpdates env
        ((GetWeekGames db weekID).flatMap (gamePickUpdates (GetWeekPicks db weekID))))
      weeks := db.weeks.map (fun w => if w.ID == weekID then
        { w with Status := "picks_results_calculated", UpdatedAt := env.sqlNow } else w) } := by
  obtain ⟨_, _, hdb, _⟩ := CalculatePickResults_ok h
  rw [hdb]
  rfl

/-- What a successful `CalculateWeekPoints` touches: the week results and the weeks. -/
theorem CalculateWeekPoints_frame {env : Env} {db db1 : DB} {weekID : String}
    {res : CalculateWeekPointsResult}
    (h : CalculateWeekPoints env db weekID = (db1, .ok res)) :
    db1 = { db with
      week_results := db1.week_results
      weeks := db.weeks.map (fun w => if w.ID == weekID then
        { w with Status := "scored", UpdatedAt := env.sqlNow } else w) } := by
  obtain ⟨week, s, _, _, _, hdb⟩ := CalculateWeekPoints_ok h
  rw [hdb, updateWeekRanks_eq, (weekResultLoop_eq env weekID _ 0 db 0).1]
  rfl

/-- What a successful `CalculateSeasonSnapshot` touches: the standings and the weeks. -/
theorem CalculateSeasonSnapshot_frame {env : Env} {db db1 : DB} {weekID : String}
    {res : CalculateSeasonSnapshotResult}
    (h : CalculateSeasonSnapshot env db weekID = (db1, .ok res)) :
    db1 = { db with
      season_standings := db1.season_standings
      weeks := db.weeks.map (fun w => if w.ID == weekID then
        { w with Status := "final", ClosedAt := some env.sqlNow, UpdatedAt := env.sqlNow }
        else w) } := by
  obtain ⟨week, _, _, hdb⟩ := CalculateSeasonSnapshot_ok h
  rw [hdb, updateSeasonRanks_eq, (standingLoop_eq env week.SeasonID weekID _ _ 0 db 0).1]
  rfl

/-- The verdict a pick ends with once an update was addressed to it does not depend on what
the pick held before, nor on the clock. -/
theorem applyPickUpdates_isCorrect (env1 env2 : Env) (us : List (String × Option Bool))
    (p q : Pick) (hid : p.ID = q.ID) (hex : ∃ u ∈ us, u.1 = p.ID) :
    (applyPickUpdates env1 us p).IsCorrect = (applyPickUpdates env2 us q).IsCorrect := by
  induction us using List.reverseRecOn with
  | nil => obtain ⟨u, hu, _⟩ := hex; simp at hu
  | append_singleton us u ih =>
    rw [applyPickUpdates_snoc, applyPickUpdates_snoc, (applyPickUpdates_keys env1 us p).1,
      (applyPickUpdates_keys env2 us q).1, ← hid]
    by_cases hu : (p.ID == u.1) = true
    · rw [if_pos hu, if_pos hu]
    · rw [if_neg hu, if_neg hu]
      apply ih
      obtain ⟨x, hx, hxid⟩ := hex
      rcases List.mem_append.mp hx with h1 | h1
      · exact ⟨x, h1, hxid⟩
      · simp only [List.mem_singleton] at h1
        rw [h1] at hxid
        exact absurd (by simpa using hxid.symm) hu

/-- Applying the updates of a run to the picks the same updates left behind changes no
verdict. -/
theorem applyPickUpdates_again (env1 env2 : Env) (us : List (String × Option Bool)) (p : Pick) :
    (applyPickUpdates env2 us (applyPickUpdates env1 us p)).IsCorrect =
      (applyPickUpdates env1 us p).IsCorrect := by
  by_cases hex : ∃ u ∈ us, u.1 = p.ID
  · exact (applyPickUpdates_isCorrect env1 env2 us p (applyPickUpdates env1 us p)
      (applyPickUpdates_keys env1 us p).1.symm hex).symm
  · have hno : ∀ u ∈ us, u.1 ≠ p.ID := fun u hu he => hex ⟨u, hu, he⟩
    rw [applyPickUpdates_untouched env1 us p hno, applyPickUpdates_untouched env2 us p hno]

/-- The updates issued for a game are the same when the picks are read after earlier pick
updates. -/
theorem gamePickUpdates_map (env : Env) (us : List (String × Option Bool)) (weekID : String)
    (game : Game) (picks : List Pick) :
    gamePickUpdates ((picks.map (applyPickUpdates env us)).filter (fun p => p.WeekID == weekID))
        game =
      gamePickUpdates (picks.filter (fun p => p.WeekID == weekID)) game := by
  unfold gamePickUpdates
  cases WinningTeamByGame game with
  | error e => rfl
  | ok winner =>
    simp only
    induction picks with
    | nil => rfl
    | cons a l ih =>
      obtain ⟨k1, _, k3, k4, k5, _⟩ := applyPickUpdates_keys env us a
      simp only [List.map_cons, List.filter_cons, k4]
      by_cases hw : (a.WeekID == weekID) = true
      · simp only [hw, if_true, List.filter_cons, k3]
        by_cases hg : (a.GameID == game.ID) = true
        · simp only [hg, if_true, List.map_cons, k1, List.cons.injEq]
          refine ⟨?_, ?_⟩
          · simp only [pickIsCorrect, k5]
          · simpa only [List.filter_filter] using ih
        · simp only [hg, if_false, Bool.false_eq_true]
          simpa only [List.filter_filter] using ih
      · simp only [hw, if_false, Bool.false_eq_true]
        exact ih

/-- `CalculatePickResults` run again on what its first run left behind, with the status of
the week put back to played: the second run succeeds and every pick has the verdict it had
after the first. -/
theorem CalculatePickResults_rerun {env1 env2 env3 : Env} {db db1 : DB} {weekID : String}
    {res1 : CalculatePickResultsResult}
    (h : CalculatePickResults env1 db weekID = (db1, .ok res1)) :
    ∃ db2 res2,
      CalculatePickResults env2 (UpdateWeekStatus env3 db1 weekID "played") weekID =
        (db2, .ok res2) ∧
      db2.picks.map (fun p => (p.ID, p.UserID, p.GameID, p.WeekID, p.SelectedTeamID,
          p.IsCorrect)) =
        db1.picks.map (fun p => (p.ID, p.UserID, p.GameID, p.WeekID, p.SelectedTeamID,
          p.IsCorrect)) := by
  obtain ⟨hst, hwin, _, _⟩ := CalculatePickResults_ok h
  have hfr := CalculatePickResults_frame h
  obtain ⟨w, hw, hwid, _⟩ := GetWeekStatus_mem hst
  have hstR : GetWeekStatus (UpdateWeekStatus env3 db1 weekID "played") weekID = .ok "played" := by
    apply GetWeekStatus_update
    rw [hfr]
    refine ⟨_, List.mem_map_of_mem _ hw, ?_⟩
    split_ifs
    · exact hwid
    · exact hwid
  have hgames : GetWeekGames (UpdateWeekStatus env3 db1 weekID "played") weekID =
      GetWeekGames db weekID := by
    rw [hfr]
    rfl
  have hpicks : (UpdateWeekStatus env3 db1 weekID "played").picks =
      db.picks.map (applyPickUpdates env1
        ((GetWeekGames db weekID).flatMap (gamePickUpdates (GetWeekPicks db weekID)))) := by
    rw [hfr]
    rfl
  have hpicks1 : db1.picks =
      db.picks.map (applyPickUpdates env1
        ((GetWeekGames db weekID).flatMap (gamePickUpdates (GetWeekPicks db weekID)))) := by
    rw [hfr]
  rcases hr : CalculatePickResults env2 (UpdateWeekStatus env3 db1 weekID "played") weekID with
    ⟨db2, r⟩
  cases r with
  | error e =>
    exfalso
    have h2 := (finish_error hr).2
    simp only [CalculatePickResultsTx, hstR, bne_self_eq_false, Bool.false_eq_true,
      if_false] at h2
    obtain ⟨r, hr1⟩ := gameLoop_ok_of_winners env2
      (GetWeekPicks (UpdateWeekStatus env3 db1 weekID "played") weekID)
      (GetWeekGames (UpdateWeekStatus env3 db1 weekID "played") weekID)
      (UpdateWeekStatus env3 db1 weekID "played", { GamesProcessed := 0, PicksUpdated := 0 })
      (by rw [hgames]; exact hwin)
    rw [hr1] at h2
    cases h2
  | ok res2 =>
    refine ⟨db2, res2, rfl, ?_⟩
    obtain ⟨_, _, hdb2, _⟩ := CalculatePickResults_ok hr
    have hus : (GetWeekGames (UpdateWeekStatus env3 db1 weekID "played") weekID).flatMap
        (gamePickUpdates (GetWeekPicks (UpdateWeekStatus env3 db1 weekID "played") weekID)) =
        (GetWeekGames db weekID).flatMap (gamePickUpdates (GetWeekPicks db weekID)) := by
      rw [hgames]
      simp only [GetWeekPicks, hpicks]
      apply List.flatMap_congr
      intro g _
      exact gamePickUpdates_map env1 _ weekID g db.picks
    have hp2 : db2.picks = (db.picks.map (applyPickUpdates env1
        ((GetWeekGames db weekID).flatMap (gamePickUpdates (GetWeekPicks db weekID))))).map
        (applyPickUpdates env2
          ((GetWeekGames db weekID).flatMap (gamePickUpdates (GetWeekPicks db weekID)))) := by
      rw [hdb2, hus]
      simp only [UpdateWeekStatus]
      rw [← hpicks]
      rfl
    rw [hp2, hpicks1]
    simp only [List.map_map]
    apply List.map_congr_left
    intro p _
    simp only [Function.comp]
    obtain ⟨k1, k2, k3, k4, k5, _⟩ := applyPickUpdates_keys env2
      ((GetWeekGames db weekID).flatMap (gamePickUpdates (GetWeekPicks db weekID)))
      (applyPickUpdates env1
        ((GetWeekGames db weekID).flatMap (gamePickUpdates (GetWeekPicks db weekID))) p)
    rw [k1, k2, k3, k4, k5, applyPickUpdates_again]

/-- The upsert loop followed by the rank update, run a second time with the same items on
the rows the first run left behind, leaves rows that show the same under the projection
`π`: no row is added, points and ranks are what they were. -/
theorem upsert_rank_rerun {α β : Type} (π : α → β) (idOf : α → String) (ptsOf : α → Int)
    (inScope : α → Bool) (setRank : Int → α → α) (owns : String → α → Bool)
    (set1 set2 : Int → α → α) (new1 new2 : Nat → String → Int → α)
    (hexcl : ∀ u v r, owns u r = true → owns v r = true → u = v)
    (hset1 : ∀ u p r, owns u (set1 p r) = owns u r)
    (hnew : ∀ k u p v, owns v (new1 k u p) = true → v = u)
    (hnew1 : ∀ k u p, owns u (new1 k u p) = true)
    (hpts1 : ∀ p r, ptsOf (set1 p r) = p) (hptsNew : ∀ k u p, ptsOf (new1 k u p) = p)
    (hownsRank : ∀ u k r, owns u (setRank k r) = owns u r)
    (howns : ∀ u r r1, π r = π r1 → owns u r = owns u r1)
    (hid : ∀ r r1, π r = π r1 → idOf r = idOf r1)
    (hpts : ∀ r r1, π r = π r1 → ptsOf r = ptsOf r1)
    (hscope : ∀ r r1, π r = π r1 → inScope r = inScope r1)
    (hset2 : ∀ r, π (set2 (ptsOf r) r) = π r)
    (hrank : ∀ k r r1, π r = π r1 → π (setRank k r) = π (setRank k r1))
    (hidem : ∀ k r, π (setRank k (setRank k r)) = π (setRank k r))
    (hkeep : ∀ k r, idOf (setRank k r) = idOf r ∧ ptsOf (setRank k r) = ptsOf r ∧
      inScope (setRank k r) = inScope r)
    (items : List (String × Int)) (hnd : (items.map Prod.fst).Nodup) (rows : List α) :
    (rankUpdate
        (upsertLoop owns set2 new2 0 items
          (rankUpdate (upsertLoop owns set1 new1 0 items rows) idOf ptsOf inScope setRank))
        idOf ptsOf inScope setRank).map π =
      (rankUpdate (upsertLoop owns set1 new1 0 items rows) idOf ptsOf inScope setRank).map π := by
  apply rankUpdate_fixed π idOf ptsOf inScope setRank hid hpts hscope hrank hidem hkeep
  apply upsertLoop_fixed π ptsOf owns set2 new2 howns hpts hset2
  intro item hitem
  obtain ⟨⟨r, hr, ho⟩, hp⟩ := upsertLoop_effect owns set1 new1 ptsOf hexcl hset1 hnew hnew1
    hpts1 hptsNew items 0 rows hnd item hitem
  constructor
  · obtain ⟨r1, hr1, he⟩ := (rankUpdate_rows _ idOf ptsOf inScope setRank).2 r hr
    refine ⟨r1, hr1, ?_⟩
    rcases he with he | ⟨k, he⟩
    · rw [he]; exact ho
    · rw [he, hownsRank]; exact ho
  · intro r1 hr1 ho1
    obtain ⟨r0, hr0, he⟩ := (rankUpdate_rows _ idOf ptsOf inScope setRank).1 r1 hr1
    rcases he with he | ⟨k, he⟩
    · rw [he] at ho1 ⊢
      exact hp r0 hr0 ho1
    · rw [he] at ho1 ⊢
      rw [hownsRank] at ho1
      rw [(hkeep k r0).2.1]
      exact hp r0 hr0 ho1

theorem weekPointsQuery_congr (db db1 : DB) (ppc : Int) (weekID seasonID : String)
    (hpicks : db1.picks = db.picks) (hpart : db1.season_participants = db.season_participants)
    (hprof : db1.profiles = db.profiles) :
    weekPointsQuery db1 ppc weekID seasonID = weekPointsQuery db ppc weekID seasonID := by
  have h1 : leftJoinPicks db1 weekID = leftJoinPicks db weekID := by
    funext p
    simp only [leftJoinPicks, hpicks]
  simp only [weekPointsQuery, weekPointsJoin, hpart, hprof, h1]

/-- `CalculateWeekPoints` run again on what its first run left behind, with the status of
the week put back to picks_results_calculated: the second run succeeds and the week results
are the same rows with the same points and ranks. -/
theorem CalculateWeekPoints_rerun {env1 env2 env3 : Env} {db db1 : DB} {weekID : String}
    {res1 : CalculateWeekPointsResult}
    (h : CalculateWeekPoints env1 db weekID = (db1, .ok res1)) :
    ∃ db2 res2,
      CalculateWeekPoints env2
          (UpdateWeekStatus env3 db1 weekID "picks_results_calculated") weekID =
        (db2, .ok res2) ∧
      db2.week_results.map (fun r => (r.ID, r.UserID, r.WeekID, r.Points, r.Rank)) =
        db1.week_results.map (fun r => (r.ID, r.UserID, r.WeekID, r.Points, r.Rank)) := by
  obtain ⟨week, s, hget, hst, hs, _⟩ := CalculateWeekPoints_ok h
  obtain ⟨week1, s1, hget1, hs1, hwr1⟩ := CalculateWeekPoints_week_results h
  rw [hget] at hget1
  rw [hs] at hs1
  cases hget1
  cases hs1
  have hfr := CalculateWeekPoints_frame h
  have hgetA : GetWeekWithYear db1 weekID = .ok { week with Status := "scored" } := by
    rw [hfr]
    have := GetWeekWithYear_map { db with week_results := db1.week_results } weekID "scored"
      (fun w => { w with Status := "scored", UpdatedAt := env1.sqlNow })
      (fun _ => ⟨rfl, rfl, rfl, rfl⟩) _ rfl
    rw [this]
    have hsame : GetWeekWithYear { db with week_results := db1.week_results } weekID =
        GetWeekWithYear db weekID := rfl
    rw [hsame, hget]
    rfl
  have hgetR : GetWeekWithYear (UpdateWeekStatus env3 db1 weekID "picks_results_calculated")
      weekID = .ok { week with Status := "picks_results_calculated" } := by
    have := GetWeekWithYear_map db1 weekID "picks_results_calculated"
      (fun w => { w with Status := "picks_results_calculated", UpdatedAt := env3.sqlNow })
      (fun _ => ⟨rfl, rfl, rfl, rfl⟩) _ rfl
    rw [UpdateWeekStatus, this, hgetA]
    rfl
  have hsR : settingsGet (UpdateWeekStatus env3 db1 weekID "picks_results_calculated") =
      .ok s := by
    rw [hfr]
    exact hs
  have hitems : weekPointsQuery (UpdateWeekStatus env3 db1 weekID "picks_results_calculated")
      s.PointsPerCorrectPick weekID week.SeasonID =
      weekPointsQuery db s.PointsPerCorrectPick weekID week.SeasonID := by
    apply weekPointsQuery_congr
    · rw [hfr]; rfl
    · rw [hfr]; rfl
    · rw [hfr]; rfl
  rcases hr : CalculateWeekPoints env2
      (UpdateWeekStatus env3 db1 weekID "picks_results_calculated") weekID with ⟨db2, r⟩
  cases r with
  | error e =>
    exfalso
    have h2 := (finish_error hr).2
    simp [CalculateWeekPointsTx, hgetR, hsR] at h2
  | ok res2 =>
    refine ⟨db2, res2, rfl, ?_⟩
    obtain ⟨week2, s2, hget2, hs2, hwr2⟩ := CalculateWeekPoints_week_results hr
    rw [hgetR] at hget2
    rw [hsR] at hs2
    cases hget2
    cases hs2
    have hrows : (UpdateWeekStatus env3 db1 weekID "picks_results_calculated").week_results =
        db1.week_results := rfl
    rw [hwr2, hitems, hrows, hwr1]
    exact upsert_rank_rerun (fun r : WeekResult => (r.ID, r.UserID, r.WeekID, r.Points, r.Rank))
      (fun r => r.ID) (fun r => r.Points) (fun r => r.WeekID == weekID)
      (fun rank r => { r with Rank := some rank }) (wrOwns weekID) (wrSet env1) (wrSet env2)
      (wrNew env1 weekID) (wrNew env2 weekID)
      (by
        intro u v r h1 h2
        simp only [wrOwns, Bool.and_eq_true, beq_iff_eq] at h1 h2
        rw [← h1.1, ← h2.1])
      (fun _ _ _ => rfl)
      (by
        intro k u p v h1
        simp only [wrOwns, wrNew, Bool.and_eq_true, beq_iff_eq] at h1
        exact h1.1.symm)
      (fun k u p => by simp [wrOwns, wrNew]) (fun _ _ => rfl) (fun _ _ _ => rfl)
      (fun _ _ _ => rfl)
      (by
        intro u r r1 hπ
        simp only [Prod.mk.injEq] at hπ
        simp only [wrOwns, hπ.2.1, hπ.2.2.1])
      (fun r r1 hπ => by simp only [Prod.mk.injEq] at hπ; exact hπ.1)
      (fun r r1 hπ => by simp only [Prod.mk.injEq] at hπ; exact hπ.2.2.2.1)
      (fun r r1 hπ => by simp only [Prod.mk.injEq] at hπ; simp only [hπ.2.2.1])
      (fun _ => rfl)
      (by
        intro k r r1 hπ
        simp only [Prod.mk.injEq] at hπ ⊢
        exact ⟨hπ.1, hπ.2.1, hπ.2.2.1, hπ.2.2.2.1, trivial⟩)
      (fun _ _ => rfl) (fun _ _ => ⟨rfl, rfl, rfl⟩) _
      (weekPointsQuery_nodup db s.PointsPerCorrectPick weekID week.SeasonID) db.week_results

/-- The upsert loop leaves alone the rows selected by `q` when no owned row and no new row is
selected by `q`. -/
theorem upsertLoop_filter {α : Type} (owns : String → α → Bool) (setPoints : Int → α → α)
    (new : Nat → String → Int → α) (q : α → Bool)
    (hq : ∀ u p r, owns u r = true → q r = false ∧ q (setPoints p r) = false)
    (hnew : ∀ k u p, q (new k u p) = false) (items : List (String × Int)) :
    ∀ (k : Nat) (rows : List α),
      (upsertLoop owns setPoints new k items rows).filter q = rows.filter q := by
  induction items with
  | nil => intro k rows; rfl
  | cons item rest ih =>
    intro k rows
    rw [upsertLoop, ih]
    exact upsert_filter_frame rows _ q _ _ (fun r hr => hq item.1 item.2 r hr)
      (hnew k item.1 item.2)

theorem maxByNumber_map (f : Week → Week) (hf : ∀ w, (f w).Number = w.Number) :
    ∀ l : List Week, maxByNumber (l.map f) = (maxByNumber l).map f := by
  intro l
  induction l with
  | nil => rfl
  | cons a l ih =>
    simp only [List.map_cons, maxByNumber, ih]
    cases maxByNumber l with
    | none => rfl
    | some m =>
      simp only [Option.map_some', hf]
      split_ifs <;> rfl

/-- The previous week of a week does not depend on anything but ids, seasons and numbers of
the weeks. -/
theorem previousWeekID_map (tx : DB) (seasonID weekID : String) (f : Week → Week)
    (hf : ∀ w, (f w).ID = w.ID ∧ (f w).SeasonID = w.SeasonID ∧ (f w).Number = w.Number)
    (tx1 : DB) (hweeks : tx1.weeks = tx.weeks.map f) :
    previousWeekID tx1 seasonID weekID = previousWeekID tx seasonID weekID := by
  unfold previousWeekID
  rw [hweeks, List.find?_map]
  have hp : ((fun w : Week => w.ID == weekID) ∘ f) = (fun w : Week => w.ID == weekID) := by
    funext w
    simp only [Function.comp, (hf w).1]
  rw [hp]
  cases tx.weeks.find? (fun w => w.ID == weekID) with
  | none => rfl
  | some cur =>
    simp only [Option.map_some']
    rw [List.filter_map]
    have hq : ((fun w : Week => w.SeasonID == seasonID && decide (w.Number < (f cur).Number)) ∘ f) =
        (fun w : Week => w.SeasonID == seasonID && decide (w.Number < cur.Number)) := by
      funext w
      simp only [Function.comp, (hf w).2.1, (hf w).2.2, (hf cur).2.2]
    rw [hq, maxByNumber_map f (fun w => (hf w).2.2), Option.map_map]
    congr 1
    funext w
    exact (hf w).1

/-- With week ids being the primary key, the previous week of week `weekID` is another
week. -/
theorem previousWeekID_ne {tx : DB} (hnd : (tx.weeks.map (fun w => w.ID)).Nodup)
    {seasonID weekID prev : String} (h : previousWeekID tx seasonID weekID = some prev) :
    prev ≠ weekID := by
  unfold previousWeekID at h
  split at h
  · cases h
  · rename_i cur hcur
    cases hm : maxByNumber (tx.weeks.filter
        (fun w => w.SeasonID == seasonID && decide (w.Number < cur.Number))) with
    | none => rw [hm] at h; cases h
    | some pw =>
      rw [hm] at h
      simp only [Option.map_some', Option.some.injEq] at h
      have hmem := maxByNumber_mem hm
      obtain ⟨hpw, hcond⟩ := List.mem_filter.mp hmem
      simp only [Bool.and_eq_true, beq_iff_eq, decide_eq_true_eq] at hcond
      obtain ⟨hc1, hc2⟩ := find?_week_mem hcur
      intro he
      have : pw = cur := List.inj_on_of_nodup_map hnd hpw hc1 (by rw [h, he, hc2])
      rw [this] at hcond
      exact absurd hcond.2 (lt_irrefl _)

theorem filter_map_view {α β : Type} (q : α → Bool) (v : α → β) (g : α → α)
    (hg : ∀ r, q (g r) = q r ∧ v (g r) = v r) (l : List α) :
    ((l.map g).filter q).map v = (l.filter q).map v := by
  induction l with
  | nil => rfl
  | cons a l ih =>
    simp only [List.map_cons, List.filter_cons, (hg a).1]
    split_ifs
    · simp only [List.map_cons, (hg a).2, ih]
    · exact ih

/-- `CalculateSeasonSnapshot` run again on what its first run left behind, with the status
of the week put back to scored: the second run succeeds and the season standings are the
same rows with the same points and ranks.  Week ids are the primary key of the weeks table
and a user has at most one result for the week. -/
theorem CalculateSeasonSnapshot_rerun {env1 env2 env3 : Env} {db db1 : DB} {weekID : String}
    {res1 : CalculateSeasonSnapshotResult}
    (hnd : (db.weeks.map (fun w => w.ID)).Nodup)
    (huniq : ((db.week_results.filter (fun r => r.WeekID == weekID)).map
      (fun r => r.UserID)).Nodup)
    (h : CalculateSeasonSnapshot env1 db weekID = (db1, .ok res1)) :
    ∃ db2 res2,
      CalculateSeasonSnapshot env2 (UpdateWeekStatus env3 db1 weekID "scored") weekID =
        (db2, .ok res2) ∧
      db2.season_standings.map
          (fun r => (r.ID, r.UserID, r.SeasonID, r.WeekID, r.Points, r.Rank)) =
        db1.season_standings.map
          (fun r => (r.ID, r.UserID, r.SeasonID, r.WeekID, r.Points, r.Rank)) := by
  obtain ⟨week, hget, hst, _⟩ := CalculateSeasonSnapshot_ok h
  obtain ⟨week1, hget1, hss1⟩ := CalculateSeasonSnapshot_standings h
  rw [hget] at hget1
  cases hget1
  have hfr := CalculateSeasonSnapshot_frame h
  have hgetA : GetWeekWithYear db1 weekID = .ok { week with Status := "final" } := by
    rw [hfr]
    have := GetWeekWithYear_map { db with season_standings := db1.season_standings } weekID
      "final"
      (fun w => { w with Status := "final", ClosedAt := some env1.sqlNow,
                         UpdatedAt := env1.sqlNow })
      (fun _ => ⟨rfl, rfl, rfl, rfl⟩) _ rfl
    rw [this]
    have hsame : GetWeekWithYear { db with season_standings := db1.season_standings } weekID =
        GetWeekWithYear db weekID := rfl
    rw [hsame, hget]
    rfl
  have hgetR : GetWeekWithYear (UpdateWeekStatus env3 db1 weekID "scored") weekID =
      .ok { week with Status := "scored" } := by
    have := GetWeekWithYear_map db1 weekID "scored"
      (fun w => { w with Status := "scored", UpdatedAt := env3.sqlNow })
      (fun _ => ⟨rfl, rfl, rfl, rfl⟩) _ rfl
    rw [UpdateWeekStatus, this, hgetA]
    rfl
  have hweeks : (UpdateWeekStatus env3 db1 weekID "scored").weeks =
      db.weeks.map ((fun w => if w.ID == weekID then
          { w with Status := "scored", UpdatedAt := env3.sqlNow } else w) ∘
        (fun w => if w.ID == weekID then
          { w with Status := "final", ClosedAt := some env1.sqlNow, UpdatedAt := env1.sqlNow }
          else w)) := by
    rw [hfr]
    simp only [UpdateWeekStatus, List.map_map]
  have hprevID : previousWeekID (UpdateWeekStatus env3 db1 weekID "scored") week.SeasonID
      weekID = previousWeekID db week.SeasonID weekID := by
    apply previousWeekID_map db week.SeasonID weekID _ _ _ hweeks
    intro w
    simp only [Function.comp]
    split_ifs <;> exact ⟨rfl, rfl, rfl⟩
  have hprev : previousStandings (UpdateWeekStatus env3 db1 weekID "scored") week.SeasonID
      weekID = previousStandings db week.SeasonID weekID := by
    unfold previousStandings
    rw [hprevID]
    cases hp : previousWeekID db week.SeasonID weekID with
    | none => rfl
    | some prev =>
      have hne := previousWeekID_ne hnd hp
      have hrows : (UpdateWeekStatus env3 db1 weekID "scored").season_standings =
          db1.season_standings := rfl
      simp only [hrows, hss1]
      unfold rankUpdate
      rw [filter_map_view (fun s : SeasonStanding => s.SeasonID == week.SeasonID && s.WeekID == prev)
        (fun s => (s.UserID, s.Points))]
      · rw [upsertLoop_filter]
        · intro u p r ho
          simp only [ssOwns, Bool.and_eq_true, beq_iff_eq] at ho
          have : (r.WeekID == prev) = false := by
            rw [ho.2]
            simpa using fun e => hne e.symm
          simp only [ssSet, this, Bool.and_false, and_self]
        · intro k u p
          have : (weekID == prev) = false := by simpa using fun e => hne e.symm
          simp only [ssNew, this, Bool.and_false]
      · intro r
        split
        · exact ⟨rfl, rfl⟩
        · exact ⟨rfl, rfl⟩
  rcases hr : CalculateSeasonSnapshot env2 (UpdateWeekStatus env3 db1 weekID "scored") weekID
    with ⟨db2, r⟩
  cases r with
  | error e =>
    exfalso
    have h2 := (finish_error hr).2
    simp [CalculateSeasonSnapshotTx, hgetR] at h2
  | ok res2 =>
    refine ⟨db2, res2, rfl, ?_⟩
    obtain ⟨week2, hget2, hss2⟩ := CalculateSeasonSnapshot_standings hr
    rw [hgetR] at hget2
    cases hget2
    have hrows : (UpdateWeekStatus env3 db1 weekID "scored").season_standings =
        db1.season_standings := rfl
    have hwr : (UpdateWeekStatus env3 db1 weekID "scored").week_results = db.week_results := by
      rw [hfr]
      rfl
    rw [hss2]
    simp only [hprev, hrows, hwr]
    rw [hss1]
    exact upsert_rank_rerun
      (fun r : SeasonStanding => (r.ID, r.UserID, r.SeasonID, r.WeekID, r.Points, r.Rank))
      (fun r => r.ID) (fun r => r.Points)
      (fun r => r.SeasonID == week.SeasonID && r.WeekID == weekID)
      (fun rank r => { r with Rank := some rank }) (ssOwns week.SeasonID weekID) (ssSet env1)
      (ssSet env2) (ssNew env1 week.SeasonID weekID) (ssNew env2 week.SeasonID weekID)
      (ssOwns_excl week.SeasonID weekID)
      (fun _ _ _ => rfl)
      (by
        intro k u p v h1
        simp only [ssOwns, ssNew, Bool.and_eq_true, beq_iff_eq] at h1
        exact h1.1.1.symm)
      (fun k u p => by simp [ssOwns, ssNew]) (fun _ _ => rfl) (fun _ _ _ => rfl)
      (fun _ _ _ => rfl)
      (by
        intro u r r1 hπ
        simp only [Prod.mk.injEq] at hπ
        simp only [ssOwns, hπ.2.1, hπ.2.2.1, hπ.2.2.2.1])
      (fun r r1 hπ => by simp only [Prod.mk.injEq] at hπ; exact hπ.1)
      (fun r r1 hπ => by simp only [Prod.mk.injEq] at hπ; exact hπ.2.2.2.2.1)
      (fun r r1 hπ => by
        simp only [Prod.mk.injEq] at hπ
        simp only [hπ.2.2.1, hπ.2.2.2.1])
      (fun _ => rfl)
      (by
        intro k r r1 hπ
        simp only [Prod.mk.injEq] at hπ ⊢
        exact ⟨hπ.1, hπ.2.1, hπ.2.2.1, hπ.2.2.2.1, hπ.2.2.2.2.1, trivial⟩)
      (fun _ _ => rfl) (fun _ _ => ⟨rfl, rfl, rfl⟩) _
      (by
        simp only [List.map_map]
        exact huniq)
      db.season_standings

/-- C15: invoking CalculatePickResults, CalculateWeekPoints or CalculateSeasonSnapshot a
second time on the database its first run left behind changes nothing, whatever the clocks
and the id supplies of the two runs: the database after the second run is the database after
the first, so pick correctness, week-result points and ranks and season-standing points and
ranks are identical and no row is added.  After a successful first run the second run is
turned down, the status of the week having moved on.  When the status is put back by hand
so that the second run goes through, it issues the same updates on conflict: the picks have
the same verdicts, the week results and the season standings are the same rows with the same
points and ranks (for the standings: week ids are the primary key and a user has at most one
result for the week). -/
theorem stage_rerun (env1 env2 env3 : Env) (db : DB) (weekID : String) :
    (CalculatePickResults env2 (CalculatePickResults env1 db weekID).1 weekID).1 =
      (CalculatePickResults env1 db weekID).1 ∧
    (CalculateWeekPoints env2 (CalculateWeekPoints env1 db weekID).1 weekID).1 =
      (CalculateWeekPoints env1 db weekID).1 ∧
    (CalculateSeasonSnapshot env2 (CalculateSeasonSnapshot env1 db weekID).1 weekID).1 =
      (CalculateSeasonSnapshot env1 db weekID).1 ∧
    (∀ db1 res, CalculatePickResults env1 db weekID = (db1, .ok res) →
      CalculatePickResults env2 db1 weekID = (db1, .error Err.ErrWeekNotPlayed)) ∧
    (∀ db1 res, CalculateWeekPoints env1 db weekID = (db1, .ok res) →
      ∃ e, CalculateWeekPoints env2 db1 weekID = (db1, .error e)) ∧
    (∀ db1 res, CalculateSeasonSnapshot env1 db weekID = (db1, .ok res) →
      ∃ e, CalculateSeasonSnapshot env2 db1 weekID = (db1, .error e)) ∧
    (∀ db1 res, CalculatePickResults env1 db weekID = (db1, .ok res) →
      ∃ db2 res2,
        CalculatePickResults env2 (UpdateWeekStatus env3 db1 weekID "played") weekID =
          (db2, .ok res2) ∧
        db2.picks.map (fun p => (p.ID, p.UserID, p.GameID, p.WeekID, p.SelectedTeamID,
            p.IsCorrect)) =
          db1.picks.map (fun p => (p.ID, p.UserID, p.GameID, p.WeekID, p.SelectedTeamID,
            p.IsCorrect))) ∧
    (∀ db1 res, CalculateWeekPoints env1 db weekID = (db1, .ok res) →
      ∃ db2 res2,
        CalculateWeekPoints env2
            (UpdateWeekStatus env3 db1 weekID "picks_results_calculated") weekID =
          (db2, .ok res2) ∧
        db2.week_results.map (fun r => (r.ID, r.UserID, r.WeekID, r.Points, r.Rank)) =
          db1.week_results.map (fun r => (r.ID, r.UserID, r.WeekID, r.Points, r.Rank))) ∧
    ((db.weeks.map (fun w => w.ID)).Nodup →
      ((db.week_results.filter (fun r => r.WeekID == weekID)).map (fun r => r.UserID)).Nodup →
      ∀ db1 res, CalculateSeasonSnapshot env1 db weekID = (db1, .ok res) →
        ∃ db2 res2,
          CalculateSeasonSnapshot env2 (UpdateWeekStatus env3 db1 weekID "scored") weekID =
            (db2, .ok res2) ∧
          db2.season_standings.map
              (fun r => (r.ID, r.UserID, r.SeasonID, r.WeekID, r.Points, r.Rank)) =
            db1.season_standings.map
              (fun r => (r.ID, r.UserID, r.SeasonID, r.WeekID, r.Points, r.Rank))) := by
  refine ⟨?_, ?_, ?_, fun _ _ h => CalculatePickResults_again h,
    fun _ _ h => CalculateWeekPoints_again h, fun _ _ h => CalculateSeasonSnapshot_again h,
    fun _ _ h => CalculatePickResults_rerun h, fun _ _ h => CalculateWeekPoints_rerun h,
    fun hnd huniq _ _ h => CalculateSeasonSnapshot_rerun hnd huniq h⟩
  · rcases hr : CalculatePickResults env1 db weekID with ⟨db1, r⟩
    cases r with
    | ok res => rw [CalculatePickResults_again hr]
    | error e =>
      have hdb := (finish_error hr).1
      subst hdb
      rcases hr2 : CalculatePickResults env2 db1 weekID with ⟨db2, r2⟩
      cases r2 with
      | error e2 => exact (finish_error hr2).1
      | ok res2 =>
        obtain ⟨db3, res3, h3⟩ := @CalculatePickResults_env env1 env2 db1 db2 weekID res2 hr2
        rw [hr] at h3
        cases h3
  · rcases hr : CalculateWeekPoints env1 db weekID with ⟨db1, r⟩
    cases r with
    | ok res =>
      obtain ⟨e, he⟩ := @CalculateWeekPoints_again env1 env2 db db1 weekID res hr
      rw [he]
    | error e =>
      have hdb := (finish_error hr).1
      subst hdb
      rcases hr2 : CalculateWeekPoints env2 db1 weekID with ⟨db2, r2⟩
      cases r2 with
      | error e2 => exact (finish_error hr2).1
      | ok res2 =>
        obtain ⟨db3, res3, h3⟩ := @CalculateWeekPoints_env env1 env2 db1 db2 weekID res2 hr2
        rw [hr] at h3
        cases h3
  · rcases hr : CalculateSeasonSnapshot env1 db weekID with ⟨db1, r⟩
    cases r with
    | ok res =>
      obtain ⟨e, he⟩ := @CalculateSeasonSnapshot_again env1 env2 db db1 weekID res hr
      rw [he]
    | error e =>
      have hdb := (finish_error hr).1
      subst hdb
      rcases hr2 : CalculateSeasonSnapshot env2 db1 weekID with ⟨db2, r2⟩
      cases r2 with
      | error e2 => exact (finish_error hr2).1
      | ok res2 =>
        obtain ⟨db3, res3, h3⟩ := @CalculateSeasonSnapshot_env env1 env2 db1 db2 weekID res2 hr2
        rw [hr] at h3
        cases h3

/-- The week of `scoringDB` scored twice, the second time with another clock and id supply
after the status was put back: the second run is turned down as long as the status is
scored, and goes through without changing a row once it is put back. -/
theorem stage_rerun_witness :
    (CalculateWeekPoints (gapEnv 'z') (CalculateWeekPoints (exampleEnv []) scoringDB "w1").1
        "w1").2 = .error Err.ErrWeekNotPicksCalculated ∧
    (CalculateWeekPoints (gapEnv 'z') (CalculateWeekPoints (exampleEnv []) scoringDB "w1").1
        "w1").1 = (CalculateWeekPoints (exampleEnv []) scoringDB "w1").1 ∧
    ∃ db2 res2,
      CalculateWeekPoints (gapEnv 'z')
          (UpdateWeekStatus (gapEnv 'y') (CalculateWeekPoints (exampleEnv []) scoringDB "w1").1
            "w1" "picks_results_calculated") "w1" = (db2, .ok res2) ∧
      db2.week_results.map (fun r => (r.ID, r.UserID, r.WeekID, r.Points, r.Rank)) =
        (CalculateWeekPoints (exampleEnv []) scoringDB "w1").1.week_results.map
          (fun r => (r.ID, r.UserID, r.WeekID, r.Points, r.Rank)) :=
  ⟨rfl, (stage_rerun (exampleEnv []) (gapEnv 'z') (gapEnv 'y') scoringDB "w1").2.1,
   (stage_rerun (exampleEnv []) (gapEnv 'z') (gapEnv 'y') scoringDB "w1").2.2.2.2.2.2.2.1
     _ { UsersProcessed := 2 } rfl⟩

/-! ## C23: the week number of the schedule request -/

/-- C23: the week number `FetchGames` puts in the request to the schedule source is
`week + 1` when the postseason flag is set and `week ≥ 4`, and `week` otherwise: what
`FetchGames` returns is the answer of the source for that week number (an error of the source
is handed on as it is), so regular-season weeks and postseason weeks 1 to 3 are not
shifted. -/
theorem FetchGames_apiWeek (env : Env) (season week : Int) (postseason : Bool) :
    apiWeek week postseason = (if postseason = true ∧ 4 ≤ week then week + 1 else week) ∧
    (∀ games, FetchGames env season week postseason = .ok games ↔
      env.schedule season (if postseason = true ∧ 4 ≤ week then week + 1 else week)
        postseason = .ok games) ∧
    (∀ e, FetchGames env season week postseason = .error e ↔
      ∃ msg, env.schedule season (if postseason = true ∧ 4 ≤ week then week + 1 else week)
        postseason = .error msg ∧ e = Err.other msg) ∧
    (postseason = false → apiWeek week postseason = week) ∧
    (week < 4 → apiWeek week postseason = week) ∧
    (postseason = true → 4 ≤ week → apiWeek week postseason = week + 1) ∧
    apiWeek 3 true = 3 ∧ apiWeek 4 true = 5 ∧ apiWeek 18 false = 18 := by
  have hapi : apiWeek week postseason =
      (if postseason = true ∧ 4 ≤ week then week + 1 else week) := by
    unfold apiWeek
    by_cases hp : postseason = true <;> by_cases hw : 4 ≤ week <;> simp [hp, hw]
  refine ⟨hapi, ?_, ?_, ?_, ?_, ?_, by decide, by decide, by decide⟩
  · intro games
    unfold FetchGames
    rw [hapi]
    cases env.schedule season (if postseason = true ∧ 4 ≤ week then week + 1 else week)
      postseason with
    | ok g => simp
    | error m => simp
  · intro e
    unfold FetchGames
    rw [hapi]
    cases env.schedule season (if postseason = true ∧ 4 ≤ week then week + 1 else week)
      postseason with
    | ok g => simp
    | error m =>
      simp only [Except.error.injEq, exists_eq_left']
      constructor
      · intro h; exact h.symm
      · intro h; exact h.symm
  · intro hp
    rw [hapi]
    simp [hp]
  · intro hw
    rw [hapi]
    have : ¬ 4 ≤ week := not_le.mpr hw
    simp [this]
  · intro hp hw
    rw [hapi]
    simp [hp, hw]

/-! ## C26: creating the next week -/

/-- C26: for an existing season, `CreateNextWeekForSeason` appends a week in draft status
with a generated id, numbered 1 when the season has no weeks and one more than the number of
the highest-numbered week when that week is final, and returns it; it fails with
"previous week not final" and leaves the database as it is when the highest-numbered week
is not final, and it fails with `ErrSeasonComplete` and leaves the database as it is when
the number of the new week would exceed the season's `number_of_weeks` (the status of the
last week is looked at first). -/
theorem CreateNextWeekForSeason_spec (env : Env) (db : DB) (seasonID userID : String)
    (season : Season) (hseason : db.seasons.find? (fun s => s.ID == seasonID) = some season) :
    ((∀ w ∈ db.weeks, w.SeasonID ≠ seasonID) →
      (1 ≤ season.NumberOfWeeks →
        ∃ row, CreateNextWeekForSeason env db seasonID userID =
            ({ db with weeks := db.weeks ++ [row] }, .ok row) ∧
          row.ID = env.newID 0 ∧ row.SeasonID = seasonID ∧ row.Number = 1 ∧
          row.Status = "draft" ∧ row.CreatedBy = userID) ∧
      (season.NumberOfWeeks < 1 →
        CreateNextWeekForSeason env db seasonID userID = (db, .error Err.ErrSeasonComplete))) ∧
    (∀ last ∈ db.weeks, last.SeasonID = seasonID →
      (∀ w ∈ db.weeks, w.SeasonID = seasonID → w ≠ last → w.Number < last.Number) →
      (last.Status ≠ "final" →
        CreateNextWeekForSeason env db seasonID userID =
          (db, .error Err.previousWeekNotFinal)) ∧
      (last.Status = "final" → season.NumberOfWeeks < last.Number + 1 →
        CreateNextWeekForSeason env db seasonID userID = (db, .error Err.ErrSeasonComplete)) ∧
      (last.Status = "final" → last.Number + 1 ≤ season.NumberOfWeeks →
        ∃ row, CreateNextWeekForSeason env db seasonID userID =
            ({ db with weeks := db.weeks ++ [row] }, .ok row) ∧
          row.ID = env.newID 0 ∧ row.SeasonID = seasonID ∧ row.Number = last.Number + 1 ∧
          row.Status = "draft" ∧ row.CreatedBy = userID)) := by
  constructor
  · intro hnone
    have hfilter : db.weeks.filter (fun w => w.SeasonID == seasonID) = [] := by
      apply List.filter_eq_nil_iff.mpr
      intro w hw
      simpa using hnone w hw
    constructor
    · intro hle
      have hnot : ¬ (1 : Int) > season.NumberOfWeeks := not_lt.mpr hle
      refine ⟨Week.mk (env.newID 0) seasonID 1 "draft" none none env.sqlNow userID, ?_, rfl, rfl,
        rfl, rfl, rfl⟩
      simp only [CreateNextWeekForSeason, hfilter, maxByNumber, hseason, hnot, if_false]
    · intro hlt
      have hgt : (1 : Int) > season.NumberOfWeeks := hlt
      simp only [CreateNextWeekForSeason, hfilter, maxByNumber, hseason, hgt, if_true]
  · intro last hlast hs hmax
    have hm : maxByNumber (db.weeks.filter (fun w => w.SeasonID == seasonID)) = some last := by
      apply maxByNumber_greatest
      · exact List.mem_filter.mpr ⟨hlast, by simpa using hs⟩
      · intro x hx hne
        obtain ⟨hx1, hx2⟩ := List.mem_filter.mp hx
        exact hmax x hx1 (by simpa using hx2) hne
    refine ⟨?_, ?_, ?_⟩
    · intro hnf
      have hb : (last.Status != "final") = true := by simpa using hnf
      simp only [CreateNextWeekForSeason, hm, hb, if_true]
    · intro hf hlt
      have hb : (last.Status != "final") = false := by simp [hf]
      have hgt : last.Number + 1 > season.NumberOfWeeks := hlt
      simp only [CreateNextWeekForSeason, hm, hb, Bool.false_eq_true, if_false, hseason, hgt,
        if_true]
    · intro hf hle
      have hb : (last.Status != "final") = false := by simp [hf]
      have hnot : ¬ last.Number + 1 > season.NumberOfWeeks := not_lt.mpr hle
      refine ⟨Week.mk (env.newID 0) seasonID (last.Number + 1) "draft" none none env.sqlNow
        userID, ?_, rfl, rfl, rfl, rfl, rfl⟩
      simp only [CreateNextWeekForSeason, hm, hb, Bool.false_eq_true, if_false, hseason, hnot]

/-- The first week of the season of the examples, and the next one once it is final. -/
theorem CreateNextWeekForSeason_spec_witness :
    (∃ row, CreateNextWeekForSeason (exampleEnv []) emptyDB "s1" "admin" =
        ({ emptyDB with weeks := emptyDB.weeks ++ [row] }, .ok row) ∧
      row.ID = (exampleEnv []).newID 0 ∧ row.SeasonID = "s1" ∧ row.Number = 1 ∧
      row.Status = "draft" ∧ row.CreatedBy = "admin") ∧
    CreateNextWeekForSeason (exampleEnv []) snapshotDB "s1" "admin" =
      (snapshotDB, .error Err.previousWeekNotFinal) :=
  ⟨((CreateNextWeekForSeason_spec (exampleEnv []) emptyDB "s1" "admin" exampleSeason rfl).1
      (by decide)).1 (by decide),
   ((CreateNextWeekForSeason_spec (exampleEnv []) snapshotDB "s1" "admin" exampleSeason rfl).2
      (exampleWeek "w2" 2 "scored") (by decide) rfl (by decide)).1 (by decide)⟩

/-! ## C27: the spread check of `UpdateSpreads` -/

theorem truncToInt_intCast (k : Int) : truncToInt (k : ℚ) = k := by
  unfold truncToInt
  simp

theorem spreadValid_half (k : Int) : spreadValid ((k : ℚ) / 2) = true := by
  have h1 : ((k : ℚ) / 2) / (1 / 2) = (k : ℚ) := by field_simp
  unfold spreadValid
  simp only [h1, truncToInt_intCast]
  have h2 : (k : ℚ) / 2 - (k : ℚ) * (1 / 2) = 0 := by ring
  rw [h2]
  norm_num

/-- A request with a spread that does not pass the check is turned down as a whole: the
database stays as it is. -/
theorem UpdateSpreads_rejects (env : Env) (db : DB) (weekID : String)
    (games : List GameSpreadUpdate)
    (h : ∃ u ∈ games, ∃ s, u.HomeSpread = some s ∧ spreadValid s = false) :
    (UpdateSpreads env db weekID games).1 = db ∧ (UpdateSpreads env db weekID games).2 ≠ 200 := by
  obtain ⟨u, hu, s, hs, hv⟩ := h
  unfold UpdateSpreads
  split
  · exact ⟨rfl, by simp⟩
  · split
    · exact ⟨rfl, by simp⟩
    · split
      · exact ⟨rfl, by simp⟩
      · split
        · exact ⟨rfl, by simp⟩
        · rename_i hany
          exfalso
          apply hany
          apply List.any_eq_true.mpr
          refine ⟨u, hu, ?_⟩
          rw [hs]
          simp [hv]

set_option maxRecDepth 100000 in
/-- C27 (the code against its own rule): the check of `UpdateSpreads` lets every multiple of
0.5 pass and a request with a spread that fails the check changes nothing, but the check is
a tolerance of 0.001 around the remainder after truncation, not a test for a multiple of
0.5: the spread 3.5004 is no multiple of 0.5, passes, and is written to the game as it is,
while 3.4996, just as close to 3.5, is turned down. -/
theorem UpdateSpreads_spread_tolerance :
    (∀ k : Int, spreadValid ((k : ℚ) / 2) = true) ∧
    (∀ (env : Env) (db : DB) (weekID : String) (games : List GameSpreadUpdate),
      (∃ u ∈ games, ∃ s, u.HomeSpread = some s ∧ spreadValid s = false) →
      (UpdateSpreads env db weekID games).1 = db ∧
        (UpdateSpreads env db weekID games).2 ≠ 200) ∧
    (∀ k : Int, (35004 / 10000 : ℚ) ≠ (k : ℚ) / 2) ∧
    spreadValid (35004 / 10000) = true ∧
    spreadValid (34996 / 10000) = false ∧
    (UpdateSpreads (exampleEnv []) spreadsDB "w1"
      [{ GameID := "g1", HomeSpread := some (35004 / 10000) }]).2 = 200 ∧
    (UpdateSpreads (exampleEnv []) spreadsDB "w1"
      [{ GameID := "g1", HomeSpread := some (35004 / 10000) }]).1.games.map
        (fun g => (g.ID, g.HomeSpread)) = [("g1", some (35004 / 10000))] ∧
    GetWeekStatus (UpdateSpreads (exampleEnv []) spreadsDB "w1"
      [{ GameID := "g1", HomeSpread := some (35004 / 10000) }]).1 "w1" = .ok "spreads_set" := by
  refine ⟨spreadValid_half, UpdateSpreads_rejects, ?_, by with_unfolding_all decide,
    by with_unfolding_all decide, by with_unfolding_all rfl, by with_unfolding_all rfl,
    by with_unfolding_all rfl⟩
  intro k hk
  have h1 : (k : ℚ) * 10000 = 70008 := by linarith
  have h2 : k * 10000 = 70008 := by exact_mod_cast h1
  omega

/-! ## C24: the calculation timestamp -/

/-- A pick that an update is addressed to ends with the calculation timestamp of the run. -/
theorem applyPickUpdates_calculatedAt (env : Env) (us : List (String × Option Bool)) (p : Pick)
    (hex : ∃ u ∈ us, u.1 = p.ID) :
    (applyPickUpdates env us p).CalculatedAt = some env.goNow := by
  induction us using List.reverseRecOn with
  | nil => obtain ⟨u, hu, _⟩ := hex; simp at hu
  | append_singleton us u ih =>
    rw [applyPickUpdates_snoc, (applyPickUpdates_keys env us p).1]
    by_cases hu : (p.ID == u.1) = true
    · rw [if_pos hu]
    · rw [if_neg hu]
      apply ih
      obtain ⟨x, hx, hxid⟩ := hex
      rcases List.mem_append.mp hx with h1 | h1
      · exact ⟨x, h1, hxid⟩
      · simp only [List.mem_singleton] at h1
        rw [h1] at hxid
        exact absurd (by simpa using hxid.symm) hu

/-- The updates issued for a game whose winner can be determined: one per pick on the
game. -/
theorem gamePickUpdates_length (picks : List Pick) (game : Game)
    (h : ∃ w, WinningTeamByGame game = .ok w) :
    (gamePickUpdates picks game).length =
      (picks.filter (fun p => p.GameID == game.ID)).length := by
  obtain ⟨w, hw⟩ := h
  simp only [gamePickUpdates, hw, List.length_map]

theorem gamePickUpdates_mem (picks : List Pick) (game : Game) (p : Pick)
    (h : ∃ w, WinningTeamByGame game = .ok w) (hp : p ∈ picks) (hg : p.GameID = game.ID) :
    ∃ u ∈ gamePickUpdates picks game, u.1 = p.ID := by
  obtain ⟨w, hw⟩ := h
  refine ⟨(p.ID, pickIsCorrect game p w), ?_, rfl⟩
  simp only [gamePickUpdates, hw, List.mem_map, List.mem_filter, beq_iff_eq]
  exact ⟨p, ⟨hp, hg⟩, rfl⟩

/-- Counting the picks game by game counts every pick once, when game ids are unique and
every pick is on one of the games. -/
theorem picks_by_game_length (games : List Game) (hnd : (games.map (fun g => g.ID)).Nodup) :
    ∀ (picks : List Pick), (∀ p ∈ picks, ∃ g ∈ games, g.ID = p.GameID) →
      ((games.map (fun g => (picks.filter (fun p => p.GameID == g.ID)).length)).sum) =
        picks.length := by
  intro picks
  induction picks with
  | nil => intro _; simp
  | cons p rest ih =>
    intro h
    have ih1 := ih (fun q hq => h q (List.mem_cons_of_mem _ hq))
    obtain ⟨g0, hg0, hid0⟩ := h p (List.mem_cons_self _ _)
    have hsplit : ∀ (l : List Game),
        (l.map (fun g => ((p :: rest).filter (fun q => q.GameID == g.ID)).length)).sum =
          (l.map (fun g => (rest.filter (fun q => q.GameID == g.ID)).length)).sum +
            (l.filter (fun g => p.GameID == g.ID)).length := by
      intro l
      induction l with
      | nil => rfl
      | cons g l ihl =>
        rw [List.map_cons, List.sum_cons, ihl, List.map_cons, List.sum_cons]
        by_cases hg : (p.GameID == g.ID) = true
        · have h1 : (List.filter (fun q => q.GameID == g.ID) (p :: rest)).length =
              (List.filter (fun q => q.GameID == g.ID) rest).length + 1 := by
            rw [List.filter_cons_of_pos (by exact hg), List.length_cons]
          have h2 : (List.filter (fun g => p.GameID == g.ID) (g :: l)).length =
              (List.filter (fun g => p.GameID == g.ID) l).length + 1 := by
            rw [List.filter_cons_of_pos (by exact hg), List.length_cons]
          omega
        · have h1 : (List.filter (fun q => q.GameID == g.ID) (p :: rest)).length =
              (List.filter (fun q => q.GameID == g.ID) rest).length := by
            rw [List.filter_cons_of_neg (by exact hg)]
          have h2 : (List.filter (fun g => p.GameID == g.ID) (g :: l)).length =
              (List.filter (fun g => p.GameID == g.ID) l).length := by
            rw [List.filter_cons_of_neg (by exact hg)]
          omega
    have hone : (games.filter (fun g => p.GameID == g.ID)).length = 1 := by
      have hsub : ((games.filter (fun g => p.GameID == g.ID)).map (fun g => g.ID)).Nodup :=
        (List.filter_sublist games).map (fun g => g.ID) |>.nodup hnd
      have hmem : g0 ∈ games.filter (fun g => p.GameID == g.ID) :=
        List.mem_filter.mpr ⟨hg0, by simpa using hid0.symm⟩
      cases hl : games.filter (fun g => p.GameID == g.ID) with
      | nil => rw [hl] at hmem; cases hmem
      | cons a l =>
        cases l with
        | nil => rfl
        | cons b l =>
          exfalso
          rw [hl] at hsub
          have ha : a ∈ games.filter (fun g => p.GameID == g.ID) := by rw [hl]; simp
          have hb : b ∈ games.filter (fun g => p.GameID == g.ID) := by rw [hl]; simp
          have ha1 : p.GameID = a.ID := by simpa using (List.mem_filter.mp ha).2
          have hb1 : p.GameID = b.ID := by simpa using (List.mem_filter.mp hb).2
          simp only [List.map_cons, List.nodup_cons, List.mem_cons] at hsub
          exact hsub.1 (Or.inl (ha1.symm.trans hb1))
    rw [hsplit, ih1, hone, List.length_cons]

/-- C24: after a successful `CalculatePickResults` on a week whose game ids are unique and
whose picks are all on games of the week, every pick of the week, with or without a selected
team and whatever the outcome of its game, has `calculated_at` set to the one timestamp of
the run, and `PicksUpdated` is the number of picks of the week. -/
theorem CalculatePickResults_calculated_at (env : Env) (db db1 : DB) (weekID : String)
    (res : CalculatePickResultsResult)
    (hgames : ((GetWeekGames db weekID).map (fun g => g.ID)).Nodup)
    (hpicks : ∀ p ∈ GetWeekPicks db weekID, ∃ g ∈ GetWeekGames db weekID, g.ID = p.GameID)
    (h : CalculatePickResults env db weekID = (db1, .ok res)) :
    (∀ p ∈ GetWeekPicks db1 weekID, p.CalculatedAt = some env.goNow) ∧
    res.PicksUpdated = (GetWeekPicks db weekID).length ∧
    (GetWeekPicks db1 weekID).length = (GetWeekPicks db weekID).length := by
  obtain ⟨_, hwin, _, hres⟩ := CalculatePickResults_ok h
  have hfr := CalculatePickResults_frame h
  have hp1 : db1.picks = db.picks.map (applyPickUpdates env
      ((GetWeekGames db weekID).flatMap (gamePickUpdates (GetWeekPicks db weekID)))) := by
    rw [hfr]
  refine ⟨?_, ?_, ?_⟩
  · intro p1 hmem
    simp only [GetWeekPicks, hp1, List.mem_filter, List.mem_map, beq_iff_eq] at hmem
    obtain ⟨⟨p, hp, he⟩, hweek⟩ := hmem
    rw [← he] at hweek ⊢
    rw [(applyPickUpdates_keys env _ p).2.2.2.1] at hweek
    have hpw : p ∈ GetWeekPicks db weekID :=
      List.mem_filter.mpr ⟨hp, by simpa using hweek⟩
    obtain ⟨g, hg, hid⟩ := hpicks p hpw
    obtain ⟨u, hu, huid⟩ := gamePickUpdates_mem (GetWeekPicks db weekID) g p (hwin g hg) hpw
      hid.symm
    exact applyPickUpdates_calculatedAt env _ p
      ⟨u, List.mem_flatMap.mpr ⟨g, hg, hu⟩, huid⟩
  · rw [hres, List.length_flatMap]
    have hmap : (GetWeekGames db weekID).map (fun g =>
          (gamePickUpdates (GetWeekPicks db weekID) g).length) =
        (GetWeekGames db weekID).map (fun g =>
          ((GetWeekPicks db weekID).filter (fun p => p.GameID == g.ID)).length) := by
      apply List.map_congr_left
      intro g hg
      exact gamePickUpdates_length _ g (hwin g hg)
    have := picks_by_game_length (GetWeekGames db weekID) hgames (GetWeekPicks db weekID) hpicks
    simp only [List.map_map, Function.comp_def] at hmap ⊢
    rw [hmap, this]
  · simp only [GetWeekPicks, hp1]
    have : ∀ l : List Pick,
        ((l.map (applyPickUpdates env
          ((GetWeekGames db weekID).flatMap
            (gamePickUpdates (db.picks.filter (fun p => p.WeekID == weekID)))))).filter
          (fun p => p.WeekID == weekID)).length =
        (l.filter (fun p => p.WeekID == weekID)).length := by
      intro l
      induction l with
      | nil => rfl
      | cons a l ih =>
        simp only [List.map_cons, List.filter_cons, (applyPickUpdates_keys env _ a).2.2.2.1]
        split_ifs
        · simp only [List.length_cons, ih]
        · exact ih
    exact this db.picks

set_option maxRecDepth 100000 in
/-- The four picks of the played week of `resultsDB`, one of them without a selected team
and one on a game that is a push. -/
theorem CalculatePickResults_calculated_at_witness :
    (∀ p ∈ GetWeekPicks (CalculatePickResults (exampleEnv []) resultsDB "w1").1 "w1",
      p.CalculatedAt = some (exampleEnv []).goNow) ∧
    ((4 : Int) = ((GetWeekPicks resultsDB "w1").length : Int)) ∧
    (GetWeekPicks (CalculatePickResults (exampleEnv []) resultsDB "w1").1 "w1").length =
      (GetWeekPicks resultsDB "w1").length :=
  CalculatePickResults_calculated_at (exampleEnv []) resultsDB _ "w1"
    { GamesProcessed := 2, PicksUpdated := 4 } (by decide) (by decide)
    (by with_unfolding_all rfl)

/-! ## C30: ranks reverse the order of the points -/

/-- The rows counted for a higher score are counted for a lower one too. -/
theorem competitionRank_mono (scope : List Int) {p q : Int} (h : p ≤ q) :
    competitionRank scope q ≤ competitionRank scope p := by
  unfold competitionRank
  have : (scope.filter (fun x => decide (q < x))).length ≤
      (scope.filter (fun x => decide (p < x))).length := by
    induction scope with
    | nil => simp
    | cons x xs ih =>
      simp only [List.filter_cons]
      by_cases hq : q < x
      · have hp : p < x := lt_of_le_of_lt h hq
        simp only [hq, hp, decide_True, if_true, List.length_cons]
        omega
      · by_cases hp : p < x
        · simp only [hq, hp, decide_True, decide_False, if_true, List.length_cons,
            Bool.false_eq_true, if_false]
          omega
        · simp only [hq, hp, decide_False, Bool.false_eq_true, if_false]
          exact ih
  omega

/-- A score of the scope is counted for every strictly lower score, and not for itself. -/
theorem competitionRank_strict (scope : List Int) {p q : Int} (hq : q ∈ scope) (h : p < q) :
    competitionRank scope q < competitionRank scope p := by
  unfold competitionRank
  have : (scope.filter (fun x => decide (q < x))).length <
      (scope.filter (fun x => decide (p < x))).length := by
    induction scope with
    | nil => cases hq
    | cons x xs ih =>
      have hmono : (xs.filter (fun x => decide (q < x))).length ≤
          (xs.filter (fun x => decide (p < x))).length := by
        have := competitionRank_mono xs (le_of_lt h)
        unfold competitionRank at this
        omega
      simp only [List.filter_cons]
      by_cases hqx : q < x
      · have hp : p < x := lt_trans h hqx
        simp only [hqx, hp, decide_True, if_true, List.length_cons]
        rcases List.mem_cons.mp hq with he | hmem
        · omega
        · have := ih hmem
          omega
      · by_cases hp : p < x
        · simp only [hqx, hp, decide_True, decide_False, if_true, List.length_cons,
            Bool.false_eq_true, if_false]
          omega
        · simp only [hqx, hp, decide_False, Bool.false_eq_true, if_false]
          rcases List.mem_cons.mp hq with he | hmem
          · omega
          · exact ih hmem
  omega

theorem competitionRank_lt_iff (scope : List Int) {p q : Int} (hp : p ∈ scope) :
    competitionRank scope p < competitionRank scope q ↔ q < p := by
  constructor
  · intro h
    by_contra hn
    have := competitionRank_mono scope (not_lt.mp hn)
    omega
  · exact competitionRank_strict scope hp

theorem competitionRank_eq_iff (scope : List Int) {p q : Int} (hp : p ∈ scope)
    (hq : q ∈ scope) : competitionRank scope p = competitionRank scope q ↔ p = q := by
  constructor
  · intro h
    rcases lt_trichotomy p q with hlt | heq | hgt
    · have := competitionRank_strict scope hq hlt
      omega
    · exact heq
    · have := competitionRank_strict scope hp hgt
      omega
  · intro h
    rw [h]

theorem competitionRank_bounds (scope : List Int) {p : Int} (hp : p ∈ scope) :
    1 ≤ competitionRank scope p ∧ competitionRank scope p ≤ (scope.length : Int) := by
  unfold competitionRank
  have : (scope.filter (fun x => decide (p < x))).length < scope.length := by
    induction scope with
    | nil => cases hp
    | cons x xs ih =>
      have hle : (xs.filter (fun x => decide (p < x))).length ≤ xs.length :=
        List.length_filter_le _ _
      simp only [List.filter_cons, List.length_cons]
      rcases List.mem_cons.mp hp with he | hmem
      · subst he
        simp only [lt_self_iff_false, decide_False, Bool.false_eq_true, if_false]
        omega
      · have := ih hmem
        split_ifs
        · simp only [List.length_cons]
          omega
        · omega
  omega

/-- A non-empty scope has a score with rank 1: its greatest. -/
theorem competitionRank_one (scope : List Int) (hne : scope ≠ []) :
    ∃ p ∈ scope, competitionRank scope p = 1 := by
  have hmax : ∃ p ∈ scope, ∀ q ∈ scope, q ≤ p := by
    induction scope with
    | nil => exact absurd rfl hne
    | cons x xs ih =>
      cases xs with
      | nil => exact ⟨x, by simp, by simp⟩
      | cons y ys =>
        obtain ⟨m, hm, hmax⟩ := ih (by simp)
        by_cases hx : m ≤ x
        · refine ⟨x, by simp, ?_⟩
          intro q hq
          rcases List.mem_cons.mp hq with he | hmem
          · omega
          · exact le_trans (hmax q hmem) hx
        · refine ⟨m, List.mem_cons_of_mem _ hm, ?_⟩
          intro q hq
          rcases List.mem_cons.mp hq with he | hmem
          · omega
          · exact hmax q hmem
  obtain ⟨p, hp, hmax⟩ := hmax
  refine ⟨p, hp, ?_⟩
  unfold competitionRank
  have : scope.filter (fun x => decide (p < x)) = [] := by
    apply List.filter_eq_nil_iff.mpr
    intro q hq
    have := hmax q hq
    simp only [decide_eq_true_eq]
    omega
  rw [this]
  rfl

/-- The properties of C30 for any table whose rows of a scope carry the competition rank of
their points within the scope. -/
theorem ranked_scope_order {α : Type} (rows : List α) (pts : α → Int) (rk : α → Option Int)
    (h : ∀ r ∈ rows, rk r = some (competitionRank (rows.map pts) (pts r))) :
    (∀ a ∈ rows, ∀ b ∈ rows, ∃ ra rb, rk a = some ra ∧ rk b = some rb ∧
      (ra < rb ↔ pts b < pts a) ∧ (ra = rb ↔ pts a = pts b)) ∧
    (∀ a ∈ rows, ∃ ra, rk a = some ra ∧ 1 ≤ ra ∧ ra ≤ (rows.length : Int)) ∧
    (rows ≠ [] → ∃ a ∈ rows, rk a = some 1) := by
  refine ⟨?_, ?_, ?_⟩
  · intro a ha b hb
    have hpa : pts a ∈ rows.map pts := List.mem_map_of_mem pts ha
    have hpb : pts b ∈ rows.map pts := List.mem_map_of_mem pts hb
    exact ⟨_, _, h a ha, h b hb, competitionRank_lt_iff _ hpa, competitionRank_eq_iff _ hpa hpb⟩
  · intro a ha
    have hpa : pts a ∈ rows.map pts := List.mem_map_of_mem pts ha
    have hb := competitionRank_bounds _ hpa
    rw [List.length_map] at hb
    exact ⟨_, h a ha, hb.1, hb.2⟩
  · intro hne
    obtain ⟨p, hp, hone⟩ := competitionRank_one (rows.map pts) (by simpa using hne)
    obtain ⟨a, ha, hpa⟩ := List.mem_map.mp hp
    refine ⟨a, ha, ?_⟩
    rw [h a ha, hpa, hone]

/-- After `CalculateWeekPoints`, every week result of the week carries the competition rank
of its points among the week results of the week. -/
theorem CalculateWeekPoints_ranked (env : Env) (db db1 : DB) (weekID : String)
    (res : CalculateWeekPointsResult)
    (hinj : Function.Injective env.newID)
    (h : CalculateWeekPoints env db weekID = (db1, .ok res))
    (hnd : (db.week_results.map (fun r => r.ID)).Nodup)
    (hfresh : ∀ k, env.newID k ∉ db.week_results.map (fun r => r.ID)) :
    ∀ r ∈ db1.week_results.filter (fun x => x.WeekID == weekID),
      r.Rank = some (competitionRank
        ((db1.week_results.filter (fun x => x.WeekID == weekID)).map (fun x => x.Points))
        r.Points) := by
  intro r hr
  obtain ⟨hr, hweek⟩ := List.mem_filter.mp hr
  obtain ⟨week, s, _, _, hwr⟩ := CalculateWeekPoints_week_results h
  have hnd1 := wr_ids_nodup env weekID
    ((weekPointsQuery db s.PointsPerCorrectPick weekID week.SeasonID).map
      (fun up => (up.UserID, up.Points))) db.week_results hinj hnd hfresh
  have hspec := rankUpdate_spec _ (fun r : WeekResult => r.ID) (fun r => r.Points)
    (fun r => r.WeekID == weekID) (fun rank r => { r with Rank := some rank }) hnd1
    (fun _ _ => rfl) (fun _ _ => rfl)
  rw [← hwr] at hspec
  rw [hspec] at hr
  obtain ⟨r0, _, he⟩ := List.mem_map.mp hr
  by_cases hs : (r0.WeekID == weekID) = true
  · simp only [hs, if_true] at he
    rw [← he]
  · simp only [hs, Bool.false_eq_true, if_false] at he
    rw [← he] at hweek
    exact absurd hweek hs

/-- After `CalculateSeasonSnapshot`, every standing of the season and week carries the
competition rank of its points among the standings of the season and week. -/
theorem CalculateSeasonSnapshot_ranked (env : Env) (db db1 : DB) (weekID : String)
    (res : CalculateSeasonSnapshotResult) (week : WeekWithYear)
    (hinj : Function.Injective env.newID)
    (h : CalculateSeasonSnapshot env db weekID = (db1, .ok res))
    (hw : GetWeekWithYear db weekID = .ok week)
    (hnd : (db.season_standings.map (fun s => s.ID)).Nodup)
    (hfresh : ∀ k, env.newID k ∉ db.season_standings.map (fun s => s.ID)) :
    ∀ s ∈ db1.season_standings.filter
        (fun x => x.SeasonID == week.SeasonID && x.WeekID == weekID),
      s.Rank = some (competitionRank
        ((db1.season_standings.filter
          (fun x => x.SeasonID == week.SeasonID && x.WeekID == weekID)).map (fun x => x.Points))
        s.Points) := by
  intro s hs
  obtain ⟨hs, hscope⟩ := List.mem_filter.mp hs
  obtain ⟨week1, hw1, hss⟩ := CalculateSeasonSnapshot_standings h
  rw [hw] at hw1
  cases hw1
  have hnd1 := ss_ids_nodup env week.SeasonID weekID
    (((db.week_results.filter (fun r => r.WeekID == weekID)).map
      (fun r => (r.UserID, r.Points))).map
      (fun wr => (wr.1, previousPointsByUserID (previousStandings db week.SeasonID weekID)
        wr.1 + wr.2))) db.season_standings hinj hnd hfresh
  have hspec := rankUpdate_spec _ (fun s : SeasonStanding => s.ID) (fun s => s.Points)
    (fun s => s.SeasonID == week.SeasonID && s.WeekID == weekID)
    (fun rank s => { s with Rank := some rank }) hnd1 (fun _ _ => rfl) (fun _ _ => rfl)
  rw [← hss] at hspec
  rw [hspec] at hs
  obtain ⟨s0, _, he⟩ := List.mem_map.mp hs
  by_cases hsc : (s0.SeasonID == week.SeasonID && s0.WeekID == weekID) = true
  · simp only [hsc, if_true] at he
    rw [← he]
  · simp only [hsc, Bool.false_eq_true, if_false] at he
    rw [← he] at hscope
    exact absurd hscope hsc

/-- C30: the ranks written by `CalculateWeekPoints` within the week results of the week, and
by `CalculateSeasonSnapshot` within the standings of the season and week, reverse the order
of the points: a lower rank exactly for more points, the same rank exactly for the same
points; every rank lies between 1 and the number of rows of the scope, and a non-empty scope
has a row of rank 1.  Row ids are the tables' primary keys and the generated ULIDs are new. -/
theorem rank_order_reversing (env : Env) (db db1 : DB) (weekID : String)
    (hinj : Function.Injective env.newID) :
    (∀ res, CalculateWeekPoints env db weekID = (db1, .ok res) →
      (db.week_results.map (fun r => r.ID)).Nodup →
      (∀ k, env.newID k ∉ db.week_results.map (fun r => r.ID)) →
      (∀ a ∈ db1.week_results.filter (fun x => x.WeekID == weekID),
        ∀ b ∈ db1.week_results.filter (fun x => x.WeekID == weekID),
          ∃ ra rb, a.Rank = some ra ∧ b.Rank = some rb ∧
            (ra < rb ↔ b.Points < a.Points) ∧ (ra = rb ↔ a.Points = b.Points)) ∧
      (∀ a ∈ db1.week_results.filter (fun x => x.WeekID == weekID),
        ∃ ra, a.Rank = some ra ∧ 1 ≤ ra ∧
          ra ≤ ((db1.week_results.filter (fun x => x.WeekID == weekID)).length : Int)) ∧
      (db1.week_results.filter (fun x => x.WeekID == weekID) ≠ [] →
        ∃ a ∈ db1.week_results.filter (fun x => x.WeekID == weekID), a.Rank = some 1)) ∧
    (∀ res week, CalculateSeasonSnapshot env db weekID = (db1, .ok res) →
      GetWeekWithYear db weekID = .ok week →
      (db.season_standings.map (fun s => s.ID)).Nodup →
      (∀ k, env.newID k ∉ db.season_standings.map (fun s => s.ID)) →
      (∀ a ∈ db1.season_standings.filter
          (fun x => x.SeasonID == week.SeasonID && x.WeekID == weekID),
        ∀ b ∈ db1.season_standings.filter
            (fun x => x.SeasonID == week.SeasonID && x.WeekID == weekID),
          ∃ ra rb, a.Rank = some ra ∧ b.Rank = some rb ∧
            (ra < rb ↔ b.Points < a.Points) ∧ (ra = rb ↔ a.Points = b.Points)) ∧
      (∀ a ∈ db1.season_standings.filter
          (fun x => x.SeasonID == week.SeasonID && x.WeekID == weekID),
        ∃ ra, a.Rank = some ra ∧ 1 ≤ ra ∧
          ra ≤ ((db1.season_standings.filter
            (fun x => x.SeasonID == week.SeasonID && x.WeekID == weekID)).length : Int)) ∧
      (db1.season_standings.filter
          (fun x => x.SeasonID == week.SeasonID && x.WeekID == weekID) ≠ [] →
        ∃ a ∈ db1.season_standings.filter
          (fun x => x.SeasonID == week.SeasonID && x.WeekID == weekID), a.Rank = some 1)) := by
  refine ⟨?_, ?_⟩
  · intro res h hnd hfresh
    exact ranked_scope_order _ (fun x : WeekResult => x.Points) (fun x => x.Rank)
      (CalculateWeekPoints_ranked env db db1 weekID res hinj h hnd hfresh)
  · intro res week h hw hnd hfresh
    exact ranked_scope_order _ (fun x : SeasonStanding => x.Points) (fun x => x.Rank)
      (CalculateSeasonSnapshot_ranked env db db1 weekID res week hinj h hw hnd hfresh)

/-- The scoring of week w1 and the snapshot of week w2 of the examples: the ranks written
there reverse the order of the points, lie within the scope size, and rank 1 is taken. -/
theorem rank_order_reversing_witness :
    Function.Injective exampleNewID ∧
    ((∀ a ∈ (CalculateWeekPoints (exampleEnv []) scoringDB "w1").1.week_results.filter
          (fun x => x.WeekID == "w1"),
        ∀ b ∈ (CalculateWeekPoints (exampleEnv []) scoringDB "w1").1.week_results.filter
            (fun x => x.WeekID == "w1"),
          ∃ ra rb, a.Rank = some ra ∧ b.Rank = some rb ∧
            (ra < rb ↔ b.Points < a.Points) ∧ (ra = rb ↔ a.Points = b.Points)) ∧
      (∀ a ∈ (CalculateWeekPoints (exampleEnv []) scoringDB "w1").1.week_results.filter
          (fun x => x.WeekID == "w1"),
        ∃ ra, a.Rank = some ra ∧ 1 ≤ ra ∧
          ra ≤ (((CalculateWeekPoints (exampleEnv []) scoringDB "w1").1.week_results.filter
            (fun x => x.WeekID == "w1")).length : Int)) ∧
      ((CalculateWeekPoints (exampleEnv []) scoringDB "w1").1.week_results.filter
          (fun x => x.WeekID == "w1") ≠ [] →
        ∃ a ∈ (CalculateWeekPoints (exampleEnv []) scoringDB "w1").1.week_results.filter
          (fun x => x.WeekID == "w1"), a.Rank = some 1)) ∧
    ((CalculateSeasonSnapshot (exampleEnv []) snapshotDB "w2").1.season_standings.filter
          (fun x => x.SeasonID == "s1" && x.WeekID == "w2") ≠ [] →
        ∃ a ∈ (CalculateSeasonSnapshot (exampleEnv []) snapshotDB "w2").1.season_standings.filter
          (fun x => x.SeasonID == "s1" && x.WeekID == "w2"), a.Rank = some 1) :=
  ⟨exampleNewID_injective,
   (rank_order_reversing (exampleEnv []) scoringDB
      (CalculateWeekPoints (exampleEnv []) scoringDB "w1").1 "w1" exampleNewID_injective).1
      { UsersProcessed := 2 } rfl (by decide) (exampleNewID_fresh _ (by decide)),
   ((rank_order_reversing (exampleEnv []) snapshotDB
      (CalculateSeasonSnapshot (exampleEnv []) snapshotDB "w2").1 "w2"
      exampleNewID_injective).2
      { UsersProcessed := 1 }
      { ID := "w2", SeasonID := "s1", Number := 2, Status := "scored", Year := 2025,
        IsPostseason := false } rfl rfl (by decide) (exampleNewID_fresh _ (by decide))).2.2⟩

/-! ## C28: the stage calls of one invocation -/

/-- A pass that goes on to reload the week finds it in the immediate successor of the status
it was passed in with. -/
theorem advanceStep_reload_next (env : Env) (actingUserID : String) (db db1 : DB)
    (week w : Week) (h : advanceStep env actingUserID db week = .reload db1)
    (hw : reloadWeek db1 week = .ok w) :
    nextStatus week.Status = some w.Status := by
  unfold advanceStep at h
  by_cases h1 : (week.Status == StatusDraft) = true
  · rw [if_pos h1] at h
    have hs : week.Status = "draft" := by simpa [StatusDraft] using h1
    rcases hr : ImportGamesForWeek env db week.ID actingUserID with ⟨db2, r⟩
    rw [hr] at h
    cases r with
    | error e => cases h
    | ok res =>
      cases h
      obtain ⟨_, _, _, _, _, _, _, _, hdb, _⟩ := ImportGamesForWeek_ok hr
      rw [hdb] at hw
      rw [reload_status_update hw, hs]
      rfl
  rw [if_neg h1] at h
  by_cases h2 : (week.Status == StatusGamesImported) = true
  · rw [if_pos h2] at h; cases h
  rw [if_neg h2] at h
  by_cases h3 : (week.Status == StatusSpreadsSet) = true
  · rw [if_pos h3] at h; cases h
  rw [if_neg h3] at h
  by_cases h4 : (week.Status == StatusActive) = true
  · rw [if_pos h4] at h
    have hs : week.Status = "active" := by simpa [StatusActive] using h4
    rcases hr : ImportScoresForWeek env db week.ID with ⟨db2, r⟩
    rw [hr] at h
    cases r with
    | error e => cases h
    | ok res =>
      simp only at h
      split_ifs at h with hall
      cases h
      obtain ⟨_, _, _, _, _, _, hdb⟩ := ImportScoresForWeek_ok hr
      have hp : res.AllGamesPlayed = true := by simpa using hall
      rw [hdb, if_pos hp] at hw
      rw [reload_status_update hw, hs]
      rfl
  rw [if_neg h4] at h
  by_cases h5 : (week.Status == StatusPlayed) = true
  · rw [if_pos h5] at h
    have hs : week.Status = "played" := by simpa [StatusPlayed] using h5
    rcases hr : CalculatePickResults env db week.ID with ⟨db2, r⟩
    rw [hr] at h
    cases r with
    | error e => cases h
    | ok res =>
      cases h
      obtain ⟨_, _, hdb, _⟩ := CalculatePickResults_ok hr
      rw [hdb] at hw
      rw [reload_status_update hw, hs]
      rfl
  rw [if_neg h5] at h
  by_cases h6 : (week.Status == StatusPicksResultsCalculated) = true
  · rw [if_pos h6] at h
    have hs : week.Status = "picks_results_calculated" := by
      simpa [StatusPicksResultsCalculated] using h6
    rcases hr : CalculateWeekPoints env db week.ID with ⟨db2, r⟩
    rw [hr] at h
    cases r with
    | error e => cases h
    | ok res =>
      cases h
      obtain ⟨_, _, _, _, _, hdb⟩ := CalculateWeekPoints_ok hr
      rw [hdb] at hw
      rw [reload_status_update hw, hs]
      rfl
  rw [if_neg h6] at h
  by_cases h7 : (week.Status == StatusScored) = true
  · rw [if_pos h7] at h
    have hs : week.Status = "scored" := by simpa [StatusScored] using h7
    rcases hr : CalculateSeasonSnapshot env db week.ID with ⟨db2, r⟩
    rw [hr] at h
    cases r with
    | error e => cases h
    | ok res =>
      cases h
      obtain ⟨_, _, _, hdb⟩ := CalculateSeasonSnapshot_ok hr
      rw [hdb] at hw
      rw [reload_status_close hw, hs]
      rfl
  rw [if_neg h7] at h
  split_ifs at h

/-- The stage of a status comes first among the stages reachable from it, followed by the
stages reachable from the next status. -/
theorem stagesFrom_cons {status next : String} {stage : Stage}
    (h : stageFor status = some stage) (hn : nextStatus status = some next) :
    stagesFrom status = stage :: stagesFrom next := by
  rcases stageFor_some h with ⟨rfl, rfl⟩ | ⟨rfl, rfl⟩ | ⟨rfl, rfl⟩ | ⟨rfl, rfl⟩ | ⟨rfl, rfl⟩ <;>
    · first
        | (have : some next = some (StatusGamesImported) := by rw [← hn]; rfl
           cases this; rfl)
        | (have : some next = some (StatusPlayed) := by rw [← hn]; rfl
           cases this; rfl)
        | (have : some next = some (StatusPicksResultsCalculated) := by rw [← hn]; rfl
           cases this; rfl)
        | (have : some next = some (StatusScored) := by rw [← hn]; rfl
           cases this; rfl)
        | (have : some next = some (StatusFinal) := by rw [← hn]; rfl
           cases this; rfl)

theorem stagesFrom_head {status : String} {stage : Stage} (h : stageFor status = some stage) :
    [stage] <+: stagesFrom status := by
  rcases stageFor_some h with ⟨rfl, rfl⟩ | ⟨rfl, rfl⟩ | ⟨rfl, rfl⟩ | ⟨rfl, rfl⟩ | ⟨rfl, rfl⟩
  · exact ⟨[], rfl⟩
  · exact ⟨[Stage.CalculatePickResults, Stage.CalculateWeekPoints,
      Stage.CalculateSeasonSnapshot], rfl⟩
  · exact ⟨[Stage.CalculateWeekPoints, Stage.CalculateSeasonSnapshot], rfl⟩
  · exact ⟨[Stage.CalculateSeasonSnapshot], rfl⟩
  · exact ⟨[], rfl⟩

/-- The stage calls of the loop are an initial part of the stages reachable from the status
the week is passed in with. -/
theorem AdvanceWeekStateCalls_prefix (env : Env) (actingUserID : String) :
    ∀ (fuel : Nat) (db : DB) (week : Week),
      (AdvanceWeekStateCalls env actingUserID fuel db week).map (fun c => c.stage) <+:
        stagesFrom week.Status := by
  intro fuel
  induction fuel with
  | zero => intro db week; exact List.nil_prefix
  | succ fuel ih =>
    intro db week
    rw [AdvanceWeekStateCalls]
    cases hst : stageFor week.Status with
    | none => exact List.nil_prefix
    | some stage =>
      simp only
      cases hstep : advanceStep env actingUserID db week with
      | stop db1 err => exact stagesFrom_head hst
      | reload db1 =>
        simp only
        cases hw : reloadWeek db1 week with
        | error e => exact stagesFrom_head hst
        | ok w =>
          simp only [List.map_cons]
          rw [stagesFrom_cons hst (advanceStep_reload_next env actingUserID db db1 week w hstep hw)]
          exact (List.prefix_cons_inj stage).mpr (ih db1 w)

theorem stagesFrom_bounds (status : String) :
    (stagesFrom status).length ≤ 4 ∧ (stagesFrom status).Nodup ∧
    (status = StatusDraft → stagesFrom status = [Stage.ImportGamesForWeek]) ∧
    (status = StatusActive → stagesFrom status =
      [Stage.ImportScoresForWeek, Stage.CalculatePickResults, Stage.CalculateWeekPoints,
       Stage.CalculateSeasonSnapshot]) := by
  refine ⟨?_, ?_, ?_, ?_⟩
  · unfold stagesFrom
    split_ifs <;> decide
  · unfold stagesFrom
    split_ifs <;> decide
  · intro h; rw [h]; rfl
  · intro h; rw [h]; rfl

/-- C28: every invocation of `AdvanceWeekState` returns, and the stage functions it calls,
in order, are an initial part of the list fixed by the status of the week passed in: only
`ImportGamesForWeek` from draft; `ImportScoresForWeek`, `CalculatePickResults`,
`CalculateWeekPoints`, `CalculateSeasonSnapshot` from active.  So there are at most four calls
and no stage function is called twice, because a pass that goes on reloads the week in the
immediate successor of the status it had. -/
theorem AdvanceWeekState_stage_calls (env : Env) (db : DB) (week : Week)
    (actingUserID : String) :
    (∃ out, AdvanceWeekState env db week actingUserID = some out) ∧
    (AdvanceWeekStateCalls env actingUserID 9 db week).map (fun c => c.stage) <+:
      stagesFrom week.Status ∧
    (AdvanceWeekStateCalls env actingUserID 9 db week).length ≤ 4 ∧
    ((AdvanceWeekStateCalls env actingUserID 9 db week).map (fun c => c.stage)).Nodup ∧
    (week.Status = StatusDraft →
      (AdvanceWeekStateCalls env actingUserID 9 db week).map (fun c => c.stage) <+:
        [Stage.ImportGamesForWeek]) ∧
    (week.Status = StatusActive →
      (AdvanceWeekStateCalls env actingUserID 9 db week).map (fun c => c.stage) <+:
        [Stage.ImportScoresForWeek, Stage.CalculatePickResults, Stage.CalculateWeekPoints,
         Stage.CalculateSeasonSnapshot]) ∧
    (∀ c ∈ AdvanceWeekStateCalls env actingUserID 9 db week, c.weekID = week.ID) ∧
    (∀ db1 w, advanceStep env actingUserID db week = .reload db1 →
      reloadWeek db1 week = .ok w → nextStatus week.Status = some w.Status) := by
  have hpre := AdvanceWeekStateCalls_prefix env actingUserID 9 db week
  obtain ⟨hlen, hnd, hdraft, hactive⟩ := stagesFrom_bounds week.Status
  refine ⟨AdvanceWeekState_returns env db week actingUserID, hpre, ?_, ?_, ?_, ?_, ?_, ?_⟩
  · have := hpre.length_le
    rw [List.length_map] at this
    omega
  · exact hpre.sublist.nodup hnd
  · intro h
    rw [← hdraft h]
    exact hpre
  · intro h
    rw [← hactive h]
    exact hpre
  · have hid : ∀ (fuel : Nat) (db : DB) (week : Week),
        ∀ c ∈ AdvanceWeekStateCalls env actingUserID fuel db week, c.weekID = week.ID := by
      intro fuel
      induction fuel with
      | zero => intro db week c hc; simp [AdvanceWeekStateCalls] at hc
      | succ fuel ih =>
        intro db week c hc
        rw [AdvanceWeekStateCalls] at hc
        cases hst : stageFor week.Status with
        | none => rw [hst] at hc; simp at hc
        | some stage =>
          rw [hst] at hc
          simp only [List.mem_cons] at hc
          rcases hc with rfl | hc
          · rfl
          · cases hstep : advanceStep env actingUserID db week with
            | stop db1 err => rw [hstep] at hc; simp at hc
            | reload db1 =>
              rw [hstep] at hc
              simp only at hc
              cases hw : reloadWeek db1 week with
              | error e => rw [hw] at hc; simp at hc
              | ok w =>
                rw [hw] at hc
                rw [ih db1 w c hc]
                exact (reloadWeek_ok hw).1
    exact hid 9 db week
  · intro db1 w h hw
    exact advanceStep_reload_next env actingUserID db db1 week w h hw

/-! ## C25: locked picks and SubmitPicks -/

/-- Rewriting rows that are not locked, without touching the lock, leaves the locked rows as
they are. -/
theorem filter_locked_map (f : Pick → Pick)
    (hf : ∀ p, (f p).UserLockedAt = p.UserLockedAt ∧ (p.UserLockedAt.isSome = true → f p = p)) :
    ∀ l : List Pick, (l.map f).filter (fun p => p.UserLockedAt.isSome) =
      l.filter (fun p => p.UserLockedAt.isSome) := by
  intro l
  induction l with
  | nil => rfl
  | cons p l ih =>
    simp only [List.map_cons, List.filter_cons, (hf p).1, ih]
    by_cases hp : p.UserLockedAt.isSome = true
    · simp only [hp, if_true, (hf p).2 hp]
    · simp only [hp, Bool.false_eq_true, if_false]

/-- The upsert of a pick leaves the games and the locked picks as they are. -/
theorem upsertPick_locked (env : Env) (tx : DB) (pickID userID weekID : String)
    (pick : PickSubmission) (allow : Bool) :
    (upsertPick env tx pickID userID weekID pick allow).1.games = tx.games ∧
    (upsertPick env tx pickID userID weekID pick allow).1.picks.filter
        (fun p => p.UserLockedAt.isSome) =
      tx.picks.filter (fun p => p.UserLockedAt.isSome) := by
  unfold upsertPick
  split
  · exact ⟨rfl, rfl⟩
  · split
    · exact ⟨rfl, rfl⟩
    · split
      · refine ⟨rfl, ?_⟩
        apply filter_locked_map
        intro p
        by_cases hc : ((p.UserID == userID && p.GameID == pick.GameID) &&
            pickEditable env tx allow p) = true
        · rw [if_pos hc]
          refine ⟨rfl, ?_⟩
          intro hl
          exfalso
          simp only [pickEditable, Bool.and_eq_true] at hc
          have h1 := hc.2.1
          cases hlock : p.UserLockedAt with
          | none => rw [hlock] at hl; cases hl
          | some t => rw [hlock] at h1; cases h1
        · rw [if_neg hc]
          exact ⟨rfl, fun _ => rfl⟩
      · refine ⟨rfl, ?_⟩
        simp only [List.filter_append, List.filter_cons, List.filter_nil, Option.isSome_none,
          Bool.false_eq_true, if_false, List.append_nil]

/-- The upsert of a pick keeps (user_id, game_id) a key of the picks. -/
theorem upsertPick_keys (env : Env) (tx : DB) (pickID userID weekID : String)
    (pick : PickSubmission) (allow : Bool)
    (hkey : (tx.picks.map (fun p => (p.UserID, p.GameID))).Nodup) :
    ((upsertPick env tx pickID userID weekID pick allow).1.picks.map
      (fun p => (p.UserID, p.GameID))).Nodup := by
  unfold upsertPick
  split
  · exact hkey
  · split
    · exact hkey
    · split
      · simp only [List.map_map]
        have : ((fun p : Pick => (p.UserID, p.GameID)) ∘ fun p =>
            if ((p.UserID == userID && p.GameID == pick.GameID) &&
                pickEditable env tx allow p) = true then
              { p with SelectedTeamID := pick.SelectedTeamID }
            else p) = fun p => (p.UserID, p.GameID) := by
          funext p
          simp only [Function.comp]
          split_ifs <;> rfl
        rw [this]
        exact hkey
      · rename_i hany
        simp only [List.map_append, List.map_cons, List.map_nil]
        apply List.Nodup.append hkey (List.nodup_singleton _)
        intro k hk hk1
        simp only [List.mem_singleton] at hk1
        subst hk1
        apply hany
        obtain ⟨p, hp, he⟩ := List.mem_map.mp hk
        simp only [Prod.mk.injEq] at he
        apply List.any_eq_true.mpr
        exact ⟨p, hp, by simp [he.1, he.2]⟩

/-- The upsert of a pick on a game for which the user has a locked pick affects no row, when
(user_id, game_id) is a key of the picks. -/
theorem upsertPick_rows_locked (env : Env) (tx : DB) (pickID userID weekID : String)
    (pick : PickSubmission) (allow : Bool)
    (hkey : (tx.picks.map (fun p => (p.UserID, p.GameID))).Nodup)
    (p : Pick) (hp : p ∈ tx.picks) (hu : p.UserID = userID) (hg : p.GameID = pick.GameID)
    (hl : p.UserLockedAt.isSome = true) :
    (upsertPick env tx pickID userID weekID pick allow).2 = 0 := by
  unfold upsertPick
  split
  · rfl
  · split
    · rfl
    · split
      · simp only [List.length_eq_zero]
        apply List.filter_eq_nil_iff.mpr
        intro q hq hc
        simp only [Bool.and_eq_true, beq_iff_eq, pickEditable] at hc
        have hqp : q = p := by
          apply List.inj_on_of_nodup_map hkey hq hp
          simp only [Prod.mk.injEq]
          exact ⟨hc.1.1.trans hu.symm, hc.1.2.trans hg.symm⟩
        rw [hqp] at hc
        cases hlock : p.UserLockedAt with
        | none => rw [hlock] at hl; cases hl
        | some t =>
          have := hc.2.1
          rw [hlock] at this
          cases this
      · rename_i hany
        exfalso
        apply hany
        apply List.any_eq_true.mpr
        exact ⟨p, hp, by simp [hu, hg]⟩

/-- The insert loop leaves the locked picks as they are, and answers only with a conflict. -/
theorem submitLoop_locked (env : Env) (userID weekID : String) (allow : Bool) :
    ∀ (req : List PickSubmission) (k : Nat) (tx : DB),
      (∀ tx1, submitLoop env userID weekID allow k req tx = .ok tx1 →
        tx1.picks.filter (fun p => p.UserLockedAt.isSome) =
          tx.picks.filter (fun p => p.UserLockedAt.isSome)) ∧
      (∀ status, submitLoop env userID weekID allow k req tx = .error status →
        status = 409) := by
  intro req
  induction req with
  | nil =>
    intro k tx
    refine ⟨?_, ?_⟩
    · intro tx1 h
      simp only [submitLoop, Except.ok.injEq] at h
      rw [← h]
    · intro status h
      simp [submitLoop] at h
  | cons pick rest ih =>
    intro k tx
    rw [submitLoop]
    split
    · refine ⟨?_, ?_⟩
      · intro tx1 h; cases h
      · intro status h
        simp only [Except.error.injEq] at h
        exact h.symm
    · refine ⟨?_, (ih _ _).2⟩
      intro tx1 h
      rw [(ih _ _).1 tx1 h]
      exact (upsertPick_locked env tx _ userID weekID pick allow).2

/-- The insert loop on a request that names a game for which the user has a locked pick ends
in a conflict, when (user_id, game_id) is a key of the picks. -/
theorem submitLoop_conflict (env : Env) (userID weekID : String) (allow : Bool) (p : Pick)
    (hu : p.UserID = userID) (hl : p.UserLockedAt.isSome = true) :
    ∀ (req : List PickSubmission) (k : Nat) (tx : DB),
      (tx.picks.map (fun p => (p.UserID, p.GameID))).Nodup → p ∈ tx.picks →
      (∃ s ∈ req, s.GameID = p.GameID) →
      submitLoop env userID weekID allow k req tx = .error 409 := by
  intro req
  induction req with
  | nil =>
    intro k tx _ _ hs
    obtain ⟨s, hs, _⟩ := hs
    cases hs
  | cons pick rest ih =>
    intro k tx hkey hp hs
    rw [submitLoop]
    split
    · rfl
    · rename_i hrows
      apply ih
      · exact upsertPick_keys env tx _ userID weekID pick allow hkey
      · have hmem : p ∈ tx.picks.filter (fun p => p.UserLockedAt.isSome) :=
          List.mem_filter.mpr ⟨hp, hl⟩
        rw [← (upsertPick_locked env tx (env.newID k) userID weekID pick allow).2] at hmem
        exact (List.mem_filter.mp hmem).1
      · obtain ⟨s, hs, hg⟩ := hs
        rcases List.mem_cons.mp hs with he | hmem
        · exfalso
          apply hrows
          rw [upsertPick_rows_locked env tx _ userID weekID pick allow hkey p hp hu
            (by rw [← he]; exact hg.symm) hl]
          rfl
        · exact ⟨s, hmem, hg⟩

/-- The validation loop answers with a bad request, if it answers. -/
theorem validatePicks_status (env : Env) (settings : Settings) (databaseGames : List Game) :
    ∀ (req : List PickSubmission) (status : Nat),
      validatePicks env settings databaseGames req = some status → status = 400 := by
  intro req
  induction req with
  | nil => intro status h; simp [validatePicks] at h
  | cons a l ih =>
    intro status h
    rw [validatePicks] at h
    cases hva : validatePick env settings databaseGames a with
    | none => rw [hva] at h; exact ih status h
    | some st =>
      rw [hva] at h
      simp only [Option.some.injEq] at h
      subst h
      unfold validatePick at hva
      split at hva
      · simp only [Option.some.injEq] at hva; exact hva.symm
      · split at hva
        · simp only [Option.some.injEq] at hva; exact hva.symm
        · split at hva
          · split at hva
            · simp only [Option.some.injEq] at hva; exact hva.symm
            · cases hva
          · cases hva

/-- The answers of the checks of `SubmitPicks` that come before the inserts, in the order of
the checks: each turns the request down with the database as it was. -/
theorem SubmitPicks_checks (env : Env) (db : DB) (userID weekID : String)
    (req : List PickSubmission) :
    (weekID = "" → SubmitPicks env db userID weekID req = (db, 400)) ∧
    (weekID ≠ "" → IsUserSeasonParticipant db weekID userID = false →
      SubmitPicks env db userID weekID req = (db, 403)) ∧
    (weekID ≠ "" → IsUserSeasonParticipant db weekID userID = true →
      ∀ e, settingsGet db = .error e → SubmitPicks env db userID weekID req = (db, 500)) ∧
    (weekID ≠ "" → IsUserSeasonParticipant db weekID userID = true →
      ∀ settings, settingsGet db = .ok settings → req = [] →
        SubmitPicks env db userID weekID req = (db, 400)) ∧
    (weekID ≠ "" → IsUserSeasonParticipant db weekID userID = true →
      ∀ settings, settingsGet db = .ok settings → req ≠ [] → duplicateGame [] req = true →
        SubmitPicks env db userID weekID req = (db, 400)) ∧
    (weekID ≠ "" → IsUserSeasonParticipant db weekID userID = true →
      ∀ settings, settingsGet db = .ok settings → req ≠ [] → duplicateGame [] req = false →
        ∀ status,
          validatePicks env settings (db.games.filter (fun g => g.WeekID == weekID)) req =
            some status →
          SubmitPicks env db userID weekID req = (db, 400)) := by
  have hne : req ≠ [] → (req.length == 0) = false := by
    intro h
    cases req with
    | nil => exact absurd rfl h
    | cons a l => rfl
  refine ⟨?_, ?_, ?_, ?_, ?_, ?_⟩
  · intro hw
    unfold SubmitPicks
    rw [hw]
    rfl
  · intro hw hp
    have hw1 : (weekID == "") = false := by simpa using hw
    unfold SubmitPicks
    simp only [hw1, hp, Bool.false_eq_true, if_false, Bool.not_false, if_true]
  · intro hw hp e hs
    have hw1 : (weekID == "") = false := by simpa using hw
    unfold SubmitPicks
    simp only [hw1, hp, hs, Bool.false_eq_true, if_false, Bool.not_true]
  · intro hw hp settings hs hr
    have hw1 : (weekID == "") = false := by simpa using hw
    unfold SubmitPicks
    simp only [hw1, hp, hs, hr, Bool.false_eq_true, if_false, Bool.not_true, List.length_nil,
      beq_self_eq_true, if_true]
  · intro hw hp settings hs hr hd
    have hw1 : (weekID == "") = false := by simpa using hw
    unfold SubmitPicks
    simp only [hw1, hp, hs, hne hr, hd, Bool.false_eq_true, if_false, Bool.not_true, if_true]
  · intro hw hp settings hs hr hd status hv
    have hw1 : (weekID == "") = false := by simpa using hw
    unfold SubmitPicks
    simp only [hw1, hp, hs, hne hr, hd, hv, Bool.false_eq_true, if_false, Bool.not_true]
    rw [validatePicks_status env settings _ req status hv]

/-- C25 (amended): `SubmitPicks`, by whatever user, leaves every locked pick as it is.  With
(user_id, game_id) a key of the picks table, a request of the owner of a locked pick that
names the pick's game is always turned down and nothing of the request is persisted.  The
answer is a conflict (409) exactly when the request gets past the checks that come before
the inserts; otherwise it is the answer of the first check that fails: 400 for an empty week
id, 403 for a user who is no participant, 500 when the settings cannot be loaded, 400 for a
game named twice and 400 from the validation of the picks. -/
theorem SubmitPicks_locked_pick (env : Env) (db : DB) (userID weekID : String)
    (req : List PickSubmission)
    (hkey : (db.picks.map (fun p => (p.UserID, p.GameID))).Nodup) :
    (SubmitPicks env db userID weekID req).1.picks.filter (fun p => p.UserLockedAt.isSome) =
      db.picks.filter (fun p => p.UserLockedAt.isSome) ∧
    (∀ p ∈ db.picks, p.UserLockedAt.isSome = true →
      p ∈ (SubmitPicks env db userID weekID req).1.picks) ∧
    (∀ p ∈ db.picks, p.UserID = userID → p.UserLockedAt.isSome = true →
      (∃ s ∈ req, s.GameID = p.GameID) →
      (SubmitPicks env db userID weekID req).1 = db ∧
      (SubmitPicks env db userID weekID req).2 ∈ [400, 403, 500, 409] ∧
      (∀ settings, weekID ≠ "" → IsUserSeasonParticipant db weekID userID = true →
        settingsGet db = .ok settings → duplicateGame [] req = false →
        validatePicks env settings (db.games.filter (fun g => g.WeekID == weekID)) req = none →
        (SubmitPicks env db userID weekID req).2 = 409) ∧
      ((SubmitPicks env db userID weekID req).2 = 409 ↔
        (weekID ≠ "" ∧ IsUserSeasonParticipant db weekID userID = true ∧
          ∃ settings, settingsGet db = .ok settings ∧ duplicateGame [] req = false ∧
            validatePicks env settings (db.games.filter (fun g => g.WeekID == weekID)) req =
              none)) ∧
      (weekID = "" → (SubmitPicks env db userID weekID req).2 = 400) ∧
      (weekID ≠ "" → IsUserSeasonParticipant db weekID userID = false →
        (SubmitPicks env db userID weekID req).2 = 403) ∧
      (weekID ≠ "" → IsUserSeasonParticipant db weekID userID = true →
        (∃ e, settingsGet db = .error e) → (SubmitPicks env db userID weekID req).2 = 500) ∧
      (weekID ≠ "" → IsUserSeasonParticipant db weekID userID = true →
        ∀ settings, settingsGet db = .ok settings → duplicateGame [] req = true →
          (SubmitPicks env db userID weekID req).2 = 400) ∧
      (weekID ≠ "" → IsUserSeasonParticipant db weekID userID = true →
        ∀ settings, settingsGet db = .ok settings → duplicateGame [] req = false →
          (∃ status, validatePicks env settings
            (db.games.filter (fun g => g.WeekID == weekID)) req = some status) →
          (SubmitPicks env db userID weekID req).2 = 400)) := by
  have hfilter : (SubmitPicks env db userID weekID req).1.picks.filter
        (fun p => p.UserLockedAt.isSome) =
      db.picks.filter (fun p => p.UserLockedAt.isSome) := by
    unfold SubmitPicks
    split
    · rfl
    · split
      · rfl
      · split
        · rfl
        · split
          · rfl
          · split
            · rfl
            · split
              · rfl
              · split
                · rfl
                · rename_i tx htx
                  exact (submitLoop_locked env userID weekID _ req 0 db).1 tx htx
  refine ⟨hfilter, ?_, ?_⟩
  · intro p hp hl
    have hmem : p ∈ db.picks.filter (fun p => p.UserLockedAt.isSome) :=
      List.mem_filter.mpr ⟨hp, hl⟩
    rw [← hfilter] at hmem
    exact (List.mem_filter.mp hmem).1
  · intro p hp hu hl hs
    have hloop : ∀ allow, submitLoop env userID weekID allow 0 req db = .error 409 :=
      fun allow => submitLoop_conflict env userID weekID allow p hu hl req 0 db hkey hp hs
    have hreq : req ≠ [] := by
      obtain ⟨s, hs1, _⟩ := hs
      intro hnil
      rw [hnil] at hs1
      cases hs1
    obtain ⟨hc1, hc2, hc3, _, hc5, hc6⟩ := SubmitPicks_checks env db userID weekID req
    have hpass : ∀ settings, weekID ≠ "" → IsUserSeasonParticipant db weekID userID = true →
        settingsGet db = .ok settings → duplicateGame [] req = false →
        validatePicks env settings (db.games.filter (fun g => g.WeekID == weekID)) req = none →
        SubmitPicks env db userID weekID req = (db, 409) := by
      intro settings hw hpart hset hdup hval
      unfold SubmitPicks
      have hw1 : (weekID == "") = false := by simpa using hw
      have hne : (req.length == 0) = false := by
        cases req with
        | nil => exact absurd rfl hreq
        | cons a l => rfl
      simp only [hw1, hpart, hset, hdup, hval, hne, hloop, Bool.false_eq_true, if_false,
        Bool.not_true]
    have hcases : SubmitPicks env db userID weekID req = (db, 400) ∨
        SubmitPicks env db userID weekID req = (db, 403) ∨
        SubmitPicks env db userID weekID req = (db, 500) ∨
        (SubmitPicks env db userID weekID req = (db, 409) ∧ weekID ≠ "" ∧
          IsUserSeasonParticipant db weekID userID = true ∧
          ∃ settings, settingsGet db = .ok settings ∧ duplicateGame [] req = false ∧
            validatePicks env settings (db.games.filter (fun g => g.WeekID == weekID)) req =
              none) := by
      by_cases hw : weekID = ""
      · exact Or.inl (hc1 hw)
      · cases hpart : IsUserSeasonParticipant db weekID userID with
        | false => exact Or.inr (Or.inl (hc2 hw hpart))
        | true =>
          cases hset : settingsGet db with
          | error e => exact Or.inr (Or.inr (Or.inl (hc3 hw hpart e hset)))
          | ok settings =>
            cases hdup : duplicateGame [] req with
            | true => exact Or.inl (hc5 hw hpart settings hset hreq hdup)
            | false =>
              cases hval : validatePicks env settings
                  (db.games.filter (fun g => g.WeekID == weekID)) req with
              | some status => exact Or.inl (hc6 hw hpart settings hset hreq hdup status hval)
              | none =>
                exact Or.inr (Or.inr (Or.inr ⟨hpass settings hw hpart hset hdup hval, hw,
                  rfl, settings, rfl, rfl, hval⟩))
    refine ⟨?_, ?_, ?_, ?_, ?_, ?_, ?_, ?_, ?_⟩
    · rcases hcases with h | h | h | ⟨h, _⟩ <;> rw [h]
    · rcases hcases with h | h | h | ⟨h, _⟩ <;> rw [h] <;> simp
    · intro settings hw hpart hset hdup hval
      rw [hpass settings hw hpart hset hdup hval]
    · constructor
      · intro h409
        rcases hcases with h | h | h | ⟨_, h⟩
        · rw [h] at h409; simp at h409
        · rw [h] at h409; simp at h409
        · rw [h] at h409; simp at h409
        · exact h
      · rintro ⟨hw, hpart, settings, hset, hdup, hval⟩
        rw [hpass settings hw hpart hset hdup hval]
    · intro hw
      rw [hc1 hw]
    · intro hw hpart
      rw [hc2 hw hpart]
    · intro hw hpart ⟨e, hset⟩
      rw [hc3 hw hpart e hset]
    · intro hw hpart settings hset hdup
      rw [hc5 hw hpart settings hset hreq hdup]
    · intro hw hpart settings hset hdup ⟨status, hval⟩
      rw [hc6 hw hpart settings hset hreq hdup status hval]

set_option maxRecDepth 100000 in
/-- The owner of the locked pick on g1 changes the open pick on g2 and the locked one in one
request: conflict, and the change of the pick on g2 is not persisted either. -/
theorem SubmitPicks_locked_pick_witness :
    (lockedDB.picks.map (fun p => (p.UserID, p.GameID))).Nodup ∧
    (SubmitPicks (exampleEnv []) lockedDB "u1" "w1"
      [{ GameID := "g2", SelectedTeamID := some "MIA" },
       { GameID := "g1", SelectedTeamID := some "SF" }]).1 = lockedDB ∧
    (SubmitPicks (exampleEnv []) lockedDB "u1" "w1"
      [{ GameID := "g2", SelectedTeamID := some "MIA" },
       { GameID := "g1", SelectedTeamID := some "SF" }]).2 = 409 :=
  ⟨by decide,
   ((SubmitPicks_locked_pick (exampleEnv []) lockedDB "u1" "w1"
      [{ GameID := "g2", SelectedTeamID := some "MIA" },
       { GameID := "g1", SelectedTeamID := some "SF" }] (by decide)).2.2
      { examplePick "p1" "u1" "g1" (some "KC") none with UserLockedAt := some 50 }
      (by decide) rfl rfl ⟨{ GameID := "g1", SelectedTeamID := some "SF" }, by decide, rfl⟩).1,
   ((SubmitPicks_locked_pick (exampleEnv []) lockedDB "u1" "w1"
      [{ GameID := "g2", SelectedTeamID := some "MIA" },
       { GameID := "g1", SelectedTeamID := some "SF" }] (by decide)).2.2
      { examplePick "p1" "u1" "g1" (some "KC") none with UserLockedAt := some 50 }
      (by decide) rfl rfl
      ⟨{ GameID := "g1", SelectedTeamID := some "SF" }, by decide, rfl⟩).2.2.1
      exampleSettings (by decide) (by decide) rfl (by decide) (by decide)⟩

set_option maxRecDepth 100000 in
/-- Counterexample to C25 as stated: half an hour before kickoff, with a pick window of an
hour, the owner of the locked pick on g1 submits a pick for g1.  The request is turned down
with a bad request (400), not with a conflict (409); the same holds at any time for a team
that does not play in the game.  The open pick on g2 alone can still be changed with the
window open. -/
theorem SubmitPicks_locked_pick_counterexample :
    { examplePick "p1" "u1" "g1" (some "KC") none with UserLockedAt := some 50 } ∈
      lockedDB.picks ∧
    SubmitPicks lateEnv lockedDB "u1" "w1" [{ GameID := "g1", SelectedTeamID := some "SF" }] =
      (lockedDB, 400) ∧
    SubmitPicks (exampleEnv []) lockedDB "u1" "w1"
      [{ GameID := "g1", SelectedTeamID := some "DAL" }] = (lockedDB, 400) ∧
    (SubmitPicks (exampleEnv []) lockedDB "u1" "w1"
      [{ GameID := "g2", SelectedTeamID := some "MIA" }]).2 = 200 ∧
    (SubmitPicks (exampleEnv []) lockedDB "u1" "w1"
      [{ GameID := "g2", SelectedTeamID := some "MIA" }]).1.picks.map
        (fun p => (p.ID, p.SelectedTeamID)) = [("p1", some "KC"), ("p2", some "MIA")] := by
  refine ⟨by decide, ?_, ?_, ?_, ?_⟩ <;> with_unfolding_all rfl

/-! ## The workflow: what is kept from state to state -/

/-- The database a stage call leaves behind is that of the stage run as an operation. -/
theorem stage_call_run (env : Env) (actingUserID : String) (db : DB) (weekID : String)
    (stage : Stage) :
    ∃ op : Operation, op.isAdvance = false ∧
      (stage.call env actingUserID db weekID).1 = op.run env db := by
  cases stage with
  | ImportGamesForWeek => exact ⟨.ImportGamesForWeek weekID actingUserID, rfl, rfl⟩
  | ImportScoresForWeek => exact ⟨.ImportScoresForWeek weekID, rfl, rfl⟩
  | CalculatePickResults => exact ⟨.CalculatePickResults weekID, rfl, rfl⟩
  | CalculateWeekPoints => exact ⟨.CalculateWeekPoints weekID, rfl, rfl⟩
  | CalculateSeasonSnapshot => exact ⟨.CalculateSeasonSnapshot weekID, rfl, rfl⟩

/-- One pass through the switch leaves the database as it is or as a stage function leaves
it. -/
theorem advanceStep_db (env : Env) (actingUserID : String) (db : DB) (week : Week) :
    ∀ db1, (advanceStep env actingUserID db week = .reload db1 ∨
        ∃ err, advanceStep env actingUserID db week = .stop db1 err) →
      db1 = db ∨ ∃ op : Operation, op.isAdvance = false ∧ db1 = op.run env db := by
  intro db1 h
  cases hst : stageFor week.Status with
  | none =>
    have hstop : advanceStep env actingUserID db week = .stop db
          (some Err.ErrManualActionRequired) ∨
        advanceStep env actingUserID db week = .stop db none ∨
        advanceStep env actingUserID db week = .stop db (some Err.ErrInvalidWeekStatus) := by
      rcases advanceStep_no_stage env actingUserID db week hst with h1 | h1 | h1
      · exact Or.inl h1.2
      · exact Or.inr (Or.inl h1.2)
      · exact Or.inr (Or.inr h1.2)
    left
    rcases hstop with h1 | h1 | h1 <;>
      · rw [h1] at h
        rcases h with h | ⟨err, h⟩
        · cases h
        · cases h; rfl
  | some stage =>
    obtain ⟨herr, hok⟩ := advanceStep_stage env actingUserID db week stage hst
    obtain ⟨op, hop, hrun⟩ := stage_call_run env actingUserID db week.ID stage
    cases hcall : (stage.call env actingUserID db week.ID).2 with
    | some e =>
      left
      rw [(herr e hcall).2] at h
      rcases h with h | ⟨err, h⟩
      · cases h
      · cases h; rfl
    | none =>
      right
      refine ⟨op, hop, ?_⟩
      rw [← hrun]
      rcases hok hcall with h1 | ⟨_, _, h1⟩
      · rw [h1] at h
        rcases h with h | ⟨err, h⟩
        · cases h; rfl
        · cases h
      · rw [h1] at h
        rcases h with h | ⟨err, h⟩
        · cases h
        · cases h; rfl

/-- What every stage function keeps, the loop of `AdvanceWeekState` keeps. -/
theorem AdvanceWeekStateLoop_inv (env : Env) (actingUserID : String) (Inv : DB → Prop)
    (hop : ∀ (db : DB) (op : Operation), op.isAdvance = false → Inv db → Inv (op.run env db)) :
    ∀ (fuel : Nat) (db : DB) (week : Week) (out : Outcome), Inv db →
      AdvanceWeekStateLoop env actingUserID fuel db week = some out → Inv out.db := by
  intro fuel
  induction fuel with
  | zero => intro db week out _ h; simp [AdvanceWeekStateLoop] at h
  | succ fuel ih =>
    intro db week out hinv h
    rw [AdvanceWeekStateLoop] at h
    have hdb := advanceStep_db env actingUserID db week
    have hkeep : ∀ db1, (db1 = db ∨ ∃ op : Operation, op.isAdvance = false ∧
        db1 = op.run env db) → Inv db1 := by
      intro db1 h1
      rcases h1 with h1 | ⟨op, hadv, h1⟩
      · rw [h1]; exact hinv
      · rw [h1]; exact hop db op hadv hinv
    cases hstep : advanceStep env actingUserID db week with
    | stop db1 err =>
      rw [hstep] at h
      simp only [Option.some.injEq] at h
      rw [← h]
      exact hkeep db1 (hdb db1 (Or.inr ⟨err, hstep⟩))
    | reload db1 =>
      rw [hstep] at h
      simp only at h
      have hinv1 := hkeep db1 (hdb db1 (Or.inl hstep))
      cases hw : reloadWeek db1 week with
      | error e =>
        rw [hw] at h
        simp only [Option.some.injEq] at h
        rw [← h]
        exact hinv1
      | ok w =>
        rw [hw] at h
        exact ih db1 w out hinv1 h

/-- What every stage function and handler keeps, every operation keeps. -/
theorem Operation_inv (env : Env) (Inv : DB → Prop)
    (hop : ∀ (db : DB) (op : Operation), op.isAdvance = false → Inv db → Inv (op.run env db))
    (db : DB) (op : Operation) (hinv : Inv db) : Inv (op.run env db) := by
  cases hadv : op.isAdvance with
  | false => exact hop db op hadv hinv
  | true =>
    cases op with
    | AdvanceWeekState week actingUserID =>
      simp only [Operation.run]
      cases h : AdvanceWeekState env db week actingUserID with
      | none => exact hinv
      | some out =>
        exact AdvanceWeekStateLoop_inv env actingUserID Inv hop 9 db week out hinv h
    | _ => cases hadv

/-- What the creation of a week, every stage function and every handler keep holds in every
state reachable from a state where it holds. -/
theorem Reachable_inv (Inv : DB → Prop)
    (hcreate : ∀ (env : Env) (db : DB) (seasonID userID : String),
      env.newID 0 ∉ db.weeks.map (fun w => w.ID) → Inv db →
      Inv (CreateNextWeekForSeason env db seasonID userID).1)
    (hop : ∀ (env : Env) (db : DB) (op : Operation), op.isAdvance = false → Inv db →
      Inv (op.run env db))
    {init db : DB} (hinit : Inv init) (h : Reachable init db) : Inv db := by
  induction h with
  | start => exact hinit
  | step _ hstep ih =>
    cases hstep with
    | create env seasonID userID hnew => exact hcreate env _ seasonID userID hnew ih
    | run env op => exact Operation_inv env Inv (hop env) _ op ih

/-- The weeks after a stage function or handler: as before, or the rows of one id, found in
a status that is not final, rewritten with their season and number kept. -/
theorem Operation_weeks (env : Env) (db : DB) (op : Operation) (hop : op.isAdvance = false) :
    ∃ weekID pre post, pre ≠ "final" ∧
      WeeksAdvance weekID pre post db.weeks (op.run env db).weeks := by
  cases op with
  | ImportGamesForWeek weekID actingUserID =>
    exact ⟨_, _, _, by decide, ImportGamesForWeek_weeks env db weekID actingUserID⟩
  | UpdateSpreads weekID games =>
    obtain ⟨pre, hpre, h⟩ := UpdateSpreads_weeks env db weekID games
    refine ⟨_, pre, _, ?_, h⟩
    rcases hpre with rfl | rfl <;> decide
  | AutoImportSpreads weekID bookmaker =>
    obtain ⟨pre, hpre, h⟩ := AutoImportSpreads_weeks env db weekID bookmaker
    refine ⟨_, pre, _, ?_, h⟩
    rcases hpre with rfl | rfl <;> decide
  | ActivateWeek weekID => exact ⟨_, _, _, by decide, ActivateWeek_weeks env db weekID⟩
  | ImportScoresForWeek weekID =>
    exact ⟨_, _, _, by decide, ImportScoresForWeek_weeks env db weekID⟩
  | CalculatePickResults weekID =>
    exact ⟨_, _, _, by decide, CalculatePickResults_weeks env db weekID⟩
  | CalculateWeekPoints weekID =>
    exact ⟨_, _, _, by decide, CalculateWeekPoints_weeks env db weekID⟩
  | CalculateSeasonSnapshot weekID =>
    exact ⟨_, _, _, by decide, CalculateSeasonSnapshot_weeks env db weekID⟩
  | AdvanceWeekState week actingUserID => simp [Operation.isAdvance] at hop

/-- Rewriting the rows of one id keeps the ids. -/
theorem WeeksAdvance_ids {weekID pre post : String} {ws ws1 : List Week}
    (h : WeeksAdvance weekID pre post ws ws1) :
    ws1.map (fun w => w.ID) = ws.map (fun w => w.ID) := by
  rcases h with h | ⟨_, f, hf, h⟩
  · rw [h]
  · rw [h, List.map_map]
    apply List.map_congr_left
    intro w _
    simp only [Function.comp]
    split_ifs
    · exact (hf w).1
    · rfl

/-- No week is numbered above the one `ORDER BY number DESC LIMIT 1` keeps. -/
theorem maxByNumber_le : ∀ {l : List Week} {m : Week}, maxByNumber l = some m →
    ∀ x ∈ l, x.Number ≤ m.Number := by
  intro l
  induction l with
  | nil => intro m h; simp [maxByNumber] at h
  | cons w rest ih =>
    intro m h x hx
    rw [maxByNumber] at h
    cases hrest : maxByNumber rest with
    | none =>
      rw [hrest] at h
      simp only [Option.some.injEq] at h
      have hnil := maxByNumber_none hrest
      rw [hnil] at hx
      simp only [List.mem_singleton] at hx
      rw [hx, h]
    | some m1 =>
      rw [hrest] at h
      simp only at h
      have ih1 := ih hrest
      by_cases hlt : w.Number < m1.Number
      · rw [if_pos hlt] at h
        simp only [Option.some.injEq] at h
        rw [← h]
        rcases List.mem_cons.mp hx with he | hmem
        · rw [he]; omega
        · exact ih1 x hmem
      · rw [if_neg hlt] at h
        simp only [Option.some.injEq] at h
        rw [← h]
        rcases List.mem_cons.mp hx with he | hmem
        · rw [he]
        · have := ih1 x hmem
          omega

/-- What `CreateNextWeekForSeason` does to the weeks: nothing, or it appends a draft week of
the season with the generated id, numbered above the weeks of the season, which are all
below or at a final week of the season. -/
theorem CreateNextWeekForSeason_weeks (env : Env) (db : DB) (seasonID userID : String) :
    (CreateNextWeekForSeason env db seasonID userID).1 = db ∨
    ∃ row : Week,
      (CreateNextWeekForSeason env db seasonID userID).1 =
        { db with weeks := db.weeks ++ [row] } ∧
      row.ID = env.newID 0 ∧ row.SeasonID = seasonID ∧ row.Status = "draft" ∧
      (∀ x ∈ db.weeks, x.SeasonID = seasonID →
        x.Number < row.Number ∧
        ∃ m ∈ db.weeks, m.SeasonID = seasonID ∧ m.Status = "final" ∧ x.Number ≤ m.Number) := by
  unfold CreateNextWeekForSeason
  cases hmax : maxByNumber (db.weeks.filter (fun w => w.SeasonID == seasonID)) with
  | none =>
    have hnil := maxByNumber_none hmax
    simp only
    split
    · exact Or.inl rfl
    · split
      · exact Or.inl rfl
      · refine Or.inr ⟨_, rfl, rfl, rfl, rfl, ?_⟩
        intro x hx hs
        exfalso
        have : x ∈ db.weeks.filter (fun w => w.SeasonID == seasonID) :=
          List.mem_filter.mpr ⟨hx, by simpa using hs⟩
        rw [hnil] at this
        cases this
  | some m =>
    simp only
    by_cases hfin : (m.Status != "final") = true
    · rw [if_pos hfin]
      exact Or.inl rfl
    · rw [if_neg hfin]
      simp only
      split
      · exact Or.inl rfl
      · split
        · exact Or.inl rfl
        · refine Or.inr ⟨_, rfl, rfl, rfl, rfl, ?_⟩
          intro x hx hs
          have hxm : x ∈ db.weeks.filter (fun w => w.SeasonID == seasonID) :=
            List.mem_filter.mpr ⟨hx, by simpa using hs⟩
          have hle := maxByNumber_le hmax x hxm
          have hm := List.mem_filter.mp (maxByNumber_mem hmax)
          refine ⟨by simp only; omega, m, hm.1, by simpa using hm.2, by simpa using hfin, hle⟩

/-! ## C21: at most one week of a season is open -/

/-- What a rewritten row of the weeks table keeps. -/
theorem WeeksAdvance_row {weekID pre post : String} {ws ws1 : List Week}
    (hnd : (ws.map (fun w => w.ID)).Nodup) (h : WeeksAdvance weekID pre post ws ws1)
    (w1 : Week) (hw1 : w1 ∈ ws1) :
    ∃ w ∈ ws, w1.ID = w.ID ∧ w1.SeasonID = w.SeasonID ∧ w1.Number = w.Number ∧
      ((w1 = w ∧ (w.ID = weekID → ws1 = ws)) ∨
        (w.ID = weekID ∧ w.Status = pre ∧ w1.Status = post)) := by
  rcases h with h | ⟨⟨w0, hw0, hid0, hst0⟩, f, hf, h⟩
  · rw [h] at hw1
    exact ⟨w1, hw1, rfl, rfl, rfl, Or.inl ⟨rfl, fun _ => h⟩⟩
  · rw [h] at hw1
    obtain ⟨w, hw, he⟩ := List.mem_map.mp hw1
    refine ⟨w, hw, ?_⟩
    by_cases hid : w.ID = weekID
    · have hb : (w.ID == weekID) = true := by simpa using hid
      rw [if_pos hb] at he
      have hww : w = w0 := List.inj_on_of_nodup_map hnd hw hw0 (by rw [hid, hid0])
      rw [← he]
      exact ⟨(hf w).1, (hf w).2.2.1, (hf w).2.2.2, Or.inr ⟨hid, by rw [hww, hst0], (hf w).2.1⟩⟩
    · have hb : ¬ (w.ID == weekID) = true := by simpa using hid
      rw [if_neg hb] at he
      rw [← he]
      exact ⟨rfl, rfl, rfl, Or.inl ⟨rfl, fun h1 => absurd h1 hid⟩⟩

/-- A stage function or handler that finds its week in a status that is not final keeps the
open week of a season alone and on top. -/
theorem OneOpenWeek_advance {weekID pre post seasonID : String} {ws ws1 : List Week}
    (hnd : (ws.map (fun w => w.ID)).Nodup) (h : WeeksAdvance weekID pre post ws ws1)
    (hpre : pre ≠ "final") (hinv : OneOpenWeek seasonID ws) : OneOpenWeek seasonID ws1 := by
  intro w1 hw1 hs1 hnf1 x1 hx1 hxs1 hne
  obtain ⟨w, hw, hwid, hws, hwn, hwc⟩ := WeeksAdvance_row hnd h w1 hw1
  obtain ⟨x, hx, hxid, hxs, hxn, hxc⟩ := WeeksAdvance_row hnd h x1 hx1
  have hwnf : w.Status ≠ "final" := by
    rcases hwc with ⟨he, _⟩ | ⟨_, hst, _⟩
    · rw [← he]; exact hnf1
    · rw [hst]; exact hpre
  have hold := hinv w hw (by rw [← hws]; exact hs1) hwnf x hx (by rw [← hxs]; exact hxs1)
    (by rw [← hxid, ← hwid]; exact hne)
  rcases hxc with ⟨he, _⟩ | ⟨_, hst, _⟩
  · rw [he, hwn]
    exact hold
  · exfalso
    rw [hst] at hold
    exact hpre hold.1

/-- Creating the next week keeps the open week of a season alone and on top, and the ids
distinct when the generated id is not taken. -/
theorem OneOpenWeek_create (env : Env) (db : DB) (createdFor userID seasonID : String)
    (hnew : env.newID 0 ∉ db.weeks.map (fun w => w.ID))
    (hnd : (db.weeks.map (fun w => w.ID)).Nodup) (hinv : OneOpenWeek seasonID db.weeks) :
    ((CreateNextWeekForSeason env db createdFor userID).1.weeks.map (fun w => w.ID)).Nodup ∧
    OneOpenWeek seasonID (CreateNextWeekForSeason env db createdFor userID).1.weeks := by
  rcases CreateNextWeekForSeason_weeks env db createdFor userID with h | ⟨row, h, hid, hs, hst, hrow⟩
  · rw [h]
    exact ⟨hnd, hinv⟩
  · rw [h]
    simp only
    have hrowid : ∀ x ∈ db.weeks, x.ID ≠ row.ID := by
      intro x hx he
      apply hnew
      rw [← hid, ← he]
      exact List.mem_map_of_mem (fun w => w.ID) hx
    refine ⟨?_, ?_⟩
    · rw [List.map_append]
      apply List.Nodup.append hnd (List.nodup_singleton _)
      intro a ha ha1
      simp only [List.map_cons, List.map_nil, List.mem_singleton] at ha1
      obtain ⟨x, hx, he⟩ := List.mem_map.mp ha
      exact hrowid x hx (by rw [he, ha1])
    · have hfinal : createdFor = seasonID → ∀ x ∈ db.weeks, x.SeasonID = seasonID →
          x.Status = "final" := by
        intro hc x hx hxs
        by_contra hnf
        obtain ⟨_, m, hm, hms, hmf, hle⟩ := hrow x hx (by rw [hc]; exact hxs)
        have hmx : m.ID ≠ x.ID := by
          intro he
          have : m = x := List.inj_on_of_nodup_map hnd hm hx he
          rw [this] at hmf
          exact hnf hmf
        have := (hinv x hx hxs hnf m hm (by rw [hms, hc]) hmx).2
        omega
      intro w hw hws hwnf x hx hxs hne
      rcases List.mem_append.mp hw with hw | hw
      · rcases List.mem_append.mp hx with hx | hx
        · exact hinv w hw hws hwnf x hx hxs hne
        · simp only [List.mem_singleton] at hx
          exfalso
          have hc : createdFor = seasonID := by rw [← hs, ← hx]; exact hxs
          exact hwnf (hfinal hc w hw hws)
      · simp only [List.mem_singleton] at hw
        rcases List.mem_append.mp hx with hx | hx
        · have hc : createdFor = seasonID := by rw [← hs, ← hw]; exact hws
          refine ⟨hfinal hc x hx hxs, ?_⟩
          rw [hw]
          exact (hrow x hx (by rw [hc]; exact hxs)).1
        · simp only [List.mem_singleton] at hx
          exact absurd (by rw [hx, hw]) hne

/-- With distinct ids, rows that must differ in their ids when there are two of them are at
most one. -/
theorem length_filter_le_one (ws : List Week) (p : Week → Bool)
    (hnd : (ws.map (fun w => w.ID)).Nodup)
    (h : ∀ a ∈ ws, ∀ b ∈ ws, p a = true → p b = true → a.ID ≠ b.ID → False) :
    (ws.filter p).length ≤ 1 := by
  have hsub : ((ws.filter p).map (fun w => w.ID)).Nodup :=
    ((List.filter_sublist ws).map (fun w => w.ID)).nodup hnd
  cases hl : ws.filter p with
  | nil => simp
  | cons a l =>
    cases l with
    | nil => simp
    | cons b l =>
      exfalso
      rw [hl] at hsub
      have ha : a ∈ ws.filter p := by rw [hl]; simp
      have hb : b ∈ ws.filter p := by rw [hl]; simp
      simp only [List.map_cons, List.nodup_cons, List.mem_cons] at hsub
      exact h a (List.mem_filter.mp ha).1 b (List.mem_filter.mp hb).1 (List.mem_filter.mp ha).2
        (List.mem_filter.mp hb).2 (fun he => hsub.1 (Or.inl he))

/-- C21: in every state reachable by the workflow (creating the next week of any season, any
stage function or handler, `AdvanceWeekState`) from a state with distinct week ids and no
week of the season, at most one week of the season has a status other than final, so at most
one is active; that week has the greatest number of the season, and week ids stay
distinct. -/
theorem one_open_week (init db : DB) (seasonID : String)
    (hids : (init.weeks.map (fun w => w.ID)).Nodup)
    (hnone : ∀ w ∈ init.weeks, w.SeasonID ≠ seasonID)
    (h : Reachable init db) :
    (db.weeks.filter (fun w => w.SeasonID == seasonID && w.Status != "final")).length ≤ 1 ∧
    (db.weeks.filter (fun w => w.SeasonID == seasonID && w.Status == "active")).length ≤ 1 ∧
    (db.weeks.map (fun w => w.ID)).Nodup ∧
    OneOpenWeek seasonID db.weeks := by
  have hinv : (db.weeks.map (fun w => w.ID)).Nodup ∧ OneOpenWeek seasonID db.weeks := by
    apply Reachable_inv
      (fun db => (db.weeks.map (fun w => w.ID)).Nodup ∧ OneOpenWeek seasonID db.weeks) _ _ _ h
    · intro env db createdFor userID hnew hinv
      exact OneOpenWeek_create env db createdFor userID seasonID hnew hinv.1 hinv.2
    · intro env db op hop hinv
      obtain ⟨weekID, pre, post, hpre, hadv⟩ := Operation_weeks env db op hop
      refine ⟨?_, OneOpenWeek_advance hinv.1 hadv hpre hinv.2⟩
      rw [WeeksAdvance_ids hadv]
      exact hinv.1
    · exact ⟨hids, fun w hw hs => absurd hs (hnone w hw)⟩
  refine ⟨?_, ?_, hinv.1, hinv.2⟩
  · apply length_filter_le_one _ _ hinv.1
    intro a ha b hb hpa hpb hne
    simp only [Bool.and_eq_true, beq_iff_eq, bne_iff_ne, ne_eq] at hpa hpb
    exact hpa.2 (hinv.2 b hb hpb.1 hpb.2 a ha hpa.1 hne).1
  · apply length_filter_le_one _ _ hinv.1
    intro a ha b hb hpa hpb hne
    simp only [Bool.and_eq_true, beq_iff_eq] at hpa hpb
    have hbn : b.Status ≠ "final" := by rw [hpb.2]; decide
    have := (hinv.2 b hb hpb.1 hbn a ha hpa.1 hne).1
    rw [hpa.2] at this
    exact absurd this (by decide)

/-! ## C22: activated weeks have their spreads -/

/-- The spreads of activated weeks survive an operation that, for one week id, either keeps
week and spread of every game or touches only games of that week while leaving the week
before active, and that activates only a week whose games all have a spread. -/
theorem SpreadsSet_effect (db db1 : DB) (weekID : String)
    (hweeks : ∀ w1 ∈ db1.weeks, w1.Status ∈ activatedStatuses →
      w1 ∈ db.weeks ∨
        (w1.ID = weekID ∧ ∀ g ∈ db.games, g.WeekID = weekID → g.HomeSpread ≠ none))
    (hgames : ∀ g1 ∈ db1.games,
      (∃ g ∈ db.games, g.WeekID = g1.WeekID ∧ g.HomeSpread = g1.HomeSpread) ∨
        (g1.WeekID = weekID ∧
          ∀ w1 ∈ db1.weeks, w1.ID = weekID → w1.Status ∉ activatedStatuses))
    (h : SpreadsSet db) : SpreadsSet db1 := by
  intro w1 hw1 hact g1 hg1 hgw
  rcases hgames g1 hg1 with ⟨g, hg, hwk, hsp⟩ | ⟨hwk, hno⟩
  · rw [← hsp]
    rcases hweeks w1 hw1 hact with hold | ⟨hid, hall⟩
    · exact h w1 hold hact g hg (by rw [hwk, hgw])
    · exact hall g hg (by rw [hwk, hgw, hid])
  · exact absurd hact (hno w1 hw1 (by rw [← hgw, hwk]))

/-- The rows of the weeks table after a status update: the old rows of other ids, and rows of
the id with the new status. -/
theorem status_map_mem (f : Week → Week) (weekID post : String)
    (hf : ∀ w, (f w).ID = w.ID ∧ (f w).Status = post) (ws : List Week) (w1 : Week)
    (hw1 : w1 ∈ ws.map (fun w => if w.ID == weekID then f w else w)) :
    (w1 ∈ ws ∧ w1.ID ≠ weekID) ∨ (w1.ID = weekID ∧ w1.Status = post) := by
  obtain ⟨w, hw, he⟩ := List.mem_map.mp hw1
  by_cases hid : w.ID = weekID
  · have hb : (w.ID == weekID) = true := by simpa using hid
    rw [if_pos hb] at he
    rw [← he]
    exact Or.inr ⟨by rw [(hf w).1, hid], (hf w).2⟩
  · have hb : ¬ (w.ID == weekID) = true := by simpa using hid
    rw [if_neg hb] at he
    rw [← he]
    exact Or.inl ⟨hw, hid⟩

/-- An update of a spread keeps the week of every game, and the spread of the games of other
weeks. -/
theorem updateGameSpread_games (env : Env) (tx : DB) (homeSpread : Option ℚ)
    (gameID weekID : String) :
    (updateGameSpread env tx homeSpread gameID weekID).weeks = tx.weeks ∧
    ∀ g1 ∈ (updateGameSpread env tx homeSpread gameID weekID).games,
      (∃ g ∈ tx.games, g.WeekID = g1.WeekID ∧ g.HomeSpread = g1.HomeSpread) ∨
        g1.WeekID = weekID := by
  refine ⟨rfl, ?_⟩
  intro g1 hg1
  simp only [updateGameSpread] at hg1
  obtain ⟨g, hg, he⟩ := List.mem_map.mp hg1
  by_cases hc : (g.ID == gameID && g.WeekID == weekID) = true
  · rw [if_pos hc] at he
    right
    rw [← he]
    simp only [Bool.and_eq_true, beq_iff_eq] at hc
    exact hc.2
  · rw [if_neg hc] at he
    left
    rw [← he]
    exact ⟨g, hg, rfl, rfl⟩

/-- The games relation of the spread updates composes. -/
theorem spread_games_trans (weekID : String) (gs gs1 gs2 : List Game)
    (h1 : ∀ g1 ∈ gs1, (∃ g ∈ gs, g.WeekID = g1.WeekID ∧ g.HomeSpread = g1.HomeSpread) ∨
      g1.WeekID = weekID)
    (h2 : ∀ g2 ∈ gs2, (∃ g1 ∈ gs1, g1.WeekID = g2.WeekID ∧ g1.HomeSpread = g2.HomeSpread) ∨
      g2.WeekID = weekID) :
    ∀ g2 ∈ gs2, (∃ g ∈ gs, g.WeekID = g2.WeekID ∧ g.HomeSpread = g2.HomeSpread) ∨
      g2.WeekID = weekID := by
  intro g2 hg2
  rcases h2 g2 hg2 with ⟨g1, hg1, hwk, hsp⟩ | hwk
  · rcases h1 g1 hg1 with ⟨g, hg, hwk0, hsp0⟩ | hwk0
    · exact Or.inl ⟨g, hg, hwk0.trans hwk, hsp0.trans hsp⟩
    · exact Or.inr (by rw [← hwk, hwk0])
  · exact Or.inr hwk

theorem spreadLoop_games (env : Env) (weekID : String) (games : List GameSpreadUpdate) :
    ∀ (tx tx1 : DB), spreadLoop env weekID games tx = some tx1 →
      tx1.weeks = tx.weeks ∧
      ∀ g1 ∈ tx1.games,
        (∃ g ∈ tx.games, g.WeekID = g1.WeekID ∧ g.HomeSpread = g1.HomeSpread) ∨
          g1.WeekID = weekID := by
  induction games with
  | nil =>
    intro tx tx1 h
    simp only [spreadLoop, Option.some.injEq] at h
    rw [← h]
    exact ⟨rfl, fun g1 hg1 => Or.inl ⟨g1, hg1, rfl, rfl⟩⟩
  | cons u rest ih =>
    intro tx tx1 h
    rw [spreadLoop] at h
    split at h
    · cases h
    · obtain ⟨hw, hg⟩ := ih _ tx1 h
      obtain ⟨hw0, hg0⟩ := updateGameSpread_games env tx u.HomeSpread u.GameID weekID
      exact ⟨hw.trans hw0, spread_games_trans weekID _ _ _ hg0 hg⟩

theorem spreadFold_games (env : Env) (weekID : String) (updates : List (String × ℚ)) :
    ∀ tx : DB,
      ∀ g1 ∈ (updates.foldl
          (fun tx update => updateGameSpread env tx (some update.2) update.1 weekID) tx).games,
        (∃ g ∈ tx.games, g.WeekID = g1.WeekID ∧ g.HomeSpread = g1.HomeSpread) ∨
          g1.WeekID = weekID := by
  induction updates with
  | nil => intro tx g1 hg1; exact Or.inl ⟨g1, hg1, rfl, rfl⟩
  | cons u rest ih =>
    intro tx
    simp only [List.foldl_cons]
    exact spread_games_trans weekID _ _ _
      (updateGameSpread_games env tx (some u.2) u.1 weekID).2 (ih _)

/-- A status update to a status before active, after spread updates for the week. -/
theorem SpreadsSet_spreads (env : Env) (db tx : DB) (weekID : String)
    (hw : tx.weeks = db.weeks)
    (hg : ∀ g1 ∈ tx.games,
      (∃ g ∈ db.games, g.WeekID = g1.WeekID ∧ g.HomeSpread = g1.HomeSpread) ∨
        g1.WeekID = weekID)
    (post : String) (hpost : post ∉ activatedStatuses) (h : SpreadsSet db) :
    SpreadsSet (UpdateWeekStatus env tx weekID post) := by
  have hmem : ∀ w1 ∈ (UpdateWeekStatus env tx weekID post).weeks,
      (w1 ∈ db.weeks ∧ w1.ID ≠ weekID) ∨ (w1.ID = weekID ∧ w1.Status = post) := by
    intro w1 hw1
    rw [← hw]
    exact status_map_mem (fun w => { w with Status := post, UpdatedAt := env.sqlNow }) weekID
      post (fun _ => ⟨rfl, rfl⟩) tx.weeks w1 hw1
  apply SpreadsSet_effect db _ weekID _ _ h
  · intro w1 hw1 hact
    rcases hmem w1 hw1 with h1 | h1
    · exact Or.inl h1.1
    · rw [h1.2] at hact
      exact absurd hact hpost
  · intro g1 hg1
    rcases hg g1 hg1 with h1 | h1
    · exact Or.inl h1
    · refine Or.inr ⟨h1, ?_⟩
      intro w1 hw1 hid
      rcases hmem w1 hw1 with h2 | h2
      · exact absurd hid h2.2
      · rw [h2.2]
        exact hpost

/-- A status update to an activated status of a week that was found activated, with the
games kept in their weeks and spreads. -/
theorem SpreadsSet_later (db db1 : DB) (weekID post : String) (f : Week → Week)
    (hf : ∀ w, (f w).ID = w.ID ∧ (f w).Status = post)
    (hw : db1.weeks = db.weeks.map (fun w => if w.ID == weekID then f w else w))
    (hg : ∀ g1 ∈ db1.games, ∃ g ∈ db.games, g.WeekID = g1.WeekID ∧ g.HomeSpread = g1.HomeSpread)
    (hall : ∀ g ∈ db.games, g.WeekID = weekID → g.HomeSpread ≠ none)
    (h : SpreadsSet db) : SpreadsSet db1 := by
  apply SpreadsSet_effect db db1 weekID _ _ h
  · intro w1 hw1 _
    rw [hw] at hw1
    rcases status_map_mem f weekID post hf db.weeks w1 hw1 with h1 | h1
    · exact Or.inl h1.1
    · exact Or.inr ⟨h1.1, hall⟩
  · intro g1 hg1
    exact Or.inl (hg g1 hg1)

/-- The games of a week that is found activated have their spreads. -/
theorem SpreadsSet_week {db : DB} (h : SpreadsSet db) {weekID status : String}
    (hw : ∃ w ∈ db.weeks, w.ID = weekID ∧ w.Status = status)
    (hact : status ∈ activatedStatuses) :
    ∀ g ∈ db.games, g.WeekID = weekID → g.HomeSpread ≠ none := by
  obtain ⟨w, hmem, hid, hs⟩ := hw
  intro g hg hgw
  exact h w hmem (by rw [hs]; exact hact) g hg (by rw [hgw, hid])

/-- The score updates keep the week and the spread of a game. -/
theorem scoreRow_keeps (env : Env) (weekID : String) (l : List ExternalGame) (g : Game) :
    (scoreRow env weekID l g).WeekID = g.WeekID ∧
    (scoreRow env weekID l g).HomeSpread = g.HomeSpread := by
  by_cases hc : g.WeekID = weekID ∧ ∃ e ∈ l, e.ID = g.ExternalGameID ∧
      (e.Status = "Final" ∨ e.Status = "Final/OT")
  · obtain ⟨e, _, _, _, he⟩ := (scoreRow_spec env weekID l g).2 hc
    rw [he]
    exact ⟨rfl, rfl⟩
  · rw [(scoreRow_spec env weekID l g).1 hc]
    exact ⟨rfl, rfl⟩

/-- `ActivateWeek` answers 200 exactly when it finds the week with status spreads_set and no
game of the week without a spread; it then gives the rows of the week the status active, and
otherwise it leaves the database as it is. -/
theorem ActivateWeek_cases (env : Env) (db : DB) (weekID : String) :
    ((ActivateWeek env db weekID).2 ≠ 200 ∧ (ActivateWeek env db weekID).1 = db ∧
      ¬ (weekID ≠ "" ∧ (∃ week, db.weeks.find? (fun w => w.ID == weekID) = some week ∧
          week.Status = "spreads_set") ∧
        ∀ g ∈ db.games, g.WeekID = weekID → g.HomeSpread ≠ none)) ∨
    ((ActivateWeek env db weekID).2 = 200 ∧ weekID ≠ "" ∧
      (∃ week, db.weeks.find? (fun w => w.ID == weekID) = some week ∧
        week.Status = "spreads_set") ∧
      (∀ g ∈ db.games, g.WeekID = weekID → g.HomeSpread ≠ none) ∧
      (ActivateWeek env db weekID).1 =
        { db with weeks := db.weeks.map (fun w =>
            if w.ID == weekID then
              { w with Status := "active", ActivatedAt := some env.sqlNow,
                       UpdatedAt := env.sqlNow }
            else w) }) := by
  unfold ActivateWeek
  split
  · rename_i h1
    left
    refine ⟨by simp, rfl, ?_⟩
    intro hc
    exact hc.1 (by simpa using h1)
  · rename_i h1
    split
    · rename_i hfind
      left
      refine ⟨by simp, rfl, ?_⟩
      intro hc
      obtain ⟨week, hw, _⟩ := hc.2.1
      rw [hfind] at hw
      cases hw
    · rename_i week hfind
      split
      · rename_i h2
        left
        refine ⟨by simp, rfl, ?_⟩
        intro hc
        obtain ⟨week1, hw, hs⟩ := hc.2.1
        rw [hfind] at hw
        cases hw
        simp [hs] at h2
      · rename_i h2
        simp only
        split
        · rename_i h3
          left
          refine ⟨by simp, rfl, ?_⟩
          intro hc
          have hnil : db.games.filter (fun g => g.WeekID == weekID && g.HomeSpread.isNone) =
              [] := by
            apply List.filter_eq_nil_iff.mpr
            intro g hg hp
            simp only [Bool.and_eq_true, beq_iff_eq, Option.isNone_iff_eq_none] at hp
            exact hc.2.2 g hg hp.1 hp.2
          rw [hnil] at h3
          simp at h3
        · rename_i h3
          right
          refine ⟨rfl, by simpa using h1, ⟨week, hfind, by simpa using h2⟩, ?_, rfl⟩
          intro g hg hgw hnone
          apply h3
          have hmem : g ∈ db.games.filter (fun g => g.WeekID == weekID && g.HomeSpread.isNone) :=
            List.mem_filter.mpr ⟨hg, by simp [hgw, hnone]⟩
          have hpos : 0 < (db.games.filter
              (fun g => g.WeekID == weekID && g.HomeSpread.isNone)).length :=
            List.length_pos_of_mem hmem
          simp only [gt_iff_lt, Nat.cast_pos]
          exact hpos

/-- Every stage function and handler keeps the spreads of the activated weeks. -/
theorem SpreadsSet_operation (env : Env) (db : DB) (op : Operation)
    (hop : op.isAdvance = false) (h : SpreadsSet db) : SpreadsSet (op.run env db) := by
  cases op with
  | ImportGamesForWeek weekID actingUserID =>
    simp only [Operation.run]
    rcases hr : ImportGamesForWeek env db weekID actingUserID with ⟨db1, r⟩
    cases r with
    | error e => simp only; rw [(finish_error hr).1]; exact h
    | ok res =>
      obtain ⟨week, _, validated, _, _, _, _, _, hdb, _⟩ := ImportGamesForWeek_ok hr
      simp only
      rw [hdb]
      apply SpreadsSet_spreads env db _ weekID ?_ ?_ "games_imported" (by decide) h
      · rfl
      · intro g1 hg1
        simp only [List.mem_append, List.mem_filter, List.mem_map] at hg1
        rcases hg1 with ⟨hg, _⟩ | ⟨kg, _, he⟩
        · exact Or.inl ⟨g1, hg, rfl, rfl⟩
        · right
          rw [← he]
          rfl
  | UpdateSpreads weekID games =>
    simp only [Operation.run]
    unfold UpdateSpreads
    split
    · exact h
    · split
      · exact h
      · split
        · exact h
        · split
          · exact h
          · split
            · exact h
            · rename_i tx htx
              obtain ⟨hw, hg⟩ := spreadLoop_games env weekID games db tx htx
              have := SpreadsSet_spreads env db tx weekID hw hg "spreads_set" (by decide) h
              simp only
              split <;> exact this
  | AutoImportSpreads weekID bookmaker =>
    simp only [Operation.run]
    unfold AutoImportSpreads
    split
    · exact h
    · split
      · exact h
      · split
        · exact h
        · simp only
          split
          · exact h
          · split
            · exact h
            · split
              · exact h
              · apply SpreadsSet_spreads env db _ weekID _ _ "spreads_set" (by decide) h
                · rw [spreadFold_frame]
                · exact spreadFold_games env weekID _ db
  | ActivateWeek weekID =>
    simp only [Operation.run]
    rcases ActivateWeek_cases env db weekID with ⟨_, hdb, _⟩ | ⟨_, _, _, hall, hdb⟩
    · rw [hdb]; exact h
    · rw [hdb]
      exact SpreadsSet_later db _ weekID "active"
        (fun w => { w with Status := "active", ActivatedAt := some env.sqlNow,
                           UpdatedAt := env.sqlNow })
        (fun _ => ⟨rfl, rfl⟩) rfl (fun g1 hg1 => ⟨g1, hg1, rfl, rfl⟩) hall h
  | ImportScoresForWeek weekID =>
    simp only [Operation.run]
    rcases hr : ImportScoresForWeek env db weekID with ⟨db1, r⟩
    cases r with
    | error e => simp only; rw [(finish_error hr).1]; exact h
    | ok res =>
      obtain ⟨week, externalGames, hw, hst, _, _, hdb⟩ := ImportScoresForWeek_ok hr
      obtain ⟨w, hmem, hid, hs, _⟩ := GetWeekWithYear_mem hw
      have hall := SpreadsSet_week h ⟨w, hmem, hid, hs.trans hst⟩ (by decide)
      have hgames : ∀ g1 ∈ db.games.map (scoreRow env weekID externalGames),
          ∃ g ∈ db.games, g.WeekID = g1.WeekID ∧ g.HomeSpread = g1.HomeSpread := by
        intro g1 hg1
        obtain ⟨g, hg, he⟩ := List.mem_map.mp hg1
        rw [← he]
        exact ⟨g, hg, (scoreRow_keeps env weekID externalGames g).1.symm,
          (scoreRow_keeps env weekID externalGames g).2.symm⟩
      simp only
      rw [hdb]
      split
      · exact SpreadsSet_later db _ weekID "played"
          (fun w => { w with Status := "played", UpdatedAt := env.sqlNow })
          (fun _ => ⟨rfl, rfl⟩) rfl hgames hall h
      · apply SpreadsSet_effect db _ weekID _ _ h
        · intro w1 hw1 _
          exact Or.inl hw1
        · intro g1 hg1
          exact Or.inl (hgames g1 hg1)
  | CalculatePickResults weekID =>
    simp only [Operation.run]
    rcases hr : CalculatePickResults env db weekID with ⟨db1, r⟩
    cases r with
    | error e => simp only; rw [(finish_error hr).1]; exact h
    | ok res =>
      obtain ⟨hst, _⟩ := CalculatePickResults_ok hr
      have hall := SpreadsSet_week h (GetWeekStatus_mem hst) (by decide)
      have hfr := CalculatePickResults_frame hr
      simp only
      exact SpreadsSet_later db db1 weekID "picks_results_calculated"
        (fun w => { w with Status := "picks_results_calculated", UpdatedAt := env.sqlNow })
        (fun _ => ⟨rfl, rfl⟩) (by rw [hfr]) (by rw [hfr]; exact fun g1 hg1 => ⟨g1, hg1, rfl, rfl⟩)
        hall h
  | CalculateWeekPoints weekID =>
    simp only [Operation.run]
    rcases hr : CalculateWeekPoints env db weekID with ⟨db1, r⟩
    cases r with
    | error e => simp only; rw [(finish_error hr).1]; exact h
    | ok res =>
      obtain ⟨week, _, hw, hst, _⟩ := CalculateWeekPoints_ok hr
      obtain ⟨w, hmem, hid, hs, _⟩ := GetWeekWithYear_mem hw
      have hall := SpreadsSet_week h ⟨w, hmem, hid, hs.trans hst⟩ (by decide)
      have hfr := CalculateWeekPoints_frame hr
      simp only
      exact SpreadsSet_later db db1 weekID "scored"
        (fun w => { w with Status := "scored", UpdatedAt := env.sqlNow })
        (fun _ => ⟨rfl, rfl⟩) (by rw [hfr]) (by rw [hfr]; exact fun g1 hg1 => ⟨g1, hg1, rfl, rfl⟩)
        hall h
  | CalculateSeasonSnapshot weekID =>
    simp only [Operation.run]
    rcases hr : CalculateSeasonSnapshot env db weekID with ⟨db1, r⟩
    cases r with
    | error e => simp only; rw [(finish_error hr).1]; exact h
    | ok res =>
      obtain ⟨week, hw, hst, _⟩ := CalculateSeasonSnapshot_ok hr
      obtain ⟨w, hmem, hid, hs, _⟩ := GetWeekWithYear_mem hw
      have hall := SpreadsSet_week h ⟨w, hmem, hid, hs.trans hst⟩ (by decide)
      have hfr := CalculateSeasonSnapshot_frame hr
      simp only
      exact SpreadsSet_later db db1 weekID "final"
        (fun w => { w with Status := "final", ClosedAt := some env.sqlNow,
                           UpdatedAt := env.sqlNow })
        (fun _ => ⟨rfl, rfl⟩) (by rw [hfr]) (by rw [hfr]; exact fun g1 hg1 => ⟨g1, hg1, rfl, rfl⟩)
        hall h
  | AdvanceWeekState week actingUserID => simp [Operation.isAdvance] at hop

/-- Creating the next week keeps the spreads of the activated weeks: the new week is a
draft. -/
theorem SpreadsSet_create (env : Env) (db : DB) (seasonID userID : String)
    (h : SpreadsSet db) : SpreadsSet (CreateNextWeekForSeason env db seasonID userID).1 := by
  rcases CreateNextWeekForSeason_weeks env db seasonID userID with hc | ⟨row, hc, _, _, hst, _⟩
  · rw [hc]; exact h
  · rw [hc]
    intro w1 hw1 hact g hg hgw
    simp only [List.mem_append, List.mem_singleton] at hw1
    rcases hw1 with hw1 | hw1
    · exact h w1 hw1 hact g hg hgw
    · rw [hw1, hst] at hact
      exact absurd hact (by decide)

/-- The example run of the workflow: the first week of the season is created, its game
imported, given a spread, activated, and reported final without scores. -/
theorem nullScoresDB_reachable : Reachable startDB nullScoresDB :=
  Reachable.step
    (Reachable.step
      (Reachable.step
        (Reachable.step
          (Reachable.step Reachable.start
            (WorkflowStep.create (exampleEnv []) "s1" "admin" (by simp [startDB, emptyDB])))
          (WorkflowStep.run (exampleEnv [exampleSchedule 1 "KC" "SF"])
            (.AdvanceWeekState firstWeek "admin")))
        (WorkflowStep.run (exampleEnv [])
          (.UpdateSpreads "n" [{ GameID := "n", HomeSpread := some (-(7/2)) }])))
      (WorkflowStep.run (exampleEnv []) (.ActivateWeek "n")))
    (WorkflowStep.run (exampleEnv noScores)
      (.AdvanceWeekState { firstWeek with Status := "active" } "admin"))

/-- C22: `ActivateWeek` answers 200 and gives the week the status active exactly when the
week is found with status spreads_set and no game of the week has a null home spread;
otherwise it answers with an error and leaves the database as it is.  So in every state
reachable by the workflow from a state where activated weeks have their spreads (one without
weeks, say), every game of a week whose status is active, played, picks_results_calculated,
scored or final has a home spread. -/
theorem activated_weeks_have_spreads (init db : DB) (hinit : SpreadsSet init)
    (h : Reachable init db) :
    (∀ (env : Env) (tx : DB) (weekID : String),
      ((ActivateWeek env tx weekID).2 = 200 ↔
        (weekID ≠ "" ∧ (∃ week, tx.weeks.find? (fun w => w.ID == weekID) = some week ∧
            week.Status = "spreads_set") ∧
          ∀ g ∈ tx.games, g.WeekID = weekID → g.HomeSpread ≠ none)) ∧
      ((ActivateWeek env tx weekID).2 = 200 →
        (ActivateWeek env tx weekID).1 =
          { tx with weeks := tx.weeks.map (fun w =>
              if w.ID == weekID then
                { w with Status := "active", ActivatedAt := some env.sqlNow,
                         UpdatedAt := env.sqlNow }
              else w) }) ∧
      ((ActivateWeek env tx weekID).2 ≠ 200 → (ActivateWeek env tx weekID).1 = tx)) ∧
    (∀ w ∈ db.weeks, w.Status ∈ activatedStatuses →
      ∀ g ∈ db.games, g.WeekID = w.ID → g.HomeSpread ≠ none) := by
  refine ⟨?_, ?_⟩
  · intro env tx weekID
    rcases ActivateWeek_cases env tx weekID with ⟨hne, hdb, hnot⟩ | ⟨h200, h1, h2, h3, hdb⟩
    · exact ⟨⟨fun hc => absurd hc hne, fun hc => absurd hc hnot⟩,
        fun hc => absurd hc hne, fun _ => hdb⟩
    · exact ⟨⟨fun _ => ⟨h1, h2, h3⟩, fun _ => h200⟩, fun _ => hdb, fun hc => absurd h200 hc⟩
  · exact Reachable_inv SpreadsSet
      (fun env db seasonID userID _ hinv => SpreadsSet_create env db seasonID userID hinv)
      (fun env db op hop hinv => SpreadsSet_operation env db op hop hinv) hinit h

/-- The example run from the season without weeks: the week that was activated and played
has its spread. -/
theorem activated_weeks_have_spreads_witness :
    SpreadsSet startDB ∧ Reachable startDB nullScoresDB ∧
    (∀ w ∈ nullScoresDB.weeks, w.Status ∈ activatedStatuses →
      ∀ g ∈ nullScoresDB.games, g.WeekID = w.ID → g.HomeSpread ≠ none) :=
  ⟨fun w hw => by simp [startDB, emptyDB] at hw, nullScoresDB_reachable,
   (activated_weeks_have_spreads startDB nullScoresDB
      (fun w hw => by simp [startDB, emptyDB] at hw) nullScoresDB_reachable).2⟩

/-! ## C21 on the example run -/

/-- The example run from the season without weeks ends with one week of the season, which is
not final. -/
theorem one_open_week_witness :
    (startDB.weeks.map (fun w => w.ID)).Nodup ∧ (∀ w ∈ startDB.weeks, w.SeasonID ≠ "s1") ∧
    (nullScoresDB.weeks.filter (fun w => w.SeasonID == "s1" && w.Status != "final")).length ≤ 1 ∧
    (nullScoresDB.weeks.filter (fun w => w.SeasonID == "s1" && w.Status == "active")).length ≤ 1 :=
  ⟨by decide, fun w hw => by simp [startDB, emptyDB] at hw,
   (one_open_week startDB nullScoresDB "s1" (by decide)
      (fun w hw => by simp [startDB, emptyDB] at hw) nullScoresDB_reachable).1,
   (one_open_week startDB nullScoresDB "s1" (by decide)
      (fun w hw => by simp [startDB, emptyDB] at hw) nullScoresDB_reachable).2.1⟩

/-! ## C29: the scores of a played week -/

set_option maxRecDepth 100000 in
/-- C29 fails for the scores: the run of the workflow that creates the first week of a season
without weeks, imports its game, sets the spread, activates the week and then meets a
schedule source that reports the game as final without scores leaves the week played with
null scores (the spread is there).  `CalculatePickResults` then dereferences a null score
for every clock and source, and `AdvanceWeekState` returns that failure with the week still
played. -/
theorem played_week_null_scores :
    startDB.weeks = [] ∧ Reachable startDB nullScoresDB ∧
    nullScoresDB.weeks.map (fun w => (w.ID, w.SeasonID, w.Status)) = [("n", "s1", "played")] ∧
    (GetWeekGames nullScoresDB "n").map
      (fun g => (g.Status, g.HomeScore, g.AwayScore, g.HomeSpread)) =
        [("final", none, none, some (-(7/2)))] ∧
    (∀ g ∈ GetWeekGames nullScoresDB "n", WinningTeamByGame g = .error Err.nilDeref) ∧
    (∀ env : Env, CalculatePickResults env nullScoresDB "n" =
      (nullScoresDB, .error Err.nilDeref)) ∧
    (∀ env : Env, (AdvanceWeekState env nullScoresDB { firstWeek with Status := "played" }
        "admin").map (fun out => (out.db, out.week.Status, out.err)) =
      some (nullScoresDB, "played", some Err.nilDeref)) := by
  have hcalc : ∀ env : Env, CalculatePickResults env nullScoresDB "n" =
      (nullScoresDB, .error Err.nilDeref) := by
    intro env
    with_unfolding_all rfl
  refine ⟨rfl, nullScoresDB_reachable, by with_unfolding_all rfl, by with_unfolding_all rfl,
    ?_, hcalc, ?_⟩
  · intro g hg
    have hgames : GetWeekGames nullScoresDB "n" =
        [{ ID := "n", ExternalGameID := 1, SeasonID := "s1", WeekID := "n", HomeTeamID := "KC",
           AwayTeamID := "SF", HomeScore := none, AwayScore := none,
           HomeSpread := some (-(7/2)), KickoffTime := 1000, NeutralSite := false,
           Status := "final", UpdatedAt := 100, CreatedBy := "admin", HomeTeamAbbr := "KC",
           AwayTeamAbbr := "SF" }] := by
      with_unfolding_all rfl
    rw [hgames] at hg
    simp only [List.mem_singleton] at hg
    rw [hg]
    rfl
  · intro env
    have hstep : advanceStep env "admin" nullScoresDB
        (Week.mk "n" "s1" 1 "played" none none 100 "admin") =
          .stop nullScoresDB (some Err.nilDeref) := by
      unfold advanceStep
      rw [if_neg (by decide), if_neg (by decide), if_neg (by decide), if_neg (by decide),
        if_pos (by decide)]
      simp only [hcalc env]
    have hweek : ({ firstWeek with Status := "played" } : Week) =
        Week.mk "n" "s1" 1 "played" none none 100 "admin" := rfl
    rw [hweek, AdvanceWeekState, AdvanceWeekStateLoop, hstep]
    rfl

end SendYourPicks
